import Mathlib

/-!
# ArduVidRx: channel scan / rank / select / auto-tune engine and RSSI calibration

A shallow embedding of the tuning core of `ArduVidRx.cpp` and `Rx5808Fns.cpp`
(firmware for an RX5808 video receiver driven by an ATmega328), together with
theorems about it.

Conventions of the embedding.

* The target is an 8-bit AVR: `int` is 16 bits, `long` is 32 bits.  Values of
  type `uint8_t`, `uint16_t` and `unsigned long` are natural numbers reduced
  modulo `2^8`, `2^16`, `2^32` wherever the C arithmetic can wrap; values of
  type `int` are integers, wrapped by `toInt16` where a wider value is narrowed.
* Global arrays are total maps `Nat → Nat` from index to element; the
  capacity of an array is a separate constant (`LISTFREQMHZ_ARR_SIZE`,
  `CHANNEL_MAX_INDEX + 1`).
* The hardware is an environment `Env`: the successive results of
  `analogRead` and of `millis()`, consumed through two counters of the state.
* `State.trace` records, most recent first, the actions of the program that are
  visible outside it: commands sent to the tuner, RSSI samplings with the value
  returned, bytes written to the EEPROM, the `" Scanning"` banner that
  `scanChansGetRssiValues` prints and the `T<freq>` command for a slave
  receiver.  Other serial output, the serial input buffer, the activity LED and
  the PWM output do not influence the engine and are left out.
* Variables outside the engine have their own structures: `MonitorVars`
  (monitor mode), `Disp7Seg` (`Display7Seg.cpp`), `Buttons` (button polling) and
  `PinTrackers` (the interrupt routines of pins D2 and D3, `ArduVidUtil.cpp`).
* Where a theorem is about the accesses to an array and not about its content,
  the accesses are listed by a function that follows the same control flow
  (`doAutoScanTuneChannelReads`, `listBranchWrites`).
* Loops are structural recursions on the number of iterations left, so that
  every function can be evaluated on concrete inputs.
-/

namespace ArduVidRx

/-! ## Configuration constants (`Config.h`, `Rx5808Fns.h`, `ArduVidRx.cpp`) -/

def MIN_CHANNEL_MHZ : Nat := 4000
def MAX_CHANNEL_MHZ : Nat := 7000
def MIN_RSSI_VAL : Int := 0
def MAX_RSSI_VAL : Int := 100
def RSSI_READS : Nat := 20
def CHANNEL_BAND_SIZE : Nat := 8
def CHANNEL_MIN_INDEX : Nat := 0
/-- The value of `CHANNEL_MAX_INDEX` under `USE_LBAND_FLAG true` (`Config.h`). -/
def CHANNEL_MAX_INDEX : Nat := 47
def LBAND_FIRST_INDEX : Nat := 40
def RX5808_MIN_TUNETIME : Nat := 35
def USE_LBAND_FLAG : Bool := true
def NEXT_CHAN_RESCANSECS : Nat := 120
def DEF_MIN_RSSI_LEVEL : Int := 30
def ADJ_CHAN_MHZ : Int := 30
def DEF_RAWRSSI_MIN : Nat := 180
def DEF_RAWRSSI_MAX : Nat := 200
def CHK_RAWRSSI_MIN : Nat := 20
def CHK_RAWRSSI_MAX : Nat := 1000
def LISTFREQMHZ_ARR_SIZE : Nat := 80
def EEPROM_ADRW_RSSIMIN : Nat := 4
def EEPROM_ADRW_RSSIMAX : Nat := 6
/-- The two-blank code word `(' ' << 8) + ' '`: smaller values are MHz. -/
def FREQ_CODEWORD_CHECKVAL : Nat := 32 * 256 + 32

/-! ## Machine arithmetic -/

/-- Narrowing of an integer to the 16-bit two's-complement `int` of the AVR. -/
def toInt16 (z : Int) : Int := (z + 32768) % 65536 - 32768

/-- Reduction of an integer to `uint16_t`. -/
def toUInt16 (z : Int) : Nat := (z % 65536).toNat

/-- The Arduino macro `abs(x)`: `((x) > 0 ? (x) : -(x))`. -/
def abs (x : Int) : Int := if x > 0 then x else -x

/-- The Arduino macro `constrain(amt, low, high)`. -/
def constrain (amt low high : Int) : Int :=
  if amt < low then low else if amt > high then high else amt

/-- The Arduino core function `map` on `long` arguments:
`(x - in_min) * (out_max - out_min) / (in_max - in_min) + out_min`,
with the division of C (truncation toward zero). -/
def map (x in_min in_max out_min out_max : Int) : Int :=
  Int.tdiv ((x - in_min) * (out_max - out_min)) (in_max - in_min) + out_min

/-! ## Channel tables (`Rx5808Fns.cpp`, lines 47-97) -/

/-- Register values sent to the RX5808, `USE_LBAND_FLAG` variant. -/
def channelRegTable : List Nat :=
  [0x2A05, 0x299B, 0x2991, 0x2987, 0x291D, 0x2913, 0x2909, 0x289F,
   0x2903, 0x290C, 0x2916, 0x291F, 0x2989, 0x2992, 0x299C, 0x2A05,
   0x2895, 0x288B, 0x2881, 0x2817, 0x2A0F, 0x2A19, 0x2A83, 0x2A8D,
   0x2906, 0x2910, 0x291A, 0x2984, 0x298E, 0x2998, 0x2A02, 0x2A0C,
   0x281D, 0x288F, 0x2902, 0x2914, 0x2987, 0x2999, 0x2A0C, 0x2A1E,
   0x2609, 0x261C, 0x268E, 0x2701, 0x2713, 0x2786, 0x2798, 0x280B]

/-- Channel frequencies in MHz, `USE_LBAND_FLAG` variant. -/
def channelFreqTable : List Nat :=
  [5865, 5845, 5825, 5805, 5785, 5765, 5745, 5725,
   5733, 5752, 5771, 5790, 5809, 5828, 5847, 5866,
   5705, 5685, 5665, 5645, 5885, 5905, 5925, 5945,
   5740, 5760, 5780, 5800, 5820, 5840, 5860, 5880,
   5658, 5695, 5732, 5769, 5806, 5843, 5880, 5917,
   5362, 5399, 5436, 5473, 5510, 5547, 5584, 5621]

/-- Table indices ordered by frequency, `USE_LBAND_FLAG` variant. -/
def channelSortTable : List Nat :=
  [40, 41, 42, 43, 44, 45, 46, 47, 19, 32, 18, 17, 33, 16, 7, 34, 8, 24, 6, 9,
   25, 5, 35, 10, 26, 4, 11, 27, 3, 36, 12, 28, 2, 13, 29, 37, 1, 14, 30, 0,
   15, 31, 38, 20, 21, 39, 22, 23]

/-- The band letters `"ABEFRL"` as character codes. -/
def freqBandCodesArray : List Nat := [65, 66, 69, 70, 82, 76]

def NUM_FREQBAND_CODES : Nat := (CHANNEL_MAX_INDEX + 1) / CHANNEL_BAND_SIZE

/-- `getChannelFreqTableEntry`: the table word at `idx`.  An index outside the
table reads program memory that the source does not define; the model gives 0. -/
def getChannelFreqTableEntry (idx : Nat) : Nat := channelFreqTable.getD idx 0

/-- `getChannelRegTableEntry`. -/
def getChannelRegTableEntry (idx : Nat) : Nat := channelRegTable.getD idx 0

/-- `getChannelSortTableEntry`: the low byte of the word read at `idx`, which is
the table byte itself. -/
def getChannelSortTableEntry (idx : Nat) : Nat := channelSortTable.getD idx 0

/-- `isLBandChannelIndex`. -/
def isLBandChannelIndex (idx : Nat) : Bool := decide (idx ≥ LBAND_FIRST_INDEX)

/-! ## Frequency / register conversion (`Rx5808Fns.cpp`, lines 355-372) -/

/-- `freqMhzToRegVal`: all operands are `uint16_t`, so the subtraction wraps. -/
def freqMhzToRegVal (freqInMhz : Nat) : Nat :=
  let tf := ((freqInMhz + 65536 - 479) % 65536) / 2
  let N := tf / 32
  let A := tf % 32
  ((N <<< 7) + A) % 65536

/-- `regValToFreqMhz`. -/
def regValToFreqMhz (regVal : Nat) : Nat :=
  let N := regVal >>> 7
  let A := regVal &&& 0x3F
  (2 * (N * 32 + A) + 479) % 65536

/-! ## Program state and environment -/

/-- Actions of the program that are visible outside it. -/
inductive Event where
  /-- The register word clocked into the RX5808 by `setChannelByRegVal`, with
  the frequency it stands for. -/
  | tune (regVal freqInMhz : Nat)
  /-- One call of `readRssiValue`: the averaged raw sample and the scaled result. -/
  | rssi (rawVal scaled : Nat)
  /-- One `EEPROM.write`. -/
  | eepromWrite (addr val : Nat)
  /-- The banner printed by `scanChansGetRssiValues` when a scan starts. -/
  | scanning
  /-- The `T<freq>` command printed for a slave receiver. -/
  | slaveTune (freqVal : Nat)
  deriving DecidableEq

/-- The hardware seen by the program: the result of the `k`-th analog
conversion and of the `k`-th reading of the millisecond clock. -/
structure Env where
  analogRead : Nat → Nat
  millis : Nat → Nat

/-- The global variables of `ArduVidRx.cpp` and `Rx5808Fns.cpp` used by the
tuning engine, the EEPROM, the two counters into the environment and the trace. -/
structure State where
  currentTunerFreqMhzOrCode : Nat
  currentTunerFreqInMhz : Nat
  listFreqsMHzArr : Nat → Nat
  scanRssiValuesArr : Nat → Nat
  idxSortedByRssiArr : Nat → Nat
  idxSortedSelectedArr : Nat → Nat
  listFreqsMHzArrCount : Int
  idxSortedSelArrCount : Int
  nextTuneChannelIndex : Int
  lastNextTuneScanTime : Nat
  rssiOutSamplingAvgrTotal : Nat
  rssiOutSamplingAvgrCounter : Nat
  autoRssiCalibEnabledFlag : Bool
  autoRssiCalibCounterValue : Nat
  autoRssiCalibMarkedTime : Nat
  timeOfLastTune : Nat
  rx5808RawRssiMin : Nat
  rx5808RawRssiMax : Nat
  eeprom : Nat → Nat
  adcReads : Nat
  clockReads : Nat
  trace : List Event

/-- The state given by the initialisers of the global variables, with an
erased EEPROM and nothing consumed from the environment. -/
def initialState : State :=
  { currentTunerFreqMhzOrCode := 0
    currentTunerFreqInMhz := 0
    listFreqsMHzArr := fun _ => 0
    scanRssiValuesArr := fun _ => 0
    idxSortedByRssiArr := fun _ => 0
    idxSortedSelectedArr := fun _ => 0
    listFreqsMHzArrCount := 0
    idxSortedSelArrCount := 0
    nextTuneChannelIndex := -1
    lastNextTuneScanTime := 0
    rssiOutSamplingAvgrTotal := 0
    rssiOutSamplingAvgrCounter := 0
    autoRssiCalibEnabledFlag := true
    autoRssiCalibCounterValue := 0
    autoRssiCalibMarkedTime := 0
    timeOfLastTune := 0
    rx5808RawRssiMin := DEF_RAWRSSI_MIN
    rx5808RawRssiMax := DEF_RAWRSSI_MAX
    eeprom := fun _ => 255
    adcReads := 0
    clockReads := 0
    trace := [] }

/-- Scenario A of the specification: the scan found RSSI 80 on 5800 MHz (table
index 27), RSSI 60 on 5805 MHz (table index 3) and nothing elsewhere. -/
def scenarioA : State :=
  { initialState with
    scanRssiValuesArr := fun i => if i = 27 then 80 else if i = 3 then 60 else 0 }

/-- Array store `arr[i] = v`. -/
def setAt (arr : Nat → Nat) (i v : Nat) : Nat → Nat :=
  fun j => if j = i then v else arr j

/-- The first `n` elements of an array, as a list. -/
def arrTake (arr : Nat → Nat) (n : Nat) : List Nat := (List.range n).map arr

/-- One call of `millis()`: an `unsigned long`. -/
def millis (env : Env) (s : State) : Nat × State :=
  (env.millis s.clockReads % 2 ^ 32, { s with clockReads := s.clockReads + 1 })

/-- One call of `analogRead`: a 10-bit conversion result. -/
def analogRead (env : Env) (s : State) : Nat × State :=
  (env.analogRead s.adcReads % 1024, { s with adcReads := s.adcReads + 1 })

/-! ## Ranking (`ArduVidRx.cpp`, lines 2184-2233) -/

/-- The test of the first inner loop of `loadIdxSortedByRssiArr`. -/
def nextCurMaxRssi (scan : Nat → Nat) (lastMaxRssi idx curMaxRssi : Nat) : Nat :=
  if scan idx > curMaxRssi ∧ scan idx < lastMaxRssi then scan idx else curMaxRssi

/-- The first `do ... while(++idx <= maxIdx)` loop of `loadIdxSortedByRssiArr`
(find the current maximum); the first argument is `maxIdx - idx`. -/
def findCurMaxRssi (scan : Nat → Nat) (lastMaxRssi : Nat) : Nat → Nat → Nat → Nat
  | 0, idx, curMaxRssi => nextCurMaxRssi scan lastMaxRssi idx curMaxRssi
  | more + 1, idx, curMaxRssi =>
      findCurMaxRssi scan lastMaxRssi more (idx + 1)
        (nextCurMaxRssi scan lastMaxRssi idx curMaxRssi)

/-- The body of the second inner loop: `idxSortedByRssiArr[sortedArrIdx++] =
(uint8_t)idx` when the value at `idx` matches the current maximum. -/
def storeIfMatch (scan : Nat → Nat) (curMaxRssi idx : Nat)
    (st : (Nat → Nat) × Nat) : (Nat → Nat) × Nat :=
  if scan idx = curMaxRssi then (setAt st.1 st.2 (idx % 256), st.2 + 1) else st

/-- The second `do ... while(++idx <= maxIdx)` loop of `loadIdxSortedByRssiArr`
(store the indices matching the current maximum); the first argument is
`maxIdx - idx`, the state is the array with `sortedArrIdx`. -/
def storeMatching (scan : Nat → Nat) (curMaxRssi : Nat) :
    Nat → Nat → (Nat → Nat) × Nat → (Nat → Nat) × Nat
  | 0, idx, st => storeIfMatch scan curMaxRssi idx st
  | more + 1, idx, st =>
      storeMatching scan curMaxRssi more (idx + 1) (storeIfMatch scan curMaxRssi idx st)

/-- The outer `for(cnt=minIdx; cnt<=maxIdx; ++cnt)` loop of
`loadIdxSortedByRssiArr`; the first argument is the number of iterations left. -/
def rankLoop (scan : Nat → Nat) (minIdx maxIdx : Nat) :
    Nat → Nat → (Nat → Nat) × Nat → (Nat → Nat) × Nat
  | 0, _, st => st
  | cnt + 1, lastMaxRssi, st =>
      let curMaxRssi := findCurMaxRssi scan lastMaxRssi (maxIdx - minIdx) minIdx 0
      let st1 := storeMatching scan curMaxRssi (maxIdx - minIdx) minIdx st
      if st1.2 > maxIdx ∨ curMaxRssi = 0 then st1
      else rankLoop scan minIdx maxIdx cnt curMaxRssi st1

/-- The index range ranked and scanned: the slots of the user list when one is
active and `inclAllFlag` is false, the whole channel table otherwise. -/
def scanRange (s : State) (inclAllFlag : Bool) : Nat × Nat :=
  if !inclAllFlag ∧ s.listFreqsMHzArrCount > 0 then
    (0, (s.listFreqsMHzArrCount - 1).toNat)
  else (CHANNEL_MIN_INDEX, CHANNEL_MAX_INDEX)

/-- `loadIdxSortedByRssiArr`. -/
def loadIdxSortedByRssiArr (s : State) (inclAllFlag : Bool) : State :=
  let minIdx := (scanRange s inclAllFlag).1
  let maxIdx := (scanRange s inclAllFlag).2
  let r := rankLoop s.scanRssiValuesArr minIdx maxIdx (maxIdx + 1 - minIdx) 255
            (s.idxSortedByRssiArr, 0)
  { s with idxSortedSelArrCount := 0, idxSortedByRssiArr := r.1 }

/-! ## Selection (`ArduVidRx.cpp`, lines 2239-2266) -/

/-- The comparison of `loadIdxSortedSelectedArr`: the channel `curIdx` is too
close to the already loaded channel `loadedIdx`.  Table frequencies are below
`2^15`, so the casts to `int` are exact. -/
def tooClose (curIdx loadedIdx : Nat) : Bool :=
  decide (abs ((getChannelFreqTableEntry curIdx : Int) -
    (getChannelFreqTableEntry loadedIdx : Int)) ≤ ADJ_CHAN_MHZ)

/-- The inner `while(true)` loop of `loadIdxSortedSelectedArr`, returning
whether the channel is loaded; the first argument is `selIdx - j`. -/
def squelchLoop (sel : Nat → Nat) (curIdx : Nat) : Nat → Nat → Bool
  | 0, _ => true
  | more + 1, j => if tooClose curIdx (sel j) then false
                   else squelchLoop sel curIdx more (j + 1)

/-- The outer `for` loop of `loadIdxSortedSelectedArr`; the first argument is
the number of iterations left, the state is the array with `selIdx`. -/
def selectLoop (ranked : Nat → Nat) :
    Nat → Nat → (Nat → Nat) × Nat → (Nat → Nat) × Nat
  | 0, _, st => st
  | more + 1, idx, st =>
      let curIdx := ranked idx
      selectLoop ranked more (idx + 1)
        (if squelchLoop st.1 curIdx st.2 0 then (setAt st.1 st.2 curIdx, st.2 + 1) else st)

/-- `loadIdxSortedSelectedArr`: the returned count and the new state. -/
def loadIdxSortedSelectedArr (s : State) : Int × State :=
  let r := selectLoop s.idxSortedByRssiArr (CHANNEL_MAX_INDEX + 1 - CHANNEL_MIN_INDEX)
            CHANNEL_MIN_INDEX (s.idxSortedSelectedArr, 0)
  ((r.2 : Int), { s with idxSortedSelectedArr := r.1, idxSortedSelArrCount := (r.2 : Int) })

/-- The order of the ranked list: `a` may stand before `b` when the value
scanned at `a` is not smaller and, for equal values, `a` is the smaller index. -/
def rankedBefore (scan : Nat → Nat) (a b : Nat) : Prop :=
  scan b ≤ scan a ∧ (scan a = scan b → a < b)

/-- The spacing rule of the specification: the table frequencies of the two
channels differ by more than `ADJ_CHAN_MHZ`. -/
abbrev farApart (a b : Nat) : Prop :=
  abs ((getChannelFreqTableEntry a : Int) - (getChannelFreqTableEntry b : Int)) > ADJ_CHAN_MHZ

/-- The greedy filter of the specification: walk the ranked list in order and
accept a channel when its frequency differs by more than `ADJ_CHAN_MHZ` from
every channel accepted before it. -/
def greedySelect : List Nat → List Nat → List Nat
  | accepted, [] => accepted
  | accepted, c :: rest =>
      if ∀ a ∈ accepted, farApart c a
      then greedySelect (accepted ++ [c]) rest
      else greedySelect accepted rest

/-! ## EEPROM (`ArduVidUtil.cpp`, lines 316-327) -/

/-- `writeByteToEeprom`: one `EEPROM.write`. -/
def writeByteToEeprom (s : State) (addr val : Nat) : State :=
  { s with eeprom := setAt s.eeprom addr (val % 256),
           trace := Event.eepromWrite addr (val % 256) :: s.trace }

/-- `writeWordToEeprom`: low byte, then high byte. -/
def writeWordToEeprom (s : State) (addr val : Nat) : State :=
  writeByteToEeprom (writeByteToEeprom s addr (val % 256)) (addr + 1) (val / 256 % 256)

/-! ## RSSI sampling and scaling (`Rx5808Fns.cpp`, lines 181-217) -/

/-- The summing loop of `readRawRssiValue`: `rssiA += analogRead(pin)` in a
16-bit `int`; the first argument is the number of reads left. -/
def sumRssiReads (env : Env) : Nat → Int → State → Int × State
  | 0, rssiA, s => (rssiA, s)
  | n + 1, rssiA, s =>
      sumRssiReads env n (toInt16 (rssiA + ((analogRead env s).1 : Int))) (analogRead env s).2

/-- `readRawRssiValue`: one discarded read, then the average of `RSSI_READS`
reads, returned as `uint16_t`. -/
def readRawRssiValue (env : Env) (s : State) : Nat × State :=
  let r := sumRssiReads env RSSI_READS 0 (analogRead env s).2
  (toUInt16 (Int.tdiv r.1 (RSSI_READS : Int)), r.2)

/-- `scaleRawRssiValue`: the `long` result of `map` is narrowed to `int`, then
clamped and returned as `uint16_t`. -/
def scaleRawRssiValue (s : State) (rawRssiVal : Nat) : Nat :=
  let val := toInt16 (map (rawRssiVal : Int) (s.rx5808RawRssiMin : Int)
    (s.rx5808RawRssiMax : Int) MIN_RSSI_VAL MAX_RSSI_VAL)
  toUInt16 (constrain val MIN_RSSI_VAL MAX_RSSI_VAL)

/-- `setRx5808RawRssiMinMax`. -/
def setRx5808RawRssiMinMax (s : State) (minVal maxVal : Nat) : State :=
  { s with rx5808RawRssiMin := minVal, rx5808RawRssiMax := maxVal }

/-- `saveRssiMinMaxValsToEeprom`. -/
def saveRssiMinMaxValsToEeprom (s : State) : State :=
  writeWordToEeprom (writeWordToEeprom s EEPROM_ADRW_RSSIMIN s.rx5808RawRssiMin)
    EEPROM_ADRW_RSSIMAX s.rx5808RawRssiMax

/-! ## Automatic RSSI calibration (`ArduVidRx.cpp`, lines 3055-3110) -/

/-- The adjustment of `processAutoRssiCalValue` (lines 3077-3102), entered with
the counter already reset: the new bounds, or `none` where the source returns
without changing them.  The operands are `uint16_t`, so sums and differences
wrap modulo `2^16`; `margin` and `adjVal` are non-negative `int` values. -/
def calibAdjust (minVal maxVal rawVal : Nat) : Option (Nat × Nat) :=
  if rawVal < minVal then
    let margin := ((minVal + 65536 - 75) % 65536) / 6
    if minVal < (rawVal + margin) % 65536 then none
    else
      let adjVal0 := ((minVal + 65536 - rawVal) % 65536) / 5
      let adjVal := if adjVal0 ≤ 0 then 1 else adjVal0
      let minVal1 := (minVal + 65536 - adjVal) % 65536
      if minVal1 < CHK_RAWRSSI_MIN ∨ minVal1 > CHK_RAWRSSI_MAX then none
      else some (minVal1, maxVal)
  else
    let adjVal0 := ((rawVal + 65536 - maxVal) % 65536) / 5
    let adjVal := if adjVal0 ≤ 0 then 1 else adjVal0
    let maxVal1 := (maxVal + adjVal) % 65536
    if maxVal1 < CHK_RAWRSSI_MIN ∨ maxVal1 > CHK_RAWRSSI_MAX then none
    else some (minVal, maxVal1)

/-- `processAutoRssiCalValue`. -/
def processAutoRssiCalValue (env : Env) (s : State) (rawVal : Nat) : State :=
  if ((rawVal < s.rx5808RawRssiMin ∧ s.currentTunerFreqInMhz > 5640 ∧
        s.currentTunerFreqInMhz < 5950) ∨ rawVal > s.rx5808RawRssiMax) ∧
      rawVal ≥ CHK_RAWRSSI_MIN ∧ rawVal ≤ CHK_RAWRSSI_MAX then
    if s.autoRssiCalibCounterValue = 0 then
      { (millis env s).2 with
        autoRssiCalibMarkedTime := (millis env s).1, autoRssiCalibCounterValue := 1 }
    else if (millis env s).1 ≤ (s.autoRssiCalibMarkedTime + 5000) % 2 ^ 32 then
      if s.autoRssiCalibCounterValue ≥ 3 then
        let s1 := { (millis env s).2 with autoRssiCalibCounterValue := 0 }
        match calibAdjust s1.rx5808RawRssiMin s1.rx5808RawRssiMax rawVal with
        | none => s1
        | some (minVal, maxVal) =>
            saveRssiMinMaxValsToEeprom (setRx5808RawRssiMinMax s1 minVal maxVal)
      else
        { (millis env s).2 with
          autoRssiCalibCounterValue := (s.autoRssiCalibCounterValue + 1) % 256 }
    else { (millis env s).2 with autoRssiCalibCounterValue := 0 }
  else s

/-- `readRssiValue` (`ArduVidRx.cpp`, lines 3045-3051). -/
def readRssiValue (env : Env) (s : State) : Nat × State :=
  let r := readRawRssiValue env s
  let s1 := if r.2.autoRssiCalibEnabledFlag then processAutoRssiCalValue env r.2 r.1 else r.2
  (scaleRawRssiValue s1 r.1,
    { s1 with trace := Event.rssi r.1 (scaleRawRssiValue s1 r.1) :: s1.trace })

/-! ## Cursor step (`ArduVidRx.cpp`, lines 1240-1251) -/

/-- The cursor step of `doAutoScanTuneChannel`: the new value of
`nextTuneChannelIndex`.  Both operands are `int`; the increment cannot overflow
for a cursor below the count. -/
def stepCursor (scanForwardFlag : Bool) (nextTuneChannelIndex idxSortedSelArrCount : Int) :
    Int :=
  if scanForwardFlag then
    if nextTuneChannelIndex + 1 ≥ idxSortedSelArrCount then 0 else nextTuneChannelIndex + 1
  else if nextTuneChannelIndex > 0 then nextTuneChannelIndex - 1
  else if idxSortedSelArrCount > 0 then idxSortedSelArrCount - 1
  else nextTuneChannelIndex

/-! ## Frequency codes (`Rx5808Fns.cpp`, lines 157-165 and 472-558) -/

/-- Narrowing to `char`, a signed 8-bit type on the AVR. -/
def toChar (z : Int) : Int := (z + 128) % 256 - 128

/-- The search loop of `freqCodeCharsToFreqInMhz` for the band letter; the
first argument is `NUM_FREQBAND_CODES - bandIdx`. -/
def findBandIdx (bandCh : Int) : Nat → Nat → Option Nat
  | 0, _ => none
  | more + 1, bandIdx =>
      if (freqBandCodesArray.getD bandIdx 0 : Int) = bandCh then some bandIdx
      else findBandIdx bandCh more (bandIdx + 1)

/-- `freqCodeCharsToFreqInMhz`: the frequency of a band letter and channel
digit, or 0 if there is none. -/
def freqCodeCharsToFreqInMhz (bandCh chanCh : Int) : Nat :=
  match findBandIdx bandCh NUM_FREQBAND_CODES 0 with
  | none => 0
  | some bandIdx =>
      let numOffs := chanCh - (48 + 1)
      if numOffs < 0 ∨ numOffs ≥ (CHANNEL_BAND_SIZE : Int) then 0
      else getChannelFreqTableEntry (bandIdx * CHANNEL_BAND_SIZE + numOffs.toNat)

/-- `freqCodeWordToFreqInMhz`. -/
def freqCodeWordToFreqInMhz (codeWordVal : Nat) : Nat :=
  freqCodeCharsToFreqInMhz (toChar ((codeWordVal >>> 8 : Nat) : Int))
    (toChar (codeWordVal : Int))

/-- The loop of `getIdxForFreqInMhz`; the first argument is the number of
table entries left. -/
def getIdxLoop (freqVal : Nat) : Nat → Nat → Int
  | 0, _ => -1
  | more + 1, idx =>
      if getChannelFreqTableEntry idx = freqVal then (idx : Int)
      else getIdxLoop freqVal more (idx + 1)

/-- `getIdxForFreqInMhz`: the first table index with the frequency, or -1. -/
def getIdxForFreqInMhz (freqVal : Nat) : Int :=
  getIdxLoop freqVal (CHANNEL_MAX_INDEX + 1 - CHANNEL_MIN_INDEX) CHANNEL_MIN_INDEX

/-- `freqIdxToFreqCode` (returned word only): band letter in the high byte,
channel digit in the low byte, or 0 for an index outside the table. -/
def freqIdxToFreqCode (freqIdx : Int) : Nat :=
  if freqIdx ≥ 0 ∧ freqIdx ≤ (CHANNEL_MAX_INDEX : Int) then
    let bandCh := freqBandCodesArray.getD (freqIdx.toNat / CHANNEL_BAND_SIZE) 0
    let offsCh := toChar ((freqIdx.toNat % CHANNEL_BAND_SIZE : Nat) + 49)
    ((bandCh <<< 8) % 65536) ||| offsCh.toNat
  else 0

/-- `freqInMhzToFreqCode`. -/
def freqInMhzToFreqCode (freqVal : Nat) : Nat :=
  freqIdxToFreqCode (getIdxForFreqInMhz freqVal)

/-! ## Tuner driver (`Rx5808Fns.cpp`, lines 167-177 and 269-378;
`ArduVidRx.cpp`, lines 2367-2442) -/

/-- `setChannelByRegVal`: the register word is clocked into the RX5808 and the
time of the change is recorded. -/
def setChannelByRegVal (env : Env) (s : State) (regVal freqInMhz : Nat) : State :=
  let s1 := { s with trace := Event.tune regVal freqInMhz :: s.trace }
  { (millis env s1).2 with timeOfLastTune := (millis env s1).1 }

/-- `setChannelByFreq`. -/
def setChannelByFreq (env : Env) (s : State) (freqInMhz : Nat) : State :=
  setChannelByRegVal env s (freqMhzToRegVal freqInMhz) freqInMhz

/-- `setCurrentFreqByMhzOrCode`. -/
def setCurrentFreqByMhzOrCode (env : Env) (s : State) (freqMhzOrCode : Nat) : State :=
  let freqInMHz :=
    if freqMhzOrCode ≥ FREQ_CODEWORD_CHECKVAL then
      if freqCodeWordToFreqInMhz freqMhzOrCode = 0 then freqMhzOrCode
      else freqCodeWordToFreqInMhz freqMhzOrCode
    else freqMhzOrCode
  { setChannelByFreq env s freqInMHz with
    currentTunerFreqMhzOrCode := freqMhzOrCode, currentTunerFreqInMhz := freqInMHz }

/-- `setTunerChannelToFreq` (the display update is left out). -/
def setTunerChannelToFreq (env : Env) (s : State) (freqMhzOrCode : Nat) : State :=
  setCurrentFreqByMhzOrCode env s freqMhzOrCode

/-- `getCurrentFreqInMhz`. -/
def getCurrentFreqInMhz (s : State) : Nat :=
  if s.currentTunerFreqInMhz > 0 then s.currentTunerFreqInMhz
  else if s.currentTunerFreqMhzOrCode < FREQ_CODEWORD_CHECKVAL then s.currentTunerFreqMhzOrCode
  else if freqCodeWordToFreqInMhz s.currentTunerFreqMhzOrCode = 0 then
    s.currentTunerFreqMhzOrCode
  else freqCodeWordToFreqInMhz s.currentTunerFreqMhzOrCode

/-- `waitRssiReady`: reads the clock once and waits; the wait changes no
variable. -/
def waitRssiReady (env : Env) (s : State) : State := (millis env s).2

/-- `clearRssiOutput` (the write to the PWM output is left out). -/
def clearRssiOutput (s : State) : State :=
  { s with rssiOutSamplingAvgrTotal := 0, rssiOutSamplingAvgrCounter := 0 }

/-! ## Scanner (`ArduVidRx.cpp`, lines 1602-1695) -/

/-- The slot of `scanRssiValuesArr` written for the loop index `idx` of
`scanChansGetRssiValues` (`tableIdx`): the list slot itself, or the table index
taken from the frequency-sorted table. -/
def slotIndex (listFlag : Bool) (idx : Nat) : Nat :=
  if listFlag then idx else getChannelSortTableEntry idx

/-- The frequency scanned for the loop index `idx` (`freqVal`). -/
def slotFreq (s : State) (includeLBandFlag listFlag : Bool) (idx : Nat) : Nat :=
  if listFlag then s.listFreqsMHzArr idx
  else if includeLBandFlag ∨ !isLBandChannelIndex (slotIndex listFlag idx) then
    getChannelFreqTableEntry (slotIndex listFlag idx)
  else 0

/-- One pass of the `while(true)` loop of `scanChansGetRssiValues` for the loop
index `idx`: tune, wait, sample and store, or store 0 for a frequency out of
range. -/
def scanOneSlot (env : Env) (includeLBandFlag listFlag : Bool) (idx : Nat) (s : State) :
    State :=
  let tableIdx := slotIndex listFlag idx
  let freqVal := slotFreq s includeLBandFlag listFlag idx
  if freqVal ≥ MIN_CHANNEL_MHZ ∧ freqVal ≤ MAX_CHANNEL_MHZ then
    let r := readRssiValue env (waitRssiReady env (setCurrentFreqByMhzOrCode env s freqVal))
    { r.2 with scanRssiValuesArr := setAt r.2.scanRssiValuesArr tableIdx (r.1 % 256) }
  else { s with scanRssiValuesArr := setAt s.scanRssiValuesArr tableIdx 0 }

/-- The `while(true)` loop of `scanChansGetRssiValues`, left by `++idx >
maxIdx`; the first argument is `maxIdx - idx`. -/
def scanSlots (env : Env) (includeLBandFlag listFlag : Bool) : Nat → Nat → State → State
  | 0, idx, s => scanOneSlot env includeLBandFlag listFlag idx s
  | more + 1, idx, s =>
      scanSlots env includeLBandFlag listFlag more (idx + 1)
        (scanOneSlot env includeLBandFlag listFlag idx s)

/-- `scanChansGetRssiValues` (the clearing of the button triggers at the end is
left out). -/
def scanChansGetRssiValues (env : Env) (s : State)
    (includeLBandFlag inclAllFlag restoreFreqFlag : Bool) : State :=
  let prevFreqVal := if restoreFreqFlag then s.currentTunerFreqMhzOrCode else 0
  let s1 := clearRssiOutput s
  let listFlag := decide (!inclAllFlag ∧ s.listFreqsMHzArrCount > 0)
  let s2 := { s1 with trace := Event.scanning :: s1.trace }
  let s3 := scanSlots env includeLBandFlag listFlag
    ((scanRange s inclAllFlag).2 - (scanRange s inclAllFlag).1) (scanRange s inclAllFlag).1 s2
  if restoreFreqFlag then setTunerChannelToFreq env s3 prevFreqVal else s3

/-! ## Scan and report (`ArduVidRx.cpp`, lines 1469-1562) -/

/-- The copy loop of the list branch of `scanChannelsAndReport`:
`idxSortedSelectedArr[p] = idxSortedByRssiArr[p]`; the first argument is the
number of entries left. -/
def copyRanked (ranked : Nat → Nat) : Nat → Nat → (Nat → Nat) → (Nat → Nat)
  | 0, _, sel => sel
  | more + 1, p, sel => copyRanked ranked more (p + 1) (setAt sel p (ranked p))

/-- The three branches of `scanChannelsAndReport` that choose the reported
array: the new state, `maxIdx`, and whether `idxArr` is `idxSortedSelectedArr`. -/
def chooseReported (s : State) (inclAllFlag : Bool) : State × Int × Bool :=
  if inclAllFlag then (s, (CHANNEL_MAX_INDEX : Int), false)
  else if ¬ (s.listFreqsMHzArrCount > 0) then
    ((loadIdxSortedSelectedArr s).2, (loadIdxSortedSelectedArr s).1 - 1, true)
  else
    ({ s with
        idxSortedSelectedArr :=
          copyRanked s.idxSortedByRssiArr s.listFreqsMHzArrCount.toNat 0 s.idxSortedSelectedArr,
        idxSortedSelArrCount := s.listFreqsMHzArrCount },
      s.listFreqsMHzArrCount - 1, true)

/-- The reporting loop `for(i=minIdx; i<=maxIdx; ++i)` of
`scanChannelsAndReport`, with `firstFlag`; the first argument is the number of
iterations left. -/
def reportLoop (idxArr : Nat → Nat) (minRssiLevel : Int) (inclAllFlag : Bool) :
    Nat → Nat → Bool → State → Bool × State
  | 0, _, firstFlag, s => (firstFlag, s)
  | more + 1, i, firstFlag, s =>
      if (s.scanRssiValuesArr (idxArr i) : Int) ≥ minRssiLevel then
        reportLoop idxArr minRssiLevel inclAllFlag more (i + 1) false s
      else
        let s1 := if firstFlag then { s with nextTuneChannelIndex := -1 } else s
        (firstFlag, if !inclAllFlag then { s1 with idxSortedSelArrCount := (i : Int) } else s1)

/-- The level used by `scanChannelsAndReport` (lines 1476-1482): the fallback
level when the first ranked entry is below `minRssiLevel`. -/
def chooseLevel (s : State) (minRssiLevel fallbackRssiLevel : Int) : Int :=
  if s.idxSortedByRssiArr 0 ≥ CHANNEL_MIN_INDEX ∧
      s.idxSortedByRssiArr 0 < LISTFREQMHZ_ARR_SIZE ∧
      (s.scanRssiValuesArr (s.idxSortedByRssiArr 0) : Int) < minRssiLevel
  then fallbackRssiLevel else minRssiLevel

/-- The cursor check at the end of `scanChannelsAndReport` (lines 1551-1557). -/
def checkCursor (s : State) (level : Int) : State :=
  if s.nextTuneChannelIndex > 0 ∧ s.nextTuneChannelIndex < s.idxSortedSelArrCount ∧
      (s.scanRssiValuesArr (s.idxSortedSelectedArr s.nextTuneChannelIndex.toNat) : Int) < level
  then { s with nextTuneChannelIndex := -1 } else s

/-- The second part of `scanChannelsAndReport` (lines 1476-1561), entered with
the scan results ranked: choose the level and the reported array, run the
reporting loop, check the cursor; the returned flag and the new state (the
flushing of the serial input at the end is left out). -/
def reportScanned (s : State) (minRssiLevel fallbackRssiLevel : Int) (inclAllFlag : Bool) :
    Bool × State :=
  let level := chooseLevel s minRssiLevel fallbackRssiLevel
  let c := chooseReported s inclAllFlag
  let idxArr := if c.2.2 then c.1.idxSortedSelectedArr else c.1.idxSortedByRssiArr
  let r := reportLoop idxArr level inclAllFlag (c.2.1 + 1 - (CHANNEL_MIN_INDEX : Int)).toNat
    CHANNEL_MIN_INDEX true c.1
  (!r.1, checkCursor r.2 level)

/-- `scanChannelsAndReport`: scan, rank, record the time of the scan (lines
1473-1475), then report. -/
def scanChannelsAndReport (env : Env) (s : State) (minRssiLevel fallbackRssiLevel : Int)
    (inclAllFlag restoreFreqFlag : Bool) : Bool × State :=
  let s1 := scanChansGetRssiValues env s USE_LBAND_FLAG inclAllFlag restoreFreqFlag
  let s2 := loadIdxSortedByRssiArr s1 inclAllFlag
  reportScanned { (millis env s2).2 with lastNextTuneScanTime := (millis env s2).1 }
    minRssiLevel fallbackRssiLevel inclAllFlag

/-! ## Auto-tune engine (`ArduVidRx.cpp`, lines 1228-1362) -/

/-- The guard of the stepping block of `doAutoScanTuneChannel` (lines
1234-1236) with its short-circuit evaluation: `millis()` is read only when the
earlier operands leave the result open. -/
def stepGuard (env : Env) (s : State) (minRssiLevel : Int)
    (scanAndTuneFirstFlag scanDoneFlag : Bool) : Bool × State :=
  if scanDoneFlag then (true, s)
  else if !scanAndTuneFirstFlag ∧ s.idxSortedSelArrCount > 1 then
    if minRssiLevel ≤ 0 ∧ s.listFreqsMHzArrCount > 0 then (true, s)
    else
      (decide ((millis env s).1 < (s.lastNextTuneScanTime + NEXT_CHAN_RESCANSECS * 1000) % 2 ^ 32),
        (millis env s).2)
  else (false, s)

/-- The frequency of the channel `chanIdx` of the selected list (lines
1255-1262): an entry of the user list when one is active, of the channel table
otherwise. -/
def channelFreqOf (s : State) (chanIdx : Nat) : Nat :=
  if s.listFreqsMHzArrCount > 0 then
    if (chanIdx : Int) < s.listFreqsMHzArrCount then s.listFreqsMHzArr chanIdx else 0
  else getChannelFreqTableEntry chanIdx

/-- The frequency of the channel under the cursor (lines 1254-1262). -/
def cursorFreq (s : State) : Nat :=
  channelFreqOf s (s.idxSortedSelectedArr s.nextTuneChannelIndex.toNat)

/-- The stepping block of `doAutoScanTuneChannel` (lines 1240-1344): step the
cursor, tune to the channel under it and judge its RSSI.  The flag returned is
true where the source leaves the function by `break`. -/
def stepAndTune (env : Env) (s : State) (minRssiLevel : Int)
    (scanAndTuneFirstFlag scanForwardFlag rescanOnSingleFlag scanDoneFlag : Bool) :
    Bool × State :=
  let s1 :=
    { s with
      nextTuneChannelIndex :=
        stepCursor scanForwardFlag s.nextTuneChannelIndex s.idxSortedSelArrCount }
  if s1.nextTuneChannelIndex < s1.idxSortedSelArrCount then
    let freqVal := cursorFreq s1
    if freqVal ≥ MIN_CHANNEL_MHZ ∧ freqVal ≤ MAX_CHANNEL_MHZ then
      let s2 :=
        if freqVal ≠ getCurrentFreqInMhz s1 then
          if freqInMhzToFreqCode freqVal ≠ 0 then
            setTunerChannelToFreq env s1 (freqInMhzToFreqCode freqVal)
          else setTunerChannelToFreq env s1 freqVal
        else s1
      let r := readRssiValue env (waitRssiReady env s2)
      let rssiVal := r.1 % 256
      let rssiGoodFlag := decide ((rssiVal : Int) ≥ Int.tdiv minRssiLevel 2)
      if scanAndTuneFirstFlag then
        (true, if !rssiGoodFlag then { r.2 with nextTuneChannelIndex := -1 } else r.2)
      else if scanDoneFlag ∨ rssiGoodFlag then
        let s3 :=
          if rescanOnSingleFlag ∧ r.2.idxSortedSelArrCount ≤ 1 then
            { r.2 with nextTuneChannelIndex := -1 }
          else r.2
        (true, if rssiGoodFlag then { s3 with trace := Event.slaveTune freqVal :: s3.trace }
               else s3)
      else (false, r.2)
    else (false, s1)
  else (false, s1)

/-- The `while(1)` loop of `doAutoScanTuneChannel`; the first argument bounds
the number of passes, `none` is returned when it is used up. -/
def doAutoScanTuneChannelLoop (env : Env) (minRssiLevel : Int)
    (scanAndTuneFirstFlag scanForwardFlag rescanOnSingleFlag : Bool) :
    Nat → Bool → State → Option State
  | 0, _, _ => none
  | fuel + 1, scanDoneFlag, s =>
      let g := stepGuard env s minRssiLevel scanAndTuneFirstFlag scanDoneFlag
      let t := if g.1 then
          stepAndTune env g.2 minRssiLevel scanAndTuneFirstFlag scanForwardFlag
            rescanOnSingleFlag scanDoneFlag
        else (false, g.2)
      if t.1 then some t.2
      else if scanDoneFlag then some t.2
      else
        let s1 := { t.2 with nextTuneChannelIndex := -1 }
        let prevFreqVal := s1.currentTunerFreqMhzOrCode
        let fallbackRssiLevel := if scanAndTuneFirstFlag then 0 else minRssiLevel
        let r := scanChannelsAndReport env s1 minRssiLevel fallbackRssiLevel false false
        if !r.1 then some (setTunerChannelToFreq env r.2 prevFreqVal)
        else doAutoScanTuneChannelLoop env minRssiLevel scanAndTuneFirstFlag scanForwardFlag
          rescanOnSingleFlag fuel true r.2

/-- `doAutoScanTuneChannel`: the loop makes at most two passes. -/
def doAutoScanTuneChannel (env : Env) (s : State) (minRssiLevel : Int)
    (scanAndTuneFirstFlag scanForwardFlag rescanOnSingleFlag : Bool) : Option State :=
  doAutoScanTuneChannelLoop env minRssiLevel scanAndTuneFirstFlag scanForwardFlag
    rescanOnSingleFlag 2 false s

/-- An environment with a silent receiver: every conversion gives 0 and the
clock advances by one millisecond per reading. -/
def idleEnv : Env := { analogRead := fun _ => 0, millis := fun k => k }

/-- A run of the calibrator over successive samples `(freqInMhz, rawVal)`: each
raw sample is processed with the tuner on the given frequency. -/
def calibrationRun (env : Env) : State → List (Nat × Nat) → State
  | s, [] => s
  | s, sample :: rest =>
      calibrationRun env
        (processAutoRssiCalValue env { s with currentTunerFreqInMhz := sample.1 } sample.2) rest

/-- The bounds `XJ 180,181` with which the narrowing in `scaleRawRssiValue`
overflows for a strong signal. -/
def narrowBoundsState : State :=
  { initialState with rx5808RawRssiMin := 180, rx5808RawRssiMax := 181 }

/-- A state with the user list `5800, 5740` entered by the `L` command. -/
def listState : State :=
  { initialState with
    listFreqsMHzArr := fun i => if i = 0 then 5800 else if i = 1 then 5740 else 0
    listFreqsMHzArrCount := 2 }

/-! ## Relations between states used in the theorems -/

/-- The most recent command sent to the tuner, if any: the register word and
the frequency it stands for. -/
def lastTune : List Event → Option (Nat × Nat)
  | [] => none
  | Event.tune regVal freqInMhz :: _ => some (regVal, freqInMhz)
  | _ :: rest => lastTune rest

/-- The state `t` follows `s` with the user list, the ranked and the selected
list and the cursor unchanged, and the trace extended. -/
structure SameLists (s t : State) : Prop where
  listArr : t.listFreqsMHzArr = s.listFreqsMHzArr
  listCount : t.listFreqsMHzArrCount = s.listFreqsMHzArrCount
  ranked : t.idxSortedByRssiArr = s.idxSortedByRssiArr
  selected : t.idxSortedSelectedArr = s.idxSortedSelectedArr
  selCount : t.idxSortedSelArrCount = s.idxSortedSelArrCount
  cursor : t.nextTuneChannelIndex = s.nextTuneChannelIndex
  trace : List.IsSuffix s.trace t.trace

/-- The tuner is on the frequency `f`: the variable says so and the last
command sent to the RX5808 was the register word of `f`. -/
def TunedTo (s : State) (f : Nat) : Prop :=
  s.currentTunerFreqInMhz = f ∧ lastTune s.trace = some (freqMhzToRegVal f, f)

/-- The state `t` follows `s` with the variables of the scan engine unchanged
and the trace extended. -/
structure SameEngine (s t : State) : Prop where
  listArr : t.listFreqsMHzArr = s.listFreqsMHzArr
  listCount : t.listFreqsMHzArrCount = s.listFreqsMHzArrCount
  scan : t.scanRssiValuesArr = s.scanRssiValuesArr
  ranked : t.idxSortedByRssiArr = s.idxSortedByRssiArr
  selected : t.idxSortedSelectedArr = s.idxSortedSelectedArr
  selCount : t.idxSortedSelArrCount = s.idxSortedSelArrCount
  cursor : t.nextTuneChannelIndex = s.nextTuneChannelIndex
  trace : List.IsSuffix s.trace t.trace

/-- The state `t` follows `s` with, in addition, the tuner untouched. -/
structure Quiet (s t : State) : Prop where
  engine : SameEngine s t
  freqInMhz : t.currentTunerFreqInMhz = s.currentTunerFreqInMhz
  freqMhzOrCode : t.currentTunerFreqMhzOrCode = s.currentTunerFreqMhzOrCode
  tuned : lastTune t.trace = lastTune s.trace

/-- The state `t` differs from `s` at most in the cursor and in the count of
selected entries. -/
structure CursorOnly (s t : State) : Prop where
  listArr : t.listFreqsMHzArr = s.listFreqsMHzArr
  listCount : t.listFreqsMHzArrCount = s.listFreqsMHzArrCount
  scan : t.scanRssiValuesArr = s.scanRssiValuesArr
  ranked : t.idxSortedByRssiArr = s.idxSortedByRssiArr
  selected : t.idxSortedSelectedArr = s.idxSortedSelectedArr
  trace : t.trace = s.trace
  freqInMhz : t.currentTunerFreqInMhz = s.currentTunerFreqInMhz
  freqMhzOrCode : t.currentTunerFreqMhzOrCode = s.currentTunerFreqMhzOrCode

/-! ## Calibration scenarios -/

/-- The clock of scenario B: one reading per second, a silent receiver. -/
def scenarioBEnv : Env := { analogRead := fun _ => 0, millis := fun k => 1000 * k }

/-- The guard of `processAutoRssiCalValue` (lines 3064-3067): the raw value is
outside the current bounds, for a low value with the tuner between 5640 and
5950 MHz, and within the check range. -/
abbrev outOfRange (s : State) (rawVal : Nat) : Prop :=
  ((rawVal < s.rx5808RawRssiMin ∧ s.currentTunerFreqInMhz > 5640 ∧
      s.currentTunerFreqInMhz < 5950) ∨ rawVal > s.rx5808RawRssiMax) ∧
    rawVal ≥ CHK_RAWRSSI_MIN ∧ rawVal ≤ CHK_RAWRSSI_MAX

/-! ## Monitor mode (`ArduVidRx.cpp`, lines 1432-1454) -/

def DEF_MONITOR_INTERVAL_SECS : Int := 5

/-- Conversion to `long` (32 bits on the AVR). -/
def toInt32 (z : Int) : Int := (z + 2147483648) % 4294967296 - 2147483648

/-- Conversion to `unsigned long`. -/
def toUInt32 (z : Int) : Nat := (z % 4294967296).toNat

/-- The global variables of `ArduVidRx.cpp` read and written by the monitor
mode. -/
structure MonitorVars where
  sessionDefMinRssiLevel : Int
  monitorModeNextChanTime : Nat
  monitorModeIntervalSecs : Int

/-- The initialisers of the monitor-mode variables. -/
def initialMonitorVars : MonitorVars :=
  { sessionDefMinRssiLevel := DEF_MIN_RSSI_LEVEL
    monitorModeNextChanTime := 0
    monitorModeIntervalSecs := DEF_MONITOR_INTERVAL_SECS }

/-- The value of `timeOffs` in `monitorAutoTuneNextChan` (lines 1436-1447), a
`long`, for the RSSI `curRssi` just read. -/
def monitorTimeOffs (m : MonitorVars) (s : State) (curRssi : Nat) : Int :=
  let timeOffs := toInt32 (m.monitorModeIntervalSecs * 1000)
  if (curRssi : Int) < Int.tdiv (MAX_RSSI_VAL * 3) 10 then
    let curIdx := s.idxSortedByRssiArr 0
    if curIdx ≥ CHANNEL_MIN_INDEX ∧ curIdx < LISTFREQMHZ_ARR_SIZE ∧
        (s.scanRssiValuesArr curIdx : Int) ≥ Int.tdiv MAX_RSSI_VAL 2 then
      toInt32 (Int.tdiv (toInt32 (timeOffs * (curRssi : Int))) 30)
    else timeOffs
  else timeOffs

/-- `monitorAutoTuneNextChan`: the clock is read, then the RSSI; the comparison
is made in `unsigned long` (the update of the activity indicator is left out). -/
def monitorAutoTuneNextChan (env : Env) (m : MonitorVars) (s : State) :
    Option (MonitorVars × State) :=
  let curTime := (millis env s).1
  let r := readRssiValue env (millis env s).2
  let timeOffs := monitorTimeOffs m r.2 r.1
  if curTime > (m.monitorModeNextChanTime + toUInt32 timeOffs) % 2 ^ 32 then
    match doAutoScanTuneChannel env r.2 m.sessionDefMinRssiLevel false true false with
    | none => none
    | some s1 => some ({ m with monitorModeNextChanTime := curTime }, s1)
  else some (m, r.2)

/-- Scenario D of the specification: monitor interval 10 s. -/
def scenarioDVars : MonitorVars := { initialMonitorVars with monitorModeIntervalSecs := 10 }

/-- The scan results of scenario D: RSSI 60 on table index 27, ranked first. -/
def scenarioD : State :=
  { initialState with
    scanRssiValuesArr := fun i => if i = 27 then 60 else 0
    idxSortedByRssiArr := fun i => if i = 0 then 27 else 0 }

/-- The receiver of scenario D: every conversion gives 183, which the bounds
180/200 scale to the RSSI 15; the clock starts at 6000 ms. -/
def scenarioDEnv : Env := { analogRead := fun _ => 183, millis := fun k => 6000 + k }

/-! ## Persistent settings (`ArduVidRx.cpp`, lines 52-65 and 2804-2979;
`ArduVidUtil.cpp`, lines 304-440; `Config.h`) -/

def EEPROM_ADRW_FREQ : Nat := 0
def EEPROM_ADRB_BTNMODE : Nat := 2
def EEPROM_ADRB_AUTOCAL : Nat := 3
def EEPROM_ADRW_CHECKWORD : Nat := 8
def EEPROM_ADRB_MINTUNEMS : Nat := 10
def EEPROM_ADRS_UNITID : Nat := 30
def EEPROM_FLEN_UNITID : Nat := 20
def EEPROM_ADRA_FREQLIST : Nat := 64
def EEPROM_FLEN_FREQLIST : Nat := 84
def EEPROM_USED_DATASIZE : Nat := EEPROM_ADRA_FREQLIST + EEPROM_FLEN_FREQLIST
def EEPROM_CHECK_VALUE : Nat := 0x5242
def DEFAULT_FREQ_MHZ : Nat := 5800
def DEF_AUTOCAL_FLAG : Bool := true
def BTNFN_FREQCODE_MODE : Nat := 1
def BTNFN_FREQSCAN_MODE : Nat := 2
def BTNFN_FREQMHZ_MODE : Nat := 3
def BTNFN_MODE_MINVAL : Nat := BTNFN_FREQCODE_MODE
def BTNFN_MODE_MAXVAL : Nat := BTNFN_FREQMHZ_MODE
def BTNFN_MODE_WDISPDEF : Nat := BTNFN_FREQCODE_MODE
def BTNFN_MODE_NODISPDEF : Nat := BTNFN_FREQSCAN_MODE

/-- `readByteFromEeprom`: one `EEPROM.read`, a `uint8_t`. -/
def readByteFromEeprom (s : State) (addr : Nat) : Nat := s.eeprom addr % 256

/-- `readWordFromEeprom`: `(hb << 8) + lb` as a `uint16_t`. -/
def readWordFromEeprom (s : State) (addr : Nat) : Nat :=
  (readByteFromEeprom s (addr + 1) * 256 % 65536 + readByteFromEeprom s addr) % 65536

/-- The loop `for(addr=0; addr<EEPROM_USED_DATASIZE; ++addr)` of
`setEepromToDefaultsValues`; the first argument is the number of bytes left. -/
def eraseLoop : Nat → Nat → State → State
  | 0, _, s => s
  | more + 1, addr, s => eraseLoop more (addr + 1) (writeByteToEeprom s addr 0xFF)

/-- `setEepromToDefaultsValues` (the message on the serial port is left out). -/
def setEepromToDefaultsValues (s : State) : State :=
  writeWordToEeprom (eraseLoop EEPROM_USED_DATASIZE 0 s) EEPROM_ADRW_CHECKWORD EEPROM_CHECK_VALUE

/-- `checkEepromIntegrity`. -/
def checkEepromIntegrity (s : State) : State :=
  if readWordFromEeprom s EEPROM_ADRW_CHECKWORD ≠ EEPROM_CHECK_VALUE then
    setEepromToDefaultsValues s
  else s

/-- `loadFreqValFromEeprom`: the value returned and the value stored in
`lastEepromFreqInMhzOrCode`. -/
def loadFreqValFromEeprom (s : State) : Nat × Nat :=
  let fVal := readWordFromEeprom s EEPROM_ADRW_FREQ
  if fVal = 0xFFFF then (DEFAULT_FREQ_MHZ, DEFAULT_FREQ_MHZ) else (fVal, fVal)

/-- `saveButtonModeToEeprom`. -/
def saveButtonModeToEeprom (s : State) (modeVal : Nat) : State :=
  writeByteToEeprom s EEPROM_ADRB_BTNMODE modeVal

/-- `loadButtonModeFromEeprom`; `displayConnectedFlag` is the global set by
`setup` before the call. -/
def loadButtonModeFromEeprom (s : State) (displayConnectedFlag : Bool) : Nat × State :=
  let modeVal := readByteFromEeprom s EEPROM_ADRB_BTNMODE
  if modeVal < BTNFN_MODE_MINVAL ∨ modeVal > BTNFN_MODE_MAXVAL then
    let modeVal1 := if displayConnectedFlag then BTNFN_MODE_WDISPDEF else BTNFN_MODE_NODISPDEF
    (modeVal1, saveButtonModeToEeprom s modeVal1)
  else (modeVal, s)

/-- `loadRssiMinMaxValsFromEeprom`. -/
def loadRssiMinMaxValsFromEeprom (s : State) : State :=
  let minVal := readWordFromEeprom s EEPROM_ADRW_RSSIMIN
  let maxVal := readWordFromEeprom s EEPROM_ADRW_RSSIMAX
  if minVal = 0xFFFF ∨ maxVal = 0xFFFF ∨ minVal ≥ maxVal then
    setRx5808RawRssiMinMax
      (writeWordToEeprom (writeWordToEeprom s EEPROM_ADRW_RSSIMIN DEF_RAWRSSI_MIN)
        EEPROM_ADRW_RSSIMAX DEF_RAWRSSI_MAX)
      DEF_RAWRSSI_MIN DEF_RAWRSSI_MAX
  else setRx5808RawRssiMinMax s minVal maxVal

/-- `saveAutoRssiCalFlagToEeprom`. -/
def saveAutoRssiCalFlagToEeprom (s : State) (flagVal : Bool) : State :=
  writeByteToEeprom s EEPROM_ADRB_AUTOCAL (if flagVal then 1 else 0)

/-- `loadAutoRssiCalFlagFromEeprom`. -/
def loadAutoRssiCalFlagFromEeprom (s : State) : Bool × State :=
  let val := readByteFromEeprom s EEPROM_ADRB_AUTOCAL
  if val > 1 then (DEF_AUTOCAL_FLAG, saveAutoRssiCalFlagToEeprom s DEF_AUTOCAL_FLAG)
  else (decide (val ≠ 0), s)

/-- `saveMinTuneTimeMsToEeprom`. -/
def saveMinTuneTimeMsToEeprom (s : State) (timeVal : Nat) : State :=
  writeByteToEeprom s EEPROM_ADRB_MINTUNEMS timeVal

/-- `loadMinTuneTimeMsFromEeprom`. -/
def loadMinTuneTimeMsFromEeprom (s : State) : Nat × State :=
  let timeVal := readByteFromEeprom s EEPROM_ADRB_MINTUNEMS
  if timeVal = 0xFF then (RX5808_MIN_TUNETIME, saveMinTuneTimeMsToEeprom s RX5808_MIN_TUNETIME)
  else (timeVal, s)

/-- `isStringFromEepromEmpty`. -/
def isStringFromEepromEmpty (s : State) (addr : Nat) : Bool :=
  decide (readByteFromEeprom s addr = 0 ∨ readByteFromEeprom s addr = 255)

/-- `isUnitIdFromEepromEmpty`. -/
def isUnitIdFromEepromEmpty (s : State) : Bool := isStringFromEepromEmpty s EEPROM_ADRS_UNITID

/-- The `do ... while(++i < fieldLen)` loop of `showStringFromEeprom`: the
characters sent to the serial port; the first argument is `fieldLen - 1 - i`. -/
def showStringLoop (s : State) (addr : Nat) : Nat → Nat → List Nat
  | more, i =>
      let btVal := readByteFromEeprom s (addr + i)
      if btVal = 0 ∨ btVal = 255 then []
      else
        btVal :: (match more with
          | 0 => []
          | m + 1 => showStringLoop s addr m (i + 1))

/-- `showStringFromEeprom`: the characters printed. -/
def showStringFromEeprom (s : State) (addr fieldLen : Nat) : List Nat :=
  showStringLoop s addr (fieldLen - 1) 0

/-- `showUnitIdFromEeprom`. -/
def showUnitIdFromEeprom (s : State) : List Nat :=
  showStringFromEeprom s EEPROM_ADRS_UNITID EEPROM_FLEN_UNITID

/-- The loop of `readUint16ArrayFromEeprom`: `offs += 2; uintArr[i] =
readWordFromEeprom(addr+offs)`; the first argument is the number of entries left. -/
def readArrayLoop (s : State) (addr : Nat) : Nat → Nat → (Nat → Nat) → (Nat → Nat)
  | 0, _, uintArr => uintArr
  | more + 1, i, uintArr =>
      readArrayLoop s addr more (i + 1)
        (setAt uintArr i (readWordFromEeprom s (addr + 2 * (i + 1))))

/-- `readUint16ArrayFromEeprom`: the count returned and the array filled. -/
def readUint16ArrayFromEeprom (s : State) (addr : Nat) (uintArr : Nat → Nat)
    (maxArrCount : Int) : Int × (Nat → Nat) :=
  let wordVal := readWordFromEeprom s addr
  if toInt16 wordVal ≤ 0 ∨ wordVal = 0xFFFF ∨ toInt16 wordVal > maxArrCount then (0, uintArr)
  else (toInt16 wordVal, readArrayLoop s addr (toInt16 wordVal).toNat 0 uintArr)

/-- `loadListFreqsMHzArrFromEeprom`. -/
def loadListFreqsMHzArrFromEeprom (s : State) : State :=
  let r := readUint16ArrayFromEeprom s EEPROM_ADRA_FREQLIST s.listFreqsMHzArr
    LISTFREQMHZ_ARR_SIZE
  { s with listFreqsMHzArr := r.2, listFreqsMHzArrCount := r.1 }

/-- An EEPROM that holds the check word and nothing else. -/
def checkedState : State :=
  { initialState with eeprom := fun a => if a = 8 then 0x42 else if a = 9 then 0x52 else 255 }

/-! ## The stepping block in two parts -/

/-- The first part of the stepping block of `doAutoScanTuneChannel` (lines
1240-1303): the cursor is stepped, the frequency under it is looked up, the
tuner is set to it when it differs from the current one and the RSSI is read.
The result is the frequency, the RSSI (a `uint8_t`) and the state, or `none`
where the index or the frequency is out of range. -/
def stepLanding (env : Env) (s : State) (scanForwardFlag : Bool) : Option (Nat × Nat × State) :=
  let s1 :=
    { s with
      nextTuneChannelIndex :=
        stepCursor scanForwardFlag s.nextTuneChannelIndex s.idxSortedSelArrCount }
  if s1.nextTuneChannelIndex < s1.idxSortedSelArrCount then
    let freqVal := cursorFreq s1
    if freqVal ≥ MIN_CHANNEL_MHZ ∧ freqVal ≤ MAX_CHANNEL_MHZ then
      let s2 :=
        if freqVal ≠ getCurrentFreqInMhz s1 then
          if freqInMhzToFreqCode freqVal ≠ 0 then
            setTunerChannelToFreq env s1 (freqInMhzToFreqCode freqVal)
          else setTunerChannelToFreq env s1 freqVal
        else s1
      let r := readRssiValue env (waitRssiReady env s2)
      some (freqVal, r.1 % 256, r.2)
    else none
  else none

/-- The second part of the stepping block (lines 1310-1340): the RSSI read on
the channel is judged.  The flag returned is true where the source leaves the
function by `break`. -/
def judgeStep (minRssiLevel : Int) (scanAndTuneFirstFlag rescanOnSingleFlag scanDoneFlag : Bool)
    (freqVal rssiVal : Nat) (t : State) : Bool × State :=
  let rssiGoodFlag := decide ((rssiVal : Int) ≥ Int.tdiv minRssiLevel 2)
  if scanAndTuneFirstFlag then
    (true, if !rssiGoodFlag then { t with nextTuneChannelIndex := -1 } else t)
  else if scanDoneFlag ∨ rssiGoodFlag then
    let s3 :=
      if rescanOnSingleFlag ∧ t.idxSortedSelArrCount ≤ 1 then
        { t with nextTuneChannelIndex := -1 }
      else t
    (true, if rssiGoodFlag then { s3 with trace := Event.slaveTune freqVal :: s3.trace }
           else s3)
  else (false, t)

/-- The state `t` follows `s` with no scan in between: the time of the last
scan is the same and no banner of a scan was added to the trace. -/
structure NoScan (s t : State) : Prop where
  scanTime : t.lastNextTuneScanTime = s.lastNextTuneScanTime
  banners : t.trace.count Event.scanning = s.trace.count Event.scanning

/-- A selected list of two channels (table indices 27 and 32, 5800 and 5658
MHz) scanned at time 0, with the cursor unset. -/
def unsetCursorState : State :=
  { initialState with
    scanRssiValuesArr := fun i => if i = 27 then 80 else if i = 32 then 60 else 0
    idxSortedByRssiArr := fun i => if i = 0 then 27 else if i = 1 then 32 else 0
    idxSortedSelectedArr := fun i => if i = 0 then 27 else if i = 1 then 32 else 0
    idxSortedSelArrCount := 2
    nextTuneChannelIndex := -1
    lastNextTuneScanTime := 0 }

/-- A receiver with a steady signal (every conversion gives 190, scaled to the
RSSI 50) and a clock that starts at 1000 ms. -/
def steadyEnv : Env := { analogRead := fun _ => 190, millis := fun k => 1000 + k }

/-- A selected list of two channels (table indices 27 and 32) scanned at time 0,
with the cursor on entry 0. -/
def twoChannelState : State := { unsetCursorState with nextTuneChannelIndex := 0 }

/-- A receiver whose signal is weak when the step is made and strong, during
the scan that follows, on the channels scanned 9th and 48th (table indices 19
and 23, 5645 and 5945 MHz); each RSSI reading takes 21 conversions. -/
def fadingEnv : Env :=
  { analogRead := fun k => if k / 21 = 9 ∨ k / 21 = 48 then 200 else 180
    millis := fun k => 1000 + k }

/-- A receiver without any signal: every conversion gives the low bound 180. -/
def silentEnv : Env := { analogRead := fun _ => 180, millis := fun k => 1000 + k }

/-! ## Display scheduler (`Display7Seg.cpp`, lines 25-45 and 208-329) -/

def DISP7SEG_DISPWORDSINTVL_MS : Nat := 100

/-- The variables of `Display7Seg.cpp`, the three output lines written by
`disp7SegTimerIsr` (a select line is `true` when HIGH, that is, when its digit
is off; `segmentPins` is the bitmask last written to the eight segment pins, a
set bit standing for a pin driven LOW) and the count of clock readings. -/
structure Disp7Seg where
  disp7SegLeftMaskOut : Nat
  disp7SegRightMaskOut : Nat
  disp7SegLeftActiveFlag : Bool
  disp7SegDataUpdatingFlag : Bool
  disp7SegInitDispBitmaskUint32 : Nat
  disp7SegInitDispBitmaskFlag : Bool
  disp7SegInitDispDurationMs : Int
  disp7SegInitDispEndTime : Nat
  disp7SegOvrDispBitmaskWord : Nat
  disp7SegOvrDispDurationMs : Int
  disp7SegOvrDispEndTime : Nat
  disp7SegDisplayWordsArr : Nat → Nat
  disp7SegDisplayWordsNumEntries : Int
  disp7SegDisplayWordsCurIdx : Int
  disp7SegDisplayWordsNextTime : Nat
  selLeftPin : Bool
  selRightPin : Bool
  segmentPins : Nat
  clockReads : Nat

/-- The initialisers of `Display7Seg.cpp` and the pins as `disp7SegSetup`
leaves them: both digits off, "0" in both output bitmasks. -/
def initialDisp7Seg : Disp7Seg :=
  { disp7SegLeftMaskOut := 0x3F
    disp7SegRightMaskOut := 0x3F
    disp7SegLeftActiveFlag := false
    disp7SegDataUpdatingFlag := false
    disp7SegInitDispBitmaskUint32 := 0
    disp7SegInitDispBitmaskFlag := false
    disp7SegInitDispDurationMs := 0
    disp7SegInitDispEndTime := 0
    disp7SegOvrDispBitmaskWord := 0
    disp7SegOvrDispDurationMs := 0
    disp7SegOvrDispEndTime := 0
    disp7SegDisplayWordsArr := fun _ => 0
    disp7SegDisplayWordsNumEntries := 0
    disp7SegDisplayWordsCurIdx := 0
    disp7SegDisplayWordsNextTime := 0
    selLeftPin := true
    selRightPin := true
    segmentPins := 0
    clockReads := 0 }

/-- The two output bitmasks set from a 16-bit word: left from the high byte,
right from the low byte. -/
def setMasksOut (d : Disp7Seg) (dispWord : Nat) : Disp7Seg :=
  { d with
    disp7SegLeftMaskOut := dispWord % 65536 / 256 % 256
    disp7SegRightMaskOut := dispWord % 256 }

/-- The init-sequence layer of `disp7SegTimerIsr` (lines 216-239). -/
def initLayer (env : Env) (d : Disp7Seg) (curTimeMs : Nat) : Disp7Seg :=
  if d.disp7SegInitDispDurationMs > 0 then
    if curTimeMs ≥ d.disp7SegInitDispEndTime then
      let d1 :=
        if d.disp7SegInitDispEndTime > 0 then
          { d with disp7SegInitDispBitmaskUint32 := d.disp7SegInitDispBitmaskUint32 / 65536 }
        else d
      if d1.disp7SegInitDispBitmaskUint32 ≠ 0 then
        let d2 := setMasksOut d1 (d1.disp7SegInitDispBitmaskUint32 % 65536)
        { d2 with
          disp7SegInitDispEndTime :=
            (env.millis d2.clockReads % 2 ^ 32 + toUInt32 d2.disp7SegInitDispDurationMs) % 2 ^ 32
          clockReads := d2.clockReads + 1 }
      else { d1 with disp7SegInitDispBitmaskFlag := false }
    else d
  else { d with disp7SegInitDispBitmaskFlag := false }

/-- The override layer of `disp7SegTimerIsr` (lines 242-264). -/
def ovrLayer (env : Env) (d : Disp7Seg) (curTimeMs : Nat) : Disp7Seg :=
  if d.disp7SegOvrDispDurationMs > 0 then
    if d.disp7SegOvrDispEndTime = 0 then
      let d1 :=
        { d with
          disp7SegOvrDispEndTime :=
            (env.millis d.clockReads % 2 ^ 32 + toUInt32 d.disp7SegOvrDispDurationMs) % 2 ^ 32
          clockReads := d.clockReads + 1 }
      setMasksOut d1 d1.disp7SegOvrDispBitmaskWord
    else if curTimeMs ≥ d.disp7SegOvrDispEndTime then
      { d with disp7SegOvrDispBitmaskWord := 0 }
    else d
  else setMasksOut d d.disp7SegOvrDispBitmaskWord

/-- The rotation layer of `disp7SegTimerIsr` (lines 267-280). -/
def rotationLayer (d : Disp7Seg) (curTimeMs : Nat) : Disp7Seg :=
  if curTimeMs ≥ d.disp7SegDisplayWordsNextTime then
    let d1 := setMasksOut d (d.disp7SegDisplayWordsArr d.disp7SegDisplayWordsCurIdx.toNat)
    let nextIdx := toInt16 (d1.disp7SegDisplayWordsCurIdx + 1)
    { d1 with
      disp7SegDisplayWordsCurIdx :=
        if nextIdx ≥ d1.disp7SegDisplayWordsNumEntries then 0 else nextIdx
      disp7SegDisplayWordsNextTime := (curTimeMs + DISP7SEG_DISPWORDSINTVL_MS) % 2 ^ 32 }
  else d

/-- The choice of the layer in `disp7SegTimerIsr` (lines 215-281). -/
def refreshContent (env : Env) (d : Disp7Seg) (curTimeMs : Nat) : Disp7Seg :=
  if d.disp7SegInitDispBitmaskFlag then initLayer env d curTimeMs
  else if d.disp7SegOvrDispBitmaskWord ≠ 0 then ovrLayer env d curTimeMs
  else if d.disp7SegDisplayWordsNumEntries > 0 then rotationLayer d curTimeMs
  else d

/-- The output part of `disp7SegTimerIsr` (lines 283-314): the other digit is
switched off, the bitmask of the active digit is written to the segment pins
and the active digit is switched on. -/
def writeDigit (d : Disp7Seg) : Disp7Seg :=
  if d.disp7SegLeftActiveFlag then
    { d with selRightPin := true, segmentPins := d.disp7SegLeftMaskOut % 256, selLeftPin := false }
  else
    { d with selLeftPin := true, segmentPins := d.disp7SegRightMaskOut % 256, selRightPin := false }

/-- `disp7SegTimerIsr`: one tick of the timer interrupt. -/
def disp7SegTimerIsr (env : Env) (d : Disp7Seg) : Disp7Seg :=
  let d1 := { d with disp7SegLeftActiveFlag := !d.disp7SegLeftActiveFlag }
  if !d1.disp7SegDataUpdatingFlag then
    let curTimeMs := env.millis d1.clockReads % 2 ^ 32
    let d2 := { d1 with clockReads := d1.clockReads + 1 }
    writeDigit (refreshContent env d2 curTimeMs)
  else if d1.disp7SegLeftActiveFlag then
    { d1 with selRightPin := true, selLeftPin := false }
  else
    { d1 with selLeftPin := true, selRightPin := false }

/-- The variables of the override layer. -/
structure OvrVars where
  disp7SegOvrDispBitmaskWord : Nat
  disp7SegOvrDispDurationMs : Int
  disp7SegOvrDispEndTime : Nat

/-- The variables of the rotation layer. -/
structure RotationVars where
  disp7SegDisplayWordsArr : Nat → Nat
  disp7SegDisplayWordsNumEntries : Int
  disp7SegDisplayWordsCurIdx : Int
  disp7SegDisplayWordsNextTime : Nat

/-- The display state with the variables of the override layer replaced. -/
def withOvr (d : Disp7Seg) (o : OvrVars) : Disp7Seg :=
  { d with
    disp7SegOvrDispBitmaskWord := o.disp7SegOvrDispBitmaskWord
    disp7SegOvrDispDurationMs := o.disp7SegOvrDispDurationMs
    disp7SegOvrDispEndTime := o.disp7SegOvrDispEndTime }

/-- The display state with the variables of the rotation layer replaced. -/
def withRotation (d : Disp7Seg) (r : RotationVars) : Disp7Seg :=
  { d with
    disp7SegDisplayWordsArr := r.disp7SegDisplayWordsArr
    disp7SegDisplayWordsNumEntries := r.disp7SegDisplayWordsNumEntries
    disp7SegDisplayWordsCurIdx := r.disp7SegDisplayWordsCurIdx
    disp7SegDisplayWordsNextTime := r.disp7SegDisplayWordsNextTime }

/-- A display with a rotation of two frames, `0x3F06` and `0x065B`. -/
def rotationDisp : Disp7Seg :=
  { initialDisp7Seg with
    disp7SegDisplayWordsArr := fun i => if i = 0 then 0x3F06 else 0x065B
    disp7SegDisplayWordsNumEntries := 2 }

/-- The same display with the init sequence set up for two frames of 500 ms. -/
def bootDisp : Disp7Seg :=
  { rotationDisp with
    disp7SegInitDispBitmaskFlag := true
    disp7SegInitDispBitmaskUint32 := 0x5B4F3F06
    disp7SegInitDispDurationMs := 500 }

/-- An override of two dashes for one second. -/
def dashesOvr : OvrVars :=
  { disp7SegOvrDispBitmaskWord := 0x4040
    disp7SegOvrDispDurationMs := 1000
    disp7SegOvrDispEndTime := 0 }

/-- An empty rotation. -/
def emptyRotation : RotationVars :=
  { disp7SegDisplayWordsArr := fun _ => 0
    disp7SegDisplayWordsNumEntries := 0
    disp7SegDisplayWordsCurIdx := 0
    disp7SegDisplayWordsNextTime := 0 }

/-! ## Buttons (`Config.h`, lines 60-68; `ArduVidRx.cpp`, lines 2526-2604) -/

def NO_BUTTONS_MASK : Nat := 0
def UP_BUTTON_MASK : Nat := 1
def DOWN_BUTTON_MASK : Nat := 2
def BOTH_BUTTONS_MASK : Nat := 3
def UP_LONGPRESS_MASK : Nat := 16
def DOWN_LONGPRESS_MASK : Nat := 32
def BOTH_LONGPRESS_MASK : Nat := 48
def BUTTON_DEBOUNCE_TIMEMS : Nat := 50
def BUTTON_LONGPRESS_TIMEMS : Nat := 1000

/-- The static variables of `readButtonsState`. -/
structure Buttons where
  buttonsInputCurrentMask : Nat
  buttonsInputDetectedMask : Nat
  buttonsInputTrackedMask : Nat
  buttonsInputLongPressMask : Nat
  buttonsInputLastChangeTime : Nat

/-- What one call of `readButtonsState` reads from outside: `millis()`,
`fetchButtonsCurrentState()` and `fetchButtonsTriggerState()` (the buttons are
on the pins D2 and D3, so the edge triggers of the interrupt routines are
used and the polling block is compiled out). -/
structure Poll where
  curTimeMs : Nat
  curMask : Nat
  trigMask : Nat

/-- The static variables before the first call made at time `t`. -/
def initialButtons (t : Nat) : Buttons :=
  { buttonsInputCurrentMask := 0
    buttonsInputDetectedMask := 0
    buttonsInputTrackedMask := 0
    buttonsInputLongPressMask := 0
    buttonsInputLastChangeTime := t }

/-- The trigger mask after lines 2543-2548: triggers of buttons tracked as
active are dropped. -/
def effectiveTrigMask (b : Buttons) (trigMask : Nat) : Nat :=
  if trigMask ≠ 0 ∧ (b.buttonsInputTrackedMask &&& BOTH_BUTTONS_MASK &&& trigMask) ≠ 0 then
    trigMask &&& (255 ^^^ (b.buttonsInputTrackedMask &&& BOTH_BUTTONS_MASK &&& trigMask))
  else trigMask

/-- The long-press part of `readButtonsState` (lines 2568-2586). -/
def longPressStep (b : Buttons) (curTimeMs : Nat) (clearButtonClickOnLongPressFlag : Bool) :
    Buttons :=
  if (b.buttonsInputCurrentMask &&& BOTH_BUTTONS_MASK) ≠ 0 then
    if (curTimeMs + 2 ^ 32 - b.buttonsInputLastChangeTime) % 2 ^ 32 ≥ BUTTON_LONGPRESS_TIMEMS then
      let b1 :=
        if (b.buttonsInputCurrentMask &&& UP_BUTTON_MASK) ≠ 0 then
          { b with
            buttonsInputLongPressMask := b.buttonsInputLongPressMask ||| UP_LONGPRESS_MASK }
        else b
      let b2 :=
        if (b1.buttonsInputCurrentMask &&& DOWN_BUTTON_MASK) ≠ 0 then
          { b1 with
            buttonsInputLongPressMask := b1.buttonsInputLongPressMask ||| DOWN_LONGPRESS_MASK }
        else b1
      if clearButtonClickOnLongPressFlag ∨
          (b2.buttonsInputLongPressMask &&& BOTH_LONGPRESS_MASK) = BOTH_LONGPRESS_MASK then
        { b2 with buttonsInputDetectedMask := NO_BUTTONS_MASK }
      else b2
    else b
  else { b with buttonsInputLongPressMask := 0 }

/-- `readButtonsState`: the mask returned and the new static variables. -/
def readButtonsState (b : Buttons) (p : Poll) (clearButtonClickOnLongPressFlag : Bool) :
    Nat × Buttons :=
  let trigMask := effectiveTrigMask b p.trigMask
  if p.curMask ≠ b.buttonsInputCurrentMask ∨ trigMask ≠ 0 then
    (b.buttonsInputLongPressMask,
      { b with
        buttonsInputLastChangeTime := p.curTimeMs
        buttonsInputCurrentMask := p.curMask
        buttonsInputDetectedMask := b.buttonsInputDetectedMask ||| trigMask })
  else if (b.buttonsInputCurrentMask = b.buttonsInputTrackedMask ∧
        b.buttonsInputDetectedMask = NO_BUTTONS_MASK) ∨
      (p.curTimeMs + 2 ^ 32 - b.buttonsInputLastChangeTime) % 2 ^ 32 < BUTTON_DEBOUNCE_TIMEMS then
    (b.buttonsInputLongPressMask, b)
  else
    let b1 := longPressStep b p.curTimeMs clearButtonClickOnLongPressFlag
    if b1.buttonsInputTrackedMask = NO_BUTTONS_MASK ∧
        b1.buttonsInputCurrentMask = NO_BUTTONS_MASK then
      (b1.buttonsInputDetectedMask ||| b1.buttonsInputLongPressMask,
        { b1 with
          buttonsInputTrackedMask := b1.buttonsInputCurrentMask
          buttonsInputDetectedMask := NO_BUTTONS_MASK })
    else
      (b1.buttonsInputLongPressMask,
        { b1 with buttonsInputTrackedMask := b1.buttonsInputCurrentMask })

/-- Successive calls of `readButtonsState`: the masks returned, in order, and
the final static variables. -/
def pollRun (clearButtonClickOnLongPressFlag : Bool) : Buttons → List Poll → List Nat × Buttons
  | b, [] => ([], b)
  | b, p :: rest =>
      let r := readButtonsState b p clearButtonClickOnLongPressFlag
      let q := pollRun clearButtonClickOnLongPressFlag r.2 rest
      (r.1 :: q.1, q.2)

/-- One press-then-release cycle of the UP button: pressed at 0 ms, held until
1200 ms, polled again 60 and 70 ms after the release. -/
def longPressCycle : List Poll :=
  [{ curTimeMs := 0, curMask := 1, trigMask := 1 },
   { curTimeMs := 60, curMask := 1, trigMask := 0 },
   { curTimeMs := 1100, curMask := 1, trigMask := 0 },
   { curTimeMs := 1200, curMask := 0, trigMask := 0 },
   { curTimeMs := 1260, curMask := 0, trigMask := 0 },
   { curTimeMs := 1270, curMask := 0, trigMask := 0 },
   { curTimeMs := 1280, curMask := 0, trigMask := 0 }]

/-- The long-press mask holds only long-press bits. -/
abbrev LongBits (m : Nat) : Prop := m = 0 ∨ m = 16 ∨ m = 32 ∨ m = 48

/-- What holds of the static variables at every call: the pending-press mask
holds only button bits and the long-press mask only long-press bits. -/
structure ButtonsOk (b : Buttons) : Prop where
  detected : b.buttonsInputDetectedMask < 4
  longPress : LongBits b.buttonsInputLongPressMask

/-! ## The channels tuned by a scan -/

/-- The frequencies of the commands sent to the tuner, most recent first. -/
def tunedFreqs : List Event → List Nat
  | [] => []
  | Event.tune _ freqInMhz :: rest => freqInMhz :: tunedFreqs rest
  | _ :: rest => tunedFreqs rest

/-- The frequencies within `MIN_CHANNEL_MHZ .. MAX_CHANNEL_MHZ` among those of
the loop indices `idx .. idx + more` of `scanChansGetRssiValues`, last first. -/
def slotsToTune (s : State) (includeLBandFlag listFlag : Bool) : Nat → Nat → List Nat
  | 0, idx =>
      if slotFreq s includeLBandFlag listFlag idx ≥ MIN_CHANNEL_MHZ ∧
          slotFreq s includeLBandFlag listFlag idx ≤ MAX_CHANNEL_MHZ then
        [slotFreq s includeLBandFlag listFlag idx]
      else []
  | more + 1, idx =>
      slotsToTune s includeLBandFlag listFlag more (idx + 1) ++
        (if slotFreq s includeLBandFlag listFlag idx ≥ MIN_CHANNEL_MHZ ∧
            slotFreq s includeLBandFlag listFlag idx ≤ MAX_CHANNEL_MHZ then
          [slotFreq s includeLBandFlag listFlag idx]
        else [])

/-- The frequencies of the 48 channels of the table in the order of the scan
(ascending frequency). -/
def tableFreqsByFreq : List Nat :=
  (List.range (CHANNEL_MAX_INDEX + 1)).map
    (fun idx => getChannelFreqTableEntry (getChannelSortTableEntry idx))

/-! ## The set-bounds command (`ArduVidRx.cpp`, lines 1826-1891) -/

/-- The parameter string of the `XJ` command as `processRawRssiMinMaxCommand`
reads it: nothing, the word `default`, up to two numbers stored by
`convStrToInt` (each may be left out), or a string that does not parse. -/
inductive RawRssiParam where
  | absent
  | useDefault
  | values (minGiven maxGiven : Option Int)
  | unparsable

/-- The numbers given are values that `convStrToInt` stores in an `int`
without overflow. -/
def RawRssiParam.inIntRange : RawRssiParam → Prop
  | RawRssiParam.values minGiven maxGiven =>
      (∀ v, minGiven = some v → v ≤ 32767) ∧ (∀ v, maxGiven = some v → v ≤ 32767)
  | _ => True

/-- The end of `processRawRssiMinMaxCommand` (lines 1874-1879): values that
differ from the current ones are stored and saved.  The comparison of an `int`
with a `uint16_t` is made on 16-bit unsigned values. -/
def acceptRawRssiMinMax (s : State) (minVal maxVal : Int) : State :=
  if toUInt16 minVal ≠ s.rx5808RawRssiMin ∨ toUInt16 maxVal ≠ s.rx5808RawRssiMax then
    saveRssiMinMaxValsToEeprom (setRx5808RawRssiMinMax s (toUInt16 minVal) (toUInt16 maxVal))
  else s

/-- `processRawRssiMinMaxCommand`, without the serial output: a value that is
not given stays at the current bound, read as `int`. -/
def processRawRssiMinMaxCommand (s : State) : RawRssiParam → State
  | RawRssiParam.absent => s
  | RawRssiParam.unparsable => s
  | RawRssiParam.useDefault => acceptRawRssiMinMax s DEF_RAWRSSI_MIN DEF_RAWRSSI_MAX
  | RawRssiParam.values minGiven maxGiven =>
      let minVal := minGiven.getD (toInt16 s.rx5808RawRssiMin)
      let maxVal := maxGiven.getD (toInt16 s.rx5808RawRssiMax)
      if (minGiven = none ∨ minVal ≥ 0) ∧ (maxGiven = none ∨ maxVal ≥ 0) then
        if minVal ≥ maxVal then s else acceptRawRssiMinMax s minVal maxVal
      else s

/-- The calibration-bounds invariant: the low bound below the high bound and
both within `CHK_RAWRSSI_MIN .. CHK_RAWRSSI_MAX`. -/
abbrev BoundsOk (s : State) : Prop :=
  s.rx5808RawRssiMin < s.rx5808RawRssiMax ∧
    CHK_RAWRSSI_MIN ≤ s.rx5808RawRssiMin ∧ s.rx5808RawRssiMin ≤ CHK_RAWRSSI_MAX ∧
    CHK_RAWRSSI_MIN ≤ s.rx5808RawRssiMax ∧ s.rx5808RawRssiMax ≤ CHK_RAWRSSI_MAX

/-- A calibrator that has counted three out-of-range samples since time 0, with
the default bounds 180/200 and the tuner on 5800 MHz. -/
def readyToAdjust : State :=
  { initialState with autoRssiCalibCounterValue := 3, currentTunerFreqInMhz := 5800 }

/-- The call left the bounds, the EEPROM and the trace as they were: no bound
changed and nothing was written to the persistent store. -/
structure BoundsKept (s t : State) : Prop where
  minKept : t.rx5808RawRssiMin = s.rx5808RawRssiMin
  maxKept : t.rx5808RawRssiMax = s.rx5808RawRssiMax
  eepromKept : t.eeprom = s.eeprom
  traceKept : t.trace = s.trace

/-- The step of the specification: a fifth of the distance between the bound
and the sample, at least 1. -/
def specStep (boundVal rawVal : Nat) : Nat :=
  max 1 ((max boundVal rawVal - min boundVal rawVal) / 5)

/-- A value within the check range `CHK_RAWRSSI_MIN .. CHK_RAWRSSI_MAX`. -/
abbrev inCheckRange (v : Nat) : Prop := CHK_RAWRSSI_MIN ≤ v ∧ v ≤ CHK_RAWRSSI_MAX

/-! ## Input-pin triggers (`ArduVidUtil.cpp`, lines 446-528) -/

def LOW : Nat := 0
def HIGH : Nat := 1

/-- The variables of the two pin trackers: the tracked states, the live
counters written by the interrupt routines and the static counters of
`getD2InputTriggeredFlag` and `getD3InputTriggeredFlag`; all are bytes. -/
structure PinTrackers where
  trackedD2InputState : Nat
  trackedD3InputState : Nat
  triggerD2LiveCounter : Nat
  triggerD3LiveCounter : Nat
  triggerD2TrackCounter : Nat
  triggerD3TrackCounter : Nat

/-- The initialisers of the variables. -/
def initialPinTrackers : PinTrackers :=
  { trackedD2InputState := HIGH
    trackedD3InputState := HIGH
    triggerD2LiveCounter := 0
    triggerD3LiveCounter := 0
    triggerD2TrackCounter := 0
    triggerD3TrackCounter := 0 }

/-- `d2InterruptRoutine`; `newState` is the result of `digitalRead(2)`. -/
def d2InterruptRoutine (t : PinTrackers) (newState : Nat) : PinTrackers :=
  let t1 :=
    if t.trackedD2InputState = HIGH ∧ newState = LOW then
      { t with triggerD2LiveCounter := (t.triggerD2LiveCounter + 1) % 256 }
    else t
  { t1 with trackedD2InputState := newState }

/-- `getD2InputTriggeredFlag`. -/
def getD2InputTriggeredFlag (t : PinTrackers) : Bool × PinTrackers :=
  let liveVal := t.triggerD2LiveCounter
  if liveVal = t.triggerD2TrackCounter then (false, t)
  else (true, { t with triggerD2TrackCounter := liveVal })

/-- `d3InterruptRoutine`; `newState` is the result of `digitalRead(3)`. -/
def d3InterruptRoutine (t : PinTrackers) (newState : Nat) : PinTrackers :=
  let t1 :=
    if t.trackedD3InputState = HIGH ∧ newState = LOW then
      { t with triggerD3LiveCounter := (t.triggerD3LiveCounter + 1) % 256 }
    else t
  { t1 with trackedD3InputState := newState }

/-- `getD3InputTriggeredFlag`. -/
def getD3InputTriggeredFlag (t : PinTrackers) : Bool × PinTrackers :=
  let liveVal := t.triggerD3LiveCounter
  if liveVal = t.triggerD3TrackCounter then (false, t)
  else (true, { t with triggerD3TrackCounter := liveVal })

/-- The number of high-to-low transitions in a sequence of pin readings that
follows the tracked state `tracked`. -/
def countFalls : Nat → List Nat → Nat
  | _, [] => 0
  | tracked, r :: rest =>
      (if tracked = HIGH ∧ r = LOW then 1 else 0) + countFalls r rest

/-- The readings of `n` pulses of a pin: low, then high again. -/
def pulses : Nat → List Nat
  | 0 => []
  | n + 1 => LOW :: HIGH :: pulses n

/-- A receiver with a steady signal (every conversion gives 190) and a clock
that starts at 200 s, more than `NEXT_CHAN_RESCANSECS` after a scan at time 0. -/
def staleEnv : Env := { analogRead := fun _ => 190, millis := fun k => 200000 + k }

/-- A user list of two frequencies, scanned and selected (entry 0 is slot 0,
entry 1 is slot 1), with the cursor on entry 0. -/
def steppedListState : State :=
  { listState with
    scanRssiValuesArr := fun i => if i = 0 then 80 else if i = 1 then 60 else 0
    idxSortedByRssiArr := fun i => if i = 1 then 1 else 0
    idxSortedSelectedArr := fun i => if i = 1 then 1 else 0
    idxSortedSelArrCount := 2
    nextTuneChannelIndex := 0 }



/-! ## Reads of `idxSortedSelectedArr[nextTuneChannelIndex]` -/

/-- The number of entries of `idxSortedSelectedArr`, declared as
`uint8_t idxSortedSelectedArr[CHANNEL_MAX_INDEX+1]`. -/
def IDXSORTEDSELECTEDARR_SIZE : Nat := CHANNEL_MAX_INDEX + 1

/-- The positions of `idxSortedSelectedArr` written by the copy loop of the list
branch, `for(p=0; p<listFreqsMHzArrCount; ++p) idxSortedSelectedArr[p] = ...`,
in the order of the writes; the first argument is the number of entries left. -/
def copyRankedWrites : Nat → Nat → List Nat
  | 0, _ => []
  | more + 1, p => p :: copyRankedWrites more (p + 1)

/-- The positions written by the list branch of `scanChannelsAndReport` when it
is entered in the state `s`. -/
def listBranchWrites (s : State) : List Nat :=
  copyRankedWrites s.listFreqsMHzArrCount.toNat 0

/-- A user list of 49 frequencies, 5000 MHz to 5480 MHz in steps of 10 MHz. -/
def overlongListState : State :=
  { initialState with
    listFreqsMHzArr := fun i => if i < 49 then 5000 + 10 * i else 0
    listFreqsMHzArrCount := 49 }

/-! ## Saving the user list (`ArduVidUtil.cpp`, lines 409-422; `ArduVidRx.cpp`,
lines 2949-2954) -/

/-- The loop of `writeUint16ArrayToEeprom`: `offs += 2;
writeWordToEeprom(addr+offs, uintArr[i])`; the first argument is the number of
entries left. -/
def writeArrayLoop (addr : Nat) (uintArr : Nat → Nat) : Nat → Nat → State → State
  | 0, _, s => s
  | more + 1, i, s =>
      writeArrayLoop addr uintArr more (i + 1)
        (writeWordToEeprom s (addr + 2 * (i + 1)) (uintArr i))

/-- `writeUint16ArrayToEeprom`: the flag returned and the new state. -/
def writeUint16ArrayToEeprom (s : State) (addr : Nat) (fieldLen : Int) (uintArr : Nat → Nat)
    (arrCount : Int) : Bool × State :=
  if arrCount > Int.tdiv (fieldLen - 2) 2 ∨ arrCount < 0 then (false, s)
  else
    (true, writeArrayLoop addr uintArr arrCount.toNat 0
      (writeWordToEeprom s addr (toUInt16 arrCount)))

/-- `saveListFreqsMHzArrToEeprom`: the flag returned by
`writeUint16ArrayToEeprom` is dropped. -/
def saveListFreqsMHzArrToEeprom (s : State) : State :=
  (writeUint16ArrayToEeprom s EEPROM_ADRA_FREQLIST EEPROM_FLEN_FREQLIST s.listFreqsMHzArr
    s.listFreqsMHzArrCount).2

/-- A user list of 42 frequencies, 5000 MHz to 5410 MHz in steps of 10 MHz,
with an erased EEPROM. -/
def list42State : State :=
  { initialState with
    listFreqsMHzArr := fun i => if i < 42 then 5000 + 10 * i else 0
    listFreqsMHzArrCount := 42 }

/-! ## The table check (`ArduVidRx.cpp`, lines 2330-2361) -/

/-- The verdict printed by `checkReportTableValues` for one table entry. -/
inductive TableVerdict where
  | ok
  | offBy1MHz
  | mismatch
  deriving DecidableEq

/-- The body of the loop of `checkReportTableValues` for the table index `idx`
(the printing of the values left out).  `calcRegVal` and `tableRegVal` are
`uint16_t`, so their difference is an unsigned 16-bit value, and the macro
`abs(x)`, `((x)>0?(x):-(x))`, is applied to that unsigned value. -/
def checkReportTableValue (idx : Nat) : TableVerdict :=
  let tableIdx := idx
  let freqVal := getChannelFreqTableEntry tableIdx
  let calcRegVal := freqMhzToRegVal freqVal
  let tableRegVal := getChannelRegTableEntry tableIdx
  if calcRegVal = tableRegVal then TableVerdict.ok
  else
    let diff := (calcRegVal + 65536 - tableRegVal) % 65536
    let absDiff := if diff > 0 then diff else (65536 - diff) % 65536
    if absDiff = 1 then TableVerdict.offBy1MHz else TableVerdict.mismatch

/-- `checkReportTableValues`: the verdicts printed for the indices
`CHANNEL_MIN_INDEX .. CHANNEL_MAX_INDEX`, in this order. -/
def checkReportTableValues : List TableVerdict :=
  (List.range (CHANNEL_MAX_INDEX + 1 - CHANNEL_MIN_INDEX)).map
    (fun k => checkReportTableValue (CHANNEL_MIN_INDEX + k))

/-- A scan that found RSSI 90 on 5771 MHz (table index 10), RSSI 80 on 5800 MHz
(index 27), RSSI 60 on 5805 MHz (index 3) and nothing elsewhere. -/
def squelchedWinnerState : State :=
  { initialState with
    scanRssiValuesArr := fun i =>
      if i = 10 then 90 else if i = 27 then 80 else if i = 3 then 60 else 0 }

end ArduVidRx

/-! # Theorems -/

namespace ArduVidRx

/-! ## Arrays -/

theorem setAt_same (arr : Nat → Nat) (i v : Nat) : setAt arr i v i = v := by
  simp [setAt]

theorem setAt_other (arr : Nat → Nat) (i v j : Nat) (h : j ≠ i) :
    setAt arr i v j = arr j := by
  simp [setAt, h]

theorem arrTake_length (arr : Nat → Nat) (n : Nat) : (arrTake arr n).length = n := by
  simp [arrTake]

theorem arrTake_congr (a b : Nat → Nat) (n : Nat) (h : ∀ j, j < n → a j = b j) :
    arrTake a n = arrTake b n := by
  unfold arrTake
  apply List.map_congr_left
  intro j hj
  exact h j (List.mem_range.mp hj)

theorem arrTake_succ (arr : Nat → Nat) (n : Nat) :
    arrTake arr (n + 1) = arrTake arr n ++ [arr n] := by
  simp [arrTake, List.range_succ]

theorem arrTake_setAt (arr : Nat → Nat) (k v : Nat) :
    arrTake (setAt arr k v) (k + 1) = arrTake arr k ++ [v] := by
  rw [arrTake_succ, setAt_same]
  congr 1
  apply arrTake_congr
  intro j hj
  exact setAt_other arr k v j (Nat.ne_of_lt hj)

theorem arrTake_getElem (arr : Nat → Nat) (n i : Nat) (h : i < (arrTake arr n).length) :
    (arrTake arr n)[i] = arr i := by
  simp [arrTake]

/-! ## Ranking -/

theorem nextCurMaxRssi_spec (scan : Nat → Nat) (last idx cur : Nat) :
    cur ≤ nextCurMaxRssi scan last idx cur ∧
    (nextCurMaxRssi scan last idx cur = cur ∨
      (nextCurMaxRssi scan last idx cur = scan idx ∧ scan idx < last)) ∧
    (scan idx < last → scan idx ≤ nextCurMaxRssi scan last idx cur) := by
  unfold nextCurMaxRssi
  split <;> omega

/-- The first inner loop returns the largest value below `last` found at the
indices `idx .. idx + more`, or the starting value when it is larger. -/
theorem findCurMaxRssi_spec (scan : Nat → Nat) (last : Nat) :
    ∀ (more idx cur : Nat),
      cur ≤ findCurMaxRssi scan last more idx cur ∧
      (findCurMaxRssi scan last more idx cur = cur ∨
        ∃ i, idx ≤ i ∧ i ≤ idx + more ∧
          scan i = findCurMaxRssi scan last more idx cur ∧ scan i < last) ∧
      (∀ i, idx ≤ i → i ≤ idx + more → scan i < last →
        scan i ≤ findCurMaxRssi scan last more idx cur) := by
  intro more
  induction more with
  | zero =>
    intro idx cur
    have h := nextCurMaxRssi_spec scan last idx cur
    simp only [findCurMaxRssi]
    refine ⟨h.1, ?_, ?_⟩
    · rcases h.2.1 with h1 | ⟨h1, h2⟩
      · exact Or.inl h1
      · exact Or.inr ⟨idx, le_refl _, by omega, h1.symm, h2⟩
    · intro i hi1 hi2 hlt
      have : i = idx := by omega
      subst this
      exact h.2.2 hlt
  | succ m ih =>
    intro idx cur
    have h := nextCurMaxRssi_spec scan last idx cur
    have h' := ih (idx + 1) (nextCurMaxRssi scan last idx cur)
    simp only [findCurMaxRssi]
    refine ⟨le_trans h.1 h'.1, ?_, ?_⟩
    · rcases h'.2.1 with h1 | ⟨i, hi1, hi2, hi3, hi4⟩
      · rcases h.2.1 with h2 | ⟨h2, h3⟩
        · left; rw [h1, h2]
        · right; exact ⟨idx, le_refl _, by omega, by rw [h1, h2], h3⟩
      · right; exact ⟨i, by omega, by omega, hi3, hi4⟩
    · intro i hi1 hi2 hlt
      by_cases hi : i = idx
      · subst hi
        exact le_trans (h.2.2 hlt) h'.1
      · exact h'.2.2 i (by omega) (by omega) hlt

/-- The second inner loop appends, in ascending order, the indices of
`idx .. idx + more` whose value is `cur`, and touches no other position. -/
theorem storeMatching_spec (scan : Nat → Nat) (cur : Nat) :
    ∀ (more idx : Nat) (st : (Nat → Nat) × Nat),
      arrTake (storeMatching scan cur more idx st).1 (storeMatching scan cur more idx st).2 =
        arrTake st.1 st.2 ++
          ((List.range' idx (more + 1)).filter (fun i => scan i = cur)).map (fun i => i % 256) ∧
      (∀ j, (storeMatching scan cur more idx st).2 ≤ j →
        (storeMatching scan cur more idx st).1 j = st.1 j) := by
  have hstep : ∀ (idx : Nat) (st : (Nat → Nat) × Nat),
      arrTake (storeIfMatch scan cur idx st).1 (storeIfMatch scan cur idx st).2 =
        arrTake st.1 st.2 ++
          ((List.range' idx 1).filter (fun i => scan i = cur)).map (fun i => i % 256) ∧
      st.2 ≤ (storeIfMatch scan cur idx st).2 ∧
      (∀ j, (storeIfMatch scan cur idx st).2 ≤ j → (storeIfMatch scan cur idx st).1 j = st.1 j) := by
    intro idx st
    unfold storeIfMatch
    by_cases h : scan idx = cur
    · rw [if_pos h]
      refine ⟨?_, Nat.le_succ _, ?_⟩
      · rw [arrTake_setAt]; simp [List.range', h]
      · intro j hj; exact setAt_other _ _ _ _ (by simp only at hj; omega)
    · rw [if_neg h]
      exact ⟨by simp [List.range', h], le_refl _, fun j _ => rfl⟩
  intro more
  induction more with
  | zero =>
    intro idx st
    simp only [storeMatching]
    exact ⟨(hstep idx st).1, (hstep idx st).2.2⟩
  | succ m ih =>
    intro idx st
    simp only [storeMatching]
    have h1 := hstep idx st
    have h2 := ih (idx + 1) (storeIfMatch scan cur idx st)
    refine ⟨?_, ?_⟩
    · rw [h2.1, h1.1, List.append_assoc, ← List.map_append, ← List.filter_append]
      congr 3
    · intro j hj
      rw [h2.2 j hj]
      apply h1.2.2
      have : (storeIfMatch scan cur idx st).2 ≤
          (storeMatching scan cur m (idx + 1) (storeIfMatch scan cur idx st)).2 := by
        have hl := congrArg List.length h2.1
        simp only [arrTake_length, List.length_append, List.length_map] at hl
        omega
      omega

theorem group_mod (scan : Nat → Nat) (m cur : Nat) (hm : m < 256) :
    ((List.range' 0 (m + 1)).filter (fun i => scan i = cur)).map (fun i => i % 256) =
      (List.range (m + 1)).filter (fun i => scan i = cur) := by
  rw [← List.range_eq_range']
  have : ∀ i ∈ (List.range (m + 1)).filter (fun i => scan i = cur), i % 256 = id i := by
    intro i hi
    have := List.mem_range.mp (List.mem_of_mem_filter hi)
    simp only [id]
    omega
  rw [List.map_congr_left this, List.map_id]

theorem rankedBefore_nodup (scan : Nat → Nat) (W : List Nat)
    (h : W.Pairwise (rankedBefore scan)) : W.Nodup := by
  apply List.Pairwise.imp _ h
  intro a b hab heq
  subst heq
  exact absurd (hab.2 rfl) (lt_irrefl _)

theorem length_le_of_nodup_bounded (W : List Nat) (m : Nat) (hn : W.Nodup)
    (hb : ∀ a ∈ W, a ≤ m) : W.length ≤ m + 1 := by
  have hsub : W ⊆ List.range (m + 1) := by
    intro a ha
    exact List.mem_range.mpr (Nat.lt_succ_of_le (hb a ha))
  have := (List.Nodup.subperm hn hsub).length_le
  simpa using this

/-- Invariant of the outer loop of `loadIdxSortedByRssiArr`: when the entries
written so far are ranked and are exactly the indices with a value of at least
`L`, the loop ends with all of `0 .. m` written, ranked, and nothing else
touched. -/
theorem rankLoop_spec (scan : Nat → Nat) (m : Nat) (hm : m < 256) :
    ∀ (fuel L : Nat) (st : (Nat → Nat) × Nat), 0 < L → L ≤ 255 →
      (arrTake st.1 st.2).Pairwise (rankedBefore scan) →
      (∀ a ∈ arrTake st.1 st.2, a ≤ m ∧ L ≤ scan a) →
      (∀ i, i ≤ m → L ≤ scan i → i ∈ arrTake st.1 st.2) →
      m + 1 ≤ st.2 + fuel →
      (rankLoop scan 0 m fuel L st).2 = m + 1 ∧
      (arrTake (rankLoop scan 0 m fuel L st).1 (m + 1)).Pairwise (rankedBefore scan) ∧
      (∀ a ∈ arrTake (rankLoop scan 0 m fuel L st).1 (m + 1), a ≤ m) ∧
      (∀ j, m + 1 ≤ j → (rankLoop scan 0 m fuel L st).1 j = st.1 j) := by
  intro fuel
  induction fuel with
  | zero =>
    intro L st _ _ hpw hmem _ hfuel
    have e : rankLoop scan 0 m 0 L st = st := rfl
    rw [e]
    have hlen := length_le_of_nodup_bounded _ m (rankedBefore_nodup scan _ hpw)
      (fun a ha => (hmem a ha).1)
    rw [arrTake_length] at hlen
    have hk : st.2 = m + 1 := by omega
    refine ⟨hk, ?_, ?_, fun j _ => rfl⟩
    · rw [← hk]; exact hpw
    · intro a ha; rw [← hk] at ha; exact (hmem a ha).1
  | succ fuel ih =>
    intro L st hL0 hL255 hpw hmem hall hfuel
    have e : rankLoop scan 0 m (fuel + 1) L st =
        if (storeMatching scan (findCurMaxRssi scan L m 0 0) m 0 st).2 > m ∨
            findCurMaxRssi scan L m 0 0 = 0
        then storeMatching scan (findCurMaxRssi scan L m 0 0) m 0 st
        else rankLoop scan 0 m fuel (findCurMaxRssi scan L m 0 0)
          (storeMatching scan (findCurMaxRssi scan L m 0 0) m 0 st) := rfl
    rw [e]
    have hmax := findCurMaxRssi_spec scan L m 0 0
    have hst := storeMatching_spec scan (findCurMaxRssi scan L m 0 0) m 0 st
    generalize findCurMaxRssi scan L m 0 0 = cur at hmax hst
    rw [group_mod scan m cur hm] at hst
    generalize storeMatching scan cur m 0 st = st1 at hst
    obtain ⟨hpre, hrest⟩ := hst
    -- the current maximum is below the previous one
    have hcurlt : cur < L := by
      rcases hmax.2.1 with h | ⟨i, _, _, h1, h2⟩
      · omega
      · omega
    -- the new prefix is ranked
    have hpw1 : (arrTake st1.1 st1.2).Pairwise (rankedBefore scan) := by
      rw [hpre, List.pairwise_append]
      refine ⟨hpw, ?_, ?_⟩
      · have hlt : ((List.range (m + 1)).filter (fun i => scan i = cur)).Pairwise (· < ·) :=
          List.Pairwise.sublist (List.filter_sublist _) (List.pairwise_lt_range (m + 1))
        refine List.Pairwise.imp_of_mem ?_ hlt
        intro a b ha hb hab
        have ha2 : scan a = cur := by simpa using (List.mem_filter.mp ha).2
        have hb2 : scan b = cur := by simpa using (List.mem_filter.mp hb).2
        exact ⟨by omega, fun _ => hab⟩
      · intro a ha b hb
        have hb2 := List.mem_filter.mp hb
        have hsb : scan b = cur := by simpa using hb2.2
        have hsa := (hmem a ha).2
        exact ⟨by omega, fun h => by omega⟩
    have hmem1 : ∀ a ∈ arrTake st1.1 st1.2, a ≤ m ∧ cur ≤ scan a := by
      intro a ha
      rw [hpre, List.mem_append] at ha
      rcases ha with ha | ha
      · have := hmem a ha
        exact ⟨this.1, by omega⟩
      · have h1 := List.mem_filter.mp ha
        have h2 : scan a = cur := by simpa using h1.2
        have h3 := List.mem_range.mp h1.1
        exact ⟨by omega, by omega⟩
    have hall1 : ∀ i, i ≤ m → cur ≤ scan i → i ∈ arrTake st1.1 st1.2 := by
      intro i hi hc
      rw [hpre, List.mem_append]
      by_cases hLi : L ≤ scan i
      · exact Or.inl (hall i hi hLi)
      · right
        have h1 := hmax.2.2 i (Nat.zero_le _) (by omega) (by omega)
        apply List.mem_filter.mpr
        exact ⟨List.mem_range.mpr (by omega), by simp; omega⟩
    have hlen1 := length_le_of_nodup_bounded _ m (rankedBefore_nodup scan _ hpw1)
      (fun a ha => (hmem1 a ha).1)
    rw [arrTake_length] at hlen1
    have hgrow : st.2 + ((List.range (m + 1)).filter (fun i => scan i = cur)).length = st1.2 := by
      have hl := congrArg List.length hpre
      simp only [arrTake_length, List.length_append] at hl
      omega
    by_cases hbreak : st1.2 > m ∨ cur = 0
    · rw [if_pos hbreak]
      have hk : st1.2 = m + 1 := by
        rcases hbreak with h | h
        · omega
        · have hsub : List.range (m + 1) ⊆ arrTake st1.1 st1.2 := by
            intro i hi
            exact hall1 i (by have := List.mem_range.mp hi; omega) (by omega)
          have := (List.Nodup.subperm (List.nodup_range (m + 1)) hsub).length_le
          simp only [List.length_range, arrTake_length] at this
          omega
      refine ⟨hk, ?_, ?_, ?_⟩
      · rw [← hk]; exact hpw1
      · intro a ha; rw [← hk] at ha; exact (hmem1 a ha).1
      · intro j hj; exact hrest j (by omega)
    · rw [if_neg hbreak]
      have hcur0 : 0 < cur := by omega
      have hne : 0 < ((List.range (m + 1)).filter (fun i => scan i = cur)).length := by
        rcases hmax.2.1 with h | ⟨i, _, hi2, hi3, _⟩
        · omega
        · apply List.length_pos_of_mem (a := i)
          apply List.mem_filter.mpr
          exact ⟨List.mem_range.mpr (by omega), by simp [hi3]⟩
      have := ih cur st1 hcur0 (by omega) hpw1 hmem1 hall1 (by omega)
      refine ⟨this.1, this.2.1, this.2.2.1, ?_⟩
      intro j hj
      rw [this.2.2.2 j hj]
      exact hrest j (by omega)

theorem scanRange_fst (s : State) (inclAllFlag : Bool) : (scanRange s inclAllFlag).1 = 0 := by
  unfold scanRange
  split <;> rfl

theorem scanRange_snd_le (s : State) (inclAllFlag : Bool)
    (hcap : s.listFreqsMHzArrCount ≤ LISTFREQMHZ_ARR_SIZE) :
    (scanRange s inclAllFlag).2 < LISTFREQMHZ_ARR_SIZE := by
  unfold scanRange
  split
  · rename_i h
    simp only [LISTFREQMHZ_ARR_SIZE] at hcap ⊢
    have := h.2
    omega
  · simp [CHANNEL_MAX_INDEX, LISTFREQMHZ_ARR_SIZE]

/-- What `loadIdxSortedByRssiArr` leaves in `idxSortedByRssiArr`: the positions
`0 .. maxIdx` hold indices of the range in ranked order, later positions are
untouched. -/
theorem loadIdxSortedByRssiArr_spec (s : State) (inclAllFlag : Bool)
    (hcap : s.listFreqsMHzArrCount ≤ LISTFREQMHZ_ARR_SIZE)
    (hval : ∀ i, i ≤ (scanRange s inclAllFlag).2 → s.scanRssiValuesArr i < 255) :
    (arrTake (loadIdxSortedByRssiArr s inclAllFlag).idxSortedByRssiArr
        ((scanRange s inclAllFlag).2 + 1)).Pairwise (rankedBefore s.scanRssiValuesArr) ∧
    (∀ a ∈ arrTake (loadIdxSortedByRssiArr s inclAllFlag).idxSortedByRssiArr
        ((scanRange s inclAllFlag).2 + 1), a ≤ (scanRange s inclAllFlag).2) ∧
    (∀ j, (scanRange s inclAllFlag).2 + 1 ≤ j →
      (loadIdxSortedByRssiArr s inclAllFlag).idxSortedByRssiArr j = s.idxSortedByRssiArr j) := by
  have hm := scanRange_snd_le s inclAllFlag hcap
  simp only [LISTFREQMHZ_ARR_SIZE] at hm
  have h := rankLoop_spec s.scanRssiValuesArr (scanRange s inclAllFlag).2 (by omega)
    ((scanRange s inclAllFlag).2 + 1) 255 (s.idxSortedByRssiArr, 0) (by omega) (le_refl _)
    (by simp [arrTake]) (by simp [arrTake])
    (by intro i hi h255; have := hval i hi; omega) (by simp)
  simp only [loadIdxSortedByRssiArr, scanRange_fst, Nat.sub_zero]
  exact h.2

/-- Claim C1.  For every scan-result array whose values over the ranked range
are in 0..100 (the range being the channel table, or the slots of a user list of
at most `LISTFREQMHZ_ARR_SIZE` entries), after `loadIdxSortedByRssiArr` the
entries `idxSortedByRssiArr[0 .. n-1]` are non-increasing in scanned value, and
entries with the same value stand in ascending index order. -/
theorem C1_ranked_list_sorted (s : State) (inclAllFlag : Bool)
    (hcap : s.listFreqsMHzArrCount ≤ LISTFREQMHZ_ARR_SIZE)
    (hval : ∀ i, i ≤ (scanRange s inclAllFlag).2 → s.scanRssiValuesArr i ≤ 100) :
    ∀ p q, p < q → q ≤ (scanRange s inclAllFlag).2 →
      s.scanRssiValuesArr ((loadIdxSortedByRssiArr s inclAllFlag).idxSortedByRssiArr q) ≤
        s.scanRssiValuesArr ((loadIdxSortedByRssiArr s inclAllFlag).idxSortedByRssiArr p) ∧
      (s.scanRssiValuesArr ((loadIdxSortedByRssiArr s inclAllFlag).idxSortedByRssiArr p) =
        s.scanRssiValuesArr ((loadIdxSortedByRssiArr s inclAllFlag).idxSortedByRssiArr q) →
        (loadIdxSortedByRssiArr s inclAllFlag).idxSortedByRssiArr p <
          (loadIdxSortedByRssiArr s inclAllFlag).idxSortedByRssiArr q) := by
  intro p q hpq hq
  have h := (loadIdxSortedByRssiArr_spec s inclAllFlag hcap
    (fun i hi => by have := hval i hi; omega)).1
  rw [List.pairwise_iff_getElem] at h
  have := h p q (by rw [arrTake_length]; omega) (by rw [arrTake_length]; omega) hpq
  rw [arrTake_getElem, arrTake_getElem] at this
  exact this

/-! ## Selection -/

theorem abs_symm (x y : Int) : abs (x - y) = abs (y - x) := by
  unfold abs
  split <;> split <;> omega

theorem tooClose_false_iff (c a : Nat) :
    tooClose c a = false ↔ farApart c a := by
  unfold tooClose
  simp

/-- The inner loop of `loadIdxSortedSelectedArr` loads the channel exactly when
none of the `more` entries from position `j` on is too close to it. -/
theorem squelchLoop_iff (sel : Nat → Nat) (cur : Nat) :
    ∀ (more j : Nat), squelchLoop sel cur more j = true ↔
      ∀ i, j ≤ i → i < j + more → tooClose cur (sel i) = false := by
  intro more
  induction more with
  | zero => intro j; simp only [squelchLoop, true_iff]; intro i h1 h2; omega
  | succ m ih =>
    intro j
    simp only [squelchLoop]
    by_cases h : tooClose cur (sel j) = true
    · simp only [h, if_true]
      constructor
      · intro hf; cases hf
      · intro hall
        have := hall j (le_refl _) (by omega)
        rw [h] at this; cases this
    · have h' : tooClose cur (sel j) = false := by simpa using h
      simp only [h', Bool.false_eq_true, if_false]
      rw [ih (j + 1)]
      constructor
      · intro hall i h1 h2
        by_cases hij : i = j
        · subst hij; exact h'
        · exact hall i (by omega) (by omega)
      · intro hall i h1 h2
        exact hall i (by omega) (by omega)

theorem squelchLoop_accepts (sel : Nat → Nat) (cur selIdx : Nat) :
    squelchLoop sel cur selIdx 0 = true ↔
      ∀ a ∈ arrTake sel selIdx, farApart cur a := by
  rw [squelchLoop_iff]
  constructor
  · intro h a ha
    simp only [arrTake, List.mem_map, List.mem_range] at ha
    obtain ⟨i, hi, rfl⟩ := ha
    exact (tooClose_false_iff cur (sel i)).mp (h i (Nat.zero_le _) (by omega))
  · intro h i _ hi
    apply (tooClose_false_iff cur (sel i)).mpr
    apply h
    simp only [arrTake, List.mem_map, List.mem_range]
    exact ⟨i, by omega, rfl⟩

/-- The outer loop of `loadIdxSortedSelectedArr` computes the greedy filter of
the specification over the ranked entries `idx .. idx + more - 1`, and touches
no position from the new `selIdx` on. -/
theorem selectLoop_spec (ranked : Nat → Nat) :
    ∀ (more idx : Nat) (st : (Nat → Nat) × Nat),
      arrTake (selectLoop ranked more idx st).1 (selectLoop ranked more idx st).2 =
        greedySelect (arrTake st.1 st.2) ((List.range' idx more).map ranked) ∧
      st.2 ≤ (selectLoop ranked more idx st).2 ∧
      (∀ j, (selectLoop ranked more idx st).2 ≤ j →
        (selectLoop ranked more idx st).1 j = st.1 j) := by
  intro more
  induction more with
  | zero =>
    intro idx st
    exact ⟨rfl, le_refl _, fun j _ => rfl⟩
  | succ m ih =>
    intro idx st
    have e : selectLoop ranked (m + 1) idx st = selectLoop ranked m (idx + 1)
        (if squelchLoop st.1 (ranked idx) st.2 0 then (setAt st.1 st.2 (ranked idx), st.2 + 1)
         else st) := rfl
    rw [e]
    simp only [List.range', List.map_cons, greedySelect]
    by_cases h : squelchLoop st.1 (ranked idx) st.2 0 = true
    · rw [if_pos h, if_pos ((squelchLoop_accepts _ _ _).mp h)]
      have := ih (idx + 1) (setAt st.1 st.2 (ranked idx), st.2 + 1)
      rw [arrTake_setAt] at this
      refine ⟨this.1, by have := this.2.1; simp only at this; omega, ?_⟩
      intro j hj
      rw [this.2.2 j hj]
      have := this.2.1
      exact setAt_other _ _ _ _ (by simp only at this; omega)
    · rw [if_neg h, if_neg (fun hh => h ((squelchLoop_accepts _ _ _).mpr hh))]
      exact ih (idx + 1) st

theorem farApart_symm (a b : Nat) : farApart a b → farApart b a := by
  intro h
  unfold farApart at *
  rw [abs_symm]
  exact h

theorem greedySelect_append (l1 l2 : List Nat) :
    ∀ acc, greedySelect acc (l1 ++ l2) = greedySelect (greedySelect acc l1) l2 := by
  induction l1 with
  | nil => intro acc; rfl
  | cons c rest ih =>
    intro acc
    simp only [List.cons_append, greedySelect]
    split
    · exact ih _
    · exact ih _

/-- The greedy filter keeps what was accepted and appends a sublist of its input. -/
theorem greedySelect_sublist (l : List Nat) :
    ∀ acc, ∃ t, t.Sublist l ∧ greedySelect acc l = acc ++ t := by
  induction l with
  | nil => intro acc; exact ⟨[], List.Sublist.slnil, by simp [greedySelect]⟩
  | cons c rest ih =>
    intro acc
    simp only [greedySelect]
    split
    · obtain ⟨t, ht, he⟩ := ih (acc ++ [c])
      exact ⟨c :: t, ht.cons₂ c, by rw [he]; simp⟩
    · obtain ⟨t, ht, he⟩ := ih acc
      exact ⟨t, ht.cons c, he⟩

/-- The greedy filter keeps its accepted list pairwise far apart. -/
theorem greedySelect_pairwise (l : List Nat) :
    ∀ acc, acc.Pairwise farApart → (greedySelect acc l).Pairwise farApart := by
  induction l with
  | nil => intro acc h; exact h
  | cons c rest ih =>
    intro acc h
    simp only [greedySelect]
    split
    · rename_i hc
      apply ih
      rw [List.pairwise_append]
      refine ⟨h, List.pairwise_singleton _ _, ?_⟩
      intro a ha b hb
      rw [List.mem_singleton] at hb
      subst hb
      exact farApart_symm _ _ (hc a ha)
    · exact ih acc h

/-- A channel too close to an accepted one is never accepted later. -/
theorem greedySelect_blocked (c x : Nat) (hclose : ¬ farApart c x) (l : List Nat) :
    ∀ acc, x ∈ acc → c ∉ acc → c ∉ greedySelect acc l := by
  induction l with
  | nil => intro acc _ hc; exact hc
  | cons d rest ih =>
    intro acc hx hc
    simp only [greedySelect]
    split
    · rename_i hd
      apply ih (acc ++ [d]) (List.mem_append_left _ hx)
      intro hmem
      rw [List.mem_append, List.mem_singleton] at hmem
      rcases hmem with h | h
      · exact hc h
      · subst h; exact hclose (hd x hx)
    · exact ih acc hx hc

/-- When channel `a` stands in the ranked list before every occurrence of a
channel `b` that is too close to it, the greedy filter does not keep both. -/
theorem greedySelect_not_both (a b : Nat) (hclose : ¬ farApart b a) (hne : a ≠ b)
    (pre post : List Nat) (hpre : b ∉ pre)
    (ha : a ∈ greedySelect [] (pre ++ a :: post)) :
    b ∉ greedySelect [] (pre ++ a :: post) := by
  rw [greedySelect_append] at ha ⊢
  obtain ⟨t, ht, he⟩ := greedySelect_sublist pre []
  have hbA : b ∉ greedySelect [] pre := by
    rw [he]
    intro hb
    exact hpre (ht.subset (by simpa using hb))
  generalize greedySelect [] pre = A at ha hbA ⊢
  simp only [greedySelect] at ha ⊢
  split
  · apply greedySelect_blocked b a hclose post _ (by simp)
    intro hb
    rw [List.mem_append, List.mem_singleton] at hb
    rcases hb with hb | hb
    · exact hbA hb
    · exact hne hb.symm
  · rename_i hfar
    rw [if_neg hfar] at ha
    by_cases haA : a ∈ A
    · exact greedySelect_blocked b a hclose post A haA hbA
    · exfalso
      have : ∃ x ∈ A, ¬ farApart a x := by
        by_contra hcon
        apply hfar
        intro x hx
        by_contra hnf
        exact hcon ⟨x, hx, hnf⟩
      obtain ⟨x, hx, hxc⟩ := this
      exact greedySelect_blocked a x hxc post A hx haA ha

/-- What `loadIdxSortedSelectedArr` returns and leaves in the state. -/
theorem loadIdxSortedSelectedArr_spec (s : State) :
    ∃ n : Nat, (loadIdxSortedSelectedArr s).1 = (n : Int) ∧
      (loadIdxSortedSelectedArr s).2.idxSortedSelArrCount = (n : Int) ∧
      arrTake (loadIdxSortedSelectedArr s).2.idxSortedSelectedArr n =
        greedySelect [] (arrTake s.idxSortedByRssiArr (CHANNEL_MAX_INDEX + 1)) ∧
      (∀ j, n ≤ j → (loadIdxSortedSelectedArr s).2.idxSortedSelectedArr j =
        s.idxSortedSelectedArr j) := by
  have h := selectLoop_spec s.idxSortedByRssiArr (CHANNEL_MAX_INDEX + 1 - CHANNEL_MIN_INDEX)
    CHANNEL_MIN_INDEX (s.idxSortedSelectedArr, 0)
  simp only [loadIdxSortedSelectedArr]
  generalize selectLoop s.idxSortedByRssiArr (CHANNEL_MAX_INDEX + 1 - CHANNEL_MIN_INDEX)
    CHANNEL_MIN_INDEX (s.idxSortedSelectedArr, 0) = r at h ⊢
  refine ⟨r.2, rfl, rfl, ?_, h.2.2⟩
  have e : arrTake s.idxSortedByRssiArr (CHANNEL_MAX_INDEX + 1) =
      (List.range' CHANNEL_MIN_INDEX (CHANNEL_MAX_INDEX + 1 - CHANNEL_MIN_INDEX)).map
        s.idxSortedByRssiArr := by
    simp [arrTake, List.range_eq_range', CHANNEL_MIN_INDEX]
  rw [e]
  exact h.1

/-- Claim C2.  For every content of `idxSortedByRssiArr[0..47]` made of valid
table indices, after `loadIdxSortedSelectedArr` every two distinct positions
below `idxSortedSelArrCount` of `idxSortedSelectedArr` hold channels whose table
frequencies differ by more than `ADJ_CHAN_MHZ` (30 MHz). -/
theorem C2_selected_pairwise_spacing (s : State)
    (_hvalid : ∀ k, k ≤ CHANNEL_MAX_INDEX → s.idxSortedByRssiArr k ≤ CHANNEL_MAX_INDEX) :
    ∀ i j : Nat, (i : Int) < (loadIdxSortedSelectedArr s).2.idxSortedSelArrCount →
      (j : Int) < (loadIdxSortedSelectedArr s).2.idxSortedSelArrCount → i ≠ j →
      abs ((getChannelFreqTableEntry
            ((loadIdxSortedSelectedArr s).2.idxSortedSelectedArr i) : Int) -
          (getChannelFreqTableEntry
            ((loadIdxSortedSelectedArr s).2.idxSortedSelectedArr j) : Int)) > ADJ_CHAN_MHZ := by
  obtain ⟨n, _, hn, hsel, _⟩ := loadIdxSortedSelectedArr_spec s
  have hpw : (arrTake (loadIdxSortedSelectedArr s).2.idxSortedSelectedArr n).Pairwise
      farApart := by
    rw [hsel]
    exact greedySelect_pairwise _ [] List.Pairwise.nil
  rw [List.pairwise_iff_getElem] at hpw
  intro i j hi hj hij
  rw [hn] at hi hj
  have hi' : i < n := by exact_mod_cast hi
  have hj' : j < n := by exact_mod_cast hj
  rcases Nat.lt_or_gt_of_ne hij with h | h
  · have := hpw i j (by rw [arrTake_length]; exact hi') (by rw [arrTake_length]; exact hj') h
    rw [arrTake_getElem, arrTake_getElem] at this
    exact this
  · have := hpw j i (by rw [arrTake_length]; exact hj') (by rw [arrTake_length]; exact hi') h
    rw [arrTake_getElem, arrTake_getElem] at this
    exact farApart_symm _ _ this

theorem greedySelect_head (c : Nat) (rest : List Nat) :
    ∃ t, t.Sublist rest ∧ greedySelect [] (c :: rest) = c :: t := by
  obtain ⟨t, ht, he⟩ := greedySelect_sublist rest [c]
  refine ⟨t, ht, ?_⟩
  simp only [greedySelect]
  rw [if_pos (by intro a ha; cases ha)]
  simpa using he

/-- Claim C3, as the code has it.  For every content of
`idxSortedByRssiArr[0..47]` made of valid table indices,
`loadIdxSortedSelectedArr` computes the greedy filter over these entries taken
in order (an index is appended exactly when its table frequency differs by more
than 30 MHz from every index accepted before it); the selected list is a
subsequence of the ranked list and starts with its first entry; when the
5800 MHz channel (index 27) is ranked before the 5805 MHz channel (index 3) the
two are not both kept: if the 5800 MHz entry is kept the 5805 MHz entry is not,
and when the 5800 MHz entry is ranked first it is kept and the 5805 MHz entry is
not. -/
theorem C3_selected_is_greedy_filter (s : State)
    (_hvalid : ∀ k, k ≤ CHANNEL_MAX_INDEX → s.idxSortedByRssiArr k ≤ CHANNEL_MAX_INDEX) :
    0 ≤ (loadIdxSortedSelectedArr s).1 ∧
    (loadIdxSortedSelectedArr s).2.idxSortedSelArrCount = (loadIdxSortedSelectedArr s).1 ∧
    arrTake (loadIdxSortedSelectedArr s).2.idxSortedSelectedArr
        (loadIdxSortedSelectedArr s).1.toNat =
      greedySelect [] (arrTake s.idxSortedByRssiArr (CHANNEL_MAX_INDEX + 1)) ∧
    (arrTake (loadIdxSortedSelectedArr s).2.idxSortedSelectedArr
        (loadIdxSortedSelectedArr s).1.toNat).Sublist
      (arrTake s.idxSortedByRssiArr (CHANNEL_MAX_INDEX + 1)) ∧
    1 ≤ (loadIdxSortedSelectedArr s).1 ∧
    (loadIdxSortedSelectedArr s).2.idxSortedSelectedArr 0 = s.idxSortedByRssiArr 0 ∧
    (∀ pre post, arrTake s.idxSortedByRssiArr (CHANNEL_MAX_INDEX + 1) = pre ++ 27 :: post →
      3 ∉ pre →
      27 ∈ arrTake (loadIdxSortedSelectedArr s).2.idxSortedSelectedArr
        (loadIdxSortedSelectedArr s).1.toNat →
      3 ∉ arrTake (loadIdxSortedSelectedArr s).2.idxSortedSelectedArr
        (loadIdxSortedSelectedArr s).1.toNat) ∧
    (s.idxSortedByRssiArr 0 = 27 →
      27 ∈ arrTake (loadIdxSortedSelectedArr s).2.idxSortedSelectedArr
        (loadIdxSortedSelectedArr s).1.toNat ∧
      3 ∉ arrTake (loadIdxSortedSelectedArr s).2.idxSortedSelectedArr
        (loadIdxSortedSelectedArr s).1.toNat) := by
  obtain ⟨n, hn1, hn2, hsel, _⟩ := loadIdxSortedSelectedArr_spec s
  rw [hn1, hn2, Int.toNat_ofNat]
  have hclose : ¬ farApart 3 27 := by decide
  have hranked : arrTake s.idxSortedByRssiArr (CHANNEL_MAX_INDEX + 1) =
      s.idxSortedByRssiArr 0 ::
        (List.range' 1 CHANNEL_MAX_INDEX).map s.idxSortedByRssiArr := by
    simp [arrTake, List.range_eq_range', CHANNEL_MAX_INDEX, List.range']
  obtain ⟨t, ht, he⟩ := greedySelect_head (s.idxSortedByRssiArr 0)
    ((List.range' 1 CHANNEL_MAX_INDEX).map s.idxSortedByRssiArr)
  have hn : 1 ≤ n := by
    have := congrArg List.length hsel
    rw [arrTake_length, hranked, he] at this
    simp at this
    omega
  have h0 : (loadIdxSortedSelectedArr s).2.idxSortedSelectedArr 0 = s.idxSortedByRssiArr 0 := by
    have h1 : (arrTake (loadIdxSortedSelectedArr s).2.idxSortedSelectedArr n)[0]? =
        some (s.idxSortedByRssiArr 0) := by
      rw [hsel, hranked, he]; simp
    rw [List.getElem?_eq_getElem (by rw [arrTake_length]; omega), arrTake_getElem] at h1
    exact Option.some.inj h1
  refine ⟨Int.ofNat_nonneg n, rfl, hsel, ?_, by exact_mod_cast hn, h0, ?_, ?_⟩
  · rw [hsel]
    obtain ⟨t', ht', he'⟩ := greedySelect_sublist
      (arrTake s.idxSortedByRssiArr (CHANNEL_MAX_INDEX + 1)) []
    rw [he']
    simpa using ht'
  · intro pre post hsplit hpre h27
    rw [hsel, hsplit] at h27 ⊢
    exact greedySelect_not_both 27 3 hclose (by decide) pre post hpre h27
  · intro hfirst
    have h27 : 27 ∈ arrTake (loadIdxSortedSelectedArr s).2.idxSortedSelectedArr n := by
      rw [hsel, hranked, he, hfirst]
      exact List.mem_cons_self _ _
    refine ⟨h27, ?_⟩
    rw [hsel, hranked, hfirst] at h27 ⊢
    exact greedySelect_not_both 27 3 hclose (by decide) [] _ (by simp) h27

/-- Witness for C1: the ranking of scenario A. -/
theorem C1_ranked_list_sorted_witness :
    scenarioA.listFreqsMHzArrCount ≤ LISTFREQMHZ_ARR_SIZE ∧
    (∀ i, i ≤ (scanRange scenarioA false).2 → scenarioA.scanRssiValuesArr i ≤ 100) ∧
    (scenarioA.scanRssiValuesArr ((loadIdxSortedByRssiArr scenarioA false).idxSortedByRssiArr 1) ≤
        scenarioA.scanRssiValuesArr
          ((loadIdxSortedByRssiArr scenarioA false).idxSortedByRssiArr 0) ∧
      (scenarioA.scanRssiValuesArr ((loadIdxSortedByRssiArr scenarioA false).idxSortedByRssiArr 0) =
        scenarioA.scanRssiValuesArr
          ((loadIdxSortedByRssiArr scenarioA false).idxSortedByRssiArr 1) →
        (loadIdxSortedByRssiArr scenarioA false).idxSortedByRssiArr 0 <
          (loadIdxSortedByRssiArr scenarioA false).idxSortedByRssiArr 1)) :=
  ⟨by decide, by decide,
    C1_ranked_list_sorted scenarioA false (by decide) (by decide) 0 1 (by decide) (by decide)⟩

set_option maxRecDepth 100000 in
/-- Witness for C2: the selection made from the ranking of scenario A. -/
theorem C2_selected_pairwise_spacing_witness :
    (∀ k, k ≤ CHANNEL_MAX_INDEX →
      (loadIdxSortedByRssiArr scenarioA false).idxSortedByRssiArr k ≤ CHANNEL_MAX_INDEX) ∧
    abs ((getChannelFreqTableEntry ((loadIdxSortedSelectedArr
            (loadIdxSortedByRssiArr scenarioA false)).2.idxSortedSelectedArr 0) : Int) -
        (getChannelFreqTableEntry ((loadIdxSortedSelectedArr
            (loadIdxSortedByRssiArr scenarioA false)).2.idxSortedSelectedArr 1) : Int)) >
      ADJ_CHAN_MHZ :=
  ⟨by decide,
    C2_selected_pairwise_spacing (loadIdxSortedByRssiArr scenarioA false) (by decide) 0 1
      (by decide) (by decide) (by decide)⟩

set_option maxRecDepth 100000 in
/-- Witness for C3: in scenario A the 5800 MHz channel is ranked first, is kept,
and the 5805 MHz channel is squelched. -/
theorem C3_selected_is_greedy_filter_witness :
    (∀ k, k ≤ CHANNEL_MAX_INDEX →
      (loadIdxSortedByRssiArr scenarioA false).idxSortedByRssiArr k ≤ CHANNEL_MAX_INDEX) ∧
    (27 ∈ arrTake (loadIdxSortedSelectedArr
          (loadIdxSortedByRssiArr scenarioA false)).2.idxSortedSelectedArr
        (loadIdxSortedSelectedArr (loadIdxSortedByRssiArr scenarioA false)).1.toNat ∧
      3 ∉ arrTake (loadIdxSortedSelectedArr
          (loadIdxSortedByRssiArr scenarioA false)).2.idxSortedSelectedArr
        (loadIdxSortedSelectedArr (loadIdxSortedByRssiArr scenarioA false)).1.toNat) :=
  ⟨by decide,
    (C3_selected_is_greedy_filter (loadIdxSortedByRssiArr scenarioA false)
      (by decide)).2.2.2.2.2.2.2 (by decide)⟩

/-! ## Frequency / register conversion -/

/-- Claim C4.  For every frequency `f` of `channelFreqTable` (all 48 entries),
`regValToFreqMhz (freqMhzToRegVal f)` differs from `f` by at most 1 MHz. -/
theorem C4_table_roundtrip_within_one :
    ∀ f ∈ channelFreqTable,
      (regValToFreqMhz (freqMhzToRegVal f) : Int) - (f : Int) ≤ 1 ∧
      (f : Int) - (regValToFreqMhz (freqMhzToRegVal f) : Int) ≤ 1 := by
  decide

/-- Witness for C4: the table frequency 5800 MHz comes back as 5799 MHz. -/
theorem C4_table_roundtrip_within_one_witness :
    5800 ∈ channelFreqTable ∧
    ((regValToFreqMhz (freqMhzToRegVal 5800) : Int) - (5800 : Int) ≤ 1 ∧
      (5800 : Int) - (regValToFreqMhz (freqMhzToRegVal 5800) : Int) ≤ 1) ∧
    regValToFreqMhz (freqMhzToRegVal 5800) = 5799 :=
  ⟨by decide, C4_table_roundtrip_within_one 5800 (by decide), by decide⟩

/-! ## Cursor step -/

/-- Claim C9.  For every selected-list length `n ≥ 1` and every cursor `i` with
`0 ≤ i < n`, the forward cursor step followed by the backward cursor step (same
list, no rescan in between) gives back `i`, and so does backward followed by
forward. -/
theorem C9_cursor_step_roundtrip (n i : Int) (hn : 1 ≤ n) (hi0 : 0 ≤ i) (hin : i < n) :
    stepCursor false (stepCursor true i n) n = i ∧
    stepCursor true (stepCursor false i n) n = i := by
  unfold stepCursor
  simp only [if_true, Bool.false_eq_true, if_false]
  constructor
  · split <;> split <;> try split
    all_goals omega
  · split <;> split <;> try split
    all_goals omega

/-- Witness for C9: the last cursor position of a three-entry list. -/
theorem C9_cursor_step_roundtrip_witness :
    stepCursor false (stepCursor true 2 3) 3 = 2 ∧
    stepCursor true (stepCursor false 2 3) 3 = 2 :=
  C9_cursor_step_roundtrip 3 2 (by decide) (by decide) (by decide)

/-- Claim C10.  For every selected-list length `n ≥ 1` and cursor `i` with
`-1 ≤ i < n`, the forward step sets the cursor to `(i + 1) mod n` and the
backward step sets it to `i - 1` when `i > 0` and to `n - 1` otherwise; a
forward step from index 2 of a 3-entry list lands on index 0. -/
theorem C10_cursor_step_values (n i : Int) (hn : 1 ≤ n) (hi0 : -1 ≤ i) (hin : i < n) :
    stepCursor true i n = (i + 1) % n ∧
    stepCursor false i n = (if i > 0 then i - 1 else n - 1) ∧
    stepCursor true 2 3 = 0 := by
  refine ⟨?_, ?_, by decide⟩
  · unfold stepCursor
    simp only [if_true]
    split
    · have h : i + 1 = n := by omega
      rw [h, Int.emod_self]
    · rw [Int.emod_eq_of_lt (by omega) (by omega)]
  · unfold stepCursor
    simp only [Bool.false_eq_true, if_false]
    split
    · rfl
    · rw [if_pos (by omega)]

/-- Witness for C10: scenario C, the cursor on index 2 of a 3-entry list. -/
theorem C10_cursor_step_values_witness :
    stepCursor true 2 3 = (2 + 1) % 3 ∧
    stepCursor false 2 3 = (if (2 : Int) > 0 then 2 - 1 else 3 - 1) ∧
    stepCursor true 2 3 = 0 :=
  C10_cursor_step_values 3 2 (by decide) (by decide) (by decide)

/-! ## Calibration -/

/-- An adjustment made for a sample outside the bounds keeps the low bound
below the high bound, and the high bound a 16-bit value. -/
theorem calibAdjust_ordered (minVal maxVal rawVal a b : Nat)
    (hlt : minVal < maxVal) (h16 : maxVal < 65536)
    (hout : rawVal < minVal ∨ rawVal > maxVal) (hraw : rawVal ≤ CHK_RAWRSSI_MAX)
    (h : calibAdjust minVal maxVal rawVal = some (a, b)) : a < b ∧ b < 65536 := by
  unfold calibAdjust at h
  simp only [CHK_RAWRSSI_MIN, CHK_RAWRSSI_MAX] at h hraw
  split_ifs at h with h1 h2 h3 h4 h5 h6 h7
  all_goals
    simp only [Option.some.injEq, Prod.mk.injEq] at h
    obtain ⟨ha, hb⟩ := h
    omega

theorem saveRssiMinMaxValsToEeprom_min (s : State) :
    (saveRssiMinMaxValsToEeprom s).rx5808RawRssiMin = s.rx5808RawRssiMin := rfl

theorem saveRssiMinMaxValsToEeprom_max (s : State) :
    (saveRssiMinMaxValsToEeprom s).rx5808RawRssiMax = s.rx5808RawRssiMax := rfl

/-- One call of `processAutoRssiCalValue` keeps `rx5808RawRssiMin` below
`rx5808RawRssiMax`. -/
theorem processAutoRssiCalValue_ordered (env : Env) (s : State) (rawVal : Nat)
    (hlt : s.rx5808RawRssiMin < s.rx5808RawRssiMax) (h16 : s.rx5808RawRssiMax < 65536) :
    (processAutoRssiCalValue env s rawVal).rx5808RawRssiMin <
      (processAutoRssiCalValue env s rawVal).rx5808RawRssiMax ∧
    (processAutoRssiCalValue env s rawVal).rx5808RawRssiMax < 65536 := by
  unfold processAutoRssiCalValue
  split
  · rename_i hcond
    split
    · exact ⟨hlt, h16⟩
    · split
      · split
        · simp only
          split
          · exact ⟨hlt, h16⟩
          · rename_i minVal maxVal hadj
            rw [saveRssiMinMaxValsToEeprom_min, saveRssiMinMaxValsToEeprom_max]
            simp only [setRx5808RawRssiMinMax]
            have hout : rawVal < s.rx5808RawRssiMin ∨ rawVal > s.rx5808RawRssiMax := by
              rcases hcond.1 with h | h
              · exact Or.inl h.1
              · exact Or.inr h
            exact calibAdjust_ordered _ _ rawVal minVal maxVal hlt h16 hout hcond.2.2 hadj
        · exact ⟨hlt, h16⟩
      · exact ⟨hlt, h16⟩
  · exact ⟨hlt, h16⟩

theorem calibrationRun_ordered (env : Env) (samples : List (Nat × Nat)) :
    ∀ s : State, s.rx5808RawRssiMin < s.rx5808RawRssiMax → s.rx5808RawRssiMax < 65536 →
      (calibrationRun env s samples).rx5808RawRssiMin <
        (calibrationRun env s samples).rx5808RawRssiMax ∧
      (calibrationRun env s samples).rx5808RawRssiMax < 65536 := by
  induction samples with
  | nil => intro s h1 h2; exact ⟨h1, h2⟩
  | cons x rest ih =>
    intro s h1 h2
    simp only [calibrationRun]
    have := processAutoRssiCalValue_ordered env
      { s with currentTunerFreqInMhz := x.1 } x.2 h1 h2
    exact ih _ this.1 this.2

/-- Claim C5.  For every calibration state with `rx5808RawRssiMin <
rx5808RawRssiMax` (16-bit bounds) and every raw sample, tuned frequency, counter
value and clock value, the state after `processAutoRssiCalValue` still has
`rx5808RawRssiMin < rx5808RawRssiMax`; hence the same holds after every
sequence of raw samples, whatever the frequency tuned at each sample. -/
theorem C5_calibration_keeps_min_below_max (env : Env) (s : State) (rawVal : Nat)
    (samples : List (Nat × Nat))
    (hlt : s.rx5808RawRssiMin < s.rx5808RawRssiMax) (h16 : s.rx5808RawRssiMax < 65536) :
    (processAutoRssiCalValue env s rawVal).rx5808RawRssiMin <
      (processAutoRssiCalValue env s rawVal).rx5808RawRssiMax ∧
    (calibrationRun env s samples).rx5808RawRssiMin <
      (calibrationRun env s samples).rx5808RawRssiMax :=
  ⟨(processAutoRssiCalValue_ordered env s rawVal hlt h16).1,
    (calibrationRun_ordered env samples s hlt h16).1⟩

/-- Witness for C5: the default bounds 180/200, a sample of 250 and a run of
four samples above the high bound. -/
theorem C5_calibration_keeps_min_below_max_witness :
    initialState.rx5808RawRssiMin < initialState.rx5808RawRssiMax ∧
    initialState.rx5808RawRssiMax < 65536 ∧
    ((processAutoRssiCalValue idleEnv initialState 250).rx5808RawRssiMin <
        (processAutoRssiCalValue idleEnv initialState 250).rx5808RawRssiMax ∧
      (calibrationRun idleEnv initialState
          [(5800, 250), (5800, 260), (5800, 270), (5800, 270)]).rx5808RawRssiMin <
        (calibrationRun idleEnv initialState
          [(5800, 250), (5800, 260), (5800, 270), (5800, 270)]).rx5808RawRssiMax) :=
  ⟨by decide, by decide,
    C5_calibration_keeps_min_below_max idleEnv initialState 250
      [(5800, 250), (5800, 260), (5800, 270), (5800, 270)] (by decide) (by decide)⟩

/-! ## Scaling -/

/-- The result of `scaleRawRssiValue` is always within 0..100. -/
theorem scaleRawRssiValue_le (s : State) (rawRssiVal : Nat) :
    scaleRawRssiValue s rawRssiVal ≤ 100 := by
  unfold scaleRawRssiValue constrain toUInt16
  simp only [MIN_RSSI_VAL, MAX_RSSI_VAL]
  split_ifs <;> omega

/-- Where the quotient computed by `map` fits the 16-bit `int` it is stored in,
`scaleRawRssiValue` is the clamped linear map: 0 up to the low bound, 100 from
the high bound on, and `(raw - min) * 100 / (max - min)` in between. -/
theorem scaleRawRssiValue_exact (s : State) (rawRssiVal : Nat)
    (hlt : s.rx5808RawRssiMin < s.rx5808RawRssiMax)
    (hfit : rawRssiVal * 100 ≤ 32767 * (s.rx5808RawRssiMax - s.rx5808RawRssiMin) +
      s.rx5808RawRssiMin * 100)
    (hfit2 : s.rx5808RawRssiMin * 100 ≤ 32767 * (s.rx5808RawRssiMax - s.rx5808RawRssiMin) +
      rawRssiVal * 100) :
    scaleRawRssiValue s rawRssiVal =
      if rawRssiVal ≤ s.rx5808RawRssiMin then 0
      else if rawRssiVal ≥ s.rx5808RawRssiMax then 100
      else (rawRssiVal - s.rx5808RawRssiMin) * 100 /
        (s.rx5808RawRssiMax - s.rx5808RawRssiMin) := by
  obtain ⟨d, hd⟩ : ∃ d, s.rx5808RawRssiMax = s.rx5808RawRssiMin + d + 1 :=
    ⟨s.rx5808RawRssiMax - s.rx5808RawRssiMin - 1, by omega⟩
  have hd' : s.rx5808RawRssiMax - s.rx5808RawRssiMin = d + 1 := by omega
  rw [hd'] at hfit hfit2 ⊢
  unfold scaleRawRssiValue map
  simp only [MIN_RSSI_VAL, MAX_RSSI_VAL, sub_zero, add_zero]
  have hden : ((s.rx5808RawRssiMax : Int) - (s.rx5808RawRssiMin : Int)) = ((d + 1 : Nat) : Int) := by
    omega
  rw [hden]
  by_cases hle : rawRssiVal ≤ s.rx5808RawRssiMin
  · rw [if_pos hle]
    obtain ⟨e, he⟩ : ∃ e, s.rx5808RawRssiMin = rawRssiVal + e := ⟨_, (Nat.add_sub_cancel' hle).symm⟩
    have hnum : ((rawRssiVal : Int) - (s.rx5808RawRssiMin : Int)) * 100 = -((e * 100 : Nat) : Int) := by
      push_cast; omega
    rw [hnum, Int.neg_tdiv, ← Int.ofNat_tdiv]
    have hq : e * 100 / (d + 1) ≤ 32767 := by
      apply Nat.div_le_of_le_mul
      rw [he] at hfit2
      nlinarith
    generalize e * 100 / (d + 1) = q at hq
    unfold toInt16 constrain toUInt16
    split_ifs <;> omega
  · rw [if_neg hle]
    obtain ⟨e, he⟩ : ∃ e, rawRssiVal = s.rx5808RawRssiMin + e :=
      ⟨_, (Nat.add_sub_cancel' (Nat.le_of_not_le hle)).symm⟩
    have hnum : ((rawRssiVal : Int) - (s.rx5808RawRssiMin : Int)) * 100 = ((e * 100 : Nat) : Int) := by
      push_cast; omega
    have he' : rawRssiVal - s.rx5808RawRssiMin = e := by omega
    rw [hnum, ← Int.ofNat_tdiv, he']
    have hq : e * 100 / (d + 1) ≤ 32767 := by
      apply Nat.div_le_of_le_mul
      rw [he] at hfit
      nlinarith
    have hq100 : rawRssiVal ≥ s.rx5808RawRssiMax ↔ 100 ≤ e * 100 / (d + 1) := by
      rw [Nat.le_div_iff_mul_le (Nat.succ_pos d)]
      constructor <;> intro h <;> nlinarith
    by_cases hge : rawRssiVal ≥ s.rx5808RawRssiMax
    · rw [if_pos hge]
      have := hq100.mp hge
      generalize e * 100 / (d + 1) = q at hq this
      unfold toInt16 constrain toUInt16
      split_ifs <;> omega
    · rw [if_neg hge]
      have : ¬ 100 ≤ e * 100 / (d + 1) := fun h => hge (hq100.mpr h)
      generalize e * 100 / (d + 1) = q at hq this
      unfold toInt16 constrain toUInt16
      split_ifs <;> omega

/-- Claim C6, evaluated where it fails.  With the bounds 180 and 181 (which
the command `XJ 180,181` sets) the raw value 580 lies above the high bound, yet
`scaleRawRssiValue` returns 0 and not 100: the quotient 40000 computed by `map`
does not fit the 16-bit `int` it is stored in and becomes negative before the
clamp.  With the bounds 400 and 401 the raw value 20 lies below the low bound,
yet the result is 100 and not 0. -/
theorem C6_scale_overflows_for_narrow_bounds :
    narrowBoundsState.rx5808RawRssiMin < narrowBoundsState.rx5808RawRssiMax ∧
    580 ≥ narrowBoundsState.rx5808RawRssiMax ∧
    map 580 180 181 0 100 = 40000 ∧
    toInt16 40000 = -25536 ∧
    scaleRawRssiValue narrowBoundsState 580 = 0 ∧
    scaleRawRssiValue { initialState with rx5808RawRssiMin := 400, rx5808RawRssiMax := 401 } 20
      = 100 := by
  decide

/-! ## Frame properties of the hardware-facing operations -/

theorem SameEngine.reflE (s : State) : SameEngine s s :=
  ⟨rfl, rfl, rfl, rfl, rfl, rfl, rfl, List.suffix_refl _⟩

theorem SameEngine.transE {s t u : State} (h1 : SameEngine s t) (h2 : SameEngine t u) :
    SameEngine s u :=
  ⟨h2.listArr.trans h1.listArr, h2.listCount.trans h1.listCount, h2.scan.trans h1.scan,
    h2.ranked.trans h1.ranked, h2.selected.trans h1.selected, h2.selCount.trans h1.selCount,
    h2.cursor.trans h1.cursor, h1.trace.trans h2.trace⟩

theorem Quiet.reflQ (s : State) : Quiet s s := ⟨SameEngine.reflE s, rfl, rfl, rfl⟩

theorem Quiet.transQ {s t u : State} (h1 : Quiet s t) (h2 : Quiet t u) : Quiet s u :=
  ⟨h1.engine.transE h2.engine, h2.freqInMhz.trans h1.freqInMhz,
    h2.freqMhzOrCode.trans h1.freqMhzOrCode, h2.tuned.trans h1.tuned⟩

theorem millis_quiet (env : Env) (s : State) : Quiet s (millis env s).2 :=
  ⟨⟨rfl, rfl, rfl, rfl, rfl, rfl, rfl, List.suffix_refl _⟩, rfl, rfl, rfl⟩

theorem analogRead_quiet (env : Env) (s : State) : Quiet s (analogRead env s).2 :=
  ⟨⟨rfl, rfl, rfl, rfl, rfl, rfl, rfl, List.suffix_refl _⟩, rfl, rfl, rfl⟩

theorem writeByteToEeprom_quiet (s : State) (addr val : Nat) :
    Quiet s (writeByteToEeprom s addr val) :=
  ⟨⟨rfl, rfl, rfl, rfl, rfl, rfl, rfl, List.suffix_cons _ _⟩, rfl, rfl, rfl⟩

theorem writeWordToEeprom_quiet (s : State) (addr val : Nat) :
    Quiet s (writeWordToEeprom s addr val) :=
  (writeByteToEeprom_quiet s _ _).transQ (writeByteToEeprom_quiet _ _ _)

theorem saveRssiMinMaxValsToEeprom_quiet (s : State) :
    Quiet s (saveRssiMinMaxValsToEeprom s) :=
  (writeWordToEeprom_quiet s _ _).transQ (writeWordToEeprom_quiet _ _ _)

theorem processAutoRssiCalValue_quiet (env : Env) (s : State) (rawVal : Nat) :
    Quiet s (processAutoRssiCalValue env s rawVal) := by
  unfold processAutoRssiCalValue
  split_ifs
  · exact ⟨⟨rfl, rfl, rfl, rfl, rfl, rfl, rfl, List.suffix_refl _⟩, rfl, rfl, rfl⟩
  · simp only
    split
    · exact ⟨⟨rfl, rfl, rfl, rfl, rfl, rfl, rfl, List.suffix_refl _⟩, rfl, rfl, rfl⟩
    · exact Quiet.transQ (t := setRx5808RawRssiMinMax
        { (millis env s).2 with autoRssiCalibCounterValue := 0 } _ _)
        ⟨⟨rfl, rfl, rfl, rfl, rfl, rfl, rfl, List.suffix_refl _⟩, rfl, rfl, rfl⟩
        (saveRssiMinMaxValsToEeprom_quiet _)
  · exact ⟨⟨rfl, rfl, rfl, rfl, rfl, rfl, rfl, List.suffix_refl _⟩, rfl, rfl, rfl⟩
  · exact ⟨⟨rfl, rfl, rfl, rfl, rfl, rfl, rfl, List.suffix_refl _⟩, rfl, rfl, rfl⟩
  · exact ⟨⟨rfl, rfl, rfl, rfl, rfl, rfl, rfl, List.suffix_refl _⟩, rfl, rfl, rfl⟩

theorem sumRssiReads_quiet (env : Env) :
    ∀ (n : Nat) (rssiA : Int) (s : State), Quiet s (sumRssiReads env n rssiA s).2 := by
  intro n
  induction n with
  | zero => intro rssiA s; exact Quiet.reflQ s
  | succ n ih =>
    intro rssiA s
    simp only [sumRssiReads]
    exact (analogRead_quiet env s).transQ (ih _ _)

theorem readRawRssiValue_quiet (env : Env) (s : State) :
    Quiet s (readRawRssiValue env s).2 :=
  (analogRead_quiet env s).transQ (sumRssiReads_quiet env _ _ _)

theorem readRssiValue_quiet (env : Env) (s : State) : Quiet s (readRssiValue env s).2 := by
  have h1 := readRawRssiValue_quiet env s
  unfold readRssiValue
  simp only
  split
  · have h2 := processAutoRssiCalValue_quiet env (readRawRssiValue env s).2
      (readRawRssiValue env s).1
    exact (h1.transQ h2).transQ
      ⟨⟨rfl, rfl, rfl, rfl, rfl, rfl, rfl, List.suffix_cons _ _⟩, rfl, rfl, rfl⟩
  · exact h1.transQ ⟨⟨rfl, rfl, rfl, rfl, rfl, rfl, rfl, List.suffix_cons _ _⟩, rfl, rfl, rfl⟩

/-- The value returned by `readRssiValue` is within 0..100, and it is the one
recorded by the most recent event of the trace. -/
theorem readRssiValue_value (env : Env) (s : State) :
    (readRssiValue env s).1 ≤ 100 ∧
    ∃ rawVal, (readRssiValue env s).2.trace =
      Event.rssi rawVal (readRssiValue env s).1 :: (readRssiValue env s).2.trace.tail := by
  unfold readRssiValue
  exact ⟨scaleRawRssiValue_le _ _, _, rfl⟩

theorem waitRssiReady_quiet (env : Env) (s : State) : Quiet s (waitRssiReady env s) :=
  ⟨⟨rfl, rfl, rfl, rfl, rfl, rfl, rfl, List.suffix_refl _⟩, rfl, rfl, rfl⟩

theorem clearRssiOutput_quiet (s : State) : Quiet s (clearRssiOutput s) :=
  ⟨⟨rfl, rfl, rfl, rfl, rfl, rfl, rfl, List.suffix_refl _⟩, rfl, rfl, rfl⟩

theorem setCurrentFreqByMhzOrCode_engine (env : Env) (s : State) (v : Nat) :
    SameEngine s (setCurrentFreqByMhzOrCode env s v) :=
  ⟨rfl, rfl, rfl, rfl, rfl, rfl, rfl, List.suffix_cons _ _⟩

theorem SameEngine.toLists {s t : State} (h : SameEngine s t) : SameLists s t :=
  ⟨h.listArr, h.listCount, h.ranked, h.selected, h.selCount, h.cursor, h.trace⟩

theorem SameLists.reflL (s : State) : SameLists s s :=
  ⟨rfl, rfl, rfl, rfl, rfl, rfl, List.suffix_refl _⟩

theorem SameLists.transL {s t u : State} (h1 : SameLists s t) (h2 : SameLists t u) :
    SameLists s u :=
  ⟨h2.listArr.trans h1.listArr, h2.listCount.trans h1.listCount,
    h2.ranked.trans h1.ranked, h2.selected.trans h1.selected, h2.selCount.trans h1.selCount,
    h2.cursor.trans h1.cursor, h1.trace.trans h2.trace⟩

theorem Quiet.tunedTo {s t : State} (h : Quiet s t) (f : Nat) (hs : TunedTo s f) :
    TunedTo t f :=
  ⟨h.freqInMhz.trans hs.1, h.tuned.trans hs.2⟩

/-- After `setCurrentFreqByMhzOrCode` with a value below the code-word range
the tuner is on that frequency. -/
theorem setCurrentFreqByMhzOrCode_mhz (env : Env) (s : State) (v : Nat)
    (h : v < FREQ_CODEWORD_CHECKVAL) : TunedTo (setCurrentFreqByMhzOrCode env s v) v := by
  unfold setCurrentFreqByMhzOrCode TunedTo
  simp only [ge_iff_le, Nat.not_le.mpr h, if_false]
  exact ⟨trivial, rfl⟩

/-! ## Scanner -/

/-- One pass of the scanning loop: the lists and the cursor are untouched, the
slot of the pass receives a value within 0..100, no other slot changes. -/
theorem scanOneSlot_spec (env : Env) (incl listFlag : Bool) (idx : Nat) (s : State) :
    SameLists s (scanOneSlot env incl listFlag idx s) ∧
    (scanOneSlot env incl listFlag idx s).scanRssiValuesArr (slotIndex listFlag idx) ≤ 100 ∧
    (∀ j, j ≠ slotIndex listFlag idx →
      (scanOneSlot env incl listFlag idx s).scanRssiValuesArr j = s.scanRssiValuesArr j) ∧
    (MIN_CHANNEL_MHZ ≤ slotFreq s incl listFlag idx ∧
        slotFreq s incl listFlag idx ≤ MAX_CHANNEL_MHZ →
      TunedTo (scanOneSlot env incl listFlag idx s) (slotFreq s incl listFlag idx)) := by
  unfold scanOneSlot
  simp only
  split
  · rename_i hvalid
    have hA := setCurrentFreqByMhzOrCode_engine env s (slotFreq s incl listFlag idx)
    have hB := waitRssiReady_quiet env
      (setCurrentFreqByMhzOrCode env s (slotFreq s incl listFlag idx))
    have hC := readRssiValue_quiet env (waitRssiReady env
      (setCurrentFreqByMhzOrCode env s (slotFreq s incl listFlag idx)))
    have hv := (readRssiValue_value env (waitRssiReady env
      (setCurrentFreqByMhzOrCode env s (slotFreq s incl listFlag idx)))).1
    have hBC := hB.transQ hC
    have hL := hA.toLists.transL hBC.engine.toLists
    refine ⟨⟨hL.listArr, hL.listCount, hL.ranked, hL.selected, hL.selCount, hL.cursor,
      hL.trace⟩, ?_, ?_, ?_⟩
    · simp only [setAt_same]
      omega
    · intro j hj
      simp only [setAt_other _ _ _ _ hj]
      rw [hBC.engine.scan, hA.scan]
    · intro _
      have ht := setCurrentFreqByMhzOrCode_mhz env s (slotFreq s incl listFlag idx)
        (by simp only [MAX_CHANNEL_MHZ, FREQ_CODEWORD_CHECKVAL] at hvalid ⊢; omega)
      exact hBC.tunedTo _ ht
  · rename_i hinvalid
    refine ⟨⟨rfl, rfl, rfl, rfl, rfl, rfl, List.suffix_refl _⟩, ?_, ?_, ?_⟩
    · simp only [setAt_same]; omega
    · intro j hj
      simp only [setAt_other _ _ _ _ hj]
    · intro h
      exact absurd h hinvalid

theorem slotFreq_congr (s t : State) (incl listFlag : Bool) (idx : Nat)
    (h : t.listFreqsMHzArr = s.listFreqsMHzArr) :
    slotFreq t incl listFlag idx = slotFreq s incl listFlag idx := by
  unfold slotFreq
  rw [h]

/-- The scanning loop over the loop indices `idx .. idx + more`: the lists and
the cursor are untouched, every slot visited ends with a value within 0..100,
every other slot keeps its value. -/
theorem scanSlots_spec (env : Env) (incl listFlag : Bool) :
    ∀ (more idx : Nat) (s : State),
      SameLists s (scanSlots env incl listFlag more idx s) ∧
      (∀ k, idx ≤ k → k ≤ idx + more →
        (scanSlots env incl listFlag more idx s).scanRssiValuesArr (slotIndex listFlag k)
          ≤ 100) ∧
      (∀ j, (scanSlots env incl listFlag more idx s).scanRssiValuesArr j ≤ 100 ∨
        (scanSlots env incl listFlag more idx s).scanRssiValuesArr j = s.scanRssiValuesArr j) := by
  intro more
  induction more with
  | zero =>
    intro idx s
    have h := scanOneSlot_spec env incl listFlag idx s
    simp only [scanSlots]
    refine ⟨h.1, ?_, ?_⟩
    · intro k h1 h2
      have : k = idx := by omega
      subst this
      exact h.2.1
    · intro j
      by_cases hj : j = slotIndex listFlag idx
      · subst hj; exact Or.inl h.2.1
      · exact Or.inr (h.2.2.1 j hj)
  | succ m ih =>
    intro idx s
    have h := scanOneSlot_spec env incl listFlag idx s
    have h' := ih (idx + 1) (scanOneSlot env incl listFlag idx s)
    simp only [scanSlots]
    have hj : ∀ j, (scanSlots env incl listFlag m (idx + 1)
        (scanOneSlot env incl listFlag idx s)).scanRssiValuesArr j ≤ 100 ∨
        (scanSlots env incl listFlag m (idx + 1)
          (scanOneSlot env incl listFlag idx s)).scanRssiValuesArr j = s.scanRssiValuesArr j := by
      intro j
      rcases h'.2.2 j with h1 | h1
      · exact Or.inl h1
      · by_cases hj : j = slotIndex listFlag idx
        · left; rw [h1, hj]; exact h.2.1
        · right; rw [h1]; exact h.2.2.1 j hj
    refine ⟨h.1.transL h'.1, ?_, hj⟩
    intro k h1 h2
    by_cases hk : k = idx
    · subst hk
      rcases h'.2.2 (slotIndex listFlag k) with h3 | h3
      · exact h3
      · rw [h3]; exact h.2.1
    · exact h'.2.1 k (by omega) (by omega)

/-- The frequency-sorted table names every table index. -/
theorem channelSortTable_covers :
    ∀ i, i ≤ CHANNEL_MAX_INDEX → ∃ k, k ≤ CHANNEL_MAX_INDEX ∧ getChannelSortTableEntry k = i := by
  decide

/-- The loop indices of a scan reach every slot of the scanned range. -/
theorem slotIndex_covers (s : State) (inclAllFlag : Bool) :
    ∀ i, i ≤ (scanRange s inclAllFlag).2 →
      ∃ k, (scanRange s inclAllFlag).1 ≤ k ∧ k ≤ (scanRange s inclAllFlag).2 ∧
        slotIndex (decide (!inclAllFlag ∧ s.listFreqsMHzArrCount > 0)) k = i := by
  intro i hi
  rw [scanRange_fst]
  unfold scanRange at hi ⊢
  by_cases h : (!inclAllFlag) = true ∧ s.listFreqsMHzArrCount > 0
  · rw [if_pos h] at hi ⊢
    refine ⟨i, Nat.zero_le _, hi, ?_⟩
    simp [slotIndex, h]
  · rw [if_neg h] at hi ⊢
    obtain ⟨k, hk, hki⟩ := channelSortTable_covers i hi
    refine ⟨k, Nat.zero_le _, hk, ?_⟩
    simp only [slotIndex, h, decide_False, Bool.false_eq_true, if_false]
    exact hki

/-- What `scanChansGetRssiValues` does: the lists and the cursor are untouched,
the trace is extended beginning with the `Scanning` banner, and every slot of the
scanned range holds a value within 0..100. -/
theorem scanChansGetRssiValues_spec (env : Env) (s : State) (incl inclAllFlag restore : Bool) :
    SameLists s (scanChansGetRssiValues env s incl inclAllFlag restore) ∧
    List.IsSuffix (Event.scanning :: s.trace)
      (scanChansGetRssiValues env s incl inclAllFlag restore).trace ∧
    (∀ i, i ≤ (scanRange s inclAllFlag).2 →
      (scanChansGetRssiValues env s incl inclAllFlag restore).scanRssiValuesArr i ≤ 100) := by
  have h := scanSlots_spec env incl (decide (!inclAllFlag ∧ s.listFreqsMHzArrCount > 0))
    ((scanRange s inclAllFlag).2 - (scanRange s inclAllFlag).1) (scanRange s inclAllFlag).1
    { clearRssiOutput s with trace := Event.scanning :: (clearRssiOutput s).trace }
  have hscan : ∀ i, i ≤ (scanRange s inclAllFlag).2 →
      (scanSlots env incl (decide (!inclAllFlag ∧ s.listFreqsMHzArrCount > 0))
        ((scanRange s inclAllFlag).2 - (scanRange s inclAllFlag).1) (scanRange s inclAllFlag).1
        { clearRssiOutput s with
          trace := Event.scanning :: (clearRssiOutput s).trace }).scanRssiValuesArr i ≤ 100 := by
    intro i hi
    obtain ⟨k, hk1, hk2, hki⟩ := slotIndex_covers s inclAllFlag i hi
    rw [← hki]
    exact h.2.1 k hk1 (by omega)
  have hL : SameLists s (scanSlots env incl (decide (!inclAllFlag ∧ s.listFreqsMHzArrCount > 0))
        ((scanRange s inclAllFlag).2 - (scanRange s inclAllFlag).1) (scanRange s inclAllFlag).1
        { clearRssiOutput s with trace := Event.scanning :: (clearRssiOutput s).trace }) :=
    ⟨h.1.listArr, h.1.listCount, h.1.ranked, h.1.selected, h.1.selCount, h.1.cursor,
      (List.suffix_cons _ _).trans h.1.trace⟩
  unfold scanChansGetRssiValues
  simp only
  split
  · have hT := setCurrentFreqByMhzOrCode_engine env
      (scanSlots env incl (decide (!inclAllFlag ∧ s.listFreqsMHzArrCount > 0))
        ((scanRange s inclAllFlag).2 - (scanRange s inclAllFlag).1) (scanRange s inclAllFlag).1
        { clearRssiOutput s with trace := Event.scanning :: (clearRssiOutput s).trace })
      s.currentTunerFreqMhzOrCode
    refine ⟨hL.transL hT.toLists, h.1.trace.trans hT.trace, ?_⟩
    intro i hi
    unfold setTunerChannelToFreq
    rw [hT.scan]
    exact hscan i hi
  · exact ⟨hL, h.1.trace, hscan⟩

/-- After `loadIdxSortedByRssiArr` every index of the range stands among the
first `n` ranked entries. -/
theorem loadIdxSortedByRssiArr_mem (s : State) (inclAllFlag : Bool)
    (hcap : s.listFreqsMHzArrCount ≤ LISTFREQMHZ_ARR_SIZE)
    (hval : ∀ i, i ≤ (scanRange s inclAllFlag).2 → s.scanRssiValuesArr i < 255) :
    ∀ i, i ≤ (scanRange s inclAllFlag).2 →
      i ∈ arrTake (loadIdxSortedByRssiArr s inclAllFlag).idxSortedByRssiArr
        ((scanRange s inclAllFlag).2 + 1) := by
  have h := loadIdxSortedByRssiArr_spec s inclAllFlag hcap hval
  have hnd := rankedBefore_nodup _ _ h.1
  have hsub : arrTake (loadIdxSortedByRssiArr s inclAllFlag).idxSortedByRssiArr
      ((scanRange s inclAllFlag).2 + 1) ⊆ List.range ((scanRange s inclAllFlag).2 + 1) := by
    intro a ha
    exact List.mem_range.mpr (Nat.lt_succ_of_le (h.2.1 a ha))
  have hperm := (List.Nodup.subperm hnd hsub).perm_of_length_le
    (by rw [arrTake_length, List.length_range])
  intro i hi
  exact hperm.mem_iff.mpr (List.mem_range.mpr (Nat.lt_succ_of_le hi))

/-- After `loadIdxSortedByRssiArr` the first ranked entry is an index of the
range that holds the maximum of the scanned values. -/
theorem loadIdxSortedByRssiArr_head_max (s : State) (inclAllFlag : Bool)
    (hcap : s.listFreqsMHzArrCount ≤ LISTFREQMHZ_ARR_SIZE)
    (hval : ∀ i, i ≤ (scanRange s inclAllFlag).2 → s.scanRssiValuesArr i < 255) :
    (loadIdxSortedByRssiArr s inclAllFlag).idxSortedByRssiArr 0 ≤ (scanRange s inclAllFlag).2 ∧
    ∀ i, i ≤ (scanRange s inclAllFlag).2 →
      s.scanRssiValuesArr i ≤
        s.scanRssiValuesArr ((loadIdxSortedByRssiArr s inclAllFlag).idxSortedByRssiArr 0) := by
  have h := loadIdxSortedByRssiArr_spec s inclAllFlag hcap hval
  have hmem := loadIdxSortedByRssiArr_mem s inclAllFlag hcap hval
  have h0 : (loadIdxSortedByRssiArr s inclAllFlag).idxSortedByRssiArr 0 ∈
      arrTake (loadIdxSortedByRssiArr s inclAllFlag).idxSortedByRssiArr
        ((scanRange s inclAllFlag).2 + 1) := by
    simp only [arrTake, List.mem_map, List.mem_range]
    exact ⟨0, Nat.succ_pos _, rfl⟩
  refine ⟨h.2.1 _ h0, ?_⟩
  intro i hi
  have hi' := hmem i hi
  simp only [arrTake, List.mem_map, List.mem_range] at hi'
  obtain ⟨q, hq, hqi⟩ := hi'
  rcases Nat.eq_zero_or_pos q with hq0 | hq0
  · subst hq0; rw [← hqi]
  · have hp := h.1
    rw [List.pairwise_iff_getElem] at hp
    have := hp 0 q (by rw [arrTake_length]; omega) (by rw [arrTake_length]; omega) hq0
    rw [arrTake_getElem, arrTake_getElem] at this
    rw [← hqi]
    exact this.1

/-! ## Scan and report -/

theorem CursorOnly.reflC (s : State) : CursorOnly s s :=
  ⟨rfl, rfl, rfl, rfl, rfl, rfl, rfl, rfl⟩

theorem CursorOnly.transC {s t u : State} (h1 : CursorOnly s t) (h2 : CursorOnly t u) :
    CursorOnly s u :=
  ⟨h2.listArr.trans h1.listArr, h2.listCount.trans h1.listCount, h2.scan.trans h1.scan,
    h2.ranked.trans h1.ranked, h2.selected.trans h1.selected, h2.trace.trans h1.trace,
    h2.freqInMhz.trans h1.freqInMhz, h2.freqMhzOrCode.trans h1.freqMhzOrCode⟩

/-- The copy loop of the list branch copies the ranked entries `p .. p + more - 1`
and leaves the other positions. -/
theorem copyRanked_spec (ranked : Nat → Nat) :
    ∀ (more p : Nat) (sel : Nat → Nat),
      (∀ j, p ≤ j → j < p + more → copyRanked ranked more p sel j = ranked j) ∧
      (∀ j, j < p ∨ p + more ≤ j → copyRanked ranked more p sel j = sel j) := by
  intro more
  induction more with
  | zero =>
    intro p sel
    exact ⟨fun j h1 h2 => by omega, fun j _ => rfl⟩
  | succ m ih =>
    intro p sel
    have h := ih (p + 1) (setAt sel p (ranked p))
    simp only [copyRanked]
    constructor
    · intro j h1 h2
      by_cases hj : j = p
      · subst hj
        rw [h.2 j (Or.inl (Nat.lt_succ_self _)), setAt_same]
      · exact h.1 j (by omega) (by omega)
    · intro j hj
      rw [h.2 j (by omega)]
      exact setAt_other _ _ _ _ (by omega)

/-- The reporting loop entered with `firstFlag` false returns false, leaves the
cursor, and either leaves the count or cuts it to a position from `i` on. -/
theorem reportLoop_found (idxArr : Nat → Nat) (level : Int) (inclAllFlag : Bool) :
    ∀ (more i : Nat) (s : State),
      (reportLoop idxArr level inclAllFlag more i false s).1 = false ∧
      CursorOnly s (reportLoop idxArr level inclAllFlag more i false s).2 ∧
      (reportLoop idxArr level inclAllFlag more i false s).2.nextTuneChannelIndex =
        s.nextTuneChannelIndex ∧
      ((reportLoop idxArr level inclAllFlag more i false s).2.idxSortedSelArrCount =
          s.idxSortedSelArrCount ∨
        (i : Int) ≤ (reportLoop idxArr level inclAllFlag more i false s).2.idxSortedSelArrCount) := by
  intro more
  induction more with
  | zero => intro i s; exact ⟨rfl, CursorOnly.reflC s, rfl, Or.inl rfl⟩
  | succ m ih =>
    intro i s
    have e : reportLoop idxArr level inclAllFlag (m + 1) i false s =
        if (s.scanRssiValuesArr (idxArr i) : Int) ≥ level then
          reportLoop idxArr level inclAllFlag m (i + 1) false s
        else (false, if (!inclAllFlag) = true then { s with idxSortedSelArrCount := (i : Int) }
                     else s) := rfl
    rw [e]
    by_cases hge : (s.scanRssiValuesArr (idxArr i) : Int) ≥ level
    · rw [if_pos hge]
      have h := ih (i + 1) s
      refine ⟨h.1, h.2.1, h.2.2.1, ?_⟩
      rcases h.2.2.2 with h1 | h1
      · exact Or.inl h1
      · right; omega
    · rw [if_neg hge]
      by_cases hf : (!inclAllFlag) = true
      · rw [if_pos hf]
        exact ⟨rfl, ⟨rfl, rfl, rfl, rfl, rfl, rfl, rfl, rfl⟩, rfl, Or.inr (le_refl _)⟩
      · rw [if_neg hf]
        exact ⟨rfl, CursorOnly.reflC s, rfl, Or.inl rfl⟩

/-- The reporting loop entered with `firstFlag` true and at least one entry to
report: it returns false exactly when the first entry reaches the level; when
it does not, the cursor is cleared and (unless all frequencies are included) the
count is cut to the position. -/
theorem reportLoop_first (idxArr : Nat → Nat) (level : Int) (inclAllFlag : Bool)
    (more i : Nat) (s : State) :
    CursorOnly s (reportLoop idxArr level inclAllFlag (more + 1) i true s).2 ∧
    ((s.scanRssiValuesArr (idxArr i) : Int) ≥ level →
      (reportLoop idxArr level inclAllFlag (more + 1) i true s).1 = false ∧
      (reportLoop idxArr level inclAllFlag (more + 1) i true s).2.nextTuneChannelIndex =
        s.nextTuneChannelIndex ∧
      ((reportLoop idxArr level inclAllFlag (more + 1) i true s).2.idxSortedSelArrCount =
          s.idxSortedSelArrCount ∨
        (i : Int) + 1 ≤
          (reportLoop idxArr level inclAllFlag (more + 1) i true s).2.idxSortedSelArrCount)) ∧
    (¬ (s.scanRssiValuesArr (idxArr i) : Int) ≥ level →
      (reportLoop idxArr level inclAllFlag (more + 1) i true s).1 = true ∧
      (reportLoop idxArr level inclAllFlag (more + 1) i true s).2.nextTuneChannelIndex = -1 ∧
      (inclAllFlag = false →
        (reportLoop idxArr level inclAllFlag (more + 1) i true s).2.idxSortedSelArrCount =
          (i : Int))) := by
  have e : reportLoop idxArr level inclAllFlag (more + 1) i true s =
      if (s.scanRssiValuesArr (idxArr i) : Int) ≥ level then
        reportLoop idxArr level inclAllFlag more (i + 1) false s
      else (true, if (!inclAllFlag) = true then
                    { s with nextTuneChannelIndex := -1, idxSortedSelArrCount := (i : Int) }
                  else { s with nextTuneChannelIndex := -1 }) := rfl
  rw [e]
  by_cases hge : (s.scanRssiValuesArr (idxArr i) : Int) ≥ level
  · rw [if_pos hge]
    have h := reportLoop_found idxArr level inclAllFlag more (i + 1) s
    refine ⟨h.2.1, fun _ => ⟨h.1, h.2.2.1, ?_⟩, fun hn => absurd hge hn⟩
    rcases h.2.2.2 with h1 | h1
    · exact Or.inl h1
    · right; exact_mod_cast h1
  · rw [if_neg hge]
    by_cases hf : (!inclAllFlag) = true
    · rw [if_pos hf]
      exact ⟨⟨rfl, rfl, rfl, rfl, rfl, rfl, rfl, rfl⟩, fun h => absurd h hge,
        fun _ => ⟨rfl, rfl, fun _ => rfl⟩⟩
    · rw [if_neg hf]
      refine ⟨⟨rfl, rfl, rfl, rfl, rfl, rfl, rfl, rfl⟩, fun h => absurd h hge,
        fun _ => ⟨rfl, rfl, fun h => ?_⟩⟩
      subst h
      exact absurd rfl hf

/-- The selection always keeps the first ranked entry. -/
theorem loadIdxSortedSelectedArr_head (s : State) :
    1 ≤ (loadIdxSortedSelectedArr s).1 ∧
    (loadIdxSortedSelectedArr s).2.idxSortedSelArrCount = (loadIdxSortedSelectedArr s).1 ∧
    (loadIdxSortedSelectedArr s).2.idxSortedSelectedArr 0 = s.idxSortedByRssiArr 0 := by
  obtain ⟨n, hn1, hn2, hsel, _⟩ := loadIdxSortedSelectedArr_spec s
  rw [hn1, hn2]
  have hranked : arrTake s.idxSortedByRssiArr (CHANNEL_MAX_INDEX + 1) =
      s.idxSortedByRssiArr 0 ::
        (List.range' 1 CHANNEL_MAX_INDEX).map s.idxSortedByRssiArr := by
    simp [arrTake, List.range_eq_range', CHANNEL_MAX_INDEX, List.range']
  obtain ⟨t, _, he⟩ := greedySelect_head (s.idxSortedByRssiArr 0)
    ((List.range' 1 CHANNEL_MAX_INDEX).map s.idxSortedByRssiArr)
  have hn : 1 ≤ n := by
    have := congrArg List.length hsel
    rw [arrTake_length, hranked, he] at this
    simp at this
    omega
  refine ⟨by exact_mod_cast hn, rfl, ?_⟩
  have h1 : (arrTake (loadIdxSortedSelectedArr s).2.idxSortedSelectedArr n)[0]? =
      some (s.idxSortedByRssiArr 0) := by
    rw [hsel, hranked, he]; simp
  rw [List.getElem?_eq_getElem (by rw [arrTake_length]; omega), arrTake_getElem] at h1
  exact Option.some.inj h1

theorem loadIdxSortedSelectedArr_frame (s : State) :
    (loadIdxSortedSelectedArr s).2.listFreqsMHzArr = s.listFreqsMHzArr ∧
    (loadIdxSortedSelectedArr s).2.listFreqsMHzArrCount = s.listFreqsMHzArrCount ∧
    (loadIdxSortedSelectedArr s).2.scanRssiValuesArr = s.scanRssiValuesArr ∧
    (loadIdxSortedSelectedArr s).2.idxSortedByRssiArr = s.idxSortedByRssiArr ∧
    (loadIdxSortedSelectedArr s).2.nextTuneChannelIndex = s.nextTuneChannelIndex ∧
    (loadIdxSortedSelectedArr s).2.trace = s.trace ∧
    (loadIdxSortedSelectedArr s).2.currentTunerFreqInMhz = s.currentTunerFreqInMhz := by
  unfold loadIdxSortedSelectedArr
  exact ⟨rfl, rfl, rfl, rfl, rfl, rfl, rfl⟩

/-- The three branches that choose the reported array: its first entry is the
first ranked entry, there is at least one entry to report, and unless all
frequencies are included the count of selected entries is the number reported. -/
theorem chooseReported_spec (s : State) (inclAllFlag : Bool) :
    (if (chooseReported s inclAllFlag).2.2 then
        (chooseReported s inclAllFlag).1.idxSortedSelectedArr
      else (chooseReported s inclAllFlag).1.idxSortedByRssiArr) 0 = s.idxSortedByRssiArr 0 ∧
    0 ≤ (chooseReported s inclAllFlag).2.1 ∧
    (inclAllFlag = false →
      (chooseReported s inclAllFlag).2.2 = true ∧
      (chooseReported s inclAllFlag).1.idxSortedSelArrCount =
        (chooseReported s inclAllFlag).2.1 + 1) ∧
    (chooseReported s inclAllFlag).1.listFreqsMHzArr = s.listFreqsMHzArr ∧
    (chooseReported s inclAllFlag).1.listFreqsMHzArrCount = s.listFreqsMHzArrCount ∧
    (chooseReported s inclAllFlag).1.scanRssiValuesArr = s.scanRssiValuesArr ∧
    (chooseReported s inclAllFlag).1.idxSortedByRssiArr = s.idxSortedByRssiArr ∧
    (chooseReported s inclAllFlag).1.nextTuneChannelIndex = s.nextTuneChannelIndex ∧
    (chooseReported s inclAllFlag).1.trace = s.trace ∧
    (chooseReported s inclAllFlag).1.currentTunerFreqInMhz = s.currentTunerFreqInMhz := by
  unfold chooseReported
  by_cases ha : inclAllFlag = true
  · rw [if_pos ha]
    refine ⟨rfl, by simp [CHANNEL_MAX_INDEX], fun h => ?_, rfl, rfl, rfl, rfl, rfl, rfl, rfl⟩
    rw [ha] at h; cases h
  · rw [if_neg ha]
    by_cases hl : ¬ (s.listFreqsMHzArrCount > 0)
    · rw [if_pos hl]
      have h := loadIdxSortedSelectedArr_head s
      have hf := loadIdxSortedSelectedArr_frame s
      refine ⟨h.2.2, ?_, fun _ => ⟨rfl, ?_⟩, hf.1, hf.2.1, hf.2.2.1, hf.2.2.2.1, hf.2.2.2.2.1,
        hf.2.2.2.2.2.1, hf.2.2.2.2.2.2⟩
      · show 0 ≤ (loadIdxSortedSelectedArr s).1 - 1
        have := h.1
        omega
      · show (loadIdxSortedSelectedArr s).2.idxSortedSelArrCount =
          (loadIdxSortedSelectedArr s).1 - 1 + 1
        rw [h.2.1]; omega
    · rw [if_neg hl]
      have hpos : 0 < s.listFreqsMHzArrCount.toNat := by
        have : s.listFreqsMHzArrCount > 0 := by omega
        omega
      refine ⟨?_, ?_, fun _ => ⟨rfl, ?_⟩, rfl, rfl, rfl, rfl, rfl, rfl, rfl⟩
      · exact (copyRanked_spec s.idxSortedByRssiArr s.listFreqsMHzArrCount.toNat 0
          s.idxSortedSelectedArr).1 0 (le_refl _) (by omega)
      · show 0 ≤ s.listFreqsMHzArrCount - 1
        omega
      · show s.listFreqsMHzArrCount = s.listFreqsMHzArrCount - 1 + 1
        omega

theorem checkCursor_spec (s : State) (level : Int) :
    CursorOnly s (checkCursor s level) ∧
    (checkCursor s level).idxSortedSelArrCount = s.idxSortedSelArrCount ∧
    ((checkCursor s level).nextTuneChannelIndex = s.nextTuneChannelIndex ∨
      (checkCursor s level).nextTuneChannelIndex = -1) ∧
    (s.nextTuneChannelIndex = -1 → (checkCursor s level).nextTuneChannelIndex = -1) := by
  unfold checkCursor
  split
  · exact ⟨⟨rfl, rfl, rfl, rfl, rfl, rfl, rfl, rfl⟩, rfl, Or.inr rfl, fun _ => rfl⟩
  · exact ⟨CursorOnly.reflC s, rfl, Or.inl rfl, fun h => h⟩

/-- The reporting part of `scanChannelsAndReport`, entered with the scan results
ranked: it returns true exactly when the value of the first ranked entry reaches
`minRssiLevel` or `fallbackRssiLevel`; on failure the cursor is cleared and the
selected list is emptied; on success the selected list is not empty and starts
with the first ranked entry. -/
theorem reportScanned_spec (s : State) (minRssiLevel fallbackRssiLevel : Int)
    (inclAllFlag : Bool) (h0 : s.idxSortedByRssiArr 0 < LISTFREQMHZ_ARR_SIZE) :
    ((reportScanned s minRssiLevel fallbackRssiLevel inclAllFlag).1 = true ↔
      ((s.scanRssiValuesArr (s.idxSortedByRssiArr 0) : Int) ≥ minRssiLevel ∨
        (s.scanRssiValuesArr (s.idxSortedByRssiArr 0) : Int) ≥ fallbackRssiLevel)) ∧
    ((reportScanned s minRssiLevel fallbackRssiLevel inclAllFlag).1 = false →
      inclAllFlag = false →
      (reportScanned s minRssiLevel fallbackRssiLevel inclAllFlag).2.nextTuneChannelIndex = -1 ∧
      (reportScanned s minRssiLevel fallbackRssiLevel inclAllFlag).2.idxSortedSelArrCount = 0) ∧
    ((reportScanned s minRssiLevel fallbackRssiLevel inclAllFlag).1 = true →
      inclAllFlag = false →
      1 ≤ (reportScanned s minRssiLevel fallbackRssiLevel inclAllFlag).2.idxSortedSelArrCount ∧
      (reportScanned s minRssiLevel fallbackRssiLevel inclAllFlag).2.idxSortedSelectedArr 0 =
        s.idxSortedByRssiArr 0) ∧
    ((reportScanned s minRssiLevel fallbackRssiLevel inclAllFlag).2.nextTuneChannelIndex =
        s.nextTuneChannelIndex ∨
      (reportScanned s minRssiLevel fallbackRssiLevel inclAllFlag).2.nextTuneChannelIndex = -1) ∧
    (reportScanned s minRssiLevel fallbackRssiLevel inclAllFlag).2.listFreqsMHzArr =
      s.listFreqsMHzArr ∧
    (reportScanned s minRssiLevel fallbackRssiLevel inclAllFlag).2.listFreqsMHzArrCount =
      s.listFreqsMHzArrCount ∧
    (reportScanned s minRssiLevel fallbackRssiLevel inclAllFlag).2.scanRssiValuesArr =
      s.scanRssiValuesArr ∧
    (reportScanned s minRssiLevel fallbackRssiLevel inclAllFlag).2.idxSortedByRssiArr =
      s.idxSortedByRssiArr ∧
    (reportScanned s minRssiLevel fallbackRssiLevel inclAllFlag).2.trace = s.trace ∧
    (reportScanned s minRssiLevel fallbackRssiLevel inclAllFlag).2.currentTunerFreqInMhz =
      s.currentTunerFreqInMhz := by
  have hc := chooseReported_spec s inclAllFlag
  have hlevel : chooseLevel s minRssiLevel fallbackRssiLevel =
      if (s.scanRssiValuesArr (s.idxSortedByRssiArr 0) : Int) < minRssiLevel
      then fallbackRssiLevel else minRssiLevel := by
    unfold chooseLevel
    by_cases hlt : (s.scanRssiValuesArr (s.idxSortedByRssiArr 0) : Int) < minRssiLevel
    · rw [if_pos hlt, if_pos ⟨Nat.zero_le _, h0, hlt⟩]
    · rw [if_neg hlt, if_neg (fun h => hlt h.2.2)]
  unfold reportScanned
  simp only
  generalize chooseLevel s minRssiLevel fallbackRssiLevel = level at hlevel
  generalize chooseReported s inclAllFlag = c at hc
  obtain ⟨hc0, hcmax, hcsel, hclA, hclC, hcscan, hcrank, hccur, hctr, hcfreq⟩ := hc
  obtain ⟨k, hk⟩ : ∃ k, (c.2.1 + 1 - (CHANNEL_MIN_INDEX : Int)).toNat = k + 1 := by
    refine ⟨(c.2.1 + 1 - (CHANNEL_MIN_INDEX : Int)).toNat - 1, ?_⟩
    simp only [CHANNEL_MIN_INDEX]
    omega
  rw [hk]
  have hl := reportLoop_first
    (if c.2.2 then c.1.idxSortedSelectedArr else c.1.idxSortedByRssiArr) level inclAllFlag k
    CHANNEL_MIN_INDEX c.1
  rw [show CHANNEL_MIN_INDEX = 0 from rfl] at hl ⊢
  rw [hc0, hcscan] at hl
  generalize reportLoop (if c.2.2 then c.1.idxSortedSelectedArr else c.1.idxSortedByRssiArr)
    level inclAllFlag (k + 1) 0 true c.1 = r at hl
  obtain ⟨hco, hge, hlt⟩ := hl
  have hcc := checkCursor_spec r.2 level
  have hframe : (checkCursor r.2 level).listFreqsMHzArr = s.listFreqsMHzArr ∧
      (checkCursor r.2 level).listFreqsMHzArrCount = s.listFreqsMHzArrCount ∧
      (checkCursor r.2 level).scanRssiValuesArr = s.scanRssiValuesArr ∧
      (checkCursor r.2 level).idxSortedByRssiArr = s.idxSortedByRssiArr ∧
      (checkCursor r.2 level).trace = s.trace ∧
      (checkCursor r.2 level).currentTunerFreqInMhz = s.currentTunerFreqInMhz :=
    ⟨(hcc.1.listArr.trans hco.listArr).trans hclA,
      (hcc.1.listCount.trans hco.listCount).trans hclC,
      (hcc.1.scan.trans hco.scan).trans hcscan,
      (hcc.1.ranked.trans hco.ranked).trans hcrank,
      (hcc.1.trace.trans hco.trace).trans hctr,
      (hcc.1.freqInMhz.trans hco.freqInMhz).trans hcfreq⟩
  by_cases hM : (s.scanRssiValuesArr (s.idxSortedByRssiArr 0) : Int) ≥ level
  · obtain ⟨hr1, hr2, hr3⟩ := hge hM
    have hres : (!r.1) = true := by rw [hr1]; rfl
    refine ⟨⟨fun _ => ?_, fun _ => hres⟩, fun hf => ?_, fun _ hi => ⟨?_, ?_⟩, ?_, hframe⟩
    · rw [hlevel] at hM
      split at hM
      · exact Or.inr hM
      · exact Or.inl hM
    · rw [hres] at hf; cases hf
    · rw [hcc.2.1]
      have := (hcsel hi).2
      rcases hr3 with h | h
      · omega
      · simpa using h
    · rw [hcc.1.selected, hco.selected]
      have := hc0
      rw [(hcsel hi).1, if_pos rfl] at this
      exact this
    · rcases hcc.2.2.1 with h | h
      · left; rw [h, hr2, hccur]
      · exact Or.inr h
  · obtain ⟨hr1, hr2, hr3⟩ := hlt hM
    have hres : (!r.1) = false := by rw [hr1]; rfl
    refine ⟨⟨fun hf => ?_, fun hor => ?_⟩, fun _ hi => ⟨hcc.2.2.2 hr2, ?_⟩, fun hf => ?_,
      Or.inr (hcc.2.2.2 hr2), hframe⟩
    · rw [hres] at hf; cases hf
    · exfalso
      apply hM
      rw [hlevel]
      split
      · rcases hor with h | h
        · omega
        · exact h
      · omega
    · rw [hcc.2.1, hr3 hi]; rfl
    · rw [hres] at hf; cases hf

theorem scanRange_congr (s t : State) (inclAllFlag : Bool)
    (h : t.listFreqsMHzArrCount = s.listFreqsMHzArrCount) :
    scanRange t inclAllFlag = scanRange s inclAllFlag := by
  unfold scanRange
  rw [h]

/-- What `scanChannelsAndReport` does, for a user list within its capacity. -/
theorem scanChannelsAndReport_spec (env : Env) (s : State)
    (minRssiLevel fallbackRssiLevel : Int) (inclAllFlag restore : Bool)
    (hcap : s.listFreqsMHzArrCount ≤ LISTFREQMHZ_ARR_SIZE) :
    (scanChannelsAndReport env s minRssiLevel fallbackRssiLevel inclAllFlag
        restore).2.idxSortedByRssiArr 0 ≤ (scanRange s inclAllFlag).2 ∧
    (∀ i, i ≤ (scanRange s inclAllFlag).2 →
      (scanChannelsAndReport env s minRssiLevel fallbackRssiLevel inclAllFlag
          restore).2.scanRssiValuesArr i ≤
        (scanChannelsAndReport env s minRssiLevel fallbackRssiLevel inclAllFlag
            restore).2.scanRssiValuesArr
          ((scanChannelsAndReport env s minRssiLevel fallbackRssiLevel inclAllFlag
            restore).2.idxSortedByRssiArr 0)) ∧
    (∀ i, i ≤ (scanRange s inclAllFlag).2 →
      (scanChannelsAndReport env s minRssiLevel fallbackRssiLevel inclAllFlag
        restore).2.scanRssiValuesArr i ≤ 100) ∧
    ((scanChannelsAndReport env s minRssiLevel fallbackRssiLevel inclAllFlag restore).1 = true ↔
      (((scanChannelsAndReport env s minRssiLevel fallbackRssiLevel inclAllFlag
            restore).2.scanRssiValuesArr
          ((scanChannelsAndReport env s minRssiLevel fallbackRssiLevel inclAllFlag
            restore).2.idxSortedByRssiArr 0) : Int) ≥ minRssiLevel ∨
        ((scanChannelsAndReport env s minRssiLevel fallbackRssiLevel inclAllFlag
            restore).2.scanRssiValuesArr
          ((scanChannelsAndReport env s minRssiLevel fallbackRssiLevel inclAllFlag
            restore).2.idxSortedByRssiArr 0) : Int) ≥ fallbackRssiLevel)) ∧
    ((scanChannelsAndReport env s minRssiLevel fallbackRssiLevel inclAllFlag restore).1 = false →
      inclAllFlag = false →
      (scanChannelsAndReport env s minRssiLevel fallbackRssiLevel inclAllFlag
        restore).2.nextTuneChannelIndex = -1 ∧
      (scanChannelsAndReport env s minRssiLevel fallbackRssiLevel inclAllFlag
        restore).2.idxSortedSelArrCount = 0) ∧
    ((scanChannelsAndReport env s minRssiLevel fallbackRssiLevel inclAllFlag restore).1 = true →
      inclAllFlag = false →
      1 ≤ (scanChannelsAndReport env s minRssiLevel fallbackRssiLevel inclAllFlag
        restore).2.idxSortedSelArrCount ∧
      (scanChannelsAndReport env s minRssiLevel fallbackRssiLevel inclAllFlag
          restore).2.idxSortedSelectedArr 0 =
        (scanChannelsAndReport env s minRssiLevel fallbackRssiLevel inclAllFlag
          restore).2.idxSortedByRssiArr 0) ∧
    ((scanChannelsAndReport env s minRssiLevel fallbackRssiLevel inclAllFlag
          restore).2.nextTuneChannelIndex = s.nextTuneChannelIndex ∨
      (scanChannelsAndReport env s minRssiLevel fallbackRssiLevel inclAllFlag
          restore).2.nextTuneChannelIndex = -1) ∧
    (scanChannelsAndReport env s minRssiLevel fallbackRssiLevel inclAllFlag
        restore).2.listFreqsMHzArr = s.listFreqsMHzArr ∧
    (scanChannelsAndReport env s minRssiLevel fallbackRssiLevel inclAllFlag
        restore).2.listFreqsMHzArrCount = s.listFreqsMHzArrCount ∧
    List.IsSuffix (Event.scanning :: s.trace)
      (scanChannelsAndReport env s minRssiLevel fallbackRssiLevel inclAllFlag restore).2.trace ∧
    (∀ f, TunedTo (scanChansGetRssiValues env s USE_LBAND_FLAG inclAllFlag restore) f →
      TunedTo (scanChannelsAndReport env s minRssiLevel fallbackRssiLevel inclAllFlag
        restore).2 f) := by
  have h1 := scanChansGetRssiValues_spec env s USE_LBAND_FLAG inclAllFlag restore
  have hr := scanRange_congr s (scanChansGetRssiValues env s USE_LBAND_FLAG inclAllFlag restore)
    inclAllFlag h1.1.listCount
  have hcap1 : (scanChansGetRssiValues env s USE_LBAND_FLAG inclAllFlag
      restore).listFreqsMHzArrCount ≤ LISTFREQMHZ_ARR_SIZE := by
    rw [h1.1.listCount]; exact hcap
  have h2 := loadIdxSortedByRssiArr_head_max
    (scanChansGetRssiValues env s USE_LBAND_FLAG inclAllFlag restore) inclAllFlag hcap1
    (by intro i hi; rw [hr] at hi; have := h1.2.2 i hi; omega)
  rw [hr] at h2
  have hm := scanRange_snd_le s inclAllFlag hcap
  unfold scanChannelsAndReport
  simp only
  generalize hs1 : scanChansGetRssiValues env s USE_LBAND_FLAG inclAllFlag restore = s1
    at h1 h2 hr hcap1
  have h3 := reportScanned_spec
    { (millis env (loadIdxSortedByRssiArr s1 inclAllFlag)).2 with
      lastNextTuneScanTime := (millis env (loadIdxSortedByRssiArr s1 inclAllFlag)).1 }
    minRssiLevel fallbackRssiLevel inclAllFlag (lt_of_le_of_lt h2.1 hm)
  generalize reportScanned
    { (millis env (loadIdxSortedByRssiArr s1 inclAllFlag)).2 with
      lastNextTuneScanTime := (millis env (loadIdxSortedByRssiArr s1 inclAllFlag)).1 }
    minRssiLevel fallbackRssiLevel inclAllFlag = r at h3
  obtain ⟨hD, hE, hF, hG, hlA, hlC, hscan, hrank, htr, hfreq⟩ := h3
  have hscan' : r.2.scanRssiValuesArr = s1.scanRssiValuesArr := hscan
  have hrank' : r.2.idxSortedByRssiArr = (loadIdxSortedByRssiArr s1 inclAllFlag).idxSortedByRssiArr :=
    hrank
  have htr' : r.2.trace = s1.trace := htr
  have hfreq' : r.2.currentTunerFreqInMhz = s1.currentTunerFreqInMhz := hfreq
  rw [hscan', hrank']
  refine ⟨h2.1, h2.2, h1.2.2, hD, hE, ?_, ?_, ?_, ?_, ?_, ?_⟩
  · intro ht hi
    have := hF ht hi
    exact ⟨this.1, this.2⟩
  · rcases hG with h | h
    · left; rw [h]; exact h1.1.cursor
    · exact Or.inr h
  · exact hlA.trans h1.1.listArr
  · exact hlC.trans h1.1.listCount
  · rw [htr']; exact h1.2.1
  · intro f hf
    exact ⟨hfreq'.trans hf.1, by rw [htr']; exact hf.2⟩

/-- Claim C8.  `scanChannelsAndReport` returns true if and only if the maximum
RSSI scanned over the scanned range is at least `minRssiLevel` or at least
`fallbackRssiLevel`; when it returns false with `inclAllFlag` false,
`nextTuneChannelIndex` is -1 and `idxSortedSelArrCount` is 0.  (The user list
fits its array of `LISTFREQMHZ_ARR_SIZE` entries and, where it is copied into
`idxSortedSelectedArr`, the `CHANNEL_MAX_INDEX + 1` entries of that array.) -/
theorem C8_scan_report_result (env : Env) (s : State)
    (minRssiLevel fallbackRssiLevel : Int) (inclAllFlag restoreFreqFlag : Bool)
    (hcap : s.listFreqsMHzArrCount ≤ LISTFREQMHZ_ARR_SIZE)
    (_hsel : inclAllFlag = false → s.listFreqsMHzArrCount ≤ CHANNEL_MAX_INDEX + 1) :
    ∃ maxRssi : Nat,
      (∃ i, i ≤ (scanRange s inclAllFlag).2 ∧
        (scanChannelsAndReport env s minRssiLevel fallbackRssiLevel inclAllFlag
          restoreFreqFlag).2.scanRssiValuesArr i = maxRssi) ∧
      (∀ i, i ≤ (scanRange s inclAllFlag).2 →
        (scanChannelsAndReport env s minRssiLevel fallbackRssiLevel inclAllFlag
          restoreFreqFlag).2.scanRssiValuesArr i ≤ maxRssi) ∧
      ((scanChannelsAndReport env s minRssiLevel fallbackRssiLevel inclAllFlag
          restoreFreqFlag).1 = true ↔
        ((maxRssi : Int) ≥ minRssiLevel ∨ (maxRssi : Int) ≥ fallbackRssiLevel)) ∧
      ((scanChannelsAndReport env s minRssiLevel fallbackRssiLevel inclAllFlag
          restoreFreqFlag).1 = false → inclAllFlag = false →
        (scanChannelsAndReport env s minRssiLevel fallbackRssiLevel inclAllFlag
          restoreFreqFlag).2.nextTuneChannelIndex = -1 ∧
        (scanChannelsAndReport env s minRssiLevel fallbackRssiLevel inclAllFlag
          restoreFreqFlag).2.idxSortedSelArrCount = 0) := by
  have h := scanChannelsAndReport_spec env s minRssiLevel fallbackRssiLevel inclAllFlag
    restoreFreqFlag hcap
  exact ⟨_, ⟨_, h.1, rfl⟩, h.2.1, h.2.2.2.1, h.2.2.2.2.1⟩

/-- Witness for C8: a scan of the channel table from the initial state with a
silent receiver and levels 30 and 30. -/
theorem C8_scan_report_result_witness :
    initialState.listFreqsMHzArrCount ≤ LISTFREQMHZ_ARR_SIZE ∧
    (false = false → initialState.listFreqsMHzArrCount ≤ CHANNEL_MAX_INDEX + 1) ∧
    ∃ maxRssi : Nat,
      (∃ i, i ≤ (scanRange initialState false).2 ∧
        (scanChannelsAndReport idleEnv initialState 30 30 false
          true).2.scanRssiValuesArr i = maxRssi) ∧
      (∀ i, i ≤ (scanRange initialState false).2 →
        (scanChannelsAndReport idleEnv initialState 30 30 false
          true).2.scanRssiValuesArr i ≤ maxRssi) ∧
      ((scanChannelsAndReport idleEnv initialState 30 30 false true).1 = true ↔
        ((maxRssi : Int) ≥ 30 ∨ (maxRssi : Int) ≥ 30)) ∧
      ((scanChannelsAndReport idleEnv initialState 30 30 false true).1 = false →
        false = false →
        (scanChannelsAndReport idleEnv initialState 30 30 false
          true).2.nextTuneChannelIndex = -1 ∧
        (scanChannelsAndReport idleEnv initialState 30 30 false
          true).2.idxSortedSelArrCount = 0) :=
  ⟨by decide, by decide,
    C8_scan_report_result idleEnv initialState 30 30 false true (by decide) (by decide)⟩

/-! ## Frequency codes -/

/-- The code word of every table index is in the code-word range and decodes
to the frequency of the index. -/
theorem freqIdxToFreqCode_decodes :
    ∀ i, i ≤ CHANNEL_MAX_INDEX →
      FREQ_CODEWORD_CHECKVAL ≤ freqIdxToFreqCode (i : Int) ∧
      freqCodeWordToFreqInMhz (freqIdxToFreqCode (i : Int)) = getChannelFreqTableEntry i := by
  decide

theorem getIdxLoop_spec (freqVal : Nat) :
    ∀ (more idx : Nat), getIdxLoop freqVal more idx = -1 ∨
      ∃ i, i < idx + more ∧ getIdxLoop freqVal more idx = (i : Int) ∧
        getChannelFreqTableEntry i = freqVal := by
  intro more
  induction more with
  | zero => intro idx; exact Or.inl rfl
  | succ m ih =>
    intro idx
    simp only [getIdxLoop]
    split
    · rename_i h
      exact Or.inr ⟨idx, by omega, rfl, h⟩
    · rcases ih (idx + 1) with h | ⟨i, h1, h2, h3⟩
      · exact Or.inl h
      · exact Or.inr ⟨i, by omega, h2, h3⟩

/-- A frequency either has no code word, or has one that decodes to it. -/
theorem freqInMhzToFreqCode_spec (freqVal : Nat) :
    freqInMhzToFreqCode freqVal = 0 ∨
    (FREQ_CODEWORD_CHECKVAL ≤ freqInMhzToFreqCode freqVal ∧
      freqCodeWordToFreqInMhz (freqInMhzToFreqCode freqVal) = freqVal) := by
  unfold freqInMhzToFreqCode getIdxForFreqInMhz
  rcases getIdxLoop_spec freqVal (CHANNEL_MAX_INDEX + 1 - CHANNEL_MIN_INDEX) CHANNEL_MIN_INDEX
    with h | ⟨i, h1, h2, h3⟩
  · left; rw [h]; rfl
  · right
    rw [h2]
    have := freqIdxToFreqCode_decodes i
      (by simp only [CHANNEL_MAX_INDEX, CHANNEL_MIN_INDEX] at h1 ⊢; omega)
    rw [h3] at this
    exact this

/-- After `setCurrentFreqByMhzOrCode` with a code word the tuner is on the
frequency the code word stands for. -/
theorem setCurrentFreqByMhzOrCode_code (env : Env) (s : State) (v f : Nat)
    (hv : FREQ_CODEWORD_CHECKVAL ≤ v) (hf : freqCodeWordToFreqInMhz v = f) (hf0 : f ≠ 0) :
    TunedTo (setCurrentFreqByMhzOrCode env s v) f := by
  unfold setCurrentFreqByMhzOrCode TunedTo
  simp only [ge_iff_le, hv, if_true, hf, hf0, if_false]
  exact ⟨trivial, rfl⟩

/-! ## Auto-tune engine -/

/-- The loop of `doAutoScanTuneChannel` ends within two passes: the function
always returns. -/
theorem doAutoScanTuneChannel_returns (env : Env) (s : State) (minRssiLevel : Int)
    (scanAndTuneFirstFlag scanForwardFlag rescanOnSingleFlag : Bool) :
    ∃ s', doAutoScanTuneChannel env s minRssiLevel scanAndTuneFirstFlag scanForwardFlag
      rescanOnSingleFlag = some s' := by
  unfold doAutoScanTuneChannel
  simp only [doAutoScanTuneChannelLoop]
  split_ifs <;> exact ⟨_, rfl⟩

/-- The first out-of-range sample marks the time and sets the counter to 1. -/
theorem processAutoRssiCalValue_first (env : Env) (s : State) (rawVal : Nat)
    (h : outOfRange s rawVal) (hc : s.autoRssiCalibCounterValue = 0) :
    processAutoRssiCalValue env s rawVal =
      { (millis env s).2 with
        autoRssiCalibMarkedTime := (millis env s).1, autoRssiCalibCounterValue := 1 } := by
  unfold processAutoRssiCalValue
  rw [if_pos h, if_pos hc]

/-- A further out-of-range sample within the window, with the counter below 3,
only counts. -/
theorem processAutoRssiCalValue_count (env : Env) (s : State) (rawVal : Nat)
    (h : outOfRange s rawVal) (hc0 : s.autoRssiCalibCounterValue ≠ 0)
    (hc3 : s.autoRssiCalibCounterValue < 3)
    (ht : (millis env s).1 ≤ (s.autoRssiCalibMarkedTime + 5000) % 2 ^ 32) :
    processAutoRssiCalValue env s rawVal =
      { (millis env s).2 with
        autoRssiCalibCounterValue := (s.autoRssiCalibCounterValue + 1) % 256 } := by
  unfold processAutoRssiCalValue
  rw [if_pos h, if_neg hc0, if_pos ht, if_neg (by omega)]

/-- An out-of-range sample within the window that finds the counter at 3 or
more resets the counter and applies the adjustment. -/
theorem processAutoRssiCalValue_adjust (env : Env) (s : State) (rawVal : Nat)
    (h : outOfRange s rawVal) (hc3 : 3 ≤ s.autoRssiCalibCounterValue)
    (ht : (millis env s).1 ≤ (s.autoRssiCalibMarkedTime + 5000) % 2 ^ 32) :
    processAutoRssiCalValue env s rawVal =
      match calibAdjust s.rx5808RawRssiMin s.rx5808RawRssiMax rawVal with
      | none => { (millis env s).2 with autoRssiCalibCounterValue := 0 }
      | some (minVal, maxVal) =>
          saveRssiMinMaxValsToEeprom
            (setRx5808RawRssiMinMax { (millis env s).2 with autoRssiCalibCounterValue := 0 }
              minVal maxVal) := by
  unfold processAutoRssiCalValue
  rw [if_pos h, if_neg (by omega), if_pos ht, if_pos hc3]
  rfl

/-- The adjustment for a sample above the upper bound. -/
theorem calibAdjust_above (minVal maxVal rawVal : Nat) (hmin : minVal ≤ rawVal)
    (hmax : maxVal < rawVal) (hchk : CHK_RAWRSSI_MIN ≤ maxVal) (hraw : rawVal ≤ CHK_RAWRSSI_MAX) :
    calibAdjust minVal maxVal rawVal = some (minVal, maxVal + max 1 ((rawVal - maxVal) / 5)) := by
  unfold calibAdjust
  simp only [CHK_RAWRSSI_MIN, CHK_RAWRSSI_MAX] at *
  rw [if_neg (by omega)]
  have e1 : (rawVal + 65536 - maxVal) % 65536 = rawVal - maxVal := by omega
  simp only [e1]
  have e2 : (if (rawVal - maxVal) / 5 ≤ 0 then 1 else (rawVal - maxVal) / 5) =
      max 1 ((rawVal - maxVal) / 5) := by
    split_ifs with hz
    · omega
    · omega
  rw [e2]
  have e3 : (maxVal + max 1 ((rawVal - maxVal) / 5)) % 65536 =
      maxVal + max 1 ((rawVal - maxVal) / 5) := by omega
  rw [e3, if_neg (by omega)]

/-- Claim C11, counterexample.  In scenario B (samples 250, 260, 270 at 0, 1 and
2 s, bounds 180/200, counter 0) the upper bound is still 200 after the third
sample: it has not increased by at least 1. -/
theorem C11_third_sample_leaves_bounds :
    ¬ (200 + 1 ≤ (calibrationRun scenarioBEnv initialState
          [(5800, 250), (5800, 260), (5800, 270)]).rx5808RawRssiMax) ∧
    (calibrationRun scenarioBEnv initialState
        [(5800, 250), (5800, 260), (5800, 270)]).autoRssiCalibCounterValue = 3 := by
  decide

/-- What a counting call of `processAutoRssiCalValue` leaves unchanged. -/
theorem processAutoRssiCalValue_first_frame (env : Env) (s : State) (rawVal : Nat)
    (h : outOfRange s rawVal) (hc : s.autoRssiCalibCounterValue = 0) :
    (processAutoRssiCalValue env s rawVal).rx5808RawRssiMin = s.rx5808RawRssiMin ∧
    (processAutoRssiCalValue env s rawVal).rx5808RawRssiMax = s.rx5808RawRssiMax ∧
    (processAutoRssiCalValue env s rawVal).currentTunerFreqInMhz = s.currentTunerFreqInMhz ∧
    (processAutoRssiCalValue env s rawVal).eeprom = s.eeprom ∧
    (processAutoRssiCalValue env s rawVal).autoRssiCalibCounterValue = 1 ∧
    (processAutoRssiCalValue env s rawVal).autoRssiCalibMarkedTime =
      env.millis s.clockReads % 2 ^ 32 ∧
    (processAutoRssiCalValue env s rawVal).clockReads = s.clockReads + 1 := by
  rw [processAutoRssiCalValue_first env s rawVal h hc]
  exact ⟨rfl, rfl, rfl, rfl, rfl, rfl, rfl⟩

theorem processAutoRssiCalValue_count_frame (env : Env) (s : State) (rawVal : Nat)
    (h : outOfRange s rawVal) (hc0 : s.autoRssiCalibCounterValue ≠ 0)
    (hc3 : s.autoRssiCalibCounterValue < 3)
    (ht : env.millis s.clockReads % 2 ^ 32 ≤ (s.autoRssiCalibMarkedTime + 5000) % 2 ^ 32) :
    (processAutoRssiCalValue env s rawVal).rx5808RawRssiMin = s.rx5808RawRssiMin ∧
    (processAutoRssiCalValue env s rawVal).rx5808RawRssiMax = s.rx5808RawRssiMax ∧
    (processAutoRssiCalValue env s rawVal).currentTunerFreqInMhz = s.currentTunerFreqInMhz ∧
    (processAutoRssiCalValue env s rawVal).eeprom = s.eeprom ∧
    (processAutoRssiCalValue env s rawVal).autoRssiCalibCounterValue =
      s.autoRssiCalibCounterValue + 1 ∧
    (processAutoRssiCalValue env s rawVal).autoRssiCalibMarkedTime =
      s.autoRssiCalibMarkedTime ∧
    (processAutoRssiCalValue env s rawVal).clockReads = s.clockReads + 1 := by
  rw [processAutoRssiCalValue_count env s rawVal h hc0 hc3 ht]
  refine ⟨rfl, rfl, rfl, rfl, ?_, rfl, rfl⟩
  show (s.autoRssiCalibCounterValue + 1) % 256 = _
  omega

/-- Claim C11, as the code has it.  Starting with the counter at 0, three
out-of-range samples within 5 seconds of the first only count: after the third
the bounds and the EEPROM are unchanged and the counter is 3.  A fourth
out-of-range sample within the 5 seconds resets the counter and applies the
adjustment `calibAdjust`; for a sample above the upper bound (and not below the
lower one) the upper bound grows by `max 1 ((raw - max) / 5)`, which lies
between 1 and `raw - max`. -/
theorem C11_fourth_sample_adjusts (env : Env) (s : State) (r1 r2 r3 r4 : Nat)
    (hc : s.autoRssiCalibCounterValue = 0)
    (h1 : outOfRange s r1) (h2 : outOfRange s r2) (h3 : outOfRange s r3)
    (h4 : outOfRange s r4)
    (ht2 : env.millis (s.clockReads + 1) % 2 ^ 32 ≤
      (env.millis s.clockReads % 2 ^ 32 + 5000) % 2 ^ 32)
    (ht3 : env.millis (s.clockReads + 2) % 2 ^ 32 ≤
      (env.millis s.clockReads % 2 ^ 32 + 5000) % 2 ^ 32)
    (ht4 : env.millis (s.clockReads + 3) % 2 ^ 32 ≤
      (env.millis s.clockReads % 2 ^ 32 + 5000) % 2 ^ 32) :
    let s3 := processAutoRssiCalValue env
      (processAutoRssiCalValue env (processAutoRssiCalValue env s r1) r2) r3
    let s4 := processAutoRssiCalValue env s3 r4
    (s3.rx5808RawRssiMin = s.rx5808RawRssiMin ∧ s3.rx5808RawRssiMax = s.rx5808RawRssiMax ∧
      s3.eeprom = s.eeprom ∧ s3.autoRssiCalibCounterValue = 3) ∧
    s4.autoRssiCalibCounterValue = 0 ∧
    (∀ minVal maxVal,
      calibAdjust s.rx5808RawRssiMin s.rx5808RawRssiMax r4 = some (minVal, maxVal) →
        s4.rx5808RawRssiMin = minVal ∧ s4.rx5808RawRssiMax = maxVal) ∧
    (calibAdjust s.rx5808RawRssiMin s.rx5808RawRssiMax r4 = none →
        s4.rx5808RawRssiMin = s.rx5808RawRssiMin ∧
        s4.rx5808RawRssiMax = s.rx5808RawRssiMax) ∧
    (s.rx5808RawRssiMin ≤ r4 → s.rx5808RawRssiMax < r4 →
      CHK_RAWRSSI_MIN ≤ s.rx5808RawRssiMax →
        s4.rx5808RawRssiMax = s.rx5808RawRssiMax + max 1 ((r4 - s.rx5808RawRssiMax) / 5) ∧
        s.rx5808RawRssiMax + 1 ≤ s4.rx5808RawRssiMax ∧ s4.rx5808RawRssiMax ≤ r4) := by
  obtain ⟨a1, b1, f1, p1, c1, m1, k1⟩ := processAutoRssiCalValue_first_frame env s r1 h1 hc
  generalize processAutoRssiCalValue env s r1 = t1 at a1 b1 f1 p1 c1 m1 k1 ⊢
  obtain ⟨a2, b2, f2, p2, c2, m2, k2⟩ := processAutoRssiCalValue_count_frame env t1 r2
    (by unfold outOfRange; rw [a1, b1, f1]; exact h2) (by omega) (by omega)
    (by rw [k1, m1]; exact ht2)
  generalize processAutoRssiCalValue env t1 r2 = t2 at a2 b2 f2 p2 c2 m2 k2 ⊢
  obtain ⟨a3, b3, f3, p3, c3, m3, k3⟩ := processAutoRssiCalValue_count_frame env t2 r3
    (by unfold outOfRange; rw [a2, b2, f2, a1, b1, f1]; exact h3) (by omega) (by omega)
    (by rw [k2, k1, m2, m1]; exact ht3)
  generalize processAutoRssiCalValue env t2 r3 = t3 at a3 b3 f3 p3 c3 m3 k3 ⊢
  intro s3 s4
  have hmin3 : t3.rx5808RawRssiMin = s.rx5808RawRssiMin := by rw [a3, a2, a1]
  have hmax3 : t3.rx5808RawRssiMax = s.rx5808RawRssiMax := by rw [b3, b2, b1]
  have e4 := processAutoRssiCalValue_adjust env t3 r4
    (by unfold outOfRange; rw [hmin3, hmax3, f3, f2, f1]; exact h4) (by omega)
    (by show env.millis t3.clockReads % 2 ^ 32 ≤ _
        rw [k3, k2, k1, m3, m2, m1]; exact ht4)
  rw [hmin3, hmax3] at e4
  have hsome : ∀ minVal maxVal,
      calibAdjust s.rx5808RawRssiMin s.rx5808RawRssiMax r4 = some (minVal, maxVal) →
        s4.rx5808RawRssiMin = minVal ∧ s4.rx5808RawRssiMax = maxVal := by
    intro minVal maxVal hadj
    show (processAutoRssiCalValue env t3 r4).rx5808RawRssiMin = minVal ∧
      (processAutoRssiCalValue env t3 r4).rx5808RawRssiMax = maxVal
    rw [e4, hadj]
    simp only
    rw [saveRssiMinMaxValsToEeprom_min, saveRssiMinMaxValsToEeprom_max]
    exact ⟨rfl, rfl⟩
  refine ⟨⟨hmin3, hmax3, ?_, ?_⟩, ?_, hsome, ?_, ?_⟩
  · show t3.eeprom = _
    rw [p3, p2, p1]
  · show t3.autoRssiCalibCounterValue = 3
    omega
  · show (processAutoRssiCalValue env t3 r4).autoRssiCalibCounterValue = 0
    rw [e4]
    split
    · rfl
    · rfl
  · intro hnone
    show (processAutoRssiCalValue env t3 r4).rx5808RawRssiMin = _ ∧
      (processAutoRssiCalValue env t3 r4).rx5808RawRssiMax = _
    rw [e4, hnone]
    exact ⟨hmin3, hmax3⟩
  · intro hmin hmax hchk
    have hadj := calibAdjust_above s.rx5808RawRssiMin s.rx5808RawRssiMax r4 hmin hmax hchk h4.2.2
    have := (hsome _ _ hadj).2
    refine ⟨this, ?_, ?_⟩
    · rw [this]; omega
    · rw [this]; omega

/-- Scenario B continued: samples 250, 260, 270 and a fourth sample 270, one per
second, with the initial bounds 180/200; the fourth sample raises the upper
bound to 214. -/
theorem C11_fourth_sample_adjusts_witness :
    (processAutoRssiCalValue scenarioBEnv
      (processAutoRssiCalValue scenarioBEnv
        (processAutoRssiCalValue scenarioBEnv
          (processAutoRssiCalValue scenarioBEnv initialState 250) 260) 270)
      270).rx5808RawRssiMax = 200 + max 1 ((270 - 200) / 5) :=
  ((C11_fourth_sample_adjusts scenarioBEnv initialState 250 260 270 270 rfl
    (by decide) (by decide) (by decide) (by decide) (by decide) (by decide) (by decide)).2.2.2.2
    (by decide) (by decide) (by decide)).1

/-! ## Monitor mode -/

theorem toInt32_of_range (z : Int) (h1 : -2147483648 ≤ z) (h2 : z < 2147483648) :
    toInt32 z = z := by
  unfold toInt32
  omega

theorem toUInt32_of_range (z : Int) (h1 : 0 ≤ z) (h2 : z < 4294967296) :
    (toUInt32 z : Int) = z := by
  unfold toUInt32
  rw [Int.toNat_of_nonneg (by omega)]
  omega

/-- The wait of the monitor mode without the machine arithmetic: for an
interval that an `int` can hold and is not negative, nothing overflows. -/
theorem monitorTimeOffs_eq (m : MonitorVars) (s : State) (curRssi : Nat)
    (hint : 0 ≤ m.monitorModeIntervalSecs ∧ m.monitorModeIntervalSecs ≤ 32767)
    (hidx : s.idxSortedByRssiArr 0 < LISTFREQMHZ_ARR_SIZE) :
    monitorTimeOffs m s curRssi =
      if curRssi < 30 ∧ 50 ≤ s.scanRssiValuesArr (s.idxSortedByRssiArr 0) then
        m.monitorModeIntervalSecs * 1000 * (curRssi : Int) / 30
      else m.monitorModeIntervalSecs * 1000 := by
  obtain ⟨h0, h1⟩ := hint
  have e0 : toInt32 (m.monitorModeIntervalSecs * 1000) = m.monitorModeIntervalSecs * 1000 :=
    toInt32_of_range _ (by omega) (by omega)
  have c30 : Int.tdiv (MAX_RSSI_VAL * 3) 10 = 30 := by decide
  have c50 : Int.tdiv MAX_RSSI_VAL 2 = 50 := by decide
  unfold monitorTimeOffs
  simp only [e0, c30, c50]
  by_cases hlow : curRssi < 30
  · have hlow' : (curRssi : Int) < 30 := by omega
    rw [if_pos hlow']
    by_cases hbest : 50 ≤ s.scanRssiValuesArr (s.idxSortedByRssiArr 0)
    · have hbest' : (s.scanRssiValuesArr (s.idxSortedByRssiArr 0) : Int) ≥ 50 := by omega
      rw [if_pos ⟨Nat.zero_le _, hidx, hbest'⟩, if_pos ⟨hlow, hbest⟩]
      have hp0 : 0 ≤ m.monitorModeIntervalSecs * 1000 * (curRssi : Int) :=
        mul_nonneg (by omega) (by omega)
      have hp1 : m.monitorModeIntervalSecs * 1000 * (curRssi : Int) ≤ 32767000 * 29 := by
        have : m.monitorModeIntervalSecs * 1000 * (curRssi : Int) ≤ 32767000 * (curRssi : Int) :=
          mul_le_mul_of_nonneg_right (by omega) (by omega)
        omega
      have ei : toInt32 (m.monitorModeIntervalSecs * 1000 * (curRssi : Int)) =
          m.monitorModeIntervalSecs * 1000 * (curRssi : Int) :=
        toInt32_of_range _ (by omega) (by omega)
      rw [ei, Int.tdiv_eq_ediv hp0 (by norm_num)]
      exact toInt32_of_range _ (by omega) (by omega)
    · have hbest' : ¬ (s.scanRssiValuesArr (s.idxSortedByRssiArr 0) : Int) ≥ 50 := by omega
      rw [if_neg (fun h => hbest' h.2.2), if_neg (fun h => hbest h.2)]
  · have hlow' : ¬ (curRssi : Int) < 30 := by omega
    rw [if_neg hlow', if_neg (fun h => hlow h.1)]

/-- Claim C12.  With an interval between 0 and 32767 s, a first ranked index
within the array and no wrap of the 32-bit sum, the wait of
`monitorAutoTuneNextChan` is `monitorModeIntervalSecs * 1000` ms, except that
with the RSSI just read below 30 and the best scanned RSSI at least 50 it is
`monitorModeIntervalSecs * 1000 * RSSI / 30` ms (5000 ms for interval 10 s, RSSI
15 and best RSSI 60); the function steps to the next channel, by
`doAutoScanTuneChannel` in step mode, and records the time exactly when the
time read on entry exceeds `monitorModeNextChanTime` plus that wait, and
otherwise changes nothing but what reading the RSSI changes. -/
theorem C12_monitor_wait (env : Env) (m : MonitorVars) (s : State)
    (hint : 0 ≤ m.monitorModeIntervalSecs ∧ m.monitorModeIntervalSecs ≤ 32767)
    (hidx : s.idxSortedByRssiArr 0 < LISTFREQMHZ_ARR_SIZE)
    (hwrap : (m.monitorModeNextChanTime : Int) + m.monitorModeIntervalSecs * 1000 < 2 ^ 32) :
    let curTime := (millis env s).1
    let r := readRssiValue env (millis env s).2
    let wait : Int :=
      if r.1 < 30 ∧ 50 ≤ s.scanRssiValuesArr (s.idxSortedByRssiArr 0) then
        m.monitorModeIntervalSecs * 1000 * (r.1 : Int) / 30
      else m.monitorModeIntervalSecs * 1000
    monitorTimeOffs m r.2 r.1 = wait ∧
    (m.monitorModeIntervalSecs = 10 →
      s.scanRssiValuesArr (s.idxSortedByRssiArr 0) = 60 → r.1 = 15 → wait = 5000) ∧
    ((curTime : Int) > (m.monitorModeNextChanTime : Int) + wait →
      ∃ s', doAutoScanTuneChannel env r.2 m.sessionDefMinRssiLevel false true false = some s' ∧
        monitorAutoTuneNextChan env m s =
          some ({ m with monitorModeNextChanTime := curTime }, s')) ∧
    (¬ ((curTime : Int) > (m.monitorModeNextChanTime : Int) + wait) →
      monitorAutoTuneNextChan env m s = some (m, r.2)) := by
  intro curTime r wait
  have hq : Quiet s r.2 := (millis_quiet env s).transQ (readRssiValue_quiet env (millis env s).2)
  have hranked : r.2.idxSortedByRssiArr = s.idxSortedByRssiArr := hq.engine.ranked
  have hscan : r.2.scanRssiValuesArr = s.scanRssiValuesArr := hq.engine.scan
  have hw : monitorTimeOffs m r.2 r.1 = wait := by
    rw [monitorTimeOffs_eq m r.2 r.1 hint (by rw [hranked]; exact hidx), hranked, hscan]
  have hwait0 : 0 ≤ wait ∧ wait ≤ m.monitorModeIntervalSecs * 1000 := by
    by_cases hc : r.1 < 30 ∧ 50 ≤ s.scanRssiValuesArr (s.idxSortedByRssiArr 0)
    · have hwd : wait = m.monitorModeIntervalSecs * 1000 * (r.1 : Int) / 30 := if_pos hc
      rw [hwd]
      have hp0 : 0 ≤ m.monitorModeIntervalSecs * 1000 * (r.1 : Int) :=
        mul_nonneg (by omega) (by omega)
      have hp1 : m.monitorModeIntervalSecs * 1000 * (r.1 : Int) ≤
          m.monitorModeIntervalSecs * 1000 * 30 :=
        mul_le_mul_of_nonneg_left (by omega) (by omega)
      constructor
      · exact Int.ediv_nonneg hp0 (by norm_num)
      · omega
    · have hwd : wait = m.monitorModeIntervalSecs * 1000 := if_neg hc
      rw [hwd]
      omega
  have hsum : ((m.monitorModeNextChanTime + toUInt32 wait) % 2 ^ 32 : Nat) =
      ((m.monitorModeNextChanTime : Int) + wait).toNat := by
    have h1 := toUInt32_of_range wait hwait0.1 (by omega)
    have h2 : (2 : Int) ^ 32 = 4294967296 := by norm_num
    have h3 : (2 : Nat) ^ 32 = 4294967296 := by norm_num
    omega
  have hcmp : (curTime > (m.monitorModeNextChanTime + toUInt32 (monitorTimeOffs m r.2 r.1)) % 2 ^ 32)
      ↔ ((curTime : Int) > (m.monitorModeNextChanTime : Int) + wait) := by
    rw [hw, hsum]
    omega
  refine ⟨hw, ?_, ?_, ?_⟩
  · intro h10 h60 h15
    have hwd : wait = m.monitorModeIntervalSecs * 1000 * (r.1 : Int) / 30 :=
      if_pos ⟨by omega, by omega⟩
    rw [hwd, h10, h15]
    norm_num
  · intro hgt
    obtain ⟨s', hs'⟩ := doAutoScanTuneChannel_returns env r.2 m.sessionDefMinRssiLevel
      false true false
    refine ⟨s', hs', ?_⟩
    unfold monitorAutoTuneNextChan
    simp only
    rw [if_pos (hcmp.mpr hgt), hs']
  · intro hle
    unfold monitorAutoTuneNextChan
    simp only
    rw [if_neg (fun h => hle (hcmp.mp h))]

set_option maxRecDepth 100000 in
/-- Scenario D: interval 10 s, RSSI 15 read at 6000 ms, best scanned RSSI 60,
last change at 0 ms: the wait computed by the code is 5000 ms. -/
theorem C12_monitor_wait_witness :
    monitorTimeOffs scenarioDVars
      (readRssiValue scenarioDEnv (millis scenarioDEnv scenarioD).2).2
      (readRssiValue scenarioDEnv (millis scenarioDEnv scenarioD).2).1 = 5000 :=
  ((C12_monitor_wait scenarioDEnv scenarioDVars scenarioD (by decide) (by decide)
    (by decide)).1).trans
  ((C12_monitor_wait scenarioDEnv scenarioDVars scenarioD (by decide) (by decide)
    (by decide)).2.1 (by decide) (by decide) (by decide))

/-! ## Persistent settings -/

theorem writeByteToEeprom_eeprom (s : State) (addr val x : Nat) :
    (writeByteToEeprom s addr val).eeprom x = if x = addr then val % 256 else s.eeprom x := rfl

theorem writeWordToEeprom_eeprom (s : State) (addr val x : Nat) :
    (writeWordToEeprom s addr val).eeprom x =
      if x = addr + 1 then val / 256 % 256 else if x = addr then val % 256 else s.eeprom x := by
  unfold writeWordToEeprom
  rw [writeByteToEeprom_eeprom, writeByteToEeprom_eeprom]
  split_ifs <;> omega

/-- The erasing loop sets `more` bytes from `addr` on to `0xFF` and leaves the
others. -/
theorem eraseLoop_eeprom (more : Nat) :
    ∀ (addr : Nat) (s : State) (x : Nat),
      (eraseLoop more addr s).eeprom x =
        if addr ≤ x ∧ x < addr + more then 255 else s.eeprom x := by
  induction more with
  | zero =>
    intro addr s x
    rw [if_neg (by omega)]
    rfl
  | succ n ih =>
    intro addr s x
    show (eraseLoop n (addr + 1) (writeByteToEeprom s addr 0xFF)).eeprom x = _
    rw [ih, writeByteToEeprom_eeprom]
    split_ifs <;> first | rfl | omega

/-- The EEPROM left by `setEepromToDefaultsValues`. -/
theorem setEepromToDefaultsValues_eeprom (s : State) (x : Nat) :
    (setEepromToDefaultsValues s).eeprom x =
      if x = 9 then 0x52 else if x = 8 then 0x42
      else if x < EEPROM_USED_DATASIZE then 255 else s.eeprom x := by
  unfold setEepromToDefaultsValues
  rw [writeWordToEeprom_eeprom, eraseLoop_eeprom]
  simp only [EEPROM_ADRW_CHECKWORD, EEPROM_CHECK_VALUE, EEPROM_USED_DATASIZE,
    EEPROM_ADRA_FREQLIST, EEPROM_FLEN_FREQLIST]
  split_ifs <;> first | rfl | omega

/-- A loader that finds the erased byte pattern: the results of the loaders on a
state whose EEPROM holds `0xFF` at the addresses they read. -/
theorem loadButtonModeFromEeprom_default (s : State) (displayConnectedFlag : Bool)
    (h : s.eeprom EEPROM_ADRB_BTNMODE = 255) :
    loadButtonModeFromEeprom s displayConnectedFlag =
      (if displayConnectedFlag then BTNFN_MODE_WDISPDEF else BTNFN_MODE_NODISPDEF,
        writeByteToEeprom s EEPROM_ADRB_BTNMODE
          (if displayConnectedFlag then BTNFN_MODE_WDISPDEF else BTNFN_MODE_NODISPDEF)) := by
  unfold loadButtonModeFromEeprom readByteFromEeprom
  rw [h]
  rfl

theorem loadMinTuneTimeMsFromEeprom_default (s : State)
    (h : s.eeprom EEPROM_ADRB_MINTUNEMS = 255) :
    loadMinTuneTimeMsFromEeprom s =
      (RX5808_MIN_TUNETIME, writeByteToEeprom s EEPROM_ADRB_MINTUNEMS RX5808_MIN_TUNETIME) := by
  unfold loadMinTuneTimeMsFromEeprom readByteFromEeprom
  rw [h]
  rfl

theorem loadRssiMinMaxValsFromEeprom_default (s : State)
    (h0 : s.eeprom EEPROM_ADRW_RSSIMIN = 255) (h1 : s.eeprom (EEPROM_ADRW_RSSIMIN + 1) = 255) :
    loadRssiMinMaxValsFromEeprom s =
      setRx5808RawRssiMinMax
        (writeWordToEeprom (writeWordToEeprom s EEPROM_ADRW_RSSIMIN DEF_RAWRSSI_MIN)
          EEPROM_ADRW_RSSIMAX DEF_RAWRSSI_MAX)
        DEF_RAWRSSI_MIN DEF_RAWRSSI_MAX := by
  have hw : readWordFromEeprom s EEPROM_ADRW_RSSIMIN = 0xFFFF := by
    unfold readWordFromEeprom readByteFromEeprom
    rw [h0, h1]
  unfold loadRssiMinMaxValsFromEeprom
  simp only [hw]
  rw [if_pos (Or.inl trivial)]

theorem loadAutoRssiCalFlagFromEeprom_default (s : State)
    (h : s.eeprom EEPROM_ADRB_AUTOCAL = 255) :
    loadAutoRssiCalFlagFromEeprom s =
      (DEF_AUTOCAL_FLAG, saveAutoRssiCalFlagToEeprom s DEF_AUTOCAL_FLAG) := by
  unfold loadAutoRssiCalFlagFromEeprom readByteFromEeprom
  rw [h]
  rfl

theorem loadListFreqsMHzArrFromEeprom_default (s : State)
    (h0 : s.eeprom EEPROM_ADRA_FREQLIST = 255) (h1 : s.eeprom (EEPROM_ADRA_FREQLIST + 1) = 255) :
    loadListFreqsMHzArrFromEeprom s = { s with listFreqsMHzArrCount := 0 } := by
  have hw : readWordFromEeprom s EEPROM_ADRA_FREQLIST = 0xFFFF := by
    unfold readWordFromEeprom readByteFromEeprom
    rw [h0, h1]
  unfold loadListFreqsMHzArrFromEeprom readUint16ArrayFromEeprom
  simp only [hw]
  rw [if_pos (Or.inl (by decide))]

theorem loadFreqValFromEeprom_default (s : State)
    (h0 : s.eeprom EEPROM_ADRW_FREQ = 255) (h1 : s.eeprom (EEPROM_ADRW_FREQ + 1) = 255) :
    loadFreqValFromEeprom s = (DEFAULT_FREQ_MHZ, DEFAULT_FREQ_MHZ) := by
  have hw : readWordFromEeprom s EEPROM_ADRW_FREQ = 0xFFFF := by
    unfold readWordFromEeprom readByteFromEeprom
    rw [h0, h1]
  unfold loadFreqValFromEeprom
  simp only [hw]
  rfl

theorem unitId_default (s : State) (h : s.eeprom EEPROM_ADRS_UNITID = 255) :
    isUnitIdFromEepromEmpty s = true ∧ showUnitIdFromEeprom s = [] := by
  have hb : readByteFromEeprom s (EEPROM_ADRS_UNITID + 0) = 255 := by
    unfold readByteFromEeprom
    rw [Nat.add_zero, h]
  constructor
  · unfold isUnitIdFromEepromEmpty isStringFromEepromEmpty
    rw [Nat.add_zero] at hb
    rw [hb]
    rfl
  · unfold showUnitIdFromEeprom showStringFromEeprom showStringLoop
    simp only [hb]
    rfl

/-- The loaders in the order of `setup`, on an EEPROM holding `0xFF` in the
used region outside the check word. -/
theorem loaders_after_reset (s0 : State) (displayConnectedFlag : Bool) (e : Nat → Nat)
    (hE : ∀ x, s0.eeprom x =
      if x = 9 then 0x52 else if x = 8 then 0x42
      else if x < EEPROM_USED_DATASIZE then 255 else e x)
    (b : Nat × State) (t : Nat × State) (r : State) (a : Bool × State) (l : State)
    (hb : b = loadButtonModeFromEeprom s0 displayConnectedFlag)
    (ht : t = loadMinTuneTimeMsFromEeprom b.2)
    (hr : r = loadRssiMinMaxValsFromEeprom t.2)
    (ha : a = loadAutoRssiCalFlagFromEeprom r)
    (hl : l = loadListFreqsMHzArrFromEeprom a.2) :
    b.1 = (if displayConnectedFlag then BTNFN_MODE_WDISPDEF else BTNFN_MODE_NODISPDEF) ∧
    t.1 = RX5808_MIN_TUNETIME ∧
    r.rx5808RawRssiMin = DEF_RAWRSSI_MIN ∧ r.rx5808RawRssiMax = DEF_RAWRSSI_MAX ∧
    a.1 = true ∧
    l.listFreqsMHzArrCount = 0 ∧
    loadFreqValFromEeprom l = (DEFAULT_FREQ_MHZ, DEFAULT_FREQ_MHZ) ∧
    isUnitIdFromEepromEmpty l = true ∧ showUnitIdFromEeprom l = [] := by
  rw [loadButtonModeFromEeprom_default s0 displayConnectedFlag (by rw [hE]; rfl)] at hb
  have hbE : ∀ x, b.2.eeprom x =
      if x = EEPROM_ADRB_BTNMODE then
        (if displayConnectedFlag then BTNFN_MODE_WDISPDEF else BTNFN_MODE_NODISPDEF) % 256
      else s0.eeprom x := by
    intro x
    rw [hb]
    exact writeByteToEeprom_eeprom _ _ _ _
  rw [loadMinTuneTimeMsFromEeprom_default b.2 (by rw [hbE, hE]; rfl)] at ht
  have htE : ∀ x, t.2.eeprom x =
      if x = EEPROM_ADRB_MINTUNEMS then RX5808_MIN_TUNETIME % 256 else b.2.eeprom x := by
    intro x
    rw [ht]
    exact writeByteToEeprom_eeprom _ _ _ _
  rw [loadRssiMinMaxValsFromEeprom_default t.2 (by rw [htE, hbE, hE]; rfl)
    (by rw [htE, hbE, hE]; rfl)] at hr
  have hrE : ∀ x, r.eeprom x =
      if x = EEPROM_ADRW_RSSIMAX + 1 then DEF_RAWRSSI_MAX / 256 % 256
      else if x = EEPROM_ADRW_RSSIMAX then DEF_RAWRSSI_MAX % 256
      else if x = EEPROM_ADRW_RSSIMIN + 1 then DEF_RAWRSSI_MIN / 256 % 256
      else if x = EEPROM_ADRW_RSSIMIN then DEF_RAWRSSI_MIN % 256
      else t.2.eeprom x := by
    intro x
    rw [hr]
    show (writeWordToEeprom (writeWordToEeprom t.2 EEPROM_ADRW_RSSIMIN DEF_RAWRSSI_MIN)
      EEPROM_ADRW_RSSIMAX DEF_RAWRSSI_MAX).eeprom x = _
    rw [writeWordToEeprom_eeprom, writeWordToEeprom_eeprom]
  rw [loadAutoRssiCalFlagFromEeprom_default r (by rw [hrE, htE, hbE, hE]; rfl)] at ha
  have haE : ∀ x, a.2.eeprom x =
      if x = EEPROM_ADRB_AUTOCAL then (if DEF_AUTOCAL_FLAG then 1 else 0) % 256
      else r.eeprom x := by
    intro x
    rw [ha]
    exact writeByteToEeprom_eeprom _ _ _ _
  rw [loadListFreqsMHzArrFromEeprom_default a.2 (by rw [haE, hrE, htE, hbE, hE]; rfl)
    (by rw [haE, hrE, htE, hbE, hE]; rfl)] at hl
  have hlE : ∀ x, l.eeprom x = a.2.eeprom x := by
    intro x
    rw [hl]
  refine ⟨?_, ?_, ?_, ?_, ?_, ?_, ?_, ?_⟩
  · rw [hb]
  · rw [ht]
  · rw [hr]; rfl
  · rw [hr]; rfl
  · rw [ha]; rfl
  · rw [hl]
  · exact loadFreqValFromEeprom_default l (by rw [hlE, haE, hrE, htE, hbE, hE]; rfl)
      (by rw [hlE, haE, hrE, htE, hbE, hE]; rfl)
  · exact unitId_default l (by rw [hlE, haE, hrE, htE, hbE, hE]; rfl)

/-- Claim C13.  When the word at address 8 is not `0x5242`,
`checkEepromIntegrity` leaves `0xFF` in every byte of the used region
`[0, 148)` except the two bytes of the check word, written last, and touches no
byte beyond it; the loaders, called in the order of `setup`, then all give
their defaults: button mode 1 with a display and 2 without, minimum tune time
35 ms, raw bounds 180/200, automatic calibration enabled, an empty frequency
list, frequency 5800 MHz and an empty unit ID.  When the check word matches,
`checkEepromIntegrity` changes nothing. -/
theorem C13_integrity_reset_gives_defaults (s : State) (displayConnectedFlag : Bool) :
    (readWordFromEeprom s EEPROM_ADRW_CHECKWORD ≠ EEPROM_CHECK_VALUE →
      let s0 := checkEepromIntegrity s
      let b := loadButtonModeFromEeprom s0 displayConnectedFlag
      let t := loadMinTuneTimeMsFromEeprom b.2
      let r := loadRssiMinMaxValsFromEeprom t.2
      let a := loadAutoRssiCalFlagFromEeprom r
      let l := loadListFreqsMHzArrFromEeprom a.2
      ((∀ addr, addr < EEPROM_USED_DATASIZE →
          s0.eeprom addr = if addr = 9 then 0x52 else if addr = 8 then 0x42 else 0xFF) ∧
        (∀ addr, EEPROM_USED_DATASIZE ≤ addr → s0.eeprom addr = s.eeprom addr) ∧
        readWordFromEeprom s0 EEPROM_ADRW_CHECKWORD = EEPROM_CHECK_VALUE) ∧
      b.1 = (if displayConnectedFlag then BTNFN_MODE_WDISPDEF else BTNFN_MODE_NODISPDEF) ∧
      t.1 = RX5808_MIN_TUNETIME ∧
      r.rx5808RawRssiMin = DEF_RAWRSSI_MIN ∧ r.rx5808RawRssiMax = DEF_RAWRSSI_MAX ∧
      a.1 = true ∧
      l.listFreqsMHzArrCount = 0 ∧
      loadFreqValFromEeprom l = (DEFAULT_FREQ_MHZ, DEFAULT_FREQ_MHZ) ∧
      isUnitIdFromEepromEmpty l = true ∧ showUnitIdFromEeprom l = []) ∧
    (readWordFromEeprom s EEPROM_ADRW_CHECKWORD = EEPROM_CHECK_VALUE →
      checkEepromIntegrity s = s) := by
  constructor
  · intro hbad
    have e0 : checkEepromIntegrity s = setEepromToDefaultsValues s := by
      unfold checkEepromIntegrity
      rw [if_pos hbad]
    rw [e0]
    have hE := setEepromToDefaultsValues_eeprom s
    generalize setEepromToDefaultsValues s = s0 at hE
    refine ⟨⟨?_, ?_, ?_⟩, loaders_after_reset s0 displayConnectedFlag s.eeprom hE
      _ _ _ _ _ rfl rfl rfl rfl rfl⟩
    · intro addr haddr
      rw [hE, if_pos haddr]
    · intro addr haddr
      rw [hE]
      simp only [EEPROM_USED_DATASIZE, EEPROM_ADRA_FREQLIST, EEPROM_FLEN_FREQLIST] at haddr ⊢
      rw [if_neg (by omega), if_neg (by omega), if_neg (by omega)]
    · have h8 : s0.eeprom 8 = 0x42 := by rw [hE]; rfl
      have h9 : s0.eeprom 9 = 0x52 := by rw [hE]; rfl
      unfold readWordFromEeprom readByteFromEeprom
      simp only [EEPROM_ADRW_CHECKWORD, EEPROM_CHECK_VALUE, h8, h9]
  · intro hok
    unfold checkEepromIntegrity
    rw [if_neg (not_not.mpr hok)]

set_option maxRecDepth 100000 in
/-- An erased EEPROM is reset and gives the defaults; an EEPROM holding the
check word is left as it is. -/
theorem C13_integrity_reset_gives_defaults_witness :
    (loadFreqValFromEeprom
      (loadListFreqsMHzArrFromEeprom
        (loadAutoRssiCalFlagFromEeprom
          (loadRssiMinMaxValsFromEeprom
            (loadMinTuneTimeMsFromEeprom
              (loadButtonModeFromEeprom (checkEepromIntegrity initialState) true).2).2)).2) =
      (DEFAULT_FREQ_MHZ, DEFAULT_FREQ_MHZ)) ∧
    checkEepromIntegrity checkedState = checkedState :=
  ⟨((C13_integrity_reset_gives_defaults initialState true).1 (by decide)).2.2.2.2.2.2.2.1,
    (C13_integrity_reset_gives_defaults checkedState true).2 (by decide)⟩

/-! ## The stepping block in two parts -/

theorem stepAndTune_eq (env : Env) (s : State) (minRssiLevel : Int)
    (scanAndTuneFirstFlag scanForwardFlag rescanOnSingleFlag scanDoneFlag : Bool) :
    stepAndTune env s minRssiLevel scanAndTuneFirstFlag scanForwardFlag rescanOnSingleFlag
        scanDoneFlag =
      match stepLanding env s scanForwardFlag with
      | some (freqVal, rssiVal, t) =>
          judgeStep minRssiLevel scanAndTuneFirstFlag rescanOnSingleFlag scanDoneFlag
            freqVal rssiVal t
      | none =>
          (false,
            { s with
              nextTuneChannelIndex :=
                stepCursor scanForwardFlag s.nextTuneChannelIndex s.idxSortedSelArrCount }) := by
  unfold stepAndTune stepLanding
  dsimp only
  by_cases h1 : stepCursor scanForwardFlag s.nextTuneChannelIndex s.idxSortedSelArrCount <
      s.idxSortedSelArrCount
  · rw [if_pos h1, if_pos h1]
    by_cases h2 : cursorFreq
          { s with
            nextTuneChannelIndex :=
              stepCursor scanForwardFlag s.nextTuneChannelIndex s.idxSortedSelArrCount } ≥
          MIN_CHANNEL_MHZ ∧
        cursorFreq
          { s with
            nextTuneChannelIndex :=
              stepCursor scanForwardFlag s.nextTuneChannelIndex s.idxSortedSelArrCount } ≤
          MAX_CHANNEL_MHZ
    · rw [if_pos h2, if_pos h2]
      rfl
    · rw [if_neg h2, if_neg h2]
  · rw [if_neg h1, if_neg h1]

/-! ## Operations that do not scan -/

theorem count_scanning_cons (e : Event) (tr : List Event) (h : e ≠ Event.scanning) :
    (e :: tr).count Event.scanning = tr.count Event.scanning := by
  rw [List.count_cons]
  simp [h]

theorem NoScan.reflN (s : State) : NoScan s s := ⟨rfl, rfl⟩

theorem NoScan.transN {s t u : State} (h1 : NoScan s t) (h2 : NoScan t u) : NoScan s u :=
  ⟨h2.scanTime.trans h1.scanTime, h2.banners.trans h1.banners⟩

theorem millis_noScan (env : Env) (s : State) : NoScan s (millis env s).2 := ⟨rfl, rfl⟩

theorem analogRead_noScan (env : Env) (s : State) : NoScan s (analogRead env s).2 := ⟨rfl, rfl⟩

theorem writeByteToEeprom_noScan (s : State) (addr val : Nat) :
    NoScan s (writeByteToEeprom s addr val) :=
  ⟨rfl, count_scanning_cons _ _ (by intro h; cases h)⟩

theorem writeWordToEeprom_noScan (s : State) (addr val : Nat) :
    NoScan s (writeWordToEeprom s addr val) :=
  (writeByteToEeprom_noScan s _ _).transN (writeByteToEeprom_noScan _ _ _)

theorem saveRssiMinMaxValsToEeprom_noScan (s : State) :
    NoScan s (saveRssiMinMaxValsToEeprom s) :=
  (writeWordToEeprom_noScan s _ _).transN (writeWordToEeprom_noScan _ _ _)

theorem processAutoRssiCalValue_noScan (env : Env) (s : State) (rawVal : Nat) :
    NoScan s (processAutoRssiCalValue env s rawVal) := by
  unfold processAutoRssiCalValue
  split_ifs
  · exact ⟨rfl, rfl⟩
  · simp only
    split
    · exact ⟨rfl, rfl⟩
    · exact NoScan.transN (t := setRx5808RawRssiMinMax
        { (millis env s).2 with autoRssiCalibCounterValue := 0 } _ _)
        ⟨rfl, rfl⟩ (saveRssiMinMaxValsToEeprom_noScan _)
  · exact ⟨rfl, rfl⟩
  · exact ⟨rfl, rfl⟩
  · exact ⟨rfl, rfl⟩

theorem sumRssiReads_noScan (env : Env) :
    ∀ (n : Nat) (rssiA : Int) (s : State), NoScan s (sumRssiReads env n rssiA s).2 := by
  intro n
  induction n with
  | zero => intro rssiA s; exact NoScan.reflN s
  | succ n ih =>
    intro rssiA s
    simp only [sumRssiReads]
    exact (analogRead_noScan env s).transN (ih _ _)

theorem readRawRssiValue_noScan (env : Env) (s : State) :
    NoScan s (readRawRssiValue env s).2 :=
  (analogRead_noScan env s).transN (sumRssiReads_noScan env _ _ _)

theorem readRssiValue_noScan (env : Env) (s : State) : NoScan s (readRssiValue env s).2 := by
  have h1 := readRawRssiValue_noScan env s
  unfold readRssiValue
  simp only
  split
  · have h2 := processAutoRssiCalValue_noScan env (readRawRssiValue env s).2
      (readRawRssiValue env s).1
    exact (h1.transN h2).transN ⟨rfl, count_scanning_cons _ _ (by intro h; cases h)⟩
  · exact h1.transN ⟨rfl, count_scanning_cons _ _ (by intro h; cases h)⟩

theorem waitRssiReady_noScan (env : Env) (s : State) : NoScan s (waitRssiReady env s) :=
  ⟨rfl, rfl⟩

theorem setCurrentFreqByMhzOrCode_noScan (env : Env) (s : State) (v : Nat) :
    NoScan s (setCurrentFreqByMhzOrCode env s v) :=
  ⟨rfl, count_scanning_cons _ _ (by intro h; cases h)⟩

/-- The tuner variable after `setCurrentFreqByMhzOrCode` with a frequency in
MHz, or with the code word of a frequency. -/
theorem getCurrentFreqInMhz_of_set (s : State) (f : Nat) (h : s.currentTunerFreqInMhz = f)
    (hf : 0 < f) : getCurrentFreqInMhz s = f := by
  unfold getCurrentFreqInMhz
  rw [h, if_pos hf]

theorem getCurrentFreqInMhz_congr (s t : State)
    (h1 : t.currentTunerFreqInMhz = s.currentTunerFreqInMhz)
    (h2 : t.currentTunerFreqMhzOrCode = s.currentTunerFreqMhzOrCode) :
    getCurrentFreqInMhz t = getCurrentFreqInMhz s := by
  unfold getCurrentFreqInMhz
  rw [h1, h2]

/-- The tuning step of the stepping block: afterwards the current frequency is
the one asked for, and no scan was made. -/
theorem tuneIfDifferent_spec (env : Env) (s1 : State) (f : Nat)
    (hvalid : f ≥ MIN_CHANNEL_MHZ ∧ f ≤ MAX_CHANNEL_MHZ) (s2 : State)
    (hs2 : s2 = (if f ≠ getCurrentFreqInMhz s1 then
            if freqInMhzToFreqCode f ≠ 0 then
              setTunerChannelToFreq env s1 (freqInMhzToFreqCode f)
            else setTunerChannelToFreq env s1 f
          else s1)) :
    SameEngine s1 s2 ∧ NoScan s1 s2 ∧ getCurrentFreqInMhz s2 = f := by
  have hf0 : 0 < f := by
    simp only [MIN_CHANNEL_MHZ] at hvalid
    omega
  rw [hs2]
  split
  · split
    · rename_i hcode
      rcases freqInMhzToFreqCode_spec f with h | ⟨h1, h2⟩
      · exact absurd h hcode
      · exact ⟨setCurrentFreqByMhzOrCode_engine _ _ _, setCurrentFreqByMhzOrCode_noScan _ _ _,
          getCurrentFreqInMhz_of_set _ f
            (setCurrentFreqByMhzOrCode_code env _ _ _ h1 h2 (by omega)).1 hf0⟩
    · exact ⟨setCurrentFreqByMhzOrCode_engine _ _ _, setCurrentFreqByMhzOrCode_noScan _ _ _,
        getCurrentFreqInMhz_of_set _ f
          (setCurrentFreqByMhzOrCode_mhz env _ _
            (by simp only [MAX_CHANNEL_MHZ, FREQ_CODEWORD_CHECKVAL] at hvalid ⊢; omega)).1 hf0⟩
  · rename_i heq
    exact ⟨SameEngine.reflE _, NoScan.reflN _, (not_not.mp heq).symm⟩

/-- What a landing is: the cursor is stepped within the list, the frequency is
the one of the entry under it and is tunable, the tuner is on it, the RSSI is
within 0..100, the lists are unchanged and no scan was made. -/
theorem stepLanding_spec (env : Env) (s : State) (scanForwardFlag : Bool)
    (f rssi : Nat) (t : State) (h : stepLanding env s scanForwardFlag = some (f, rssi, t)) :
    stepCursor scanForwardFlag s.nextTuneChannelIndex s.idxSortedSelArrCount <
      s.idxSortedSelArrCount ∧
    f = channelFreqOf s (s.idxSortedSelectedArr
      (stepCursor scanForwardFlag s.nextTuneChannelIndex s.idxSortedSelArrCount).toNat) ∧
    (f ≥ MIN_CHANNEL_MHZ ∧ f ≤ MAX_CHANNEL_MHZ) ∧
    rssi ≤ 100 ∧
    SameEngine
      { s with
        nextTuneChannelIndex :=
          stepCursor scanForwardFlag s.nextTuneChannelIndex s.idxSortedSelArrCount } t ∧
    NoScan s t ∧ getCurrentFreqInMhz t = f := by
  unfold stepLanding at h
  dsimp only at h
  by_cases h1 : stepCursor scanForwardFlag s.nextTuneChannelIndex s.idxSortedSelArrCount <
      s.idxSortedSelArrCount
  · rw [if_pos h1] at h
    by_cases h2 : cursorFreq
          { s with
            nextTuneChannelIndex :=
              stepCursor scanForwardFlag s.nextTuneChannelIndex s.idxSortedSelArrCount } ≥
          MIN_CHANNEL_MHZ ∧
        cursorFreq
          { s with
            nextTuneChannelIndex :=
              stepCursor scanForwardFlag s.nextTuneChannelIndex s.idxSortedSelArrCount } ≤
          MAX_CHANNEL_MHZ
    · rw [if_pos h2] at h
      generalize hs2def : (if cursorFreq
            { s with
              nextTuneChannelIndex :=
                stepCursor scanForwardFlag s.nextTuneChannelIndex s.idxSortedSelArrCount } ≠
            getCurrentFreqInMhz
              { s with
                nextTuneChannelIndex :=
                  stepCursor scanForwardFlag s.nextTuneChannelIndex s.idxSortedSelArrCount } then
          if freqInMhzToFreqCode (cursorFreq
              { s with
                nextTuneChannelIndex :=
                  stepCursor scanForwardFlag s.nextTuneChannelIndex s.idxSortedSelArrCount }) ≠ 0
          then
            setTunerChannelToFreq env
              { s with
                nextTuneChannelIndex :=
                  stepCursor scanForwardFlag s.nextTuneChannelIndex s.idxSortedSelArrCount }
              (freqInMhzToFreqCode (cursorFreq
                { s with
                  nextTuneChannelIndex :=
                    stepCursor scanForwardFlag s.nextTuneChannelIndex s.idxSortedSelArrCount }))
          else
            setTunerChannelToFreq env
              { s with
                nextTuneChannelIndex :=
                  stepCursor scanForwardFlag s.nextTuneChannelIndex s.idxSortedSelArrCount }
              (cursorFreq
                { s with
                  nextTuneChannelIndex :=
                    stepCursor scanForwardFlag s.nextTuneChannelIndex s.idxSortedSelArrCount })
        else
          { s with
            nextTuneChannelIndex :=
              stepCursor scanForwardFlag s.nextTuneChannelIndex s.idxSortedSelArrCount }) = s2
        at h
      obtain ⟨he2, hn2, hc2⟩ := tuneIfDifferent_spec env _ _ h2 s2 hs2def.symm
      have hq := (waitRssiReady_quiet env s2).transQ
        (readRssiValue_quiet env (waitRssiReady env s2))
      have hn := (waitRssiReady_noScan env s2).transN
        (readRssiValue_noScan env (waitRssiReady env s2))
      have hv := (readRssiValue_value env (waitRssiReady env s2)).1
      generalize readRssiValue env (waitRssiReady env s2) = r at h hq hn hv
      simp only [Option.some.injEq, Prod.mk.injEq] at h
      obtain ⟨hf, hrssi, ht⟩ := h
      subst ht
      refine ⟨h1, hf.symm, ?_, ?_, he2.transE hq.engine, ?_, ?_⟩
      · rw [← hf]; exact h2
      · omega
      · exact NoScan.transN (t := s2) ⟨hn2.scanTime, hn2.banners⟩ hn
      · rw [getCurrentFreqInMhz_congr s2 r.2 hq.freqInMhz hq.freqMhzOrCode, hc2, hf]
    · rw [if_neg h2] at h
      cases h
  · rw [if_neg h1] at h
    cases h

/-- A landing exists whenever the stepped cursor is within the list and the
frequency under it is tunable. -/
theorem stepLanding_some (env : Env) (s : State) (scanForwardFlag : Bool)
    (h1 : stepCursor scanForwardFlag s.nextTuneChannelIndex s.idxSortedSelArrCount <
      s.idxSortedSelArrCount)
    (h2 : channelFreqOf s (s.idxSortedSelectedArr
          (stepCursor scanForwardFlag s.nextTuneChannelIndex s.idxSortedSelArrCount).toNat) ≥
        MIN_CHANNEL_MHZ ∧
      channelFreqOf s (s.idxSortedSelectedArr
          (stepCursor scanForwardFlag s.nextTuneChannelIndex s.idxSortedSelArrCount).toNat) ≤
        MAX_CHANNEL_MHZ) :
    ∃ rssi t, stepLanding env s scanForwardFlag =
      some (channelFreqOf s (s.idxSortedSelectedArr
        (stepCursor scanForwardFlag s.nextTuneChannelIndex s.idxSortedSelArrCount).toNat),
        rssi, t) := by
  unfold stepLanding
  dsimp only
  rw [if_pos h1]
  have h2' : cursorFreq
        { s with
          nextTuneChannelIndex :=
            stepCursor scanForwardFlag s.nextTuneChannelIndex s.idxSortedSelArrCount } ≥
        MIN_CHANNEL_MHZ ∧
      cursorFreq
        { s with
          nextTuneChannelIndex :=
            stepCursor scanForwardFlag s.nextTuneChannelIndex s.idxSortedSelArrCount } ≤
        MAX_CHANNEL_MHZ := h2
  rw [if_pos h2']
  exact ⟨_, _, rfl⟩

/-- The guard of the stepping block changes nothing but the count of clock
readings. -/
theorem stepGuard_frame (env : Env) (s : State) (minRssiLevel : Int)
    (scanAndTuneFirstFlag scanDoneFlag : Bool) :
    Quiet s (stepGuard env s minRssiLevel scanAndTuneFirstFlag scanDoneFlag).2 ∧
    NoScan s (stepGuard env s minRssiLevel scanAndTuneFirstFlag scanDoneFlag).2 := by
  unfold stepGuard
  split_ifs
  · exact ⟨Quiet.reflQ s, NoScan.reflN s⟩
  · exact ⟨Quiet.reflQ s, NoScan.reflN s⟩
  · exact ⟨millis_quiet env s, millis_noScan env s⟩
  · exact ⟨Quiet.reflQ s, NoScan.reflN s⟩

/-- In step mode the guard lets the step through whenever the list has more
than one entry and the last scan is recent (or a user list is stepped with a
level of 0 or less): the cursor is not looked at. -/
theorem stepGuard_step (env : Env) (s : State) (minRssiLevel : Int)
    (hcnt : 1 < s.idxSortedSelArrCount)
    (hfresh : (minRssiLevel ≤ 0 ∧ s.listFreqsMHzArrCount > 0) ∨
      env.millis s.clockReads % 2 ^ 32 <
        (s.lastNextTuneScanTime + NEXT_CHAN_RESCANSECS * 1000) % 2 ^ 32) :
    (stepGuard env s minRssiLevel false false).1 = true := by
  unfold stepGuard
  rw [if_neg (by decide), if_pos ⟨by decide, hcnt⟩]
  by_cases hl : minRssiLevel ≤ 0 ∧ s.listFreqsMHzArrCount > 0
  · rw [if_pos hl]
  · rw [if_neg hl]
    rcases hfresh with h | h
    · exact absurd h hl
    · dsimp only [millis]
      rw [decide_eq_true_eq]
      exact h

/-- `doAutoScanTuneChannel` in step mode: the guarded step, and where it is not
final the rescan followed by a second step. -/
theorem doAutoScanTuneChannel_step (env : Env) (s : State) (minRssiLevel : Int)
    (scanForwardFlag rescanOnSingleFlag : Bool) (t : Bool × State)
    (ht : t = if (stepGuard env s minRssiLevel false false).1 then
        stepAndTune env (stepGuard env s minRssiLevel false false).2 minRssiLevel false
          scanForwardFlag rescanOnSingleFlag false
      else (false, (stepGuard env s minRssiLevel false false).2)) :
    doAutoScanTuneChannel env s minRssiLevel false scanForwardFlag rescanOnSingleFlag =
      if t.1 then some t.2
      else if !(scanChannelsAndReport env { t.2 with nextTuneChannelIndex := -1 } minRssiLevel
          minRssiLevel false false).1 then
        some (setTunerChannelToFreq env
          (scanChannelsAndReport env { t.2 with nextTuneChannelIndex := -1 } minRssiLevel
            minRssiLevel false false).2 t.2.currentTunerFreqMhzOrCode)
      else
        some (stepAndTune env
          (scanChannelsAndReport env { t.2 with nextTuneChannelIndex := -1 } minRssiLevel
            minRssiLevel false false).2 minRssiLevel false scanForwardFlag rescanOnSingleFlag
          true).2 := by
  unfold doAutoScanTuneChannel
  rw [doAutoScanTuneChannelLoop]
  dsimp only
  rw [← ht]
  by_cases h1 : t.1 = true
  · rw [if_pos h1, if_pos h1]
  · rw [if_neg h1, if_neg h1, if_neg (by decide)]
    simp only [Bool.false_eq_true, if_false]
    by_cases h2 : (scanChannelsAndReport env { t.2 with nextTuneChannelIndex := -1 } minRssiLevel
          minRssiLevel false false).1 = true
    · simp only [h2, Bool.not_true, Bool.false_eq_true, if_false]
      rw [doAutoScanTuneChannelLoop]
      simp only [stepGuard, if_true]
      split_ifs <;> rfl
    · simp only [h2, Bool.not_false, if_true]

theorem channelFreqOf_congr (s t : State) (chanIdx : Nat)
    (h1 : t.listFreqsMHzArr = s.listFreqsMHzArr)
    (h2 : t.listFreqsMHzArrCount = s.listFreqsMHzArrCount) :
    channelFreqOf t chanIdx = channelFreqOf s chanIdx := by
  unfold channelFreqOf
  rw [h1, h2]

theorem stepCursor_unset (scanForwardFlag : Bool) (n : Int) (hn : 0 < n) :
    stepCursor scanForwardFlag (-1) n = if scanForwardFlag then 0 else n - 1 := by
  unfold stepCursor
  cases scanForwardFlag
  · simp only [Bool.false_eq_true, if_false]
    rw [if_neg (by decide), if_pos hn]
  · simp only [if_true]
    split <;> rfl

/-- Claim C14, as the code has it.  In step mode the guard of the stepping
block does not look at the cursor: with the cursor unset (-1), more than one
selected entry and a scan less than `NEXT_CHAN_RESCANSECS` old (or a user list
stepped with a level of 0 or less), `doAutoScanTuneChannel` steps the cursor
from -1 (to entry 0 forward, to the last entry backward), tunes to the channel
under it and reads its RSSI, all without a scan; and when that RSSI is at
least `minRssiLevel / 2` it returns there, no scan having been made in the
call. -/
theorem C14_unset_cursor_steps_without_scan (env : Env) (s : State) (minRssiLevel : Int)
    (scanForwardFlag rescanOnSingleFlag : Bool)
    (hcur : s.nextTuneChannelIndex = -1)
    (hcnt : 1 < s.idxSortedSelArrCount)
    (hfresh : (minRssiLevel ≤ 0 ∧ s.listFreqsMHzArrCount > 0) ∨
      env.millis s.clockReads % 2 ^ 32 <
        (s.lastNextTuneScanTime + NEXT_CHAN_RESCANSECS * 1000) % 2 ^ 32)
    (hvalid :
      channelFreqOf s (s.idxSortedSelectedArr
          (stepCursor scanForwardFlag (-1) s.idxSortedSelArrCount).toNat) ≥ MIN_CHANNEL_MHZ ∧
      channelFreqOf s (s.idxSortedSelectedArr
          (stepCursor scanForwardFlag (-1) s.idxSortedSelArrCount).toNat) ≤ MAX_CHANNEL_MHZ) :
    stepCursor scanForwardFlag (-1) s.idxSortedSelArrCount =
      (if scanForwardFlag then 0 else s.idxSortedSelArrCount - 1) ∧
    ∃ (rssi : Nat) (t : State),
      stepLanding env (stepGuard env s minRssiLevel false false).2 scanForwardFlag =
        some (channelFreqOf s (s.idxSortedSelectedArr
          (stepCursor scanForwardFlag (-1) s.idxSortedSelArrCount).toNat), rssi, t) ∧
      t.nextTuneChannelIndex = stepCursor scanForwardFlag (-1) s.idxSortedSelArrCount ∧
      getCurrentFreqInMhz t = channelFreqOf s (s.idxSortedSelectedArr
        (stepCursor scanForwardFlag (-1) s.idxSortedSelArrCount).toNat) ∧
      NoScan s t ∧
      ((rssi : Int) ≥ Int.tdiv minRssiLevel 2 →
        ∃ u, doAutoScanTuneChannel env s minRssiLevel false scanForwardFlag
            rescanOnSingleFlag = some u ∧
          u.nextTuneChannelIndex = stepCursor scanForwardFlag (-1) s.idxSortedSelArrCount ∧
          getCurrentFreqInMhz u = channelFreqOf s (s.idxSortedSelectedArr
            (stepCursor scanForwardFlag (-1) s.idxSortedSelArrCount).toNat) ∧
          u.scanRssiValuesArr = s.scanRssiValuesArr ∧
          u.idxSortedSelectedArr = s.idxSortedSelectedArr ∧
          NoScan s u) := by
  refine ⟨stepCursor_unset scanForwardFlag _ (by omega), ?_⟩
  have hguard := stepGuard_step env s minRssiLevel hcnt hfresh
  obtain ⟨hgq, hgn⟩ := stepGuard_frame env s minRssiLevel false false
  generalize hgdef : stepGuard env s minRssiLevel false false = g at hguard hgq hgn
  have hgc : g.2.nextTuneChannelIndex = -1 := hgq.engine.cursor.trans hcur
  have hgk : g.2.idxSortedSelArrCount = s.idxSortedSelArrCount := hgq.engine.selCount
  have hgs : g.2.idxSortedSelectedArr = s.idxSortedSelectedArr := hgq.engine.selected
  have hcf : ∀ i, channelFreqOf g.2 i = channelFreqOf s i := fun i =>
    channelFreqOf_congr s g.2 i hgq.engine.listArr hgq.engine.listCount
  have hin : stepCursor scanForwardFlag (-1) s.idxSortedSelArrCount < s.idxSortedSelArrCount := by
    rw [stepCursor_unset scanForwardFlag _ (by omega)]
    split <;> omega
  obtain ⟨rssi, t, hland⟩ := stepLanding_some env g.2 scanForwardFlag
    (by rw [hgc, hgk]; exact hin) (by rw [hgc, hgk, hgs, hcf]; exact hvalid)
  rw [hgc, hgk, hgs, hcf] at hland
  obtain ⟨_, _, _, _, hE, hN, hcurf⟩ := stepLanding_spec env g.2 scanForwardFlag _ rssi t hland
  have htc : t.nextTuneChannelIndex =
      stepCursor scanForwardFlag (-1) s.idxSortedSelArrCount := by
    rw [hE.cursor]
    show stepCursor scanForwardFlag g.2.nextTuneChannelIndex g.2.idxSortedSelArrCount = _
    rw [hgc, hgk]
  have htk : t.idxSortedSelArrCount = s.idxSortedSelArrCount := hE.selCount.trans hgk
  refine ⟨rssi, t, hland, htc, hcurf, hgn.transN hN, ?_⟩
  intro hgood
  have hstep := doAutoScanTuneChannel_step env s minRssiLevel scanForwardFlag rescanOnSingleFlag
    _ rfl
  rw [hgdef, if_pos hguard, stepAndTune_eq, hland] at hstep
  have hj : judgeStep minRssiLevel false rescanOnSingleFlag false
      (channelFreqOf s (s.idxSortedSelectedArr
        (stepCursor scanForwardFlag (-1) s.idxSortedSelArrCount).toNat)) rssi t =
      (true, { t with
        trace := Event.slaveTune (channelFreqOf s (s.idxSortedSelectedArr
          (stepCursor scanForwardFlag (-1) s.idxSortedSelArrCount).toNat)) :: t.trace }) := by
    unfold judgeStep
    simp only [Bool.false_eq_true, if_false, hgood, decide_True, or_true, if_true]
    rw [if_neg (by rw [htk]; intro h; omega)]
  simp only [hj, if_true] at hstep
  refine ⟨_, hstep, htc, ?_, ?_, ?_, ?_⟩
  · exact (getCurrentFreqInMhz_congr t _ rfl rfl).trans hcurf
  · exact hE.scan.trans hgq.engine.scan
  · exact hE.selected.trans hgs
  · exact (hgn.transN hN).transN ⟨rfl, count_scanning_cons _ _ (by intro h; cases h)⟩

set_option maxRecDepth 100000 in
/-- The failing input of C14: two selected channels scanned at time 0, the
cursor unset, the command `N` one second later with a steady signal: the call
returns on entry 0 (5800 MHz) without a scan. -/
theorem C14_unset_cursor_steps_without_scan_witness :
    ∃ u, doAutoScanTuneChannel steadyEnv unsetCursorState 30 false true true = some u ∧
      u.nextTuneChannelIndex = 0 ∧ getCurrentFreqInMhz u = 5800 ∧
      NoScan unsetCursorState u := by
  obtain ⟨_, rssi, t, h1, _, _, _, h5⟩ :=
    C14_unset_cursor_steps_without_scan steadyEnv unsetCursorState 30 true true rfl
      (by decide) (Or.inr (by decide)) (by decide)
  have hr : (stepLanding steadyEnv (stepGuard steadyEnv unsetCursorState 30 false false).2
      true).map (fun x => x.2.1) = some 50 := by decide
  rw [h1] at hr
  have hr' : rssi = 50 := by simpa using hr
  obtain ⟨u, hu, hc, hf, _, _, hn⟩ := h5 (by rw [hr']; decide)
  exact ⟨u, hu, hc, hf, hn⟩

/-- The judgement of a step changes neither the tuner nor the lists. -/
theorem judgeStep_frame (minRssiLevel : Int)
    (scanAndTuneFirstFlag rescanOnSingleFlag scanDoneFlag : Bool) (freqVal rssiVal : Nat)
    (t : State) :
    getCurrentFreqInMhz
        (judgeStep minRssiLevel scanAndTuneFirstFlag rescanOnSingleFlag scanDoneFlag freqVal
          rssiVal t).2 = getCurrentFreqInMhz t ∧
    NoScan t
      (judgeStep minRssiLevel scanAndTuneFirstFlag rescanOnSingleFlag scanDoneFlag freqVal
        rssiVal t).2 := by
  unfold judgeStep
  dsimp only
  split_ifs <;> exact ⟨rfl, rfl, rfl⟩

/-- A step made right after a scan is final whatever its RSSI; the cursor stays
on the entry unless a single entry is to be rescanned. -/
theorem judgeStep_afterScan (minRssiLevel : Int) (rescanOnSingleFlag : Bool)
    (freqVal rssiVal : Nat) (t : State) :
    (judgeStep minRssiLevel false rescanOnSingleFlag true freqVal rssiVal t).1 = true ∧
    (judgeStep minRssiLevel false rescanOnSingleFlag true freqVal rssiVal t).2.nextTuneChannelIndex =
      if rescanOnSingleFlag ∧ t.idxSortedSelArrCount ≤ 1 then -1 else t.nextTuneChannelIndex := by
  unfold judgeStep
  dsimp only
  rw [if_neg (by decide), if_pos (Or.inl rfl)]
  refine ⟨rfl, ?_⟩
  split_ifs <;> rfl

/-- A step made before any scan onto a channel with an RSSI below
`minRssiLevel / 2` is not final. -/
theorem judgeStep_low (minRssiLevel : Int) (rescanOnSingleFlag : Bool)
    (freqVal rssiVal : Nat) (t : State) (hlow : (rssiVal : Int) < Int.tdiv minRssiLevel 2) :
    judgeStep minRssiLevel false rescanOnSingleFlag false freqVal rssiVal t = (false, t) := by
  unfold judgeStep
  dsimp only
  have hd : decide ((rssiVal : Int) ≥ Int.tdiv minRssiLevel 2) = false :=
    decide_eq_false (by omega)
  rw [hd, if_neg (by decide), if_neg (by decide)]

/-- Claim C15, as the code has it.  In step mode, when the step let through by
the guard lands on a channel whose RSSI is below `minRssiLevel / 2`, the step
is not final: the cursor is set to -1 and `scanChannelsAndReport` is run.  When
that scan reports no channel, the frequency tuned before the scan is restored
and the call ends.  When it reports a channel, the cursor is stepped from -1,
to entry 0 of the selected list when stepping forward and to its last entry
when stepping backward, the tuner is set to the channel under it, and that step
is final whatever its RSSI. -/
theorem C15_low_rssi_step_rescans (env : Env) (s : State) (minRssiLevel : Int)
    (scanForwardFlag rescanOnSingleFlag : Bool) (f rssi : Nat) (t : State)
    (hcap : s.listFreqsMHzArrCount ≤ LISTFREQMHZ_ARR_SIZE)
    (hg : (stepGuard env s minRssiLevel false false).1 = true)
    (hland : stepLanding env (stepGuard env s minRssiLevel false false).2 scanForwardFlag =
      some (f, rssi, t))
    (hlow : (rssi : Int) < Int.tdiv minRssiLevel 2) :
    let r := scanChannelsAndReport env { t with nextTuneChannelIndex := -1 } minRssiLevel
      minRssiLevel false false
    List.IsSuffix (Event.scanning :: t.trace) r.2.trace ∧
    r.2.nextTuneChannelIndex = -1 ∧
    (r.1 = false →
      doAutoScanTuneChannel env s minRssiLevel false scanForwardFlag rescanOnSingleFlag =
        some (setTunerChannelToFreq env r.2 t.currentTunerFreqMhzOrCode)) ∧
    (r.1 = true →
      1 ≤ r.2.idxSortedSelArrCount ∧
      stepCursor scanForwardFlag (-1) r.2.idxSortedSelArrCount =
        (if scanForwardFlag then 0 else r.2.idxSortedSelArrCount - 1) ∧
      (stepLanding env r.2 scanForwardFlag = none →
        doAutoScanTuneChannel env s minRssiLevel false scanForwardFlag rescanOnSingleFlag =
          some { r.2 with
            nextTuneChannelIndex :=
              stepCursor scanForwardFlag (-1) r.2.idxSortedSelArrCount }) ∧
      (∀ f2 rssi2 t2, stepLanding env r.2 scanForwardFlag = some (f2, rssi2, t2) →
        f2 = channelFreqOf r.2 (r.2.idxSortedSelectedArr
          (stepCursor scanForwardFlag (-1) r.2.idxSortedSelArrCount).toNat) ∧
        ∃ u, doAutoScanTuneChannel env s minRssiLevel false scanForwardFlag
            rescanOnSingleFlag = some u ∧
          getCurrentFreqInMhz u = f2 ∧
          u.nextTuneChannelIndex =
            (if rescanOnSingleFlag ∧ r.2.idxSortedSelArrCount ≤ 1 then -1
             else stepCursor scanForwardFlag (-1) r.2.idxSortedSelArrCount))) := by
  intro r
  obtain ⟨hgq, _⟩ := stepGuard_frame env s minRssiLevel false false
  obtain ⟨_, _, _, _, hE, _, _⟩ := stepLanding_spec env _ scanForwardFlag f rssi t hland
  have htl : t.listFreqsMHzArrCount = s.listFreqsMHzArrCount :=
    hE.listCount.trans hgq.engine.listCount
  have hspec := scanChannelsAndReport_spec env { t with nextTuneChannelIndex := -1 }
    minRssiLevel minRssiLevel false false (by show t.listFreqsMHzArrCount ≤ _; rw [htl]; exact hcap)
  obtain ⟨_, _, _, _, _, hF, hG, _, _, htr, _⟩ := hspec
  have hstep := doAutoScanTuneChannel_step env s minRssiLevel scanForwardFlag rescanOnSingleFlag
    _ rfl
  rw [if_pos hg, stepAndTune_eq, hland] at hstep
  simp only [judgeStep_low minRssiLevel rescanOnSingleFlag f rssi t hlow, Bool.false_eq_true,
    if_false] at hstep
  have hcur : r.2.nextTuneChannelIndex = -1 := by
    rcases hG with h | h
    · exact h
    · exact h
  refine ⟨htr, hcur, ?_, ?_⟩
  · intro hr
    have hr' : r.1 = false := hr
    rw [hstep]
    show (if (!r.1) = true then _ else _) = _
    rw [hr']
    rfl
  · intro hr
    have hr' : r.1 = true := hr
    have hcnt : 1 ≤ r.2.idxSortedSelArrCount := (hF hr rfl).1
    have hstep2 : doAutoScanTuneChannel env s minRssiLevel false scanForwardFlag
        rescanOnSingleFlag =
        some (stepAndTune env r.2 minRssiLevel false scanForwardFlag rescanOnSingleFlag true).2 := by
      rw [hstep]
      show (if (!r.1) = true then _ else _) = _
      rw [hr']
      rfl
    refine ⟨hcnt, stepCursor_unset scanForwardFlag _ (by omega), ?_, ?_⟩
    · intro hnone
      rw [hstep2, stepAndTune_eq, hnone, hcur]
    · intro f2 rssi2 t2 hl2
      obtain ⟨_, hf2, _, _, hE2, _, hc2⟩ := stepLanding_spec env r.2 scanForwardFlag f2 rssi2 t2 hl2
      rw [hcur] at hf2 hE2
      refine ⟨hf2,
        (judgeStep minRssiLevel false rescanOnSingleFlag true f2 rssi2 t2).2, ?_, ?_, ?_⟩
      · rw [hstep2, stepAndTune_eq, hl2]
      · exact (judgeStep_frame minRssiLevel false rescanOnSingleFlag true f2 rssi2 t2).1.trans hc2
      · rw [(judgeStep_afterScan minRssiLevel rescanOnSingleFlag f2 rssi2 t2).2, hE2.selCount,
          hE2.cursor]

set_option maxRecDepth 100000 in
/-- Claim C15, counterexample.  Stepping backward from entry 0 of a two-entry
list onto a channel without signal, with two strong channels found by the
rescan (indices 19 and 23, selected in this order): the engine ends on the last
selected entry (cursor 1, 5945 MHz), not on the first (5645 MHz).  And with no
signal on any channel the rescan reports nothing and the engine ends on the
frequency tuned before the rescan (5658 MHz) with an empty selected list. -/
theorem C15_rescan_lands_elsewhere :
    (doAutoScanTuneChannel fadingEnv twoChannelState 30 false false true).map
        (fun u => (u.idxSortedSelectedArr 0, u.idxSortedSelectedArr 1, u.idxSortedSelArrCount,
          u.nextTuneChannelIndex, getCurrentFreqInMhz u)) = some (19, 23, 2, 1, 5945) ∧
    getChannelFreqTableEntry 19 = 5645 ∧
    (doAutoScanTuneChannel silentEnv twoChannelState 30 false true true).map
        (fun u => (u.idxSortedSelArrCount, u.nextTuneChannelIndex, getCurrentFreqInMhz u)) =
      some (0, -1, 5658) := by
  decide

/-- An option that is `some` holds the components of its value. -/
theorem eq_some_getD {α β γ : Type} (o : Option (α × β × γ)) (d : α × β × γ)
    (h : o.isSome = true) :
    o = some ((o.getD d).1, (o.getD d).2.1, (o.getD d).2.2) := by
  cases o with
  | none => cases h
  | some x => rfl

set_option maxRecDepth 100000 in
/-- Stepping forward from entry 0 of a two-entry list onto a channel without
signal, with two strong channels found by the rescan: the engine ends on entry
0 of the new selected list (5645 MHz). -/
theorem C15_low_rssi_step_rescans_witness :
    ∃ u, doAutoScanTuneChannel fadingEnv twoChannelState 30 false true true = some u ∧
      getCurrentFreqInMhz u = 5645 ∧ u.nextTuneChannelIndex = 0 := by
  have h := C15_low_rssi_step_rescans fadingEnv twoChannelState 30 true true
    ((stepLanding fadingEnv (stepGuard fadingEnv twoChannelState 30 false false).2 true).getD
      (0, 0, initialState)).1
    ((stepLanding fadingEnv (stepGuard fadingEnv twoChannelState 30 false false).2 true).getD
      (0, 0, initialState)).2.1
    ((stepLanding fadingEnv (stepGuard fadingEnv twoChannelState 30 false false).2 true).getD
      (0, 0, initialState)).2.2
    (by decide) (by decide) (eq_some_getD _ (0, 0, initialState) (by decide)) (by decide)
  obtain ⟨hf2, u, hu, hfreq, hcur⟩ := (h.2.2.2 (by decide)).2.2.2
    ((stepLanding fadingEnv
      (scanChannelsAndReport fadingEnv
        { ((stepLanding fadingEnv (stepGuard fadingEnv twoChannelState 30 false false).2
            true).getD (0, 0, initialState)).2.2 with nextTuneChannelIndex := -1 }
        30 30 false false).2
      true).getD (0, 0, initialState)).1
    ((stepLanding fadingEnv
      (scanChannelsAndReport fadingEnv
        { ((stepLanding fadingEnv (stepGuard fadingEnv twoChannelState 30 false false).2
            true).getD (0, 0, initialState)).2.2 with nextTuneChannelIndex := -1 }
        30 30 false false).2
      true).getD (0, 0, initialState)).2.1
    ((stepLanding fadingEnv
      (scanChannelsAndReport fadingEnv
        { ((stepLanding fadingEnv (stepGuard fadingEnv twoChannelState 30 false false).2
            true).getD (0, 0, initialState)).2.2 with nextTuneChannelIndex := -1 }
        30 30 false false).2
      true).getD (0, 0, initialState)).2.2
    (eq_some_getD _ (0, 0, initialState) (by decide))
  exact ⟨u, hu, hfreq.trans (hf2.trans (by decide)), hcur.trans (by decide)⟩

/-! ## Display scheduler -/

/-- Claim C16.  With `disp7SegDataUpdatingFlag` set, one tick of
`disp7SegTimerIsr` toggles `disp7SegLeftActiveFlag` and drives the two select
lines (the newly active digit on, the other off) and changes nothing else: the
output bitmasks, the segment pins, the variables of the init, override and
rotation layers and the clock are as before. -/
theorem C16_updating_tick_only_toggles (env : Env) (d : Disp7Seg)
    (h : d.disp7SegDataUpdatingFlag = true) :
    disp7SegTimerIsr env d =
      { d with
        disp7SegLeftActiveFlag := !d.disp7SegLeftActiveFlag
        selLeftPin := d.disp7SegLeftActiveFlag
        selRightPin := !d.disp7SegLeftActiveFlag } ∧
    (disp7SegTimerIsr env d).disp7SegLeftMaskOut = d.disp7SegLeftMaskOut ∧
    (disp7SegTimerIsr env d).disp7SegRightMaskOut = d.disp7SegRightMaskOut ∧
    (disp7SegTimerIsr env d).segmentPins = d.segmentPins ∧
    (disp7SegTimerIsr env d).disp7SegInitDispBitmaskUint32 = d.disp7SegInitDispBitmaskUint32 ∧
    (disp7SegTimerIsr env d).disp7SegInitDispBitmaskFlag = d.disp7SegInitDispBitmaskFlag ∧
    (disp7SegTimerIsr env d).disp7SegInitDispDurationMs = d.disp7SegInitDispDurationMs ∧
    (disp7SegTimerIsr env d).disp7SegInitDispEndTime = d.disp7SegInitDispEndTime ∧
    (disp7SegTimerIsr env d).disp7SegOvrDispBitmaskWord = d.disp7SegOvrDispBitmaskWord ∧
    (disp7SegTimerIsr env d).disp7SegOvrDispDurationMs = d.disp7SegOvrDispDurationMs ∧
    (disp7SegTimerIsr env d).disp7SegOvrDispEndTime = d.disp7SegOvrDispEndTime ∧
    (disp7SegTimerIsr env d).disp7SegDisplayWordsArr = d.disp7SegDisplayWordsArr ∧
    (disp7SegTimerIsr env d).disp7SegDisplayWordsNumEntries = d.disp7SegDisplayWordsNumEntries ∧
    (disp7SegTimerIsr env d).disp7SegDisplayWordsCurIdx = d.disp7SegDisplayWordsCurIdx ∧
    (disp7SegTimerIsr env d).disp7SegDisplayWordsNextTime = d.disp7SegDisplayWordsNextTime ∧
    (disp7SegTimerIsr env d).clockReads = d.clockReads := by
  have e : disp7SegTimerIsr env d =
      { d with
        disp7SegLeftActiveFlag := !d.disp7SegLeftActiveFlag
        selLeftPin := d.disp7SegLeftActiveFlag
        selRightPin := !d.disp7SegLeftActiveFlag } := by
    unfold disp7SegTimerIsr
    dsimp only
    rw [h]
    cases d.disp7SegLeftActiveFlag <;> rfl
  rw [e]
  exact ⟨rfl, rfl, rfl, rfl, rfl, rfl, rfl, rfl, rfl, rfl, rfl, rfl, rfl, rfl, rfl, rfl⟩

/-- A tick during an update of the display data, with the init sequence and a
rotation set up. -/
theorem C16_updating_tick_only_toggles_witness :
    disp7SegTimerIsr idleEnv
        { initialDisp7Seg with
          disp7SegDataUpdatingFlag := true
          disp7SegInitDispBitmaskFlag := true
          disp7SegInitDispBitmaskUint32 := 0x3F063F06
          disp7SegInitDispDurationMs := 500
          disp7SegDisplayWordsNumEntries := 2 } =
      { initialDisp7Seg with
        disp7SegDataUpdatingFlag := true
        disp7SegInitDispBitmaskFlag := true
        disp7SegInitDispBitmaskUint32 := 0x3F063F06
        disp7SegInitDispDurationMs := 500
        disp7SegDisplayWordsNumEntries := 2
        disp7SegLeftActiveFlag := true
        selLeftPin := false
        selRightPin := true } :=
  (C16_updating_tick_only_toggles idleEnv
    { initialDisp7Seg with
      disp7SegDataUpdatingFlag := true
      disp7SegInitDispBitmaskFlag := true
      disp7SegInitDispBitmaskUint32 := 0x3F063F06
      disp7SegInitDispDurationMs := 500
      disp7SegDisplayWordsNumEntries := 2 } rfl).1

/-- The init-sequence layer neither reads nor writes the variables of the two
lower layers. -/
theorem initLayer_lower (env : Env) (d : Disp7Seg) (curTimeMs : Nat) (o : OvrVars)
    (r : RotationVars) :
    initLayer env (withRotation (withOvr d o) r) curTimeMs =
      withRotation (withOvr (initLayer env d curTimeMs) o) r := by
  unfold initLayer
  dsimp only [withRotation, withOvr, setMasksOut]
  split_ifs <;> rfl

/-- The override layer neither reads nor writes the variables of the rotation
layer. -/
theorem ovrLayer_lower (env : Env) (d : Disp7Seg) (curTimeMs : Nat) (r : RotationVars) :
    ovrLayer env (withRotation d r) curTimeMs = withRotation (ovrLayer env d curTimeMs) r := by
  unfold ovrLayer
  dsimp only [withRotation, setMasksOut]
  split_ifs <;> rfl

theorem writeDigit_withOvr (d : Disp7Seg) (o : OvrVars) :
    writeDigit (withOvr d o) = withOvr (writeDigit d) o := by
  unfold writeDigit
  dsimp only [withOvr]
  split_ifs <;> rfl

theorem writeDigit_withRotation (d : Disp7Seg) (r : RotationVars) :
    writeDigit (withRotation d r) = withRotation (writeDigit d) r := by
  unfold writeDigit
  dsimp only [withRotation]
  split_ifs <;> rfl

/-- Claim C17.  On a tick with no update in progress the layer is chosen by
strict priority.  With the init flag set, the tick commutes with every change
of the variables of the override and rotation layers: it neither reads nor
writes them.  With the init flag clear and a non-zero override word, the tick
commutes with every change of the rotation variables.  With the init flag clear
and the override word zero, the tick is the rotation layer (when the array is
not empty) followed by the output of the active digit; when the time of the next
entry is reached the output bitmasks are the two bytes of the entry under the
index, and the index advances with wrap-around. -/
theorem C17_layer_priority (env : Env) (d : Disp7Seg)
    (h : d.disp7SegDataUpdatingFlag = false) :
    (d.disp7SegInitDispBitmaskFlag = true → ∀ (o : OvrVars) (r : RotationVars),
      disp7SegTimerIsr env (withRotation (withOvr d o) r) =
        withRotation (withOvr (disp7SegTimerIsr env d) o) r) ∧
    (d.disp7SegInitDispBitmaskFlag = false → d.disp7SegOvrDispBitmaskWord ≠ 0 →
      ∀ r : RotationVars,
        disp7SegTimerIsr env (withRotation d r) = withRotation (disp7SegTimerIsr env d) r) ∧
    (d.disp7SegInitDispBitmaskFlag = false → d.disp7SegOvrDispBitmaskWord = 0 →
      d.disp7SegDisplayWordsNumEntries > 0 →
      disp7SegTimerIsr env d =
        writeDigit (rotationLayer
          { d with
            disp7SegLeftActiveFlag := !d.disp7SegLeftActiveFlag
            clockReads := d.clockReads + 1 }
          (env.millis d.clockReads % 2 ^ 32)) ∧
      (env.millis d.clockReads % 2 ^ 32 ≥ d.disp7SegDisplayWordsNextTime →
        (disp7SegTimerIsr env d).disp7SegLeftMaskOut =
          d.disp7SegDisplayWordsArr d.disp7SegDisplayWordsCurIdx.toNat % 65536 / 256 % 256 ∧
        (disp7SegTimerIsr env d).disp7SegRightMaskOut =
          d.disp7SegDisplayWordsArr d.disp7SegDisplayWordsCurIdx.toNat % 256 ∧
        (disp7SegTimerIsr env d).disp7SegDisplayWordsCurIdx =
          (if toInt16 (d.disp7SegDisplayWordsCurIdx + 1) ≥ d.disp7SegDisplayWordsNumEntries
            then 0 else toInt16 (d.disp7SegDisplayWordsCurIdx + 1)))) := by
  refine ⟨?_, ?_, ?_⟩
  · intro hinit o r
    have e1 : disp7SegTimerIsr env d =
        writeDigit (initLayer env
          { d with
            disp7SegLeftActiveFlag := !d.disp7SegLeftActiveFlag
            clockReads := d.clockReads + 1 }
          (env.millis d.clockReads % 2 ^ 32)) := by
      unfold disp7SegTimerIsr refreshContent
      dsimp only
      rw [h, hinit]
      rfl
    have e2 : disp7SegTimerIsr env (withRotation (withOvr d o) r) =
        writeDigit (initLayer env
          (withRotation (withOvr
            { d with
              disp7SegLeftActiveFlag := !d.disp7SegLeftActiveFlag
              clockReads := d.clockReads + 1 } o) r)
          (env.millis d.clockReads % 2 ^ 32)) := by
      unfold disp7SegTimerIsr refreshContent
      dsimp only [withRotation, withOvr]
      rw [h, hinit]
      rfl
    rw [e1, e2, initLayer_lower, writeDigit_withRotation, writeDigit_withOvr]
  · intro hinit hovr r
    have e1 : disp7SegTimerIsr env d =
        writeDigit (ovrLayer env
          { d with
            disp7SegLeftActiveFlag := !d.disp7SegLeftActiveFlag
            clockReads := d.clockReads + 1 }
          (env.millis d.clockReads % 2 ^ 32)) := by
      unfold disp7SegTimerIsr refreshContent
      dsimp only
      rw [h, hinit, if_pos (show (!false) = true from rfl),
        if_neg (show ¬ (false = true) by decide), if_pos hovr]
    have e2 : disp7SegTimerIsr env (withRotation d r) =
        writeDigit (ovrLayer env
          (withRotation
            { d with
              disp7SegLeftActiveFlag := !d.disp7SegLeftActiveFlag
              clockReads := d.clockReads + 1 } r)
          (env.millis d.clockReads % 2 ^ 32)) := by
      unfold disp7SegTimerIsr refreshContent
      dsimp only [withRotation]
      rw [h, hinit, if_pos (show (!false) = true from rfl),
        if_neg (show ¬ (false = true) by decide), if_pos hovr]
    rw [e1, e2, ovrLayer_lower, writeDigit_withRotation]
  · intro hinit hovr hnum
    have e1 : disp7SegTimerIsr env d =
        writeDigit (rotationLayer
          { d with
            disp7SegLeftActiveFlag := !d.disp7SegLeftActiveFlag
            clockReads := d.clockReads + 1 }
          (env.millis d.clockReads % 2 ^ 32)) := by
      unfold disp7SegTimerIsr refreshContent
      dsimp only
      rw [h, hinit, if_pos (show (!false) = true from rfl),
        if_neg (show ¬ (false = true) by decide), if_neg (not_not.mpr hovr), if_pos hnum]
    refine ⟨e1, ?_⟩
    intro htime
    rw [e1]
    unfold rotationLayer writeDigit
    dsimp only [setMasksOut]
    rw [if_pos htime]
    split_ifs <;> exact ⟨rfl, rfl, rfl⟩

/-- During the init sequence a tick does the same whatever the override and
the rotation hold; with both higher layers inactive the first frame of the
rotation is put out and the index advances to 1. -/
theorem C17_layer_priority_witness :
    disp7SegTimerIsr idleEnv (withRotation (withOvr bootDisp dashesOvr) emptyRotation) =
      withRotation (withOvr (disp7SegTimerIsr idleEnv bootDisp) dashesOvr) emptyRotation ∧
    ((disp7SegTimerIsr idleEnv rotationDisp).disp7SegLeftMaskOut = 0x3F ∧
      (disp7SegTimerIsr idleEnv rotationDisp).disp7SegRightMaskOut = 0x06 ∧
      (disp7SegTimerIsr idleEnv rotationDisp).disp7SegDisplayWordsCurIdx = 1) :=
  ⟨(C17_layer_priority idleEnv bootDisp rfl).1 rfl dashesOvr emptyRotation,
    ((C17_layer_priority idleEnv rotationDisp rfl).2.2 rfl rfl (by decide)).2 (by decide)⟩

/-! ## Buttons -/

theorem effectiveTrigMask_le (b : Buttons) (trigMask : Nat) :
    effectiveTrigMask b trigMask ≤ trigMask := by
  unfold effectiveTrigMask
  split
  · exact Nat.and_le_left
  · exact le_refl _

theorem longBits_or_up (m : Nat) (h : LongBits m) : LongBits (m ||| UP_LONGPRESS_MASK) := by
  rcases h with h | h | h | h <;> subst h <;> decide

theorem longBits_or_down (m : Nat) (h : LongBits m) : LongBits (m ||| DOWN_LONGPRESS_MASK) := by
  rcases h with h | h | h | h <;> subst h <;> decide

theorem longBits_no_button (m : Nat) (h : LongBits m) : m &&& BOTH_BUTTONS_MASK = 0 := by
  rcases h with h | h | h | h <;> subst h <;> decide

/-- The long-press part keeps the variables well formed, leaves the live and
the tracked mask, and clears the long-press mask when no button is down. -/
theorem longPressStep_spec (b : Buttons) (curTimeMs : Nat)
    (clearButtonClickOnLongPressFlag : Bool) (hok : ButtonsOk b) :
    ButtonsOk (longPressStep b curTimeMs clearButtonClickOnLongPressFlag) ∧
    (longPressStep b curTimeMs clearButtonClickOnLongPressFlag).buttonsInputCurrentMask =
      b.buttonsInputCurrentMask ∧
    (longPressStep b curTimeMs clearButtonClickOnLongPressFlag).buttonsInputTrackedMask =
      b.buttonsInputTrackedMask ∧
    (longPressStep b curTimeMs clearButtonClickOnLongPressFlag).buttonsInputLastChangeTime =
      b.buttonsInputLastChangeTime ∧
    (b.buttonsInputCurrentMask = NO_BUTTONS_MASK →
      (longPressStep b curTimeMs clearButtonClickOnLongPressFlag).buttonsInputLongPressMask = 0 ∧
      (longPressStep b curTimeMs clearButtonClickOnLongPressFlag).buttonsInputDetectedMask =
        b.buttonsInputDetectedMask) := by
  obtain ⟨hd, hl⟩ := hok
  unfold longPressStep
  dsimp only
  split_ifs with h1 h2 h3 h4 h5 h6 h7 h8 h9
  all_goals
    refine ⟨⟨?_, ?_⟩, rfl, rfl, rfl, ?_⟩
  all_goals
    first
    | exact hd
    | exact hl
    | exact longBits_or_up _ hl
    | exact longBits_or_down _ hl
    | exact longBits_or_down _ (longBits_or_up _ hl)
    | exact (by decide : NO_BUTTONS_MASK < 4)
    | exact Or.inl rfl
    | (intro h0; exact ⟨rfl, rfl⟩)
    | (intro h0; rw [h0] at h1; exact absurd rfl h1)

/-- One call of `readButtonsState` on well-formed variables: they stay well
formed, and a mask returned with a button bit is the pending-press mask alone,
returned with no button down and the long-press mask just cleared. -/
theorem readButtonsState_spec (b : Buttons) (p : Poll) (clearButtonClickOnLongPressFlag : Bool)
    (hok : ButtonsOk b) (htrig : p.trigMask < 4) :
    ButtonsOk (readButtonsState b p clearButtonClickOnLongPressFlag).2 ∧
    ((readButtonsState b p clearButtonClickOnLongPressFlag).1 &&& BOTH_BUTTONS_MASK ≠ 0 →
      (readButtonsState b p clearButtonClickOnLongPressFlag).1 = b.buttonsInputDetectedMask ∧
      (readButtonsState b p clearButtonClickOnLongPressFlag).1 &&& BOTH_LONGPRESS_MASK = 0 ∧
      b.buttonsInputCurrentMask = NO_BUTTONS_MASK ∧
      b.buttonsInputTrackedMask = NO_BUTTONS_MASK ∧
      (readButtonsState b p clearButtonClickOnLongPressFlag).2.buttonsInputDetectedMask = 0 ∧
      (readButtonsState b p clearButtonClickOnLongPressFlag).2.buttonsInputLongPressMask = 0) := by
  have hd := hok.detected
  have hl := hok.longPress
  obtain ⟨hok1, hc1, ht1, _, hz1⟩ :=
    longPressStep_spec b p.curTimeMs clearButtonClickOnLongPressFlag hok
  unfold readButtonsState
  dsimp only
  split_ifs with h1 h2 h3
  · refine ⟨⟨?_, hl⟩, ?_⟩
    · have he : effectiveTrigMask b p.trigMask < 2 ^ 2 :=
        lt_of_le_of_lt (effectiveTrigMask_le b p.trigMask) htrig
      exact Nat.or_lt_two_pow (n := 2) hd he
    · intro hb
      exact absurd (longBits_no_button _ hl) hb
  · refine ⟨hok, ?_⟩
    intro hb
    exact absurd (longBits_no_button _ hl) hb
  · rw [hc1, ht1] at h3
    obtain ⟨hz, hdz⟩ := hz1 h3.2
    refine ⟨⟨(by decide : NO_BUTTONS_MASK < 4), ?_⟩, ?_⟩
    · show LongBits (longPressStep b p.curTimeMs clearButtonClickOnLongPressFlag
        ).buttonsInputLongPressMask
      exact hok1.longPress
    · intro _
      dsimp only
      rw [hz, hdz, Nat.or_zero]
      refine ⟨rfl, ?_, h3.2, h3.1, rfl, rfl⟩
      generalize b.buttonsInputDetectedMask = dm at hd
      interval_cases dm <;> rfl
  · refine ⟨⟨hok1.detected, hok1.longPress⟩, ?_⟩
    intro hb
    exact absurd (longBits_no_button _ hok1.longPress) hb

/-- In every run of calls from well-formed variables, a mask returned with a
button bit carries no long-press bit. -/
theorem pollRun_spec (clearButtonClickOnLongPressFlag : Bool) (polls : List Poll) :
    ∀ b : Buttons, ButtonsOk b → (∀ p ∈ polls, p.trigMask < 4) →
      ∀ m ∈ (pollRun clearButtonClickOnLongPressFlag b polls).1,
        m &&& BOTH_BUTTONS_MASK ≠ 0 → m &&& BOTH_LONGPRESS_MASK = 0 := by
  induction polls with
  | nil =>
    intro b _ _ m hm
    cases hm
  | cons p rest ih =>
    intro b hok htrig m hm
    obtain ⟨hok2, hret⟩ := readButtonsState_spec b p clearButtonClickOnLongPressFlag hok
      (htrig p (List.mem_cons_self _ _))
    simp only [pollRun, List.mem_cons] at hm
    rcases hm with hm | hm
    · intro hb
      rw [hm] at hb ⊢
      exact (hret hb).2.1
    · exact ih _ hok2 (fun q hq => htrig q (List.mem_cons_of_mem _ hq)) m hm

/-- Claim C18, as the code has it.  Whenever `readButtonsState` returns a mask
with a button bit (a click), that mask carries no long-press bit, however long
the buttons were held: the click is returned only with both buttons released,
after the long-press mask has been cleared, so the long-press mask or-ed into
the returned mask is always 0 there.  This holds for every run of calls from
the initial variables with trigger masks of the two buttons. -/
theorem C18_click_has_no_long_press_bits (t : Nat) (polls : List Poll)
    (clearButtonClickOnLongPressFlag : Bool) (htrig : ∀ p ∈ polls, p.trigMask < 4) :
    ∀ m ∈ (pollRun clearButtonClickOnLongPressFlag (initialButtons t) polls).1,
      m &&& BOTH_BUTTONS_MASK ≠ 0 → m &&& BOTH_LONGPRESS_MASK = 0 :=
  pollRun_spec clearButtonClickOnLongPressFlag polls (initialButtons t)
    ⟨(by decide : (0 : Nat) < 4), Or.inl rfl⟩ htrig

/-- The failing input of C18: the UP button held from 0 to 1200 ms.  The calls
return the long-press bit 16 while the button is held and on the release, then
0, then the click 1 without the bit 16; with the flag that clears the click on
a long press no click is returned at all. -/
theorem C18_click_has_no_long_press_bits_witness :
    (pollRun false (initialButtons 0) longPressCycle).1 = [0, 0, 16, 16, 0, 1, 0] ∧
    (pollRun true (initialButtons 0) longPressCycle).1 = [0, 0, 16, 16, 0, 0, 0] ∧
    ∀ m ∈ (pollRun false (initialButtons 0) longPressCycle).1,
      m &&& BOTH_BUTTONS_MASK ≠ 0 → m &&& BOTH_LONGPRESS_MASK = 0 :=
  ⟨by decide, by decide,
    C18_click_has_no_long_press_bits 0 longPressCycle false (by decide)⟩

/-- Claim C19.  A call of `readButtonsState` changes the tracked mask only when
the live mask read equals the one recorded, no trigger is left after the
triggers of buttons tracked as active are dropped, and at least
`BUTTON_DEBOUNCE_TIMEMS` have passed since the recorded change (in `unsigned
long` arithmetic); the tracked mask then becomes the live mask.  A call that
sees a change of the live mask or a trigger records the time, the live mask and
the trigger in the pending-press mask, changes nothing else and returns the
long-press mask as it was. -/
theorem C19_tracked_changes_after_debounce (b : Buttons) (p : Poll)
    (clearButtonClickOnLongPressFlag : Bool) :
    ((readButtonsState b p clearButtonClickOnLongPressFlag).2.buttonsInputTrackedMask ≠
        b.buttonsInputTrackedMask →
      p.curMask = b.buttonsInputCurrentMask ∧ effectiveTrigMask b p.trigMask = 0 ∧
      (p.curTimeMs + 2 ^ 32 - b.buttonsInputLastChangeTime) % 2 ^ 32 ≥ BUTTON_DEBOUNCE_TIMEMS ∧
      (readButtonsState b p clearButtonClickOnLongPressFlag).2.buttonsInputTrackedMask =
        b.buttonsInputCurrentMask) ∧
    (p.curMask ≠ b.buttonsInputCurrentMask ∨ effectiveTrigMask b p.trigMask ≠ 0 →
      readButtonsState b p clearButtonClickOnLongPressFlag =
        (b.buttonsInputLongPressMask,
          { b with
            buttonsInputLastChangeTime := p.curTimeMs
            buttonsInputCurrentMask := p.curMask
            buttonsInputDetectedMask :=
              b.buttonsInputDetectedMask ||| effectiveTrigMask b p.trigMask })) := by
  have hstep : ∀ (x : Buttons) (c : Nat) (f : Bool),
      (longPressStep x c f).buttonsInputCurrentMask = x.buttonsInputCurrentMask ∧
      (longPressStep x c f).buttonsInputTrackedMask = x.buttonsInputTrackedMask := by
    intro x c f
    unfold longPressStep
    dsimp only
    split_ifs <;> exact ⟨rfl, rfl⟩
  constructor
  · unfold readButtonsState
    dsimp only
    split_ifs with h1 h2 h3
    · intro h; exact absurd rfl h
    · intro h; exact absurd rfl h
    · intro _
      have h1' := not_or.mp h1
      have h2' := not_or.mp h2
      exact ⟨not_not.mp h1'.1, not_not.mp h1'.2, Nat.le_of_not_lt h2'.2,
        (hstep b p.curTimeMs clearButtonClickOnLongPressFlag).1⟩
    · intro _
      have h1' := not_or.mp h1
      have h2' := not_or.mp h2
      exact ⟨not_not.mp h1'.1, not_not.mp h1'.2, Nat.le_of_not_lt h2'.2,
        (hstep b p.curTimeMs clearButtonClickOnLongPressFlag).1⟩
  · intro h
    unfold readButtonsState
    dsimp only
    rw [if_pos h]

/-- A press seen at 0 ms only records the change; the tracked mask follows 60 ms
later. -/
theorem C19_tracked_changes_after_debounce_witness :
    readButtonsState (initialButtons 0) { curTimeMs := 0, curMask := 1, trigMask := 1 } false =
      (0, { initialButtons 0 with
        buttonsInputLastChangeTime := 0
        buttonsInputCurrentMask := 1
        buttonsInputDetectedMask := 0 ||| effectiveTrigMask (initialButtons 0) 1 }) ∧
    (readButtonsState
        { initialButtons 0 with buttonsInputCurrentMask := 1, buttonsInputDetectedMask := 1 }
        { curTimeMs := 60, curMask := 1, trigMask := 0 } false).2.buttonsInputTrackedMask = 1 :=
  ⟨(C19_tracked_changes_after_debounce (initialButtons 0)
      { curTimeMs := 0, curMask := 1, trigMask := 1 } false).2 (by decide),
    ((C19_tracked_changes_after_debounce
      { initialButtons 0 with buttonsInputCurrentMask := 1, buttonsInputDetectedMask := 1 }
      { curTimeMs := 60, curMask := 1, trigMask := 0 } false).1 (by decide)).2.2.2⟩

/-! ## The channels tuned by a scan -/

theorem writeByteToEeprom_tunedFreqs (s : State) (addr val : Nat) :
    tunedFreqs (writeByteToEeprom s addr val).trace = tunedFreqs s.trace := rfl

theorem writeWordToEeprom_tunedFreqs (s : State) (addr val : Nat) :
    tunedFreqs (writeWordToEeprom s addr val).trace = tunedFreqs s.trace := rfl

theorem saveRssiMinMaxValsToEeprom_tunedFreqs (s : State) :
    tunedFreqs (saveRssiMinMaxValsToEeprom s).trace = tunedFreqs s.trace := rfl

theorem processAutoRssiCalValue_tunedFreqs (env : Env) (s : State) (rawVal : Nat) :
    tunedFreqs (processAutoRssiCalValue env s rawVal).trace = tunedFreqs s.trace := by
  unfold processAutoRssiCalValue
  split_ifs
  · rfl
  · simp only
    split
    · rfl
    · exact (saveRssiMinMaxValsToEeprom_tunedFreqs (setRx5808RawRssiMinMax
        { (millis env s).2 with autoRssiCalibCounterValue := 0 } _ _)).trans rfl
  · rfl
  · rfl
  · rfl

theorem sumRssiReads_trace (env : Env) :
    ∀ (n : Nat) (rssiA : Int) (s : State), (sumRssiReads env n rssiA s).2.trace = s.trace := by
  intro n
  induction n with
  | zero => intro rssiA s; rfl
  | succ n ih =>
    intro rssiA s
    simp only [sumRssiReads]
    rw [ih]
    rfl

theorem readRawRssiValue_trace (env : Env) (s : State) :
    (readRawRssiValue env s).2.trace = s.trace := by
  unfold readRawRssiValue
  simp only
  rw [sumRssiReads_trace]
  rfl

theorem readRssiValue_tunedFreqs (env : Env) (s : State) :
    tunedFreqs (readRssiValue env s).2.trace = tunedFreqs s.trace := by
  have h1 := readRawRssiValue_trace env s
  unfold readRssiValue
  simp only
  split
  · show tunedFreqs (processAutoRssiCalValue env (readRawRssiValue env s).2
      (readRawRssiValue env s).1).trace = _
    rw [processAutoRssiCalValue_tunedFreqs, h1]
  · show tunedFreqs (readRawRssiValue env s).2.trace = _
    rw [h1]

/-- A frequency in MHz sent to the tuner is recorded as such. -/
theorem setCurrentFreqByMhzOrCode_tunedFreqs (env : Env) (s : State) (v : Nat)
    (h : v < FREQ_CODEWORD_CHECKVAL) :
    tunedFreqs (setCurrentFreqByMhzOrCode env s v).trace = v :: tunedFreqs s.trace := by
  unfold setCurrentFreqByMhzOrCode
  simp only [ge_iff_le, Nat.not_le.mpr h, if_false]
  rfl

/-- One pass of the scanning loop sends its frequency to the tuner when it is in
range, and nothing otherwise. -/
theorem scanOneSlot_tunedFreqs (env : Env) (incl listFlag : Bool) (idx : Nat) (s : State) :
    tunedFreqs (scanOneSlot env incl listFlag idx s).trace =
      (if slotFreq s incl listFlag idx ≥ MIN_CHANNEL_MHZ ∧
          slotFreq s incl listFlag idx ≤ MAX_CHANNEL_MHZ then
        [slotFreq s incl listFlag idx]
      else []) ++ tunedFreqs s.trace := by
  unfold scanOneSlot
  simp only
  split
  · rename_i hvalid
    show tunedFreqs (readRssiValue env (waitRssiReady env
      (setCurrentFreqByMhzOrCode env s (slotFreq s incl listFlag idx)))).2.trace = _
    rw [readRssiValue_tunedFreqs]
    show tunedFreqs (setCurrentFreqByMhzOrCode env s (slotFreq s incl listFlag idx)).trace = _
    rw [setCurrentFreqByMhzOrCode_tunedFreqs env s _
      (by simp only [MAX_CHANNEL_MHZ, FREQ_CODEWORD_CHECKVAL] at hvalid ⊢; omega)]
    rfl
  · rfl

theorem slotsToTune_congr (s t : State) (incl listFlag : Bool)
    (h : t.listFreqsMHzArr = s.listFreqsMHzArr) :
    ∀ (more idx : Nat), slotsToTune t incl listFlag more idx = slotsToTune s incl listFlag more idx := by
  intro more
  induction more with
  | zero =>
    intro idx
    simp only [slotsToTune, slotFreq_congr s t incl listFlag idx h]
  | succ m ih =>
    intro idx
    simp only [slotsToTune, slotFreq_congr s t incl listFlag idx h, ih]

/-- The scanning loop sends every frequency in range of its loop indices to the
tuner, one after the other, whatever the clock and the receiver give. -/
theorem scanSlots_tunedFreqs (env : Env) (incl listFlag : Bool) :
    ∀ (more idx : Nat) (s : State),
      tunedFreqs (scanSlots env incl listFlag more idx s).trace =
        slotsToTune s incl listFlag more idx ++ tunedFreqs s.trace := by
  intro more
  induction more with
  | zero =>
    intro idx s
    simp only [scanSlots, slotsToTune]
    exact scanOneSlot_tunedFreqs env incl listFlag idx s
  | succ m ih =>
    intro idx s
    simp only [scanSlots, slotsToTune]
    rw [ih, scanOneSlot_tunedFreqs,
      slotsToTune_congr s (scanOneSlot env incl listFlag idx s) incl listFlag
        (scanOneSlot_spec env incl listFlag idx s).1.listArr, List.append_assoc]

theorem setTunerChannelToFreq_tunedFreqs (env : Env) (s : State) (v : Nat) :
    ∃ f, tunedFreqs (setTunerChannelToFreq env s v).trace = f :: tunedFreqs s.trace := by
  unfold setTunerChannelToFreq setCurrentFreqByMhzOrCode
  exact ⟨_, rfl⟩

/-- Without a user list the slots do not depend on the state. -/
theorem slotsToTune_noList (s : State) (incl : Bool) :
    ∀ (more idx : Nat),
      slotsToTune s incl false more idx = slotsToTune initialState incl false more idx := by
  have hf : ∀ idx, slotFreq s incl false idx = slotFreq initialState incl false idx := by
    intro idx
    unfold slotFreq
    simp only [Bool.false_eq_true, if_false]
  intro more
  induction more with
  | zero =>
    intro idx
    simp only [slotsToTune, hf]
  | succ m ih =>
    intro idx
    simp only [slotsToTune, hf, ih]

set_option maxRecDepth 100000 in
/-- With the L band included, the slots of the channel table are its 48
frequencies in ascending order. -/
theorem slotsToTune_table (s : State) :
    slotsToTune s USE_LBAND_FLAG false (CHANNEL_MAX_INDEX - CHANNEL_MIN_INDEX) CHANNEL_MIN_INDEX =
      tableFreqsByFreq.reverse := by
  rw [slotsToTune_noList]
  decide

/-- What `scanChansGetRssiValues` sends to the tuner. -/
theorem scanChansGetRssiValues_tunedFreqs (env : Env) (s : State)
    (incl inclAllFlag restoreFreqFlag : Bool) :
    ∃ restored : List Nat,
      restored.length = (if restoreFreqFlag then 1 else 0) ∧
      tunedFreqs (scanChansGetRssiValues env s incl inclAllFlag restoreFreqFlag).trace =
        restored ++
          (slotsToTune s incl (decide (!inclAllFlag ∧ s.listFreqsMHzArrCount > 0))
            ((scanRange s inclAllFlag).2 - (scanRange s inclAllFlag).1)
            (scanRange s inclAllFlag).1 ++ tunedFreqs s.trace) := by
  have hslots := scanSlots_tunedFreqs env incl
    (decide (!inclAllFlag ∧ s.listFreqsMHzArrCount > 0))
    ((scanRange s inclAllFlag).2 - (scanRange s inclAllFlag).1) (scanRange s inclAllFlag).1
    { clearRssiOutput s with trace := Event.scanning :: (clearRssiOutput s).trace }
  rw [slotsToTune_congr s
    { clearRssiOutput s with trace := Event.scanning :: (clearRssiOutput s).trace } incl _ rfl]
    at hslots
  have htr : tunedFreqs
      ({ clearRssiOutput s with trace := Event.scanning :: (clearRssiOutput s).trace } : State).trace
      = tunedFreqs s.trace := rfl
  rw [htr] at hslots
  unfold scanChansGetRssiValues
  dsimp only
  cases restoreFreqFlag
  · refine ⟨[], rfl, ?_⟩
    simp only [Bool.false_eq_true, if_false, List.nil_append]
    exact hslots
  · simp only [if_true]
    obtain ⟨f, hf⟩ := setTunerChannelToFreq_tunedFreqs env
      (scanSlots env incl (decide (!inclAllFlag ∧ s.listFreqsMHzArrCount > 0))
        ((scanRange s inclAllFlag).2 - (scanRange s inclAllFlag).1) (scanRange s inclAllFlag).1
        { clearRssiOutput s with trace := Event.scanning :: (clearRssiOutput s).trace })
      s.currentTunerFreqMhzOrCode
    refine ⟨[f], rfl, ?_⟩
    rw [hf, hslots]
    rfl

set_option maxRecDepth 100000 in
/-- Claim C20, counterexample.  A scan of the channel table started from the
initial state tunes all 48 channels of the range, in ascending frequency, not
fewer: `scanChansGetRssiValues` reads the clock and the receiver only, so no
command input, pending or not, can shorten it. -/
theorem C20_scan_tunes_all_channels :
    tunedFreqs (scanChansGetRssiValues idleEnv initialState USE_LBAND_FLAG false false).trace =
      tableFreqsByFreq.reverse ∧
    ¬ ((tunedFreqs (scanChansGetRssiValues idleEnv initialState USE_LBAND_FLAG false
        false).trace).length < CHANNEL_MAX_INDEX + 1) := by
  decide

/-- Claim C20, as the code has it.  `scanChansGetRssiValues` depends on the
state, the clock and the receiver only; for every value of these it sends to
the tuner every frequency in range of its loop indices, in order, and then the
previous frequency when `restoreFreqFlag` is set, and nothing else.  Without a
user list (or with `inclAllFlag`) these are the 48 frequencies of the channel
table in ascending order: the scan always runs to completion. -/
theorem C20_scan_runs_to_completion (env : Env) (s : State)
    (inclAllFlag restoreFreqFlag : Bool) :
    (∃ restored : List Nat,
      restored.length = (if restoreFreqFlag then 1 else 0) ∧
      tunedFreqs (scanChansGetRssiValues env s USE_LBAND_FLAG inclAllFlag
          restoreFreqFlag).trace =
        restored ++
          (slotsToTune s USE_LBAND_FLAG (decide (!inclAllFlag ∧ s.listFreqsMHzArrCount > 0))
            ((scanRange s inclAllFlag).2 - (scanRange s inclAllFlag).1)
            (scanRange s inclAllFlag).1 ++ tunedFreqs s.trace)) ∧
    (inclAllFlag = true ∨ ¬ (s.listFreqsMHzArrCount > 0) →
      slotsToTune s USE_LBAND_FLAG (decide (!inclAllFlag ∧ s.listFreqsMHzArrCount > 0))
          ((scanRange s inclAllFlag).2 - (scanRange s inclAllFlag).1)
          (scanRange s inclAllFlag).1 = tableFreqsByFreq.reverse ∧
      tableFreqsByFreq.length = CHANNEL_MAX_INDEX + 1) := by
  refine ⟨scanChansGetRssiValues_tunedFreqs env s USE_LBAND_FLAG inclAllFlag restoreFreqFlag, ?_⟩
  intro htable
  have hno : ¬ ((!inclAllFlag) = true ∧ s.listFreqsMHzArrCount > 0) := by
    rcases htable with h | h
    · rw [h]; intro hc; exact absurd hc.1 (by decide)
    · intro hc; exact h hc.2
  have hd : decide ((!inclAllFlag) = true ∧ s.listFreqsMHzArrCount > 0) = false :=
    decide_eq_false hno
  have hr : scanRange s inclAllFlag = (CHANNEL_MIN_INDEX, CHANNEL_MAX_INDEX) := by
    unfold scanRange
    rw [if_neg hno]
  rw [hd, hr]
  exact ⟨slotsToTune_table s, by decide⟩

/-- The scan of the channel table from the state of scenario A, with the
previous frequency restored at the end: 48 channels and the restored one. -/
theorem C20_scan_runs_to_completion_witness :
    slotsToTune scenarioA USE_LBAND_FLAG
        (decide (!false ∧ scenarioA.listFreqsMHzArrCount > 0))
        ((scanRange scenarioA false).2 - (scanRange scenarioA false).1)
        (scanRange scenarioA false).1 = tableFreqsByFreq.reverse ∧
      tableFreqsByFreq.length = CHANNEL_MAX_INDEX + 1 :=
  (C20_scan_runs_to_completion steadyEnv scenarioA false true).2 (Or.inr (by decide))

/-! ## Calibration: what an adjustment does -/

/-- What `calibAdjust` returns for a sample outside 16-bit bounds: either the
low bound moved down by a fifth of its distance to the sample (at least 1), the
sample being at least the margin below it, or the high bound moved up likewise;
the moved bound is within the check range and not past the sample. -/
theorem calibAdjust_spec (minVal maxVal rawVal a b : Nat)
    (hmin : minVal < 65536) (hmax : maxVal < 65536)
    (hout : rawVal < minVal ∨ rawVal > maxVal) (hraw : rawVal ≤ CHK_RAWRSSI_MAX)
    (h : calibAdjust minVal maxVal rawVal = some (a, b)) :
    (rawVal < minVal ∧ b = maxVal ∧ a = minVal - max 1 ((minVal - rawVal) / 5) ∧
        rawVal ≤ a ∧ a < minVal ∧ CHK_RAWRSSI_MIN ≤ a ∧ a ≤ CHK_RAWRSSI_MAX ∧
        75 ≤ minVal ∧ rawVal + (minVal - 75) / 6 ≤ minVal) ∨
    (minVal ≤ rawVal ∧ maxVal < rawVal ∧ a = minVal ∧
        b = maxVal + max 1 ((rawVal - maxVal) / 5) ∧
        b ≤ rawVal ∧ maxVal < b ∧ CHK_RAWRSSI_MIN ≤ b ∧ b ≤ CHK_RAWRSSI_MAX) := by
  simp only [CHK_RAWRSSI_MIN, CHK_RAWRSSI_MAX] at hraw ⊢
  by_cases h1 : rawVal < minVal
  · have e1 : (minVal + 65536 - rawVal) % 65536 = minVal - rawVal := by omega
    have e2 : (if (minVal - rawVal) / 5 ≤ 0 then 1 else (minVal - rawVal) / 5) =
        max 1 ((minVal - rawVal) / 5) := by
      split_ifs <;> omega
    have e3 : (minVal + 65536 - max 1 ((minVal - rawVal) / 5)) % 65536 =
        minVal - max 1 ((minVal - rawVal) / 5) := by omega
    unfold calibAdjust at h
    simp only [CHK_RAWRSSI_MIN, CHK_RAWRSSI_MAX, e1, e2, e3] at h
    rw [if_pos h1] at h
    by_cases h75 : 75 ≤ minVal
    · have e4 : (minVal + 65536 - 75) % 65536 = minVal - 75 := by omega
      have e5 : (rawVal + (minVal - 75) / 6) % 65536 = rawVal + (minVal - 75) / 6 := by omega
      rw [e4, e5] at h
      split_ifs at h with h2 h3
      simp only [Option.some.injEq, Prod.mk.injEq] at h
      obtain ⟨ha, hb⟩ := h
      left
      omega
    · have e4 : (minVal + 65536 - 75) % 65536 = minVal + 65461 := by omega
      have e5 : (rawVal + (minVal + 65461) / 6) % 65536 = rawVal + (minVal + 65461) / 6 := by
        omega
      rw [e4, e5] at h
      rw [if_pos (by omega)] at h
      exact absurd h (by simp)
  · have h2 : maxVal < rawVal := by omega
    have e1 : (rawVal + 65536 - maxVal) % 65536 = rawVal - maxVal := by omega
    have e2 : (if (rawVal - maxVal) / 5 ≤ 0 then 1 else (rawVal - maxVal) / 5) =
        max 1 ((rawVal - maxVal) / 5) := by
      split_ifs <;> omega
    have e3 : (maxVal + max 1 ((rawVal - maxVal) / 5)) % 65536 =
        maxVal + max 1 ((rawVal - maxVal) / 5) := by omega
    unfold calibAdjust at h
    simp only [CHK_RAWRSSI_MIN, CHK_RAWRSSI_MAX, e1, e2, e3] at h
    rw [if_neg h1] at h
    split_ifs at h with h3
    simp only [Option.some.injEq, Prod.mk.injEq] at h
    obtain ⟨ha, hb⟩ := h
    right
    omega

/-- The adjustment is dropped when the moved bound would leave the check range. -/
theorem calibAdjust_dropped (minVal maxVal rawVal : Nat)
    (hmin : minVal < 65536) (hmax : maxVal < 65536) (hraw : rawVal ≤ CHK_RAWRSSI_MAX) :
    (rawVal < minVal →
      ¬ (CHK_RAWRSSI_MIN ≤ minVal - max 1 ((minVal - rawVal) / 5) ∧
          minVal - max 1 ((minVal - rawVal) / 5) ≤ CHK_RAWRSSI_MAX) →
      calibAdjust minVal maxVal rawVal = none) ∧
    (maxVal < rawVal → minVal ≤ rawVal →
      ¬ (CHK_RAWRSSI_MIN ≤ maxVal + max 1 ((rawVal - maxVal) / 5) ∧
          maxVal + max 1 ((rawVal - maxVal) / 5) ≤ CHK_RAWRSSI_MAX) →
      calibAdjust minVal maxVal rawVal = none) := by
  simp only [CHK_RAWRSSI_MIN, CHK_RAWRSSI_MAX] at hraw ⊢
  constructor
  · intro h1 h2
    have e1 : (minVal + 65536 - rawVal) % 65536 = minVal - rawVal := by omega
    have e2 : (if (minVal - rawVal) / 5 ≤ 0 then 1 else (minVal - rawVal) / 5) =
        max 1 ((minVal - rawVal) / 5) := by
      split_ifs <;> omega
    have e3 : (minVal + 65536 - max 1 ((minVal - rawVal) / 5)) % 65536 =
        minVal - max 1 ((minVal - rawVal) / 5) := by omega
    unfold calibAdjust
    simp only [CHK_RAWRSSI_MIN, CHK_RAWRSSI_MAX, e1, e2, e3]
    rw [if_pos h1]
    split_ifs with h3 h4
    · rfl
    · rfl
    · omega
  · intro h1 h2 h3
    have e1 : (rawVal + 65536 - maxVal) % 65536 = rawVal - maxVal := by omega
    have e2 : (if (rawVal - maxVal) / 5 ≤ 0 then 1 else (rawVal - maxVal) / 5) =
        max 1 ((rawVal - maxVal) / 5) := by
      split_ifs <;> omega
    have e3 : (maxVal + max 1 ((rawVal - maxVal) / 5)) % 65536 =
        maxVal + max 1 ((rawVal - maxVal) / 5) := by omega
    unfold calibAdjust
    simp only [CHK_RAWRSSI_MIN, CHK_RAWRSSI_MAX, e1, e2, e3]
    rw [if_neg (by omega)]
    split_ifs with h4
    · rfl
    · omega

/-- One call of `processAutoRssiCalValue` either leaves the bounds, the EEPROM
and the trace as they were, or stores and saves the bounds given by
`calibAdjust` for an out-of-range sample. -/
theorem processAutoRssiCalValue_cases (env : Env) (s : State) (rawVal : Nat) :
    ((processAutoRssiCalValue env s rawVal).rx5808RawRssiMin = s.rx5808RawRssiMin ∧
      (processAutoRssiCalValue env s rawVal).rx5808RawRssiMax = s.rx5808RawRssiMax ∧
      (processAutoRssiCalValue env s rawVal).eeprom = s.eeprom ∧
      (processAutoRssiCalValue env s rawVal).trace = s.trace ∧
      (¬ outOfRange s rawVal ∨ s.autoRssiCalibCounterValue < 3 ∨
        (s.autoRssiCalibMarkedTime + 5000) % 2 ^ 32 < (millis env s).1 ∨
        calibAdjust s.rx5808RawRssiMin s.rx5808RawRssiMax rawVal = none)) ∨
    (outOfRange s rawVal ∧ 3 ≤ s.autoRssiCalibCounterValue ∧
      ∃ a b, calibAdjust s.rx5808RawRssiMin s.rx5808RawRssiMax rawVal = some (a, b) ∧
        (processAutoRssiCalValue env s rawVal).rx5808RawRssiMin = a ∧
        (processAutoRssiCalValue env s rawVal).rx5808RawRssiMax = b ∧
        readWordFromEeprom (processAutoRssiCalValue env s rawVal) EEPROM_ADRW_RSSIMIN
          = a % 65536 ∧
        readWordFromEeprom (processAutoRssiCalValue env s rawVal) EEPROM_ADRW_RSSIMAX
          = b % 65536) := by
  by_cases hg : outOfRange s rawVal
  · by_cases hc0 : s.autoRssiCalibCounterValue = 0
    · rw [processAutoRssiCalValue_first env s rawVal hg hc0]
      exact Or.inl ⟨rfl, rfl, rfl, rfl, Or.inr (Or.inl (by omega))⟩
    · by_cases ht : (millis env s).1 ≤ (s.autoRssiCalibMarkedTime + 5000) % 2 ^ 32
      · by_cases hc3 : 3 ≤ s.autoRssiCalibCounterValue
        · rw [processAutoRssiCalValue_adjust env s rawVal hg hc3 ht]
          cases hadj : calibAdjust s.rx5808RawRssiMin s.rx5808RawRssiMax rawVal with
          | none => exact Or.inl ⟨rfl, rfl, rfl, rfl, Or.inr (Or.inr (Or.inr rfl))⟩
          | some ab =>
            obtain ⟨a, b⟩ := ab
            refine Or.inr ⟨hg, hc3, a, b, rfl, rfl, rfl, ?_, ?_⟩
            · simp only [readWordFromEeprom, readByteFromEeprom, saveRssiMinMaxValsToEeprom,
                writeWordToEeprom, writeByteToEeprom, setRx5808RawRssiMinMax, setAt,
                EEPROM_ADRW_RSSIMIN, EEPROM_ADRW_RSSIMAX]
              simp
              omega
            · simp only [readWordFromEeprom, readByteFromEeprom, saveRssiMinMaxValsToEeprom,
                writeWordToEeprom, writeByteToEeprom, setRx5808RawRssiMinMax, setAt,
                EEPROM_ADRW_RSSIMIN, EEPROM_ADRW_RSSIMAX]
              simp
              omega
        · rw [processAutoRssiCalValue_count env s rawVal hg hc0 (by omega) ht]
          exact Or.inl ⟨rfl, rfl, rfl, rfl, Or.inr (Or.inl (by omega))⟩
      · unfold processAutoRssiCalValue
        rw [if_pos hg, if_neg hc0, if_neg ht]
        exact Or.inl ⟨rfl, rfl, rfl, rfl, Or.inr (Or.inr (Or.inl (by omega)))⟩
  · unfold processAutoRssiCalValue
    rw [if_neg hg]
    exact Or.inl ⟨rfl, rfl, rfl, rfl, Or.inl hg⟩

/-- The bounds stored by the command are those given, as 16-bit values. -/
theorem acceptRawRssiMinMax_bounds (s : State) (minVal maxVal : Int) :
    (acceptRawRssiMinMax s minVal maxVal).rx5808RawRssiMin = toUInt16 minVal ∧
    (acceptRawRssiMinMax s minVal maxVal).rx5808RawRssiMax = toUInt16 maxVal := by
  unfold acceptRawRssiMinMax
  by_cases h : toUInt16 minVal ≠ s.rx5808RawRssiMin ∨ toUInt16 maxVal ≠ s.rx5808RawRssiMax
  · rw [if_pos h]
    exact ⟨rfl, rfl⟩
  · rw [if_neg h]
    constructor
    · by_contra hne
      exact h (Or.inl (fun e => hne e.symm))
    · by_contra hne
      exact h (Or.inr (fun e => hne e.symm))

/-- From bounds below `2^15` the set-bounds command, given `int` values, leaves
the low bound below the high bound. -/
theorem processRawRssiMinMaxCommand_ordered (s : State) (p : RawRssiParam)
    (hlt : s.rx5808RawRssiMin < s.rx5808RawRssiMax) (h15 : s.rx5808RawRssiMax < 32768)
    (hp : p.inIntRange) :
    (processRawRssiMinMaxCommand s p).rx5808RawRssiMin <
      (processRawRssiMinMaxCommand s p).rx5808RawRssiMax := by
  cases p with
  | absent => exact hlt
  | unparsable => exact hlt
  | useDefault =>
    simp only [processRawRssiMinMaxCommand]
    rw [(acceptRawRssiMinMax_bounds s _ _).1, (acceptRawRssiMinMax_bounds s _ _).2]
    decide
  | values minGiven maxGiven =>
    simp only [processRawRssiMinMaxCommand]
    split_ifs with h1 h2
    · exact hlt
    · rw [(acceptRawRssiMinMax_bounds s _ _).1, (acceptRawRssiMinMax_bounds s _ _).2]
      have ha : 0 ≤ minGiven.getD (toInt16 s.rx5808RawRssiMin) ∧
          minGiven.getD (toInt16 s.rx5808RawRssiMin) ≤ 32767 := by
        cases minGiven with
        | none => simp only [Option.getD, toInt16]; omega
        | some v =>
          have := hp.1 v rfl
          rcases h1.1 with h | h
          · exact absurd h (by simp)
          · simp only [Option.getD] at h ⊢; omega
      have hb : 0 ≤ maxGiven.getD (toInt16 s.rx5808RawRssiMax) ∧
          maxGiven.getD (toInt16 s.rx5808RawRssiMax) ≤ 32767 := by
        cases maxGiven with
        | none => simp only [Option.getD, toInt16]; omega
        | some v =>
          have := hp.2 v rfl
          rcases h1.2 with h | h
          · exact absurd h (by simp)
          · simp only [Option.getD] at h ⊢; omega
      generalize minGiven.getD (toInt16 s.rx5808RawRssiMin) = a at *
      generalize maxGiven.getD (toInt16 s.rx5808RawRssiMax) = b at *
      simp only [toUInt16]
      omega
    · exact hlt

/-- The load from the EEPROM always leaves the low bound below the high bound. -/
theorem loadRssiMinMaxValsFromEeprom_ordered (s : State) :
    (loadRssiMinMaxValsFromEeprom s).rx5808RawRssiMin <
      (loadRssiMinMaxValsFromEeprom s).rx5808RawRssiMax := by
  unfold loadRssiMinMaxValsFromEeprom
  simp only
  split_ifs with h
  · show DEF_RAWRSSI_MIN < DEF_RAWRSSI_MAX
    decide
  · show readWordFromEeprom s EEPROM_ADRW_RSSIMIN < readWordFromEeprom s EEPROM_ADRW_RSSIMAX
    omega

/-- The automatic adjustment keeps the whole invariant. -/
theorem processAutoRssiCalValue_boundsOk (env : Env) (s : State) (rawVal : Nat)
    (hinv : BoundsOk s) : BoundsOk (processAutoRssiCalValue env s rawVal) := by
  rcases processAutoRssiCalValue_cases env s rawVal with h | h
  · obtain ⟨h1, h2, -, -, -⟩ := h
    unfold BoundsOk
    rw [h1, h2]
    exact hinv
  · obtain ⟨hg, -, a, b, hadj, h1, h2, -, -⟩ := h
    unfold BoundsOk
    rw [h1, h2]
    have hout : rawVal < s.rx5808RawRssiMin ∨ rawVal > s.rx5808RawRssiMax := by
      rcases hg.1 with h | h
      · exact Or.inl h.1
      · exact Or.inr h
    have hinv1 := hinv
    simp only [BoundsOk, CHK_RAWRSSI_MIN, CHK_RAWRSSI_MAX] at hinv1
    have := calibAdjust_spec _ _ rawVal a b (by omega) (by omega) hout hg.2.2 hadj
    simp only [CHK_RAWRSSI_MIN, CHK_RAWRSSI_MAX] at this ⊢
    omega

/-- Claim C21, counterexample.  From the default bounds 180/200, which satisfy
the invariant, the command `XJ 5,2000` stores the bounds 5/2000, and the load
from an EEPROM that holds 5 and 2000 does the same: both results have a low
bound below 20 and a high bound above 1000, so the invariant is not preserved
by the set-bounds command nor by the load. -/
theorem C21_command_and_load_leave_band :
    BoundsOk initialState ∧
    ¬ BoundsOk (processRawRssiMinMaxCommand initialState
        (RawRssiParam.values (some 5) (some 2000))) ∧
    ¬ BoundsOk (loadRssiMinMaxValsFromEeprom
        (writeWordToEeprom (writeWordToEeprom initialState EEPROM_ADRW_RSSIMIN 5)
          EEPROM_ADRW_RSSIMAX 2000)) ∧
    (processRawRssiMinMaxCommand initialState
        (RawRssiParam.values (some 5) (some 2000))).rx5808RawRssiMin = 5 ∧
    (processRawRssiMinMaxCommand initialState
        (RawRssiParam.values (some 5) (some 2000))).rx5808RawRssiMax = 2000 ∧
    (loadRssiMinMaxValsFromEeprom
        (writeWordToEeprom (writeWordToEeprom initialState EEPROM_ADRW_RSSIMIN 5)
          EEPROM_ADRW_RSSIMAX 2000)).rx5808RawRssiMin = 5 ∧
    (loadRssiMinMaxValsFromEeprom
        (writeWordToEeprom (writeWordToEeprom initialState EEPROM_ADRW_RSSIMIN 5)
          EEPROM_ADRW_RSSIMAX 2000)).rx5808RawRssiMax = 2000 := by
  decide

/-- Claim C21, as the code has it.  From every state that satisfies the
invariant (low bound below high bound, both within 20..1000) the automatic
adjustment `processAutoRssiCalValue` gives a state that satisfies it again; the
load `loadRssiMinMaxValsFromEeprom` and the set-bounds command
`processRawRssiMinMaxCommand` (given `int` values) keep only the order: after
them the low bound is below the high bound, whatever the band. -/
theorem C21_writers_keep_order (env : Env) (s : State) (rawVal : Nat) (p : RawRssiParam)
    (hinv : BoundsOk s) (hp : p.inIntRange) :
    BoundsOk (processAutoRssiCalValue env s rawVal) ∧
    (loadRssiMinMaxValsFromEeprom s).rx5808RawRssiMin <
      (loadRssiMinMaxValsFromEeprom s).rx5808RawRssiMax ∧
    (processRawRssiMinMaxCommand s p).rx5808RawRssiMin <
      (processRawRssiMinMaxCommand s p).rx5808RawRssiMax := by
  refine ⟨processAutoRssiCalValue_boundsOk env s rawVal hinv,
    loadRssiMinMaxValsFromEeprom_ordered s, ?_⟩
  have hinv1 := hinv
  simp only [BoundsOk, CHK_RAWRSSI_MIN, CHK_RAWRSSI_MAX] at hinv1
  exact processRawRssiMinMaxCommand_ordered s p hinv.1 (by omega) hp

/-- Witness for C21: the calibrator about to adjust, a sample of 250 and the
command `XJ 100,300`. -/
theorem C21_writers_keep_order_witness :
    BoundsOk readyToAdjust ∧
    (RawRssiParam.values (some 100) (some 300)).inIntRange ∧
    (BoundsOk (processAutoRssiCalValue idleEnv readyToAdjust 250) ∧
      (loadRssiMinMaxValsFromEeprom readyToAdjust).rx5808RawRssiMin <
        (loadRssiMinMaxValsFromEeprom readyToAdjust).rx5808RawRssiMax ∧
      (processRawRssiMinMaxCommand readyToAdjust
          (RawRssiParam.values (some 100) (some 300))).rx5808RawRssiMin <
        (processRawRssiMinMaxCommand readyToAdjust
          (RawRssiParam.values (some 100) (some 300))).rx5808RawRssiMax) :=
  ⟨by decide, by simp [RawRssiParam.inIntRange],
    C21_writers_keep_order idleEnv readyToAdjust 250
      (RawRssiParam.values (some 100) (some 300)) (by decide)
      (by simp [RawRssiParam.inIntRange])⟩

/-- Claim C22.  For 16-bit bounds and every raw sample, one call of
`processAutoRssiCalValue` either leaves both bounds, the EEPROM and the trace
as they were, or changes exactly one bound: the low bound goes down by
`max 1 (|min - raw| / 5)` and stays at or above the sample, or the high bound
goes up by `max 1 (|max - raw| / 5)` and stays at or below the sample; the
moved bound is within 20..1000 and saved in the EEPROM.  Whenever the moved
bound would lie outside 20..1000, both bounds keep their values and nothing is
written to the EEPROM. -/
theorem C22_adjustment_moves_one_bound (env : Env) (s : State) (rawVal : Nat)
    (hmin : s.rx5808RawRssiMin < 65536) (hmax : s.rx5808RawRssiMax < 65536) :
    (BoundsKept s (processAutoRssiCalValue env s rawVal) ∨
      (rawVal < s.rx5808RawRssiMin ∧
        (processAutoRssiCalValue env s rawVal).rx5808RawRssiMax = s.rx5808RawRssiMax ∧
        (processAutoRssiCalValue env s rawVal).rx5808RawRssiMin =
          s.rx5808RawRssiMin - specStep s.rx5808RawRssiMin rawVal ∧
        rawVal ≤ (processAutoRssiCalValue env s rawVal).rx5808RawRssiMin ∧
        (processAutoRssiCalValue env s rawVal).rx5808RawRssiMin < s.rx5808RawRssiMin ∧
        inCheckRange (processAutoRssiCalValue env s rawVal).rx5808RawRssiMin ∧
        readWordFromEeprom (processAutoRssiCalValue env s rawVal) EEPROM_ADRW_RSSIMIN =
          (processAutoRssiCalValue env s rawVal).rx5808RawRssiMin) ∨
      (s.rx5808RawRssiMax < rawVal ∧
        (processAutoRssiCalValue env s rawVal).rx5808RawRssiMin = s.rx5808RawRssiMin ∧
        (processAutoRssiCalValue env s rawVal).rx5808RawRssiMax =
          s.rx5808RawRssiMax + specStep s.rx5808RawRssiMax rawVal ∧
        (processAutoRssiCalValue env s rawVal).rx5808RawRssiMax ≤ rawVal ∧
        s.rx5808RawRssiMax < (processAutoRssiCalValue env s rawVal).rx5808RawRssiMax ∧
        inCheckRange (processAutoRssiCalValue env s rawVal).rx5808RawRssiMax ∧
        readWordFromEeprom (processAutoRssiCalValue env s rawVal) EEPROM_ADRW_RSSIMAX =
          (processAutoRssiCalValue env s rawVal).rx5808RawRssiMax)) ∧
    (rawVal < s.rx5808RawRssiMin →
      ¬ inCheckRange (s.rx5808RawRssiMin - specStep s.rx5808RawRssiMin rawVal) →
      BoundsKept s (processAutoRssiCalValue env s rawVal)) ∧
    (s.rx5808RawRssiMax < rawVal → s.rx5808RawRssiMin ≤ rawVal →
      ¬ inCheckRange (s.rx5808RawRssiMax + specStep s.rx5808RawRssiMax rawVal) →
      BoundsKept s (processAutoRssiCalValue env s rawVal)) := by
  rcases processAutoRssiCalValue_cases env s rawVal with h | h
  · obtain ⟨h1, h2, h3, h4, -⟩ := h
    exact ⟨Or.inl ⟨h1, h2, h3, h4⟩, fun _ _ => ⟨h1, h2, h3, h4⟩,
      fun _ _ _ => ⟨h1, h2, h3, h4⟩⟩
  · obtain ⟨hg, -, a, b, hadj, h1, h2, h3, h4⟩ := h
    have hout : rawVal < s.rx5808RawRssiMin ∨ rawVal > s.rx5808RawRssiMax := by
      rcases hg.1 with h | h
      · exact Or.inl h.1
      · exact Or.inr h
    have hd := calibAdjust_dropped s.rx5808RawRssiMin s.rx5808RawRssiMax rawVal hmin hmax hg.2.2
    have hs := calibAdjust_spec _ _ rawVal a b hmin hmax hout hg.2.2 hadj
    refine ⟨?_, ?_, ?_⟩
    · rw [h1, h2, h3, h4]
      simp only [inCheckRange, CHK_RAWRSSI_MIN, CHK_RAWRSSI_MAX, specStep] at hs ⊢
      rcases hs with hs | hs
      · obtain ⟨q1, q2, q3, q4, q5, q6, q7, -, -⟩ := hs
        have e1 : max s.rx5808RawRssiMin rawVal - min s.rx5808RawRssiMin rawVal =
            s.rx5808RawRssiMin - rawVal := by omega
        rw [e1]
        refine Or.inr (Or.inl ⟨q1, q2, q3, q4, q5, ⟨q6, q7⟩, ?_⟩)
        omega
      · obtain ⟨q1, q2, q3, q4, q5, q6, q7, q8⟩ := hs
        have e1 : max s.rx5808RawRssiMax rawVal - min s.rx5808RawRssiMax rawVal =
            rawVal - s.rx5808RawRssiMax := by omega
        rw [e1]
        refine Or.inr (Or.inr ⟨q2, q3, q4, q5, q6, ⟨q7, q8⟩, ?_⟩)
        omega
    · intro hlow hband
      have e1 : specStep s.rx5808RawRssiMin rawVal =
          max 1 ((s.rx5808RawRssiMin - rawVal) / 5) := by
        simp only [specStep]
        omega
      rw [e1] at hband
      rw [hd.1 hlow hband] at hadj
      exact absurd hadj (by simp)
    · intro hhigh hge hband
      have e1 : specStep s.rx5808RawRssiMax rawVal =
          max 1 ((rawVal - s.rx5808RawRssiMax) / 5) := by
        simp only [specStep]
        omega
      rw [e1] at hband
      rw [hd.2 hhigh hge hband] at hadj
      exact absurd hadj (by simp)

/-- Witness for C22: the calibrator about to adjust (bounds 180/200) and a
sample of 250, which raises the high bound to 210. -/
theorem C22_adjustment_moves_one_bound_witness :
    readyToAdjust.rx5808RawRssiMin < 65536 ∧ readyToAdjust.rx5808RawRssiMax < 65536 ∧
    ((BoundsKept readyToAdjust (processAutoRssiCalValue idleEnv readyToAdjust 250) ∨
        (250 < readyToAdjust.rx5808RawRssiMin ∧
          (processAutoRssiCalValue idleEnv readyToAdjust 250).rx5808RawRssiMax =
            readyToAdjust.rx5808RawRssiMax ∧
          (processAutoRssiCalValue idleEnv readyToAdjust 250).rx5808RawRssiMin =
            readyToAdjust.rx5808RawRssiMin - specStep readyToAdjust.rx5808RawRssiMin 250 ∧
          250 ≤ (processAutoRssiCalValue idleEnv readyToAdjust 250).rx5808RawRssiMin ∧
          (processAutoRssiCalValue idleEnv readyToAdjust 250).rx5808RawRssiMin <
            readyToAdjust.rx5808RawRssiMin ∧
          inCheckRange (processAutoRssiCalValue idleEnv readyToAdjust 250).rx5808RawRssiMin ∧
          readWordFromEeprom (processAutoRssiCalValue idleEnv readyToAdjust 250)
              EEPROM_ADRW_RSSIMIN =
            (processAutoRssiCalValue idleEnv readyToAdjust 250).rx5808RawRssiMin) ∨
        (readyToAdjust.rx5808RawRssiMax < 250 ∧
          (processAutoRssiCalValue idleEnv readyToAdjust 250).rx5808RawRssiMin =
            readyToAdjust.rx5808RawRssiMin ∧
          (processAutoRssiCalValue idleEnv readyToAdjust 250).rx5808RawRssiMax =
            readyToAdjust.rx5808RawRssiMax + specStep readyToAdjust.rx5808RawRssiMax 250 ∧
          (processAutoRssiCalValue idleEnv readyToAdjust 250).rx5808RawRssiMax ≤ 250 ∧
          readyToAdjust.rx5808RawRssiMax <
            (processAutoRssiCalValue idleEnv readyToAdjust 250).rx5808RawRssiMax ∧
          inCheckRange (processAutoRssiCalValue idleEnv readyToAdjust 250).rx5808RawRssiMax ∧
          readWordFromEeprom (processAutoRssiCalValue idleEnv readyToAdjust 250)
              EEPROM_ADRW_RSSIMAX =
            (processAutoRssiCalValue idleEnv readyToAdjust 250).rx5808RawRssiMax)) ∧
      (250 < readyToAdjust.rx5808RawRssiMin →
        ¬ inCheckRange
            (readyToAdjust.rx5808RawRssiMin - specStep readyToAdjust.rx5808RawRssiMin 250) →
        BoundsKept readyToAdjust (processAutoRssiCalValue idleEnv readyToAdjust 250)) ∧
      (readyToAdjust.rx5808RawRssiMax < 250 → readyToAdjust.rx5808RawRssiMin ≤ 250 →
        ¬ inCheckRange
            (readyToAdjust.rx5808RawRssiMax + specStep readyToAdjust.rx5808RawRssiMax 250) →
        BoundsKept readyToAdjust (processAutoRssiCalValue idleEnv readyToAdjust 250))) :=
  ⟨by decide, by decide,
    C22_adjustment_moves_one_bound idleEnv readyToAdjust 250 (by decide) (by decide)⟩

/-- Claim C23, counterexample.  With the bounds 180/200, the tuner on 5800 MHz
and three out-of-range samples counted, a sample of 20 lowers the low bound to
148, that is by 32, while the margin `(180 - 75) / 6` is 17. -/
theorem C23_low_bound_drops_past_margin :
    (processAutoRssiCalValue idleEnv readyToAdjust 20).rx5808RawRssiMin = 148 ∧
    readyToAdjust.rx5808RawRssiMin = 180 ∧
    (readyToAdjust.rx5808RawRssiMin - 75) / 6 = 17 ∧
    ¬ (readyToAdjust.rx5808RawRssiMin -
        (processAutoRssiCalValue idleEnv readyToAdjust 20).rx5808RawRssiMin ≤
      (readyToAdjust.rx5808RawRssiMin - 75) / 6) := by
  decide

/-- Claim C23, as the code has it.  Whenever `processAutoRssiCalValue` lowers a
16-bit low bound, that bound was at least 75, the sample was at least the margin
`(min - 75) / 6` below it, and the bound goes down by `max 1 ((min - raw) / 5)`,
which is at most its distance to the sample (and may exceed the margin). -/
theorem C23_low_bound_step (env : Env) (s : State) (rawVal : Nat)
    (hmin : s.rx5808RawRssiMin < 65536) (hmax : s.rx5808RawRssiMax < 65536)
    (hlow : (processAutoRssiCalValue env s rawVal).rx5808RawRssiMin < s.rx5808RawRssiMin) :
    75 ≤ s.rx5808RawRssiMin ∧
    rawVal + (s.rx5808RawRssiMin - 75) / 6 ≤ s.rx5808RawRssiMin ∧
    s.rx5808RawRssiMin - (processAutoRssiCalValue env s rawVal).rx5808RawRssiMin =
      max 1 ((s.rx5808RawRssiMin - rawVal) / 5) ∧
    s.rx5808RawRssiMin - (processAutoRssiCalValue env s rawVal).rx5808RawRssiMin ≤
      s.rx5808RawRssiMin - rawVal := by
  rcases processAutoRssiCalValue_cases env s rawVal with h | h
  · omega
  · obtain ⟨hg, -, a, b, hadj, h1, h2, -, -⟩ := h
    have hout : rawVal < s.rx5808RawRssiMin ∨ rawVal > s.rx5808RawRssiMax := by
      rcases hg.1 with h | h
      · exact Or.inl h.1
      · exact Or.inr h
    have hs := calibAdjust_spec _ _ rawVal a b hmin hmax hout hg.2.2 hadj
    rw [h1] at hlow ⊢
    simp only [CHK_RAWRSSI_MIN, CHK_RAWRSSI_MAX] at hs
    omega

/-- Witness for C23: the calibrator about to adjust (bounds 180/200) and a
sample of 150, which lowers the low bound by 6. -/
theorem C23_low_bound_step_witness :
    readyToAdjust.rx5808RawRssiMin < 65536 ∧ readyToAdjust.rx5808RawRssiMax < 65536 ∧
    (processAutoRssiCalValue idleEnv readyToAdjust 150).rx5808RawRssiMin <
      readyToAdjust.rx5808RawRssiMin ∧
    (75 ≤ readyToAdjust.rx5808RawRssiMin ∧
      150 + (readyToAdjust.rx5808RawRssiMin - 75) / 6 ≤ readyToAdjust.rx5808RawRssiMin ∧
      readyToAdjust.rx5808RawRssiMin -
          (processAutoRssiCalValue idleEnv readyToAdjust 150).rx5808RawRssiMin =
        max 1 ((readyToAdjust.rx5808RawRssiMin - 150) / 5) ∧
      readyToAdjust.rx5808RawRssiMin -
          (processAutoRssiCalValue idleEnv readyToAdjust 150).rx5808RawRssiMin ≤
        readyToAdjust.rx5808RawRssiMin - 150) :=
  ⟨by decide, by decide, by decide,
    C23_low_bound_step idleEnv readyToAdjust 150 (by decide) (by decide) (by decide)⟩

/-! ## Input-pin triggers -/

/-- A run of `d2InterruptRoutine` over a sequence of readings adds the number
of high-to-low transitions to the live counter, modulo 256. -/
theorem d2InterruptRoutine_run (readings : List Nat) :
    ∀ t : PinTrackers,
      (readings.foldl d2InterruptRoutine t).triggerD2LiveCounter % 256 =
        (t.triggerD2LiveCounter + countFalls t.trackedD2InputState readings) % 256 ∧
      ((readings.foldl d2InterruptRoutine t).triggerD2LiveCounter < 256 ∨
        (readings.foldl d2InterruptRoutine t).triggerD2LiveCounter = t.triggerD2LiveCounter) ∧
      (readings.foldl d2InterruptRoutine t).triggerD2TrackCounter = t.triggerD2TrackCounter := by
  induction readings with
  | nil => intro t; exact ⟨by simp [countFalls], Or.inr rfl, rfl⟩
  | cons r rest ih =>
    intro t
    simp only [List.foldl_cons, countFalls]
    obtain ⟨h1, h2, h3⟩ := ih (d2InterruptRoutine t r)
    rw [h1, h3]
    by_cases hc : t.trackedD2InputState = HIGH ∧ r = LOW
    · have e1 : (d2InterruptRoutine t r).triggerD2LiveCounter =
          (t.triggerD2LiveCounter + 1) % 256 := by
        simp only [d2InterruptRoutine, if_pos hc]
      have e2 : (d2InterruptRoutine t r).trackedD2InputState = r := rfl
      have e3 : (d2InterruptRoutine t r).triggerD2TrackCounter = t.triggerD2TrackCounter := by
        simp only [d2InterruptRoutine, if_pos hc]
      rw [e1] at h2
      rw [e1, e2, e3, if_pos hc]
      refine ⟨by omega, ?_, rfl⟩
      rcases h2 with h2 | h2
      · exact Or.inl h2
      · left; omega
    · have e1 : (d2InterruptRoutine t r).triggerD2LiveCounter = t.triggerD2LiveCounter := by
        simp only [d2InterruptRoutine, if_neg hc]
      have e2 : (d2InterruptRoutine t r).trackedD2InputState = r := rfl
      have e3 : (d2InterruptRoutine t r).triggerD2TrackCounter = t.triggerD2TrackCounter := by
        simp only [d2InterruptRoutine, if_neg hc]
      rw [e1] at h2
      rw [e1, e2, e3, if_neg hc]
      exact ⟨by omega, h2, rfl⟩

/-- A run of `d3InterruptRoutine` over a sequence of readings adds the number
of high-to-low transitions to the live counter, modulo 256. -/
theorem d3InterruptRoutine_run (readings : List Nat) :
    ∀ t : PinTrackers,
      (readings.foldl d3InterruptRoutine t).triggerD3LiveCounter % 256 =
        (t.triggerD3LiveCounter + countFalls t.trackedD3InputState readings) % 256 ∧
      ((readings.foldl d3InterruptRoutine t).triggerD3LiveCounter < 256 ∨
        (readings.foldl d3InterruptRoutine t).triggerD3LiveCounter = t.triggerD3LiveCounter) ∧
      (readings.foldl d3InterruptRoutine t).triggerD3TrackCounter = t.triggerD3TrackCounter := by
  induction readings with
  | nil => intro t; exact ⟨by simp [countFalls], Or.inr rfl, rfl⟩
  | cons r rest ih =>
    intro t
    simp only [List.foldl_cons, countFalls]
    obtain ⟨h1, h2, h3⟩ := ih (d3InterruptRoutine t r)
    rw [h1, h3]
    by_cases hc : t.trackedD3InputState = HIGH ∧ r = LOW
    · have e1 : (d3InterruptRoutine t r).triggerD3LiveCounter =
          (t.triggerD3LiveCounter + 1) % 256 := by
        simp only [d3InterruptRoutine, if_pos hc]
      have e2 : (d3InterruptRoutine t r).trackedD3InputState = r := rfl
      have e3 : (d3InterruptRoutine t r).triggerD3TrackCounter = t.triggerD3TrackCounter := by
        simp only [d3InterruptRoutine, if_pos hc]
      rw [e1] at h2
      rw [e1, e2, e3, if_pos hc]
      refine ⟨by omega, ?_, rfl⟩
      rcases h2 with h2 | h2
      · exact Or.inl h2
      · left; omega
    · have e1 : (d3InterruptRoutine t r).triggerD3LiveCounter = t.triggerD3LiveCounter := by
        simp only [d3InterruptRoutine, if_neg hc]
      have e2 : (d3InterruptRoutine t r).trackedD3InputState = r := rfl
      have e3 : (d3InterruptRoutine t r).triggerD3TrackCounter = t.triggerD3TrackCounter := by
        simp only [d3InterruptRoutine, if_neg hc]
      rw [e1] at h2
      rw [e1, e2, e3, if_neg hc]
      exact ⟨by omega, h2, rfl⟩

/-- After a call of `getD2InputTriggeredFlag` the two counters agree. -/
theorem getD2InputTriggeredFlag_sync (t : PinTrackers) :
    (getD2InputTriggeredFlag t).2.triggerD2TrackCounter =
      (getD2InputTriggeredFlag t).2.triggerD2LiveCounter ∧
    (getD2InputTriggeredFlag t).2.triggerD2LiveCounter = t.triggerD2LiveCounter ∧
    (getD2InputTriggeredFlag t).2.trackedD2InputState = t.trackedD2InputState := by
  unfold getD2InputTriggeredFlag
  by_cases h : t.triggerD2LiveCounter = t.triggerD2TrackCounter
  · rw [if_pos h]
    exact ⟨h.symm, rfl, rfl⟩
  · rw [if_neg h]
    exact ⟨rfl, rfl, rfl⟩

/-- After a call of `getD3InputTriggeredFlag` the two counters agree. -/
theorem getD3InputTriggeredFlag_sync (t : PinTrackers) :
    (getD3InputTriggeredFlag t).2.triggerD3TrackCounter =
      (getD3InputTriggeredFlag t).2.triggerD3LiveCounter ∧
    (getD3InputTriggeredFlag t).2.triggerD3LiveCounter = t.triggerD3LiveCounter ∧
    (getD3InputTriggeredFlag t).2.trackedD3InputState = t.trackedD3InputState := by
  unfold getD3InputTriggeredFlag
  by_cases h : t.triggerD3LiveCounter = t.triggerD3TrackCounter
  · rw [if_pos h]
    exact ⟨h.symm, rfl, rfl⟩
  · rw [if_neg h]
    exact ⟨rfl, rfl, rfl⟩

/-- The flag of `getD2InputTriggeredFlag` is the test that the counters differ. -/
theorem getD2InputTriggeredFlag_fst (t : PinTrackers) :
    (getD2InputTriggeredFlag t).1 =
      decide (t.triggerD2LiveCounter ≠ t.triggerD2TrackCounter) := by
  unfold getD2InputTriggeredFlag
  by_cases h : t.triggerD2LiveCounter = t.triggerD2TrackCounter
  · simp [h]
  · simp [h]

/-- The flag of `getD3InputTriggeredFlag` is the test that the counters differ. -/
theorem getD3InputTriggeredFlag_fst (t : PinTrackers) :
    (getD3InputTriggeredFlag t).1 =
      decide (t.triggerD3LiveCounter ≠ t.triggerD3TrackCounter) := by
  unfold getD3InputTriggeredFlag
  by_cases h : t.triggerD3LiveCounter = t.triggerD3TrackCounter
  · simp [h]
  · simp [h]

/-- The readings of `n` pulses after a high state hold `n` high-to-low transitions. -/
theorem countFalls_pulses (n : Nat) (tracked : Nat) (h : tracked = HIGH) :
    countFalls tracked (pulses n) = n := by
  induction n with
  | zero => rfl
  | succ k ih =>
    simp only [pulses, countFalls, h]
    have : countFalls HIGH (pulses k) = k := by rw [← h]; exact ih
    rw [this]
    simp [HIGH, LOW]
    omega

/-- Claim C24, failing input.  After a call of `getD2InputTriggeredFlag`, 256
pulses of the pin (256 high-to-low transitions seen by `d2InterruptRoutine`)
bring the 8-bit live counter back to its value, and the next call returns
false although transitions occurred; likewise for D3. -/
theorem C24_wrapped_counter_hides_transitions :
    countFalls (getD2InputTriggeredFlag initialPinTrackers).2.trackedD2InputState
      (pulses 256) = 256 ∧
    (getD2InputTriggeredFlag
      ((pulses 256).foldl d2InterruptRoutine
        (getD2InputTriggeredFlag initialPinTrackers).2)).1 = false ∧
    countFalls (getD3InputTriggeredFlag initialPinTrackers).2.trackedD3InputState
      (pulses 256) = 256 ∧
    (getD3InputTriggeredFlag
      ((pulses 256).foldl d3InterruptRoutine
        (getD3InputTriggeredFlag initialPinTrackers).2)).1 = false := by
  refine ⟨countFalls_pulses 256 _ rfl, ?_, countFalls_pulses 256 _ rfl, ?_⟩
  · rw [getD2InputTriggeredFlag_fst]
    have h := d2InterruptRoutine_run (pulses 256) (getD2InputTriggeredFlag initialPinTrackers).2
    have hs := getD2InputTriggeredFlag_sync initialPinTrackers
    have hc : countFalls (getD2InputTriggeredFlag initialPinTrackers).2.trackedD2InputState
        (pulses 256) = 256 := countFalls_pulses 256 _ rfl
    obtain ⟨h1, h2, h3⟩ := h
    rw [hc] at h1
    have h0 : (getD2InputTriggeredFlag initialPinTrackers).2.triggerD2LiveCounter = 0 := rfl
    have h00 : (getD2InputTriggeredFlag initialPinTrackers).2.triggerD2TrackCounter = 0 := rfl
    rw [h3, h00]
    rw [h0] at h1 h2
    simp only [ne_eq, decide_not, Bool.not_eq_false', decide_eq_true_eq]
    omega
  · rw [getD3InputTriggeredFlag_fst]
    have h := d3InterruptRoutine_run (pulses 256) (getD3InputTriggeredFlag initialPinTrackers).2
    have hc : countFalls (getD3InputTriggeredFlag initialPinTrackers).2.trackedD3InputState
        (pulses 256) = 256 := countFalls_pulses 256 _ rfl
    obtain ⟨h1, h2, h3⟩ := h
    rw [hc] at h1
    have h0 : (getD3InputTriggeredFlag initialPinTrackers).2.triggerD3LiveCounter = 0 := rfl
    have h00 : (getD3InputTriggeredFlag initialPinTrackers).2.triggerD3TrackCounter = 0 := rfl
    rw [h3, h00]
    rw [h0] at h1 h2
    simp only [ne_eq, decide_not, Bool.not_eq_false', decide_eq_true_eq]
    omega

/-- Claim C24, as the code has it.  `d2InterruptRoutine` increments its 8-bit
live counter exactly when the tracked state was HIGH and the new reading is
LOW, and tracks the reading.  With byte counters, `getD2InputTriggeredFlag`
called after a previous call and any sequence of readings returns true if
and only if the number of high-to-low transitions in between is not a multiple
of 256 (so for 1 to 255 transitions, and not for none); a second call with no
reading in between returns false.  The same holds for D3. -/
theorem C24_trigger_flag_modulo_256 (t : PinTrackers) (newState : Nat) (readings : List Nat)
    (h2 : t.triggerD2LiveCounter < 256) (h3 : t.triggerD3LiveCounter < 256) :
    ((d2InterruptRoutine t newState).triggerD2LiveCounter =
        (if t.trackedD2InputState = HIGH ∧ newState = LOW
          then (t.triggerD2LiveCounter + 1) % 256 else t.triggerD2LiveCounter) ∧
      (d2InterruptRoutine t newState).trackedD2InputState = newState ∧
      ((getD2InputTriggeredFlag
          (readings.foldl d2InterruptRoutine (getD2InputTriggeredFlag t).2)).1 = true ↔
        countFalls t.trackedD2InputState readings % 256 ≠ 0) ∧
      (getD2InputTriggeredFlag (getD2InputTriggeredFlag t).2).1 = false) ∧
    ((d3InterruptRoutine t newState).triggerD3LiveCounter =
        (if t.trackedD3InputState = HIGH ∧ newState = LOW
          then (t.triggerD3LiveCounter + 1) % 256 else t.triggerD3LiveCounter) ∧
      (d3InterruptRoutine t newState).trackedD3InputState = newState ∧
      ((getD3InputTriggeredFlag
          (readings.foldl d3InterruptRoutine (getD3InputTriggeredFlag t).2)).1 = true ↔
        countFalls t.trackedD3InputState readings % 256 ≠ 0) ∧
      (getD3InputTriggeredFlag (getD3InputTriggeredFlag t).2).1 = false) := by
  refine ⟨⟨?_, rfl, ?_, ?_⟩, ⟨?_, rfl, ?_, ?_⟩⟩
  · unfold d2InterruptRoutine
    by_cases hc : t.trackedD2InputState = HIGH ∧ newState = LOW
    · simp only [if_pos hc]
    · simp only [if_neg hc]
  · obtain ⟨s1, s2, s3⟩ := getD2InputTriggeredFlag_sync t
    obtain ⟨r1, r2, r3⟩ :=
      d2InterruptRoutine_run readings (getD2InputTriggeredFlag t).2
    rw [getD2InputTriggeredFlag_fst, r3, s1, s2]
    rw [s2, s3] at r1
    rw [s2] at r2
    simp only [ne_eq, decide_not, Bool.not_eq_true', decide_eq_false_iff_not]
    constructor
    · intro hne hz
      apply hne
      omega
    · intro hne heq
      apply hne
      omega
  · obtain ⟨s1, -, -⟩ := getD2InputTriggeredFlag_sync t
    rw [getD2InputTriggeredFlag_fst, s1]
    simp
  · unfold d3InterruptRoutine
    by_cases hc : t.trackedD3InputState = HIGH ∧ newState = LOW
    · simp only [if_pos hc]
    · simp only [if_neg hc]
  · obtain ⟨s1, s2, s3⟩ := getD3InputTriggeredFlag_sync t
    obtain ⟨r1, r2, r3⟩ :=
      d3InterruptRoutine_run readings (getD3InputTriggeredFlag t).2
    rw [getD3InputTriggeredFlag_fst, r3, s1, s2]
    rw [s2, s3] at r1
    rw [s2] at r2
    simp only [ne_eq, decide_not, Bool.not_eq_true', decide_eq_false_iff_not]
    constructor
    · intro hne hz
      apply hne
      omega
    · intro hne heq
      apply hne
      omega
  · obtain ⟨s1, -, -⟩ := getD3InputTriggeredFlag_sync t
    rw [getD3InputTriggeredFlag_fst, s1]
    simp

/-- Witness for C24: the initial trackers, a low reading and three pulses. -/
theorem C24_trigger_flag_modulo_256_witness :
    initialPinTrackers.triggerD2LiveCounter < 256 ∧
    initialPinTrackers.triggerD3LiveCounter < 256 ∧
    ((getD2InputTriggeredFlag
        ((pulses 3).foldl d2InterruptRoutine
          (getD2InputTriggeredFlag initialPinTrackers).2)).1 = true ↔
      countFalls initialPinTrackers.trackedD2InputState (pulses 3) % 256 ≠ 0) ∧
    ((getD3InputTriggeredFlag
        ((pulses 3).foldl d3InterruptRoutine
          (getD3InputTriggeredFlag initialPinTrackers).2)).1 = true ↔
      countFalls initialPinTrackers.trackedD3InputState (pulses 3) % 256 ≠ 0) :=
  ⟨by decide, by decide,
    (C24_trigger_flag_modulo_256 initialPinTrackers LOW (pulses 3)
      (by decide) (by decide)).1.2.2.1,
    (C24_trigger_flag_modulo_256 initialPinTrackers LOW (pulses 3)
      (by decide) (by decide)).2.2.2.1⟩

/-! ## The rescan interval of the step mode -/

/-- In step mode, with more than one selected entry, the stepping block makes
no scan and leaves the cursor on the stepped position, whatever it returns. -/
theorem stepAndTune_step_frame (env : Env) (s : State) (minRssiLevel : Int)
    (scanForwardFlag rescanOnSingleFlag scanDoneFlag : Bool)
    (hcnt : 1 < s.idxSortedSelArrCount) :
    NoScan s (stepAndTune env s minRssiLevel false scanForwardFlag rescanOnSingleFlag
      scanDoneFlag).2 ∧
    (stepAndTune env s minRssiLevel false scanForwardFlag rescanOnSingleFlag
      scanDoneFlag).2.nextTuneChannelIndex =
      stepCursor scanForwardFlag s.nextTuneChannelIndex s.idxSortedSelArrCount ∧
    List.IsSuffix s.trace (stepAndTune env s minRssiLevel false scanForwardFlag
      rescanOnSingleFlag scanDoneFlag).2.trace := by
  rw [stepAndTune_eq]
  cases hland : stepLanding env s scanForwardFlag with
  | none => exact ⟨⟨rfl, rfl⟩, rfl, List.suffix_refl _⟩
  | some x =>
    obtain ⟨f, rssi, t⟩ := x
    obtain ⟨-, -, -, -, hE, hN, -⟩ := stepLanding_spec env s scanForwardFlag f rssi t hland
    have hc : ¬ (rescanOnSingleFlag = true ∧ t.idxSortedSelArrCount ≤ 1) := by
      rw [hE.selCount]
      intro h
      have := h.2
      simp only at this
      omega
    refine ⟨hN.transN (judgeStep_frame minRssiLevel false rescanOnSingleFlag scanDoneFlag f
      rssi t).2, ?_, ?_⟩
    · have : (judgeStep minRssiLevel false rescanOnSingleFlag scanDoneFlag f rssi
          t).2.nextTuneChannelIndex = t.nextTuneChannelIndex := by
        unfold judgeStep
        dsimp only
        rw [if_neg (by decide), if_neg hc]
        split_ifs <;> rfl
      rw [this, hE.cursor]
    · have : List.IsSuffix t.trace (judgeStep minRssiLevel false rescanOnSingleFlag scanDoneFlag
          f rssi t).2.trace := by
        unfold judgeStep
        dsimp only
        rw [if_neg (by decide), if_neg hc]
        split_ifs
        · exact List.suffix_cons _ _
        · exact List.suffix_refl _
        · exact List.suffix_refl _
      exact List.IsSuffix.trans hE.trace this

/-- In step mode a landing on a tunable channel is final when the level is 0
or less: every RSSI is good enough. -/
theorem stepAndTune_final_of_level (env : Env) (s : State) (minRssiLevel : Int)
    (scanForwardFlag rescanOnSingleFlag scanDoneFlag : Bool)
    (hlvl : minRssiLevel ≤ 0)
    (h1 : stepCursor scanForwardFlag s.nextTuneChannelIndex s.idxSortedSelArrCount <
      s.idxSortedSelArrCount)
    (h2 : channelFreqOf s (s.idxSortedSelectedArr
          (stepCursor scanForwardFlag s.nextTuneChannelIndex s.idxSortedSelArrCount).toNat) ≥
        MIN_CHANNEL_MHZ ∧
      channelFreqOf s (s.idxSortedSelectedArr
          (stepCursor scanForwardFlag s.nextTuneChannelIndex s.idxSortedSelArrCount).toNat) ≤
        MAX_CHANNEL_MHZ) :
    (stepAndTune env s minRssiLevel false scanForwardFlag rescanOnSingleFlag
      scanDoneFlag).1 = true ∧
    getCurrentFreqInMhz (stepAndTune env s minRssiLevel false scanForwardFlag rescanOnSingleFlag
      scanDoneFlag).2 =
      channelFreqOf s (s.idxSortedSelectedArr
        (stepCursor scanForwardFlag s.nextTuneChannelIndex s.idxSortedSelArrCount).toNat) := by
  obtain ⟨rssi, t, hland⟩ := stepLanding_some env s scanForwardFlag h1 h2
  obtain ⟨-, -, -, -, -, -, hf⟩ := stepLanding_spec env s scanForwardFlag _ rssi t hland
  rw [stepAndTune_eq, hland]
  refine ⟨?_, (judgeStep_frame minRssiLevel false rescanOnSingleFlag scanDoneFlag _ rssi
    t).1.trans hf⟩
  have hd : Int.tdiv minRssiLevel 2 ≤ 0 := by
    obtain ⟨n, hn⟩ : ∃ n : Nat, minRssiLevel = -(n : Int) := ⟨minRssiLevel.natAbs, by omega⟩
    rw [hn, Int.neg_tdiv]
    have := Int.tdiv_nonneg (Int.ofNat_nonneg n) (by decide : (0 : Int) ≤ 2)
    omega
  have hg : decide ((rssi : Int) ≥ Int.tdiv minRssiLevel 2) = true :=
    decide_eq_true (by omega)
  unfold judgeStep
  dsimp only
  rw [hg, if_neg (by decide), if_pos (Or.inr rfl)]

/-- The judgement of a step only adds to the trace. -/
theorem judgeStep_trace (minRssiLevel : Int)
    (scanAndTuneFirstFlag rescanOnSingleFlag scanDoneFlag : Bool) (freqVal rssiVal : Nat)
    (t : State) :
    List.IsSuffix t.trace
      (judgeStep minRssiLevel scanAndTuneFirstFlag rescanOnSingleFlag scanDoneFlag freqVal
        rssiVal t).2.trace := by
  unfold judgeStep
  dsimp only
  split_ifs <;> first | exact List.suffix_refl _ | exact List.suffix_cons _ _

/-- The stepping block only adds to the trace. -/
theorem stepAndTune_trace (env : Env) (s : State) (minRssiLevel : Int)
    (scanAndTuneFirstFlag scanForwardFlag rescanOnSingleFlag scanDoneFlag : Bool) :
    List.IsSuffix s.trace
      (stepAndTune env s minRssiLevel scanAndTuneFirstFlag scanForwardFlag rescanOnSingleFlag
        scanDoneFlag).2.trace := by
  rw [stepAndTune_eq]
  cases hland : stepLanding env s scanForwardFlag with
  | none => exact List.suffix_refl _
  | some x =>
    obtain ⟨f, rssi, t⟩ := x
    obtain ⟨-, -, -, -, hE, -, -⟩ := stepLanding_spec env s scanForwardFlag f rssi t hland
    exact List.IsSuffix.trans hE.trace (judgeStep_trace _ _ _ _ _ _ _)

/-- In step mode the guard stops the step when the list has more than one
entry, the last scan is `NEXT_CHAN_RESCANSECS` old or older and no user list is
stepped with a level of 0 or less; the clock has been read. -/
theorem stepGuard_stale (env : Env) (s : State) (minRssiLevel : Int)
    (hcnt : 1 < s.idxSortedSelArrCount)
    (hl : ¬ (minRssiLevel ≤ 0 ∧ s.listFreqsMHzArrCount > 0))
    (hstale : (s.lastNextTuneScanTime + NEXT_CHAN_RESCANSECS * 1000) % 2 ^ 32 ≤
      env.millis s.clockReads % 2 ^ 32) :
    stepGuard env s minRssiLevel false false = (false, (millis env s).2) := by
  unfold stepGuard
  rw [if_neg (by decide), if_pos ⟨by decide, hcnt⟩, if_neg hl]
  have : decide ((millis env s).1 <
      (s.lastNextTuneScanTime + NEXT_CHAN_RESCANSECS * 1000) % 2 ^ 32) = false := by
    dsimp only [millis]
    rw [decide_eq_false_iff_not]
    omega
  rw [this]

/-- Claim C25.  In step mode with more than one selected entry (user list
within its 80 entries, no wrap of the 32-bit sum `lastNextTuneScanTime +
120000`):
when the clock read on entry is 120 s or more after `lastNextTuneScanTime`, and
it is not the case that a user list is active with `minRssiLevel <= 0`,
`doAutoScanTuneChannel` first resets the cursor and runs `scanChannelsAndReport`
(the banner of the scan is the first event added to the trace), and only then
steps, or restores the frequency when the scan reports nothing;
when a user list is active and `minRssiLevel <= 0`, or when the clock is less
than 120 s after `lastNextTuneScanTime`, the step is made with no scan before
it, the cursor is on the stepped position, and when the step is final the call
returns there, no scan having been made;
with a user list and `minRssiLevel <= 0` the clock is not read and a step onto
a tunable entry is always final. -/
theorem C25_rescan_interval (env : Env) (s : State) (minRssiLevel : Int)
    (scanForwardFlag rescanOnSingleFlag : Bool)
    (hcnt : 1 < s.idxSortedSelArrCount)
    (hcap : s.listFreqsMHzArrCount ≤ LISTFREQMHZ_ARR_SIZE)
    (hnowrap : s.lastNextTuneScanTime + NEXT_CHAN_RESCANSECS * 1000 < 2 ^ 32) :
    (¬ (minRssiLevel ≤ 0 ∧ s.listFreqsMHzArrCount > 0) →
      s.lastNextTuneScanTime + NEXT_CHAN_RESCANSECS * 1000 ≤ env.millis s.clockReads % 2 ^ 32 →
      List.IsSuffix (Event.scanning :: s.trace)
        (scanChannelsAndReport env { (millis env s).2 with nextTuneChannelIndex := -1 }
          minRssiLevel minRssiLevel false false).2.trace ∧
      doAutoScanTuneChannel env s minRssiLevel false scanForwardFlag rescanOnSingleFlag =
        (if !(scanChannelsAndReport env { (millis env s).2 with nextTuneChannelIndex := -1 }
            minRssiLevel minRssiLevel false false).1 then
          some (setTunerChannelToFreq env
            (scanChannelsAndReport env { (millis env s).2 with nextTuneChannelIndex := -1 }
              minRssiLevel minRssiLevel false false).2 s.currentTunerFreqMhzOrCode)
        else
          some (stepAndTune env
            (scanChannelsAndReport env { (millis env s).2 with nextTuneChannelIndex := -1 }
              minRssiLevel minRssiLevel false false).2 minRssiLevel false scanForwardFlag
            rescanOnSingleFlag true).2) ∧
      ∃ u, doAutoScanTuneChannel env s minRssiLevel false scanForwardFlag
          rescanOnSingleFlag = some u ∧
        List.IsSuffix (Event.scanning :: s.trace) u.trace) ∧
    ((minRssiLevel ≤ 0 ∧ s.listFreqsMHzArrCount > 0) ∨
        env.millis s.clockReads % 2 ^ 32 <
          s.lastNextTuneScanTime + NEXT_CHAN_RESCANSECS * 1000 →
      (stepGuard env s minRssiLevel false false).1 = true ∧
      NoScan s (stepAndTune env (stepGuard env s minRssiLevel false false).2 minRssiLevel false
        scanForwardFlag rescanOnSingleFlag false).2 ∧
      (stepAndTune env (stepGuard env s minRssiLevel false false).2 minRssiLevel false
          scanForwardFlag rescanOnSingleFlag false).2.nextTuneChannelIndex =
        stepCursor scanForwardFlag s.nextTuneChannelIndex s.idxSortedSelArrCount ∧
      ((stepAndTune env (stepGuard env s minRssiLevel false false).2 minRssiLevel false
          scanForwardFlag rescanOnSingleFlag false).1 = true →
        doAutoScanTuneChannel env s minRssiLevel false scanForwardFlag rescanOnSingleFlag =
          some (stepAndTune env (stepGuard env s minRssiLevel false false).2 minRssiLevel false
            scanForwardFlag rescanOnSingleFlag false).2)) ∧
    (minRssiLevel ≤ 0 ∧ s.listFreqsMHzArrCount > 0 →
      (stepGuard env s minRssiLevel false false).2 = s ∧
      (stepCursor scanForwardFlag s.nextTuneChannelIndex s.idxSortedSelArrCount <
          s.idxSortedSelArrCount →
        channelFreqOf s (s.idxSortedSelectedArr
            (stepCursor scanForwardFlag s.nextTuneChannelIndex s.idxSortedSelArrCount).toNat) ≥
          MIN_CHANNEL_MHZ ∧
        channelFreqOf s (s.idxSortedSelectedArr
            (stepCursor scanForwardFlag s.nextTuneChannelIndex s.idxSortedSelArrCount).toNat) ≤
          MAX_CHANNEL_MHZ →
        doAutoScanTuneChannel env s minRssiLevel false scanForwardFlag rescanOnSingleFlag =
          some (stepAndTune env s minRssiLevel false scanForwardFlag rescanOnSingleFlag
            false).2)) := by
  have hmod : (s.lastNextTuneScanTime + NEXT_CHAN_RESCANSECS * 1000) % 2 ^ 32 =
      s.lastNextTuneScanTime + NEXT_CHAN_RESCANSECS * 1000 := Nat.mod_eq_of_lt hnowrap
  refine ⟨?_, ?_, ?_⟩
  · intro hl hstale
    have hg := stepGuard_stale env s minRssiLevel hcnt hl (by rw [hmod]; exact hstale)
    have hstep := doAutoScanTuneChannel_step env s minRssiLevel scanForwardFlag
      rescanOnSingleFlag _ rfl
    rw [hg] at hstep
    simp only [Bool.false_eq_true, if_false] at hstep
    have hspec := scanChannelsAndReport_spec env
      { (millis env s).2 with nextTuneChannelIndex := -1 }
      minRssiLevel minRssiLevel false false hcap
    obtain ⟨-, -, -, -, -, -, -, -, -, htr, -⟩ := hspec
    have htr' : List.IsSuffix (Event.scanning :: s.trace)
        (scanChannelsAndReport env { (millis env s).2 with nextTuneChannelIndex := -1 }
          minRssiLevel minRssiLevel false false).2.trace := htr
    refine ⟨htr', hstep, ?_⟩
    rw [hstep]
    split_ifs
    · exact ⟨_, rfl, List.IsSuffix.trans htr'
        (setCurrentFreqByMhzOrCode_engine env _ _).trace⟩
    · exact ⟨_, rfl, List.IsSuffix.trans htr' (stepAndTune_trace _ _ _ _ _ _ _)⟩
  · intro hfresh
    have hg : (stepGuard env s minRssiLevel false false).1 = true :=
      stepGuard_step env s minRssiLevel hcnt (by rw [hmod]; exact hfresh)
    obtain ⟨hq, hn⟩ := stepGuard_frame env s minRssiLevel false false
    have hcnt' : 1 < (stepGuard env s minRssiLevel false false).2.idxSortedSelArrCount := by
      rw [hq.engine.selCount]
      exact hcnt
    obtain ⟨f1, f2, -⟩ := stepAndTune_step_frame env (stepGuard env s minRssiLevel false false).2
      minRssiLevel scanForwardFlag rescanOnSingleFlag false hcnt'
    refine ⟨hg, hn.transN f1, ?_, ?_⟩
    · rw [f2, hq.engine.selCount, hq.engine.cursor]
    · intro hfin
      have hstep := doAutoScanTuneChannel_step env s minRssiLevel scanForwardFlag
        rescanOnSingleFlag _ rfl
      rw [if_pos hg, if_pos hfin] at hstep
      exact hstep
  · intro hl
    have hgs : stepGuard env s minRssiLevel false false = (true, s) := by
      unfold stepGuard
      rw [if_neg (by decide), if_pos ⟨by decide, hcnt⟩, if_pos hl]
    refine ⟨by rw [hgs], ?_⟩
    intro h1 h2
    have hfin := (stepAndTune_final_of_level env s minRssiLevel scanForwardFlag
      rescanOnSingleFlag false hl.1 h1 h2).1
    have hstep := doAutoScanTuneChannel_step env s minRssiLevel scanForwardFlag
      rescanOnSingleFlag _ rfl
    rw [hgs] at hstep
    simp only [if_true] at hstep
    rw [if_pos hfin] at hstep
    exact hstep

/-- Witness for C25: a list of two selected channels scanned at time 0 is
stepped at 200 s (a scan comes first) and at 1 s (no scan before the step); a
user list of two entries is stepped with level 0 at 200 s (no scan). -/
theorem C25_rescan_interval_witness :
    (∃ u, doAutoScanTuneChannel staleEnv twoChannelState 30 false true true = some u ∧
      List.IsSuffix (Event.scanning :: twoChannelState.trace) u.trace) ∧
    NoScan twoChannelState
      (stepAndTune steadyEnv (stepGuard steadyEnv twoChannelState 30 false false).2 30 false
        true true false).2 ∧
    doAutoScanTuneChannel staleEnv steppedListState 0 false true true =
      some (stepAndTune staleEnv steppedListState 0 false true true false).2 :=
  ⟨((C25_rescan_interval staleEnv twoChannelState 30 true true (by decide) (by decide)
      (by decide)).1 (by decide) (by decide)).2.2,
    ((C25_rescan_interval steadyEnv twoChannelState 30 true true (by decide) (by decide)
      (by decide)).2.1 (Or.inr (by decide))).2.1,
    ((C25_rescan_interval staleEnv steppedListState 0 true true (by decide) (by decide)
      (by decide)).2.2 ⟨by decide, by decide⟩).2 (by decide) (by decide)⟩

/-! ## The ranking is a permutation -/

/-- The number of slots ranked: the length of the user list when one is used,
the 48 channels of the table otherwise. -/
theorem scanRange_slots (s : State) (inclAllFlag : Bool) :
    (scanRange s inclAllFlag).2 + 1 =
      if !inclAllFlag ∧ s.listFreqsMHzArrCount > 0 then s.listFreqsMHzArrCount.toNat
      else CHANNEL_MAX_INDEX + 1 := by
  unfold scanRange
  split_ifs with h
  · simp only
    omega
  · rfl

/-- Claim C26.  For every state whose scan results are within 0..100 over the
ranked range of `n` slots (slots `0 .. n-1`, with `n` the length of the user
list, at most 80, or the 48 table channels), `loadIdxSortedByRssiArr` leaves in
`idxSortedByRssiArr[0 .. n-1]` a permutation of `0 .. n-1`, so every index,
whatever its RSSI, appears exactly once, and it leaves every position beyond
`n-1` as it was. -/
theorem C26_ranking_is_permutation (s : State) (inclAllFlag : Bool)
    (hcap : s.listFreqsMHzArrCount ≤ LISTFREQMHZ_ARR_SIZE)
    (hval : ∀ i, i ≤ (scanRange s inclAllFlag).2 → s.scanRssiValuesArr i ≤ 100) :
    (scanRange s inclAllFlag).1 = 0 ∧
    ((scanRange s inclAllFlag).2 + 1 =
      if !inclAllFlag ∧ s.listFreqsMHzArrCount > 0 then s.listFreqsMHzArrCount.toNat
      else CHANNEL_MAX_INDEX + 1) ∧
    List.Perm
      (arrTake (loadIdxSortedByRssiArr s inclAllFlag).idxSortedByRssiArr
        ((scanRange s inclAllFlag).2 + 1))
      (List.range ((scanRange s inclAllFlag).2 + 1)) ∧
    (∀ i, i ≤ (scanRange s inclAllFlag).2 →
      (arrTake (loadIdxSortedByRssiArr s inclAllFlag).idxSortedByRssiArr
        ((scanRange s inclAllFlag).2 + 1)).count i = 1) ∧
    (∀ j, (scanRange s inclAllFlag).2 + 1 ≤ j →
      (loadIdxSortedByRssiArr s inclAllFlag).idxSortedByRssiArr j = s.idxSortedByRssiArr j) := by
  have hval' : ∀ i, i ≤ (scanRange s inclAllFlag).2 → s.scanRssiValuesArr i < 255 :=
    fun i hi => lt_of_le_of_lt (hval i hi) (by decide)
  obtain ⟨hpw, hle, hframe⟩ := loadIdxSortedByRssiArr_spec s inclAllFlag hcap hval'
  have hmem := loadIdxSortedByRssiArr_mem s inclAllFlag hcap hval'
  have hnd := rankedBefore_nodup _ _ hpw
  have hperm : List.Perm
      (arrTake (loadIdxSortedByRssiArr s inclAllFlag).idxSortedByRssiArr
        ((scanRange s inclAllFlag).2 + 1))
      (List.range ((scanRange s inclAllFlag).2 + 1)) := by
    rw [List.perm_ext_iff_of_nodup hnd (List.nodup_range _)]
    intro a
    rw [List.mem_range]
    constructor
    · intro ha
      have := hle a ha
      omega
    · intro ha
      exact hmem a (by omega)
  refine ⟨scanRange_fst s inclAllFlag, scanRange_slots s inclAllFlag, hperm, ?_, hframe⟩
  intro i hi
  exact List.count_eq_one_of_mem hnd (hmem i hi)

set_option maxRecDepth 100000 in
/-- Witness for C26: the ranking of scenario A (RSSI 80 and 60 on two channels,
0 on the 46 others) is a permutation of the 48 table indices. -/
theorem C26_ranking_is_permutation_witness :
    scenarioA.listFreqsMHzArrCount ≤ LISTFREQMHZ_ARR_SIZE ∧
    (∀ i, i ≤ (scanRange scenarioA false).2 → scenarioA.scanRssiValuesArr i ≤ 100) ∧
    List.Perm
      (arrTake (loadIdxSortedByRssiArr scenarioA false).idxSortedByRssiArr
        ((scanRange scenarioA false).2 + 1))
      (List.range ((scanRange scenarioA false).2 + 1)) ∧
    (scanRange scenarioA false).2 + 1 = 48 :=
  ⟨by decide, by decide,
    (C26_ranking_is_permutation scenarioA false (by decide) (by decide)).2.2.1, by decide⟩

/-! ## Index safety of the cursor -/

/-- The copy loop writes the positions `p .. p + more - 1`, in this order. -/
theorem copyRankedWrites_eq (more : Nat) :
    ∀ p, copyRankedWrites more p = (List.range more).map (fun k => p + k) := by
  induction more with
  | zero => intro p; rfl
  | succ m ih =>
    intro p
    rw [copyRankedWrites, ih (p + 1), List.range_succ_eq_map, List.map_cons, List.map_map]
    congr 1
    apply List.map_congr_left
    intro k _
    simp only [Function.comp]
    omega

/-- The list branch writes the positions `0 .. n - 1`. -/
theorem listBranchWrites_eq (s : State) :
    listBranchWrites s = List.range s.listFreqsMHzArrCount.toNat := by
  unfold listBranchWrites
  rw [copyRankedWrites_eq]
  conv_rhs => rw [← List.map_id (List.range s.listFreqsMHzArrCount.toNat)]
  apply List.map_congr_left
  intro k _
  simp

/-- Claim C28, as the code has it.  For every user list of `n >= 1` entries
(the `L` command admits up to 80) the branch of `scanChannelsAndReport` taken
is the list branch:
it sets `idxSortedSelArrCount = n` and writes the positions `0 .. n - 1` of
`idxSortedSelectedArr`, each with the ranked index of the same position.  All
writes are inside the 48 entries of the array if and only if `n <= 48`; for
`n > 48` position 48, the first one past the end of the array, is written. -/
theorem C28_list_copy_writes_n_positions (s : State) (n : Nat)
    (hn1 : 1 ≤ n) (hs : s.listFreqsMHzArrCount = (n : Int)) :
    (chooseReported s false).1.idxSortedSelArrCount = (n : Int) ∧
    (chooseReported s false).1.idxSortedSelectedArr =
      copyRanked s.idxSortedByRssiArr n 0 s.idxSortedSelectedArr ∧
    listBranchWrites s = List.range n ∧
    (∀ p ∈ listBranchWrites s,
      (chooseReported s false).1.idxSortedSelectedArr p = s.idxSortedByRssiArr p) ∧
    ((∀ p ∈ listBranchWrites s, p < IDXSORTEDSELECTEDARR_SIZE) ↔
      n ≤ IDXSORTEDSELECTEDARR_SIZE) ∧
    (IDXSORTEDSELECTEDARR_SIZE < n → IDXSORTEDSELECTEDARR_SIZE ∈ listBranchWrites s) := by
  have hpos : s.listFreqsMHzArrCount > 0 := by rw [hs]; omega
  have hnat : s.listFreqsMHzArrCount.toNat = n := by rw [hs]; rfl
  have hw : listBranchWrites s = List.range n := by rw [listBranchWrites_eq, hnat]
  have hsel : (chooseReported s false).1.idxSortedSelectedArr =
      copyRanked s.idxSortedByRssiArr n 0 s.idxSortedSelectedArr := by
    unfold chooseReported
    rw [if_neg (by decide), if_neg (not_not.mpr hpos), hnat]
  have hcnt : (chooseReported s false).1.idxSortedSelArrCount = (n : Int) := by
    unfold chooseReported
    rw [if_neg (by decide), if_neg (not_not.mpr hpos)]
    exact hs
  refine ⟨hcnt, hsel, hw, ?_, ?_, ?_⟩
  · intro p hp
    rw [hw, List.mem_range] at hp
    rw [hsel]
    exact (copyRanked_spec s.idxSortedByRssiArr n 0 s.idxSortedSelectedArr).1 p (by omega)
      (by omega)
  · rw [hw]
    constructor
    · intro h
      by_contra hgt
      have := h IDXSORTEDSELECTEDARR_SIZE (List.mem_range.mpr (by omega))
      omega
    · intro h p hp
      rw [List.mem_range] at hp
      omega
  · intro h
    rw [hw, List.mem_range]
    exact h

set_option maxRecDepth 100000 in
/-- Witness for C28: with a user list of 49 entries the list branch writes
position 48 of `idxSortedSelectedArr`, an array of 48 entries; after a scan of
this list on a silent receiver the model holds the ranked index 48 at that
position and a count of 49. -/
theorem C28_list_copy_writes_n_positions_witness :
    overlongListState.listFreqsMHzArrCount = 49 ∧
    (49 : Int) ≤ LISTFREQMHZ_ARR_SIZE ∧
    IDXSORTEDSELECTEDARR_SIZE = 48 ∧
    IDXSORTEDSELECTEDARR_SIZE ∈ listBranchWrites overlongListState ∧
    ¬ (∀ p ∈ listBranchWrites overlongListState, p < IDXSORTEDSELECTEDARR_SIZE) ∧
    (scanChannelsAndReport idleEnv overlongListState 0 0 false false).2.idxSortedSelectedArr 48
      = 48 ∧
    (scanChannelsAndReport idleEnv overlongListState 0 0 false false).2.idxSortedSelArrCount
      = 49 :=
  ⟨rfl, by decide, rfl,
    (C28_list_copy_writes_n_positions overlongListState 49 (by decide) rfl).2.2.2.2.2
      (by decide),
    fun h => absurd
      (((C28_list_copy_writes_n_positions overlongListState 49 (by decide)
        rfl).2.2.2.2.1).mp h) (by decide),
    by decide, by decide⟩

/-! ## Saving and loading the user list -/

/-- A word read back from the two bytes that hold it. -/
theorem readWordFromEeprom_of_bytes (s : State) (addr v : Nat)
    (h0 : s.eeprom addr = v % 256) (h1 : s.eeprom (addr + 1) = v / 256 % 256) :
    readWordFromEeprom s addr = v % 65536 := by
  unfold readWordFromEeprom readByteFromEeprom
  rw [h0, h1]
  omega

/-- The writing loop stores entry `j` in the word at `addr + 2 * (j + 1)` and
leaves the bytes outside the entries written. -/
theorem writeArrayLoop_spec (addr : Nat) (uintArr : Nat → Nat) (more : Nat) :
    ∀ (i : Nat) (s : State),
      (∀ j, i ≤ j → j < i + more →
        readWordFromEeprom (writeArrayLoop addr uintArr more i s) (addr + 2 * (j + 1)) =
          uintArr j % 65536) ∧
      (∀ x, x < addr + 2 * (i + 1) ∨ addr + 2 * (i + more + 1) ≤ x →
        (writeArrayLoop addr uintArr more i s).eeprom x = s.eeprom x) := by
  induction more with
  | zero =>
    intro i s
    exact ⟨fun j h1 h2 => by omega, fun x _ => rfl⟩
  | succ m ih =>
    intro i s
    rw [writeArrayLoop]
    obtain ⟨ih1, ih2⟩ := ih (i + 1) (writeWordToEeprom s (addr + 2 * (i + 1)) (uintArr i))
    constructor
    · intro j h1 h2
      by_cases hj : j = i
      · subst hj
        apply readWordFromEeprom_of_bytes
        · rw [ih2 _ (Or.inl (by omega)), writeWordToEeprom_eeprom, if_neg (by omega),
            if_pos rfl]
        · rw [ih2 _ (Or.inl (by omega)), writeWordToEeprom_eeprom, if_pos rfl]
      · exact ih1 j (by omega) (by omega)
    · intro x hx
      rw [ih2 x (by omega), writeWordToEeprom_eeprom, if_neg (by omega), if_neg (by omega)]

/-- The reading loop loads entry `j` from the word at `addr + 2 * (j + 1)` and
leaves the other entries. -/
theorem readArrayLoop_spec (s : State) (addr : Nat) (more : Nat) :
    ∀ (i : Nat) (uintArr : Nat → Nat) (j : Nat),
      readArrayLoop s addr more i uintArr j =
        if i ≤ j ∧ j < i + more then readWordFromEeprom s (addr + 2 * (j + 1))
        else uintArr j := by
  induction more with
  | zero =>
    intro i uintArr j
    rw [readArrayLoop, if_neg (by omega)]
  | succ m ih =>
    intro i uintArr j
    rw [readArrayLoop, ih]
    by_cases hj : j = i
    · subst hj
      rw [if_neg (by omega), if_pos (by omega), setAt_same]
    · rw [setAt_other _ _ _ _ hj]
      by_cases h : i + 1 ≤ j ∧ j < i + 1 + m
      · rw [if_pos h, if_pos (by omega)]
      · rw [if_neg h, if_neg (by omega)]

/-- The writing loop leaves the list in memory as it is. -/
theorem writeArrayLoop_list (addr : Nat) (uintArr : Nat → Nat) (more : Nat) :
    ∀ (i : Nat) (t : State),
      (writeArrayLoop addr uintArr more i t).listFreqsMHzArr = t.listFreqsMHzArr ∧
      (writeArrayLoop addr uintArr more i t).listFreqsMHzArrCount = t.listFreqsMHzArrCount := by
  induction more with
  | zero => intro i t; exact ⟨rfl, rfl⟩
  | succ m ih =>
    intro i t
    rw [writeArrayLoop]
    exact ⟨(ih _ _).1.trans rfl, (ih _ _).2.trans rfl⟩

/-- A list of at most 41 entries comes back from the EEPROM as it was saved. -/
theorem saveLoad_roundtrip (s : State) (n : Nat) (hs : s.listFreqsMHzArrCount = (n : Int))
    (hn : n ≤ 41) (h16 : ∀ j, j < n → s.listFreqsMHzArr j < 65536) :
    (loadListFreqsMHzArrFromEeprom (saveListFreqsMHzArrToEeprom s)).listFreqsMHzArrCount =
      (n : Int) ∧
    (loadListFreqsMHzArrFromEeprom (saveListFreqsMHzArrToEeprom s)).listFreqsMHzArr =
      s.listFreqsMHzArr := by
  have hsave : saveListFreqsMHzArrToEeprom s =
      writeArrayLoop EEPROM_ADRA_FREQLIST s.listFreqsMHzArr n 0
        (writeWordToEeprom s EEPROM_ADRA_FREQLIST n) := by
    have e41 : Int.tdiv ((EEPROM_FLEN_FREQLIST : Int) - 2) 2 = 41 := by decide
    unfold saveListFreqsMHzArrToEeprom writeUint16ArrayToEeprom
    rw [hs, e41, if_neg (by omega)]
    have e1 : toUInt16 (n : Int) = n := by
      unfold toUInt16
      omega
    rw [e1]
    rfl
  obtain ⟨w1, w2⟩ := writeArrayLoop_spec EEPROM_ADRA_FREQLIST s.listFreqsMHzArr n 0
    (writeWordToEeprom s EEPROM_ADRA_FREQLIST n)
  rw [← hsave] at w1 w2
  have hlist : (saveListFreqsMHzArrToEeprom s).listFreqsMHzArr = s.listFreqsMHzArr := by
    rw [hsave, (writeArrayLoop_list _ _ _ _ _).1]
    rfl
  have hw : readWordFromEeprom (saveListFreqsMHzArrToEeprom s) EEPROM_ADRA_FREQLIST = n := by
    have := readWordFromEeprom_of_bytes (saveListFreqsMHzArrToEeprom s) EEPROM_ADRA_FREQLIST n
      (by rw [w2 _ (Or.inl (by omega)), writeWordToEeprom_eeprom, if_neg (by omega), if_pos rfl])
      (by rw [w2 _ (Or.inl (by omega)), writeWordToEeprom_eeprom, if_pos rfl])
    rw [this]
    omega
  have hi : toInt16 ((n : Nat) : Int) = (n : Int) := by
    unfold toInt16
    omega
  unfold loadListFreqsMHzArrFromEeprom readUint16ArrayFromEeprom
  simp only [hw, hi]
  by_cases h0 : n = 0
  · subst h0
    rw [if_pos (Or.inl (by decide))]
    exact ⟨rfl, hlist⟩
  · rw [if_neg (by simp only [LISTFREQMHZ_ARR_SIZE]; omega)]
    refine ⟨rfl, ?_⟩
    funext j
    show readArrayLoop (saveListFreqsMHzArrToEeprom s) EEPROM_ADRA_FREQLIST (n : Int).toNat 0
      (saveListFreqsMHzArrToEeprom s).listFreqsMHzArr j = s.listFreqsMHzArr j
    rw [readArrayLoop_spec, Int.toNat_ofNat, hlist]
    by_cases hj : 0 ≤ j ∧ j < 0 + n
    · rw [if_pos hj, w1 j (by omega) (by omega)]
      exact Nat.mod_eq_of_lt (h16 j (by omega))
    · rw [if_neg hj]

/-- A list of more than 41 entries is not saved: nothing is written. -/
theorem saveListFreqsMHzArrToEeprom_dropped (s : State) (h : 41 < s.listFreqsMHzArrCount) :
    saveListFreqsMHzArrToEeprom s = s := by
  have e41 : Int.tdiv ((EEPROM_FLEN_FREQLIST : Int) - 2) 2 = 41 := by decide
  unfold saveListFreqsMHzArrToEeprom writeUint16ArrayToEeprom
  rw [e41, if_pos (Or.inl (by omega))]

/-- Claim C29, as the code has it.  For a user list of `n >= 0` entries (16-bit
values): when `n <= 41`, `saveListFreqsMHzArrToEeprom` followed by
`loadListFreqsMHzArrFromEeprom` restores the count `n` and the same frequency
values; when `n >= 42` (the field of 84 bytes holds a count word and 41
entries) `saveListFreqsMHzArrToEeprom` writes nothing, and the load that follows
gives the list that the EEPROM held before. -/
theorem C29_list_roundtrip_up_to_41 (s : State) (n : Nat)
    (hs : s.listFreqsMHzArrCount = (n : Int))
    (h16 : ∀ j, j < n → s.listFreqsMHzArr j < 65536) :
    (n ≤ 41 →
      (loadListFreqsMHzArrFromEeprom (saveListFreqsMHzArrToEeprom s)).listFreqsMHzArrCount =
        (n : Int) ∧
      (loadListFreqsMHzArrFromEeprom (saveListFreqsMHzArrToEeprom s)).listFreqsMHzArr =
        s.listFreqsMHzArr) ∧
    (42 ≤ n →
      saveListFreqsMHzArrToEeprom s = s ∧
      loadListFreqsMHzArrFromEeprom (saveListFreqsMHzArrToEeprom s) =
        loadListFreqsMHzArrFromEeprom s) := by
  constructor
  · intro hn
    exact saveLoad_roundtrip s n hs hn h16
  · intro hn
    have h := saveListFreqsMHzArrToEeprom_dropped s (by rw [hs]; omega)
    exact ⟨h, by rw [h]⟩

/-- Witness for C29: a list of 42 entries saved to an erased EEPROM and loaded
again comes back empty (count 0, not 42); a list of 2 entries comes back. -/
theorem C29_list_roundtrip_up_to_41_witness :
    list42State.listFreqsMHzArrCount = 42 ∧
    (∀ j, j < 42 → list42State.listFreqsMHzArr j < 65536) ∧
    saveListFreqsMHzArrToEeprom list42State = list42State ∧
    (loadListFreqsMHzArrFromEeprom
      (saveListFreqsMHzArrToEeprom list42State)).listFreqsMHzArrCount = 0 ∧
    (loadListFreqsMHzArrFromEeprom (saveListFreqsMHzArrToEeprom listState)).listFreqsMHzArrCount
      = 2 :=
  ⟨rfl, by decide,
    ((C29_list_roundtrip_up_to_41 list42State 42 rfl (by decide)).2 (by decide)).1,
    by
      rw [((C29_list_roundtrip_up_to_41 list42State 42 rfl (by decide)).2 (by decide)).2]
      decide,
    ((C29_list_roundtrip_up_to_41 listState 2 rfl (by decide)).1 (by decide)).1⟩

/-! ## The table check -/

/-- Claim C30.  For every table index `i` in 0..47 the register value computed
for tuning, `freqMhzToRegVal (channelFreqTable[i])`, differs from
`channelRegTable[i]` by at most 1 (it is equal to it or one above it), the
verdict of `checkReportTableValues` for `i` is not Mismatch, and so no
Mismatch is in the report. -/
theorem C30_table_check_never_mismatch :
    ∀ i ∈ List.range (CHANNEL_MAX_INDEX + 1),
      ((freqMhzToRegVal (getChannelFreqTableEntry i) : Int) -
          (getChannelRegTableEntry i : Int) ≤ 1 ∧
        (getChannelRegTableEntry i : Int) -
          (freqMhzToRegVal (getChannelFreqTableEntry i) : Int) ≤ 1) ∧
      (freqMhzToRegVal (getChannelFreqTableEntry i) = getChannelRegTableEntry i ∨
        freqMhzToRegVal (getChannelFreqTableEntry i) = getChannelRegTableEntry i + 1) ∧
      checkReportTableValue i ≠ TableVerdict.mismatch ∧
      TableVerdict.mismatch ∉ checkReportTableValues := by
  decide

/-- Witness for C30: the entry 33 (5695 MHz) is computed as 0x2890 against
0x288F in the table and is reported as off by 1 MHz. -/
theorem C30_table_check_never_mismatch_witness :
    33 ∈ List.range (CHANNEL_MAX_INDEX + 1) ∧
    freqMhzToRegVal (getChannelFreqTableEntry 33) = 0x2890 ∧
    getChannelRegTableEntry 33 = 0x288F ∧
    checkReportTableValue 33 = TableVerdict.offBy1MHz ∧
    checkReportTableValue 33 ≠ TableVerdict.mismatch :=
  ⟨by decide, by decide, by decide, by decide,
    (C30_table_check_never_mismatch 33 (by decide)).2.2.1⟩

/-! ## Selection: a squelched channel lets its neighbour in -/

set_option maxRecDepth 100000 in
/-- Claim C3, counterexample.  With RSSI 90 on 5771 MHz (index 10), 80 on
5800 MHz (index 27) and 60 on 5805 MHz (index 3) the ranked list starts 10, 27,
3, so the 5800 MHz channel is ranked before the 5805 MHz channel; 5800 MHz is
29 MHz from the accepted 5771 MHz and is dropped, 5805 MHz is 34 MHz from it and
is kept: of the two only the 5805 MHz entry is kept. -/
theorem C3_squelched_winner_keeps_neighbour :
    arrTake (loadIdxSortedByRssiArr squelchedWinnerState false).idxSortedByRssiArr 3 =
      [10, 27, 3] ∧
    getChannelFreqTableEntry 10 = 5771 ∧ getChannelFreqTableEntry 27 = 5800 ∧
    getChannelFreqTableEntry 3 = 5805 ∧
    27 ∉ arrTake (loadIdxSortedSelectedArr
          (loadIdxSortedByRssiArr squelchedWinnerState false)).2.idxSortedSelectedArr
        (loadIdxSortedSelectedArr (loadIdxSortedByRssiArr squelchedWinnerState false)).1.toNat ∧
    3 ∈ arrTake (loadIdxSortedSelectedArr
          (loadIdxSortedByRssiArr squelchedWinnerState false)).2.idxSortedSelectedArr
        (loadIdxSortedSelectedArr (loadIdxSortedByRssiArr squelchedWinnerState false)).1.toNat := by
  decide

/-! ## Scan first, stepping backward -/

end ArduVidRx
